import Mathlib

/-!
# litevnaserver: device protocol engine and reactor write path

A shallow embedding of `src/LiteVNA.h`, `src/lib/SerialPort.h`, `src/lib/Result.h`,
`src/lib/StringUtils.h` (`su::format`) and of the write path of `src/lib/SocketTCP.h`
(Linux build), followed by the properties proved about them.

Conventions of the embedding:

* a `uint8_t` is a `Byte` (`Fin 256`); wider machine integers are `Nat` or `Int`
  with an explicit reduction where the C++ type wraps;
* the host is little-endian (the source reads and writes multi-byte fields through
  pointer casts);
* the serial device is an environment: the bytes it will deliver (`rx`), one
  `ReadStep` per call of `SerialPort::read`, the outcome of each OS write, and the
  readings of the system clock; every OS `read` and `write` call on the port is
  recorded, in order, in `trace`;
* a function that loops on serial reads returns `none` when the read script is
  exhausted before the loop ends: the code is then still blocked in `read`;
* `complex<float>` arithmetic is kept abstract (`FloatModel`);
* logging (`LOGGER`) and `sleep_for` have no effect on the modelled state.
-/

namespace Litevna

/-! ## Bytes -/

/-- A `uint8_t`. -/
abbrev Byte := Fin 256

/-- Truncation of an unsigned value to `uint8_t`. -/
def Byte.ofNat (n : Nat) : Byte := ⟨n % 256, Nat.mod_lt n (by decide)⟩

/-- The `n` low-order bytes of `value`, least significant first: the memory image of
an `n`-byte unsigned integer on a little-endian host. -/
def littleEndian (n : Nat) (value : Nat) : List Byte :=
  (List.range n).map (fun i => Byte.ofNat (value / 256 ^ i))

/-- The unsigned value of a little-endian byte string. -/
def fromLittleEndian : List Byte → Nat
  | [] => 0
  | b :: bs => b.val + 256 * fromLittleEndian bs

/-- Reinterpretation of a 32-bit pattern as `int32_t` (two's complement). -/
def toInt32 (u : Nat) : Int :=
  if u % 2 ^ 32 < 2 ^ 31 then ((u % 2 ^ 32 : Nat) : Int) else ((u % 2 ^ 32 : Nat) : Int) - 2 ^ 32

/-! ## `su::format` and `Result` -/

namespace su

/-- Body of `su::format` on the characters of the format string; `args` are the
arguments already rendered by stream insertion. With no argument left the rest of
the format is copied verbatim (overload `format(const char*)`); otherwise the first
`{}` is replaced by the first argument and formatting continues after it. -/
def formatAux : List Char → List String → List Char
  | cs, [] => cs
  | [], _ :: _ => []
  | '\x7b' :: '\x7d' :: cs, v :: vs => v.toList ++ formatAux cs vs
  | c :: cs, v :: vs => c :: formatAux cs (v :: vs)

/-- The function `su::format`. -/
def format (sFormat : String) (args : List String) : String :=
  String.mk (formatAux sFormat.toList args)

end su

/-- The class `Result`: a machine-readable code and a description. -/
structure Result where
  code : String
  description : String
deriving DecidableEq, Repr

/-- Constructor `Result(code, description, args...)`. -/
def Result.make (code : String) (description : String) (args : List String) : Result :=
  ⟨code, su.format description args⟩

/-- The value of `Result::ok()`: empty code, description `ok`. -/
def Result.ok : Result := ⟨"", "ok"⟩

/-- Conversion `operator bool`: true when the result is an error. -/
def Result.isError (r : Result) : Bool := decide (r.code.length > 0)

/-- Stream insertion of a `uint8_t`: the single character with that code. -/
def showByte (b : Nat) : String := String.singleton (Char.ofNat b)

/-- Stream insertion of an unsigned integer wider than a byte: its decimal digits. -/
def showNat (n : Nat) : String := toString n

/-! ## Serial port (`lib/SerialPort.h`, Linux build) -/

/-- Outcome of one OS `read` call: failure (`-1`), or up to `n` bytes available. -/
inductive ReadStep where
  | fail
  | deliver (n : Nat)
deriving DecidableEq, Repr

/-- An OS call made on the serial port: a `write` of a buffer, a `read` that asked for
`size` bytes and stored `data`, or a `read` that asked for `size` bytes and failed. -/
inductive SerialEvent where
  | wrote (buffer : List Byte)
  | read (size : Nat) (data : List Byte)
  | readFailed (size : Nat)
deriving DecidableEq, Repr

/-- The buffer of a `write` event. -/
def SerialEvent.written : SerialEvent → Option (List Byte)
  | SerialEvent.wrote buffer => some buffer
  | _ => none

/-- The bytes stored by a `read` event. -/
def SerialEvent.received : SerialEvent → List Byte
  | SerialEvent.read _ data => data
  | _ => []

/-- The class `SerialPort` together with the device behind it. -/
structure SerialPort where
  /-- Whether `handle` is valid (`isOpened()`). -/
  opened : Bool
  /-- Whether the OS `open` call succeeds. -/
  osOpen : Bool
  /-- Bytes the device has yet to deliver, in order. -/
  rx : List Byte
  /-- The OS calls made so far, oldest first. -/
  trace : List SerialEvent
  /-- Return value of the OS `write`, by the number of OS calls made before it and the
  requested size; `none` stands for `-1`. -/
  osWrite : Nat → Nat → Option Nat
  /-- Text produced by `getLastError()`. -/
  osError : String

namespace SerialPort

/-- The buffers handed to the OS `write` so far, oldest first. -/
def tx (s : SerialPort) : List (List Byte) := s.trace.filterMap SerialEvent.written

/-- The method `SerialPort::open`. -/
def «open» (s : SerialPort) : Result × SerialPort :=
  if s.opened then (Result.ok, s)
  else if !s.osOpen then
    (Result.make "serial_port_error" "Serial port error calling method `open`: \x7b\x7d" [s.osError], s)
  else (Result.ok, { s with opened := true })

/-- The method `SerialPort::read` for a request of `size` bytes; `step` is what the OS
does on this call. Returns the result, the bytes stored in the buffer and the new
state. -/
def read (s : SerialPort) (step : ReadStep) (size : Nat) : Result × List Byte × SerialPort :=
  if !s.opened then
    (Result.make "serial_port_not_opened" "Serial port is not Opened" [], [], s)
  else
    match step with
    | ReadStep.fail =>
      (Result.make "serial_port_error" "Serial port error calling method `read`: \x7b\x7d" [s.osError], [],
        { s with trace := s.trace ++ [SerialEvent.readFailed size] })
    | ReadStep.deliver n =>
      (Result.ok, s.rx.take (min n size),
        { s with rx := s.rx.drop (min n size)
                 trace := s.trace ++ [SerialEvent.read size (s.rx.take (min n size))] })

/-- The method `SerialPort::write`. -/
def write (s : SerialPort) (buffer : List Byte) : Result × SerialPort :=
  if !s.opened then
    (Result.make "serial_port_not_opened" "Serial port is not Opened" [], s)
  else
    let s1 := { s with trace := s.trace ++ [SerialEvent.wrote buffer] }
    match s.osWrite s.trace.length buffer.length with
    | none =>
      (Result.make "serial_port_error" "Serial port error calling method `write`: \x7b\x7d" [s.osError], s1)
    | some count =>
      if count ≠ buffer.length then
        (Result.make "not_written" "Not all data written in com port" [], s1)
      else (Result.ok, s1)

end SerialPort

/-! ## Frames and scan values (`LiteVNA.h`) -/

/-- Abstract `float` arithmetic: the carrier, the conversion `(float)` of an `int32_t`,
the value-initialised float, and `operator/` of `complex<float>`. -/
structure FloatModel where
  F : Type
  ofInt32 : Int → F
  zero : F
  cdiv : F × F → F × F → F × F

/-- A `complex<float>`: real and imaginary part. -/
abbrev Cplx (fm : FloatModel) := fm.F × fm.F

/-- The struct `ScanValues`. -/
structure ScanValues (fm : FloatModel) where
  channel0Out : List (Cplx fm)
  channel0In : List (Cplx fm)
  channel1In : List (Cplx fm)

/-- The call `vector::resize(n)`: keep the first `n` elements, pad with
value-initialised elements. -/
def resize (fm : FloatModel) (l : List (Cplx fm)) (n : Nat) : List (Cplx fm) :=
  l.take n ++ List.replicate (n - l.length) (fm.zero, fm.zero)

/-- The three calls `resize(points)` on the members of `ScanValues`. -/
def ScanValues.resize {fm : FloatModel} (values : ScanValues fm) (points : Nat) : ScanValues fm :=
  { channel0Out := Litevna.resize fm values.channel0Out points
    channel0In := Litevna.resize fm values.channel0In points
    channel1In := Litevna.resize fm values.channel1In points }

/-- Size of `LiteVNAFifoData` (packed): 6 * 4 + 2 + 5 + 1 bytes. -/
def fifoDataSize : Nat := 32

/-- Element `data[i]` of the frame buffer. -/
def byteAt (buffer : List Byte) (i : Nat) : Byte := buffer.getD i 0

/-- An `int32_t` field of the packed struct at byte offset `off`. -/
def int32At (buffer : List Byte) (off : Nat) : Int :=
  toInt32 (fromLittleEndian [byteAt buffer off, byteAt buffer (off + 1),
    byteAt buffer (off + 2), byteAt buffer (off + 3)])

/-- The field `freqIndex`: `uint16_t` at byte offset 24. -/
def freqIndex (buffer : List Byte) : Nat :=
  fromLittleEndian [byteAt buffer 24, byteAt buffer 25]

/-- The field `checksum`: byte 31. -/
def frameChecksumField (buffer : List Byte) : Nat := (byteAt buffer 31).val

/-- One round of the checksum loop, `checksum = (checksum ^ ((checksum << 1) | 1u)) ^ data[i]`:
the operands are widened, the result is truncated by the assignment to `uint8_t`. -/
def checksumStep (checksum : Nat) (b : Byte) : Nat :=
  ((checksum ^^^ ((checksum <<< 1) ||| 1)) ^^^ b.val) % 256

/-- The checksum loop of `scan`: seed `0x46`, bytes `0 .. sizeof(LiteVNAFifoData) - 2`. -/
def computeChecksum (buffer : List Byte) : Nat :=
  (List.range (fifoDataSize - 1)).foldl (fun c i => checksumStep c (byteAt buffer i)) 0x46

/-- The complex value `out0` of a frame. -/
def out0 (fm : FloatModel) (buffer : List Byte) : Cplx fm :=
  (fm.ofInt32 (int32At buffer 0), fm.ofInt32 (int32At buffer 4))

/-- The complex value `in0` of a frame. -/
def in0 (fm : FloatModel) (buffer : List Byte) : Cplx fm :=
  fm.cdiv (fm.ofInt32 (int32At buffer 8), fm.ofInt32 (int32At buffer 12)) (out0 fm buffer)

/-- The complex value `in1` of a frame. -/
def in1 (fm : FloatModel) (buffer : List Byte) : Cplx fm :=
  fm.cdiv (fm.ofInt32 (int32At buffer 16), fm.ofInt32 (int32At buffer 20)) (out0 fm buffer)

/-- The error returned for a checksum mismatch. -/
def invalidChecksum (checksum : Nat) : Result :=
  Result.make "lite_vna_error" "Invalid Checksum `\x7b\x7d`" [showByte checksum]

/-- The error returned for a frequency index out of range. -/
def invalidFrequencyIndex (idx : Nat) : Result :=
  Result.make "lite_vna_error" "Invalid Frequency Index `\x7b\x7d`" [showNat idx]

/-- The part of the body of the frame loop of `scan` that follows the read of one
complete frame (checksum test, conversion, index test, the three stores). -/
def storeFrame (fm : FloatModel) (points : Nat) (buffer : List Byte) (values : ScanValues fm) :
    Except Result (ScanValues fm) :=
  if computeChecksum buffer ≠ frameChecksumField buffer then
    Except.error (invalidChecksum (computeChecksum buffer))
  else if freqIndex buffer ≥ points then
    Except.error (invalidFrequencyIndex (freqIndex buffer))
  else
    Except.ok
      { channel0Out := values.channel0Out.set (freqIndex buffer) (out0 fm buffer)
        channel0In := values.channel0In.set (freqIndex buffer) (in0 fm buffer)
        channel1In := values.channel1In.set (freqIndex buffer) (in1 fm buffer) }

/-! ## The class `LiteVNA` -/

/-- The object `LiteVNA` with the system clock it reads: `clock k` is the value of the
`k`-th call of `DateTime::nowMilliseconds` (reduced to `uint64_t`), `ticks` counts the
calls made so far. -/
structure LiteVNA where
  serial : SerialPort
  clock : Nat → Nat
  ticks : Nat

/-- What an early `return` inside a loop carries, or completion of the loop. -/
inductive Flow (α : Type) where
  | returned (r : Result)
  | done (a : α)

namespace LiteVNA

/-- The call `DateTime::nowMilliseconds()`. -/
def nowMilliseconds (s : LiteVNA) : Nat × LiteVNA :=
  (s.clock s.ticks % 2 ^ 64, { s with ticks := s.ticks + 1 })

/-- The private method `write`: forwards the buffer to `serial->write`. -/
def write (s : LiteVNA) (buffer : List Byte) : Result × LiteVNA :=
  let (r, sp) := s.serial.write buffer
  (r, { s with serial := sp })

/-- The private method `clearFifo`: eight zero bytes. -/
def clearFifo (s : LiteVNA) : Result × LiteVNA :=
  s.write [0, 0, 0, 0, 0, 0, 0, 0]

/-- The private method `enterDataMode`: `WRITE1`, `SAMPLES_MODE`, `DEVICE_CALIBRATION`. -/
def enterDataMode (s : LiteVNA) : Result × LiteVNA :=
  s.write [0x20, 0x26, 0x03]

/-- The private method `leaveDataMode`: `WRITE1`, `SAMPLES_MODE`, `LEAVE`. -/
def leaveDataMode (s : LiteVNA) : Result × LiteVNA :=
  s.write [0x20, 0x26, 0x02]

/-- The private method `readFifo`: `READ_FIFO`, register `READ_FIFO`, `SEND_ALL_POINTS`. -/
def readFifo (s : LiteVNA) : Result × LiteVNA :=
  s.write [0x18, 0x30, 0x00]

/-- The private method `sendCmdWrite2`: `WRITE2`, the register, the `uint16_t` value. -/
def sendCmdWrite2 (s : LiteVNA) (cmd : Byte) (value : Nat) : Result × LiteVNA :=
  s.write ([0x21, cmd] ++ littleEndian 2 value)

/-- The private method `sendCmdWrite8`: `WRITE8`, the register, the `uint64_t` value. -/
def sendCmdWrite8 (s : LiteVNA) (cmd : Byte) (value : Nat) : Result × LiteVNA :=
  s.write ([0x23, cmd] ++ littleEndian 8 value)

/-- The error returned when the frame deadline has passed. -/
def timeoutError : Result :=
  Result.make "lite_vna_error" "Timeout reading LiteVNA Fifo data" []

/-- The inner loop of `scan`, `while (bufferPos < sizeof(LiteVNAFifoData))`: `buffer`
holds the `bufferPos` bytes received so far, `start` is the clock reading taken when
the frame was begun, `reads` the coming read outcomes. Returns the flow, the state and
the unused read outcomes. -/
def readFrame (start : Nat) : List ReadStep → LiteVNA → List Byte →
    Option (Flow (List Byte) × LiteVNA × List ReadStep)
  | reads, s, buffer =>
    if fifoDataSize ≤ buffer.length then some (Flow.done buffer, s, reads)
    else
      match reads with
      | [] => none
      | step :: rest =>
        match s.serial.read step (fifoDataSize - buffer.length) with
        | (result, data, serial1) =>
          let s1 := { s with serial := serial1 }
          if result.isError then some (Flow.returned result, s1, rest)
          else
            match s1.nowMilliseconds with
            | (now, s2) =>
              if (start + 10000) % 2 ^ 64 < now then
                some (Flow.returned timeoutError, s2, rest)
              else readFrame start rest s2 (buffer ++ data)

/-- The outer loop of `scan`, `while (count < points)`, with `remaining = points - count`
frames still to read. -/
def readFrames (fm : FloatModel) (points : Nat) : Nat → List ReadStep → LiteVNA → ScanValues fm →
    Option (Flow Unit × ScanValues fm × LiteVNA × List ReadStep)
  | 0, reads, s, values => some (Flow.done (), values, s, reads)
  | remaining + 1, reads, s, values =>
    match s.nowMilliseconds with
    | (start, s1) =>
      match readFrame start reads s1 [] with
      | none => none
      | some (Flow.returned r, s2, reads2) => some (Flow.returned r, values, s2, reads2)
      | some (Flow.done buffer, s2, reads2) =>
        match storeFrame fm points buffer values with
        | Except.error r => some (Flow.returned r, values, s2, reads2)
        | Except.ok values2 => readFrames fm points remaining reads2 s2 values2

/-- The method `LiteVNA::scan`. `values` is the caller's `ScanValues` (passed by
reference); the returned one is its content when `scan` returns. -/
def scan (fm : FloatModel) (s : LiteVNA) (reads : List ReadStep) (start step points : Nat)
    (values : ScanValues fm) : Option (Result × ScanValues fm × LiteVNA × List ReadStep) :=
  match s.clearFifo with
  | (r1, s1) =>
  if r1.isError then some (r1, values, s1, reads) else
  match s1.enterDataMode with
  | (r2, s2) =>
  if r2.isError then some (r2, values, s2, reads) else
  match s2.sendCmdWrite8 0x00 start with
  | (r3, s3) =>
  if r3.isError then some (r3, values, s3, reads) else
  match s3.sendCmdWrite8 0x10 step with
  | (r4, s4) =>
  if r4.isError then some (r4, values, s4, reads) else
  match s4.sendCmdWrite2 0x20 points with
  | (r5, s5) =>
  if r5.isError then some (r5, values, s5, reads) else
  match s5.sendCmdWrite2 0x22 1 with
  | (r6, s6) =>
  if r6.isError then some (r6, values, s6, reads) else
  match s6.readFifo with
  | (r7, s7) =>
  if r7.isError then some (r7, values, s7, reads) else
  match readFrames fm points points reads s7 (values.resize points) with
  | none => none
  | some (Flow.returned r, values8, s8, reads8) => some (r, values8, s8, reads8)
  | some (Flow.done _, values8, s8, reads8) =>
    match s8.clearFifo with
    | (r9, s9) =>
    if r9.isError then some (r9, values8, s9, reads8) else
    match s9.leaveDataMode with
    | (r10, s10) =>
    if r10.isError then some (r10, values8, s10, reads8) else
    some (Result.ok, values8, s10, reads8)

/-- A single-byte reply read with `serial->read(bufferResp, 1, nullptr)`: the result,
the value of `bufferResp[0]` afterwards and the new state. When the read stores no
byte, `bufferResp[0]` keeps the indeterminate value `garbage` of the fresh array. -/
def readReply (s : LiteVNA) (step : ReadStep) (garbage : Byte) : Result × Byte × LiteVNA :=
  match s.serial.read step 1 with
  | (result, data, serial1) => (result, data.headD garbage, { s with serial := serial1 })

/-- A digit of `validChars` in the base-16 `utoa`. -/
def hexDigit (d : Nat) : Char := "0123456789ABCDEF".toList.getD d '0'

/-- The text `su::toHex((int)b)` for a byte: its upper-case hexadecimal digits, as many
as the value needs (one or two). -/
def toHex (b : Byte) : String :=
  String.mk (if b.val < 16 then [hexDigit b.val] else [hexDigit (b.val / 16), hexDigit (b.val % 16)])

/-- The private method `checkIndicate`. -/
def checkIndicate (s : LiteVNA) (reads : List ReadStep) (garbage : Byte) :
    Option (Result × LiteVNA × List ReadStep) :=
  match s.write [0x0D] with
  | (r1, s1) =>
  if r1.isError then some (r1, s1, reads) else
  match reads with
  | [] => none
  | step :: rest =>
    match s1.readReply step garbage with
    | (r2, reply, s2) =>
    if r2.isError then some (r2, s2, rest) else
    if reply ≠ 0x32 then
      some (Result.make "lite_vna_error"
        "Invalid device indicate, expected 0x32 but found 0x\x7b\x7d. Is LiteVNA connected to the correct com port?"
        [toHex reply], s2, rest)
    else some (Result.ok, s2, rest)

/-- The private method `checkDeviceVariant`. -/
def checkDeviceVariant (s : LiteVNA) (reads : List ReadStep) (garbage : Byte) :
    Option (Result × LiteVNA × List ReadStep) :=
  match s.write [0x10, 0xF0] with
  | (r1, s1) =>
  if r1.isError then some (r1, s1, reads) else
  match reads with
  | [] => none
  | step :: rest =>
    match s1.readReply step garbage with
    | (r2, reply, s2) =>
    if r2.isError then some (r2, s2, rest) else
    if reply ≠ 0x02 then
      some (Result.make "lite_vna_error"
        "Invalid device variant, expected 0x02 but found 0x\x7b\x7d. Is LiteVNA connected to the correct com port?"
        [toHex reply], s2, rest)
    else some (Result.ok, s2, rest)

/-- The private method `checkProtocolVersion`. -/
def checkProtocolVersion (s : LiteVNA) (reads : List ReadStep) (garbage : Byte) :
    Option (Result × LiteVNA × List ReadStep) :=
  match s.write [0x10, 0xF1] with
  | (r1, s1) =>
  if r1.isError then some (r1, s1, reads) else
  match reads with
  | [] => none
  | step :: rest =>
    match s1.readReply step garbage with
    | (r2, reply, s2) =>
    if r2.isError then some (r2, s2, rest) else
    if reply ≠ 0x01 then
      some (Result.make "lite_vna_error"
        "Invalidprotocol version, expected 0x01 but found 0x\x7b\x7d."
        [toHex reply], s2, rest)
    else some (Result.ok, s2, rest)

/-- The method `LiteVNA::initialize` (the handshake at startup). -/
def startup (s : LiteVNA) (reads : List ReadStep) (garbage : Byte) :
    Option (Result × LiteVNA × List ReadStep) :=
  match s.serial.«open» with
  | (r0, serial0) =>
  let s0 := { s with serial := serial0 }
  if r0.isError then some (r0, s0, reads) else
  match s0.clearFifo with
  | (r1, s1) =>
  if r1.isError then some (r1, s1, reads) else
  match s1.leaveDataMode with
  | (r2, s2) =>
  if r2.isError then some (r2, s2, reads) else
  match s2.checkIndicate reads garbage with
  | none => none
  | some (r3, s3, reads3) =>
  if r3.isError then some (r3, s3, reads3) else
  match s3.checkDeviceVariant reads3 garbage with
  | none => none
  | some (r4, s4, reads4) =>
  if r4.isError then some (r4, s4, reads4) else
  s4.checkProtocolVersion reads4 garbage

end LiteVNA

/-! ## Vocabulary of the statements -/

/-- The port is open and every OS write takes the whole buffer. -/
def WritesSucceed (s : LiteVNA) : Prop :=
  s.serial.opened = true ∧ ∀ k n, s.serial.osWrite k n = some n

/-- Every read returns at least one byte (the port is configured with `VMIN = 1`,
`VTIME = 0`, so a read blocks until a byte is there). -/
def ReadsDeliver (reads : List ReadStep) : Prop :=
  ∀ st ∈ reads, ∃ n, 0 < n ∧ st = ReadStep.deliver n

/-- No clock reading is more than 10000 ms past another one: no frame deadline passes. -/
def NoTimeout (clock : Nat → Nat) : Prop :=
  ∀ i j, ¬ ((clock i % 2 ^ 64 + 10000) % 2 ^ 64 < clock j % 2 ^ 64)

/-- The frame loop of `scan` run on frames that are already assembled: the flow, the
scan values and the number of frames taken (the failing one included). -/
def storeFrames (fm : FloatModel) (points : Nat) :
    List (List Byte) → ScanValues fm → Flow Unit × ScanValues fm × Nat
  | [], values => (Flow.done (), values, 0)
  | f :: fs, values =>
    match storeFrame fm points f values with
    | Except.error r => (Flow.returned r, values, 1)
    | Except.ok values2 =>
      match storeFrames fm points fs values2 with
      | (flow, values3, n) => (flow, values3, n + 1)

/-- The state of the device after reads that left `rx1` to deliver and made the OS
calls `evs`, and after `t` clock readings. -/
def LiteVNA.afterReads (s : LiteVNA) (rx1 : List Byte) (t : Nat) (evs : List SerialEvent) :
    LiteVNA :=
  { s with serial := { s.serial with rx := rx1, trace := s.serial.trace ++ evs },
           ticks := s.ticks + t }

/-- The read calls of the frame loop: `total` bytes have been received since the first
frame was begun; each call asks for exactly what the current frame still lacks,
`32 - total % 32`, and stores at least one byte and at most what it asked for. -/
def FrameReads : Nat → List SerialEvent → Prop
  | _, [] => True
  | total, SerialEvent.read size data :: evs =>
    size = 32 - total % 32 ∧ 0 < data.length ∧ data.length ≤ size ∧
      FrameReads (total + data.length) evs
  | _, _ :: _ => False

/-- The bytes received by the read calls of a trace, in order. -/
def receivedBytes (evs : List SerialEvent) : List Byte :=
  (evs.map SerialEvent.received).flatten

/-- The state of the device after the buffers `msgs` have been written. -/
def LiteVNA.afterWrites (s : LiteVNA) (msgs : List (List Byte)) : LiteVNA :=
  { s with serial := { s.serial with trace := s.serial.trace ++ msgs.map SerialEvent.wrote } }

/-- The seven buffers `scan` writes before it reads frames: clear FIFO, enter data mode,
sweep start, sweep step, sweep points, values per frequency, read FIFO. -/
def scanSetupMessages (start step points : Nat) : List (List Byte) :=
  [[0, 0, 0, 0, 0, 0, 0, 0], [0x20, 0x26, 0x03],
   [0x23, 0x00] ++ littleEndian 8 start, [0x23, 0x10] ++ littleEndian 8 step,
   [0x21, 0x20] ++ littleEndian 2 points, [0x21, 0x22, 0x01, 0x00], [0x18, 0x30, 0x00]]

/-- The two buffers `scan` writes after the last frame: clear FIFO, leave data mode. -/
def scanFinishMessages : List (List Byte) :=
  [[0, 0, 0, 0, 0, 0, 0, 0], [0x20, 0x26, 0x02]]

/-- Truncation to 8 bits. -/
def trunc8 (n : Nat) : Nat := n % 256

/-- One round of the checksum as the specification words it, in 8-bit arithmetic: the
shift, the OR and both XORs are each truncated to a byte. -/
def specChecksumStep (c : Nat) (b : Byte) : Nat :=
  trunc8 (trunc8 (c ^^^ trunc8 (trunc8 (c <<< 1) ||| 1)) ^^^ b.val)

/-- The checksum of the specification: seed `0x46`, folded over the bytes from the left. -/
def specChecksum (bytes : List Byte) : Nat := bytes.foldl specChecksumStep 0x46

/-- Bytes `0 .. 30` of a frame buffer: every field except the checksum byte. -/
def checksummedBytes (buffer : List Byte) : List Byte := (List.range 31).map (byteAt buffer)

/-- A frame that passes both tests of the frame loop for a sweep of `points` points. -/
def ValidFrame (points : Nat) (f : List Byte) : Prop :=
  f.length = 32 ∧ computeChecksum f = frameChecksumField f ∧ freqIndex f < points

instance (points : Nat) (f : List Byte) : Decidable (ValidFrame points f) := by
  unfold ValidFrame
  infer_instance

/-- The three stores of the frame loop for one frame. -/
def storeValues (fm : FloatModel) (values : ScanValues fm) (f : List Byte) : ScanValues fm :=
  { channel0Out := values.channel0Out.set (freqIndex f) (out0 fm f)
    channel0In := values.channel0In.set (freqIndex f) (in0 fm f)
    channel1In := values.channel1In.set (freqIndex f) (in1 fm f) }

/-- A symbolic `float`: terms built from the conversions and the two components of a
complex division, with no arithmetic law assumed. -/
inductive SymFloat where
  | ofInt (i : Int)
  | zero
  | divRe (a b c d : SymFloat)
  | divIm (a b c d : SymFloat)
deriving DecidableEq, Repr

/-- The symbolic float model: `(a + bi) / (c + di)` is kept as a pair of terms. -/
def symModel : FloatModel :=
  { F := SymFloat
    ofInt32 := SymFloat.ofInt
    zero := SymFloat.zero
    cdiv := fun x y => (SymFloat.divRe x.1 x.2 y.1 y.2, SymFloat.divIm x.1 x.2 y.1 y.2) }

/-- A frame with the given first 26 bytes (the six values and `freqIndex`), zero reserved
bytes and the checksum byte that matches. -/
def mkFrame (fields : List Byte) : List Byte :=
  (fields ++ List.replicate 31 0).take 31 ++
    [Byte.ofNat (computeChecksum ((fields ++ List.replicate 31 0).take 31))]

/-- Example frame with `freqIndex = 0`. -/
def frameA : List Byte :=
  mkFrame [1, 0, 0, 0, 2, 0, 0, 0, 3, 0, 0, 0, 4, 0, 0, 0, 5, 0, 0, 0, 6, 0, 0, 0, 0, 0]

/-- Example frame with `freqIndex = 1` and a negative `channel0OutRe`. -/
def frameB : List Byte :=
  mkFrame [255, 255, 255, 255, 2, 0, 0, 0, 3, 0, 0, 0, 4, 0, 0, 0, 5, 0, 0, 0, 6, 0, 0, 0, 1, 0]

/-- Example frame with `freqIndex = 2`. -/
def frameC : List Byte :=
  mkFrame [7, 0, 0, 0, 8, 0, 0, 0, 9, 0, 0, 0, 4, 0, 0, 0, 5, 0, 0, 0, 6, 0, 0, 0, 2, 0]

/-- Example frame: `frameA` with its checksum byte replaced by a wrong one. -/
def frameBad : List Byte := frameA.take 31 ++ [0]

/-- An opened port whose writes all succeed, about to deliver `rx`, with a clock that
stands still. -/
def demoDevice (rx : List Byte) : LiteVNA :=
  { serial := { opened := true, osOpen := true, rx := rx, trace := [],
                osWrite := fun _ n => some n, osError := "errno=5 (Input/output error)" }
    clock := fun _ => 1000
    ticks := 0 }

/-- Empty `ScanValues`, as declared by the caller of `scan`. -/
def emptyValues (fm : FloatModel) : ScanValues fm := ⟨[], [], []⟩

/-- A signed 32-bit little-endian integer as the specification reads it: the four bytes
weighted by powers of 256, less `2^32` when the sign bit (top bit of the last byte) is
set. -/
def specInt32 (b0 b1 b2 b3 : Byte) : Int :=
  (b0.val : Int) + 256 * (b1.val : Int) + 65536 * (b2.val : Int) + 16777216 * (b3.val : Int)
    - (if 128 ≤ b3.val then 4294967296 else 0)

/-- An unsigned 16-bit little-endian integer as the specification reads it. -/
def specUInt16 (b0 b1 : Byte) : Nat := b0.val + 256 * b1.val

/-- The wire record `DeviceFrame` of the specification. -/
structure DeviceFrame where
  ch0OutRe : Int
  ch0OutIm : Int
  ch0InRe : Int
  ch0InIm : Int
  ch1InRe : Int
  ch1InIm : Int
  freqIndex : Nat
  checksum : Nat
deriving DecidableEq, Repr

/-- The unpadded little-endian layout of the specification: six `int32` at byte offsets
0, 4, 8, 12, 16, 20, a `uint16` at offset 24, five reserved bytes, the checksum at
offset 31. -/
def decodeDeviceFrame (f : List Byte) : DeviceFrame :=
  { ch0OutRe := specInt32 (byteAt f 0) (byteAt f 1) (byteAt f 2) (byteAt f 3)
    ch0OutIm := specInt32 (byteAt f 4) (byteAt f 5) (byteAt f 6) (byteAt f 7)
    ch0InRe := specInt32 (byteAt f 8) (byteAt f 9) (byteAt f 10) (byteAt f 11)
    ch0InIm := specInt32 (byteAt f 12) (byteAt f 13) (byteAt f 14) (byteAt f 15)
    ch1InRe := specInt32 (byteAt f 16) (byteAt f 17) (byteAt f 18) (byteAt f 19)
    ch1InIm := specInt32 (byteAt f 20) (byteAt f 21) (byteAt f 22) (byteAt f 23)
    freqIndex := specUInt16 (byteAt f 24) (byteAt f 25)
    checksum := (byteAt f 31).val }

/-- The number of bytes a read outcome offers (none when the read fails). -/
def ReadStep.offered : ReadStep → Nat
  | ReadStep.fail => 0
  | ReadStep.deliver n => n

/-- A device like `demoDevice` whose clock reads 1000 ms for the first four readings and
11001 ms afterwards. -/
def stallingDevice (rx : List Byte) : LiteVNA :=
  { serial := { opened := true, osOpen := true, rx := rx, trace := [],
                osWrite := fun _ n => some n, osError := "errno=5 (Input/output error)" }
    clock := fun i => if i < 4 then 1000 else 11001
    ticks := 0 }

/-! ## Reactor: write path of `lib/SocketTCP.h` (Linux build)

Callbacks are opaque to the reactor: an invocation is recorded in the log `events`
together with the OS calls, in order. The return values of `send` and `epoll_ctl` come
from the environment. A buffer of `len` bytes at a caller-owned address is the list of
those bytes; `send` takes its bytes from the front of the buffer handed to it. -/

/-- The class `WriteBufferInfo`: the caller's bytes, the position reached, the
completion callback (an identifier, `none` for a null function) and the caller's tag. -/
structure WriteBufferInfo where
  buffer : List Byte
  pos : Nat
  writeFinishCallback : Option Nat
  customData : Nat
deriving DecidableEq, Repr

namespace WriteBufferInfo

/-- The member `len`. -/
def len (b : WriteBufferInfo) : Nat := b.buffer.length

/-- The method `getRemainingBuffer`: the bytes from `buffer + pos` on (none when
`pos >= len`). -/
def getRemainingBuffer (b : WriteBufferInfo) : List Byte :=
  if b.pos ≥ b.len then [] else b.buffer.drop b.pos

/-- The method `getRemainingBufferSize`. -/
def getRemainingBufferSize (b : WriteBufferInfo) : Nat :=
  if b.pos ≥ b.len then 0 else b.len - b.pos

/-- The method `writeDone`. -/
def writeDone (b : WriteBufferInfo) (amount : Nat) : WriteBufferInfo :=
  { b with pos := b.pos + amount }

end WriteBufferInfo

/-- The enum `Status`. -/
inductive Status where
  | Initializing
  | Connecting
  | Connected
  | Error
deriving DecidableEq, Repr

/-- The struct `PeerSocketInfo`; `writeBuffers` is the queue, front first. -/
structure PeerSocketInfo where
  status : Status
  socket : Nat
  customData : Nat
  writeBuffers : List WriteBufferInfo
deriving DecidableEq, Repr

/-- The operation of an `epoll_ctl` call. -/
inductive EpollOp where
  | add
  | modify
  | delete
deriving DecidableEq, Repr

/-- What the reactor does that is visible outside it: a completion callback invoked, the
close callback invoked, a `send` call with the bytes handed to it and its return value
(`none` for `-1`), an `epoll_ctl` call with its flags (`readable`, `writable`) and
whether it succeeded, an OS `close`, the read, connect and accept callbacks invoked, and
a `write` call of an 8-byte integer `value` on a descriptor (`none` for the descriptor
`-1`) with its return value (`none` for `-1`). -/
inductive ReactorEvent where
  | writeFinished (callback : Nat) (result : Result) (socketId : Nat) (customData : Nat)
  | closed (socketId : Nat) (customData : Nat)
  | sent (socket : Nat) (data : List Byte) (count : Option Nat)
  | epollCtl (socket : Nat) (op : EpollOp) (readable writable : Bool) (ok : Bool)
  | osClose (socket : Nat)
  | readCalled (socketId : Nat) (count : Nat) (customData : Nat)
  | connectCalled (result : Result) (socketId : Nat)
  | acceptCalled (socketId : Nat)
  | wrote (fd : Option Nat) (value : Nat) (count : Option Nat)
deriving DecidableEq, Repr

/-- The class `SocketTCP`: the table `peerSockets` (one entry per key `socket`), the close
callback slot, the flag `closedSocket`, and the environment: the log, the return value
of `send` by number of logged events and length, the success of `epoll_ctl` by number
of logged events, and the text of `getOSLastError()`. -/
structure SocketTCP where
  peerSockets : List PeerSocketInfo
  hasCloseCallback : Bool
  closedSocket : Bool
  events : List ReactorEvent
  osSend : Nat → Nat → Option Nat
  osCtl : Nat → Bool
  osError : String

namespace SocketTCP

/-- The lookup `peerSockets.find(socketId)`. -/
def find (s : SocketTCP) (socketId : Nat) : Option PeerSocketInfo :=
  s.peerSockets.find? (fun p => p.socket == socketId)

/-- An update through the pointer `peer` of the entry with key `socketId`. -/
def modifyPeer (s : SocketTCP) (socketId : Nat) (f : PeerSocketInfo → PeerSocketInfo) :
    SocketTCP :=
  { s with peerSockets := s.peerSockets.map (fun p => if p.socket = socketId then f p else p) }

/-- The call `peerSockets.erase(it)` for the key `socketId`. -/
def erase (s : SocketTCP) (socketId : Nat) : SocketTCP :=
  { s with peerSockets := s.peerSockets.filter (fun p => p.socket ≠ socketId) }

/-- Appends to the log. -/
def emit (s : SocketTCP) (evs : List ReactorEvent) : SocketTCP :=
  { s with events := s.events ++ evs }

/-- The private method `setEvent`: one `epoll_ctl` call. -/
def setEvent (s : SocketTCP) (socket : Nat) (op : EpollOp) (readable writable : Bool) :
    Result × SocketTCP :=
  let ok := s.osCtl s.events.length
  let s1 := s.emit [ReactorEvent.epollCtl socket op readable writable ok]
  if ok then (Result.ok, s1)
  else (Result.make "socket_error" "`epoll_ctl()` method error: \x7b\x7d" [s.osError], s1)

/-- The error passed to the completion callbacks of a closed connection. -/
def socketClosedError : Result :=
  Result.make "socket_error" "Could not send data, socket is closed" []

/-- The loop of `close` over the queue: each buffer with a callback has it invoked with
the failure, front first. -/
def closeCallbacks (socket : Nat) : List WriteBufferInfo → List ReactorEvent
  | [] => []
  | b :: rest =>
    (match b.writeFinishCallback with
      | some cb => [ReactorEvent.writeFinished cb socketClosedError socket b.customData]
      | none => []) ++ closeCallbacks socket rest

/-- The method `SocketTCP::close`. -/
def close (s : SocketTCP) (socketId : Nat) : SocketTCP :=
  let s1 := { s with closedSocket := true }
  let s2 :=
    match s1.find socketId with
    | some peer =>
      let s3 := (s1.emit (closeCallbacks peer.socket peer.writeBuffers)).erase socketId
      if s3.hasCloseCallback then s3.emit [ReactorEvent.closed socketId peer.customData]
      else s3
    | none => s1
  (s2.setEvent socketId EpollOp.delete false false).2.emit [ReactorEvent.osClose socketId]

/-- The method `SocketTCP::write`. -/
def write (s : SocketTCP) (socketId : Nat) (buffer : List Byte) (customData : Nat)
    (writeFinishCallback : Option Nat) : Result × SocketTCP :=
  match s.find socketId with
  | none =>
    (Result.make "socket_error" "invalid socketId" [],
      match writeFinishCallback with
      | some cb =>
        s.emit [ReactorEvent.writeFinished cb
          (Result.make "invalid_socket_id" "invalid socket id \x7b\x7d" [showNat socketId])
          socketId customData]
      | none => s)
  | some _ =>
    let s1 := s.modifyPeer socketId (fun p =>
      { p with writeBuffers := p.writeBuffers ++ [⟨buffer, 0, writeFinishCallback, customData⟩] })
    match s1.setEvent socketId EpollOp.modify true true with
    | (result, s2) => if result.isError then (result, s2) else (Result.ok, s2)

/-- The length argument of the `send` call: the `size_t` size cast to `int` (the low 32
bits, signed) and converted back to the `size_t` parameter. -/
def sendLength (size : Nat) : Nat :=
  if size % 2 ^ 32 < 2 ^ 31 then size % 2 ^ 32 else 2 ^ 64 - 2 ^ 32 + size % 2 ^ 32

/-- The loop `while (n-- > 0)` of the `EPOLLOUT` branch of `select` for the peer with key
`socket`: `n` iterations remain. -/
def flushWrites (socket : Nat) : Nat → SocketTCP → Flow Unit × SocketTCP
  | 0, s => (Flow.done (), s)
  | n + 1, s =>
    match s.find socket with
    | none => (Flow.done (), s)
    | some peer =>
      match peer.writeBuffers with
      | [] => (Flow.done (), s)
      | writeBuffer :: rest =>
        if writeBuffer.getRemainingBufferSize > 0 then
          match s.osSend s.events.length (sendLength writeBuffer.getRemainingBufferSize) with
          | none =>
            (Flow.returned Result.ok,
              (s.emit [ReactorEvent.sent socket writeBuffer.getRemainingBuffer none]).close socket)
          | some count =>
            let s1 := s.emit [ReactorEvent.sent socket writeBuffer.getRemainingBuffer (some count)]
            let written := writeBuffer.writeDone count
            if written.getRemainingBufferSize = 0 then
              flushWrites socket n
                ((match written.writeFinishCallback with
                  | some cb => s1.emit [ReactorEvent.writeFinished cb Result.ok socket written.customData]
                  | none => s1).modifyPeer socket (fun p => { p with writeBuffers := rest }))
            else
              flushWrites socket n
                (s1.modifyPeer socket (fun p => { p with writeBuffers := written :: rest }))
        else
          flushWrites socket n
            ((match writeBuffer.writeFinishCallback with
              | some cb =>
                s.emit [ReactorEvent.writeFinished cb Result.ok socket writeBuffer.customData]
              | none => s).modifyPeer socket (fun p => { p with writeBuffers := rest }))

/-- The `EPOLLOUT` branch of the event loop of `select` for an event on descriptor `fd`:
`Flow.returned r` when `select` returns `r` from inside the branch, `Flow.done` when the
loop goes on to the next event. -/
def handleWritable (s : SocketTCP) (fd : Nat) : Flow Unit × SocketTCP :=
  match s.find fd with
  | none =>
    (Flow.returned (Result.make "socket_error" "socket \x7b\x7d not found" [showNat fd]),
      s.close fd)
  | some peer =>
    match flushWrites peer.socket peer.writeBuffers.length s with
    | (Flow.returned r, s1) => (Flow.returned r, s1)
    | (Flow.done _, s1) =>
      match s1.find fd with
      | none => (Flow.done (), s1)
      | some peer1 =>
        if peer1.writeBuffers.length = 0 then
          match s1.setEvent peer1.socket EpollOp.modify true false with
          | (result, s2) =>
            if result.isError then (Flow.returned result, s2) else (Flow.done (), s2)
        else (Flow.done (), s1)

end SocketTCP

/-! ### Vocabulary for the reactor statements -/

/-- A call made on the reactor: `write`, a write-readiness event handled by `select`,
or `close`. -/
inductive ReactorOp where
  | write (socketId : Nat) (buffer : List Byte) (customData : Nat) (callback : Option Nat)
  | writable (fd : Nat)
  | close (socketId : Nat)
deriving DecidableEq, Repr

/-- The reactor after one call. -/
def SocketTCP.step (s : SocketTCP) : ReactorOp → SocketTCP
  | ReactorOp.write socketId buffer customData callback =>
    (s.write socketId buffer customData callback).2
  | ReactorOp.writable fd => (s.handleWritable fd).2
  | ReactorOp.close socketId => s.close socketId

/-- The reactor after a sequence of calls. -/
def SocketTCP.run (s : SocketTCP) (ops : List ReactorOp) : SocketTCP :=
  ops.foldl SocketTCP.step s

/-- The bytes a `send` call on `socket` took: the first `count` of those handed to it. -/
def ReactorEvent.sentTo (socket : Nat) : ReactorEvent → List Byte
  | ReactorEvent.sent sock data (some count) => if sock = socket then data.take count else []
  | _ => []

/-- All the bytes taken by `send` calls on `socket` in a log, in order. -/
def sentBytes (evs : List ReactorEvent) (socket : Nat) : List Byte :=
  (evs.map (ReactorEvent.sentTo socket)).flatten

/-- The unsent bytes of the queue of `socket`, front first (none when the key is absent). -/
def SocketTCP.pendingBytes (s : SocketTCP) (socket : Nat) : List Byte :=
  match s.find socket with
  | some peer => (peer.writeBuffers.map WriteBufferInfo.getRemainingBuffer).flatten
  | none => []

/-- The buffers that the `write` calls of `ops` enqueue for `socket`, concatenated in
call order; a `write` enqueues when the key is in the table at the time of the call. -/
def SocketTCP.enqueuedBytes (s : SocketTCP) (socket : Nat) : List ReactorOp → List Byte
  | [] => []
  | op :: ops =>
    (match op with
      | ReactorOp.write socketId buffer _ _ =>
        if socketId = socket ∧ (s.find socket).isSome then buffer else []
      | _ => []) ++ SocketTCP.enqueuedBytes (s.step op) socket ops

/-- What a transition of the reactor from `s` to `s1` does to the byte stream of
`socket` when it enqueues the bytes `acc` for it: the bytes `d` taken by `send` during
the transition are the next bytes of the unsent queue followed by `acc`; as long as the
key is in the table afterwards, what was not sent is still queued, in order; an absent
key stays absent and nothing is sent for it. -/
def Conserves (s s1 : SocketTCP) (socket : Nat) (acc : List Byte) : Prop :=
  ∃ d, sentBytes s1.events socket = sentBytes s.events socket ++ d ∧
    (∃ t, s.pendingBytes socket ++ acc = d ++ t) ∧
    ((s1.find socket).isSome → d ++ s1.pendingBytes socket = s.pendingBytes socket ++ acc) ∧
    (s.find socket = none → s1.find socket = none ∧ d = [])

/-- The queue of `socket`, front first (empty when the key is absent). -/
def SocketTCP.queue (s : SocketTCP) (socket : Nat) : List WriteBufferInfo :=
  match s.find socket with
  | some peer => peer.writeBuffers
  | none => []

/-- The buffers that the `write` calls of `ops` push on the queue of `socket`, in call
order. -/
def SocketTCP.enqueuedBuffers (s : SocketTCP) (socket : Nat) :
    List ReactorOp → List WriteBufferInfo
  | [] => []
  | op :: ops =>
    (match op with
      | ReactorOp.write socketId buffer customData callback =>
        if socketId = socket ∧ (s.find socket).isSome then
          [⟨buffer, 0, callback, customData⟩]
        else []
      | _ => []) ++ SocketTCP.enqueuedBuffers (s.step op) socket ops

/-- How a queue changes while the bytes `d` are sent: `Drained q d q1` when `q1` is `q`
without some buffers at its front, all of whose unsent bytes are in `d`, in order,
followed by the bytes taken from the buffer now at the front, whose position has moved
by their number. -/
inductive Drained : List WriteBufferInfo → List Byte → List WriteBufferInfo → Prop
  | stay (q : List WriteBufferInfo) : Drained q [] q
  | advance (b : WriteBufferInfo) (rest : List WriteBufferInfo) (count : Nat) :
    Drained (b :: rest) (b.getRemainingBuffer.take count) (b.writeDone count :: rest)
  | pop (b : WriteBufferInfo) (rest : List WriteBufferInfo) (d : List Byte)
      (q : List WriteBufferInfo) :
    Drained rest d q → Drained (b :: rest) (b.getRemainingBuffer ++ d) q

/-- What a transition from `s` to `s1` that pushes the buffers `new` does to the queue of
`socket` when its key is still in the table afterwards. -/
def Flushes (s s1 : SocketTCP) (socket : Nat) (new : List WriteBufferInfo) : Prop :=
  (s1.find socket).isSome →
    ∃ d, sentBytes s1.events socket = sentBytes s.events socket ++ d ∧
      Drained (s.queue socket ++ new) d (s1.queue socket)

/-- A reactor with the connection `5` in its table and an empty queue, on which `send`
takes at most two bytes per call and `epoll_ctl` succeeds. -/
def demoReactor : SocketTCP :=
  { peerSockets := [⟨Status.Connected, 5, 0, []⟩]
    hasCloseCallback := true
    closedSocket := false
    events := []
    osSend := fun _ size => some (min size 2)
    osCtl := fun _ => true
    osError := "" }

/-- Two `write` calls on the connection `5` followed by one write-readiness event. -/
def demoOps : List ReactorOp :=
  [ReactorOp.write 5 [1, 2, 3] 7 (some 1), ReactorOp.write 5 [4, 5, 6] 8 (some 2),
    ReactorOp.writable 5]

/-- The invocations of the completion callbacks of the buffers `q` of the connection
`socket` with the result `result`, front first; a buffer with a null callback has none. -/
def finishCallbacks (result : Result) (socket : Nat) (q : List WriteBufferInfo) :
    List ReactorEvent :=
  q.filterMap (fun b =>
    b.writeFinishCallback.map (fun cb =>
      ReactorEvent.writeFinished cb result socket b.customData))

/-- The reactor `demoReactor` with two buffers queued on the connection `5`. -/
def busyReactor : SocketTCP :=
  demoReactor.run
    [ReactorOp.write 5 [1, 2, 3] 7 (some 1), ReactorOp.write 5 [4, 5, 6] 8 (some 2)]

/-- The invocations of completion callbacks for the connection `socket` in a log, in
order. -/
def callbackLog (evs : List ReactorEvent) (socket : Nat) : List ReactorEvent :=
  evs.filter (fun e =>
    match e with
    | ReactorEvent.writeFinished _ _ socketId _ => decide (socketId = socket)
    | _ => false)

/-- The invocations that the `write` calls of `ops` on `socket` make inside the call
because the identity is not in the table, in call order. -/
def SocketTCP.rejectedCallbacks (s : SocketTCP) (socket : Nat) :
    List ReactorOp → List ReactorEvent
  | [] => []
  | op :: ops =>
    (match op with
      | ReactorOp.write socketId _ customData callback =>
        if socketId = socket ∧ s.find socket = none then
          match callback with
          | some cb =>
            [ReactorEvent.writeFinished cb
              (Result.make "invalid_socket_id" "invalid socket id \x7b\x7d" [showNat socketId])
              socketId customData]
          | none => []
        else []
      | _ => []) ++ SocketTCP.rejectedCallbacks (s.step op) socket ops

/-- The callbacks `(callback, tag)` that the `write` calls of `ops` on `socket` supply,
in call order. -/
def suppliedCallbacks (socket : Nat) (ops : List ReactorOp) : List (Nat × Nat) :=
  ops.filterMap (fun op =>
    match op with
    | ReactorOp.write socketId _ customData (some cb) =>
      if socketId = socket then some (cb, customData) else none
    | _ => none)

/-- The callbacks `(callback, tag)` of the buffers of a queue, front first. -/
def queuedCallbacks (q : List WriteBufferInfo) : List (Nat × Nat) :=
  q.filterMap (fun b => b.writeFinishCallback.map (fun cb => (cb, b.customData)))

/-- The callback and tag of an invocation. -/
def ReactorEvent.invoked : ReactorEvent → Option (Nat × Nat)
  | ReactorEvent.writeFinished cb _ _ customData => some (cb, customData)
  | _ => none

/-- How the queue of `socket` is served while the bytes `d` are sent: `Served socket q d
L q1` when `q1` is `q` without some buffers at its front, all of whose unsent bytes are in
`d`, in order, and whose callbacks were invoked with success, in order, making `L`;
`d` ends with the bytes taken from the buffer now at the front. -/
inductive Served (socket : Nat) :
    List WriteBufferInfo → List Byte → List ReactorEvent → List WriteBufferInfo → Prop
  | stay (q : List WriteBufferInfo) : Served socket q [] [] q
  | advance (b : WriteBufferInfo) (rest : List WriteBufferInfo) (count : Nat) :
    Served socket (b :: rest) (b.getRemainingBuffer.take count) [] (b.writeDone count :: rest)
  | pop (b : WriteBufferInfo) (rest : List WriteBufferInfo) (d : List Byte)
      (L : List ReactorEvent) (q : List WriteBufferInfo) :
    Served socket rest d L q →
      Served socket (b :: rest) (b.getRemainingBuffer ++ d)
        (finishCallbacks Result.ok socket [b] ++ L) q

/-- What a transition from `s` to `s1` does for the connection `socket` when it pushes
the buffers `new` and rejects `write` calls with the invocations `rej`: the bytes sent
and the callbacks invoked, whether the identity is still in the table afterwards or
not. -/
def Life (s s1 : SocketTCP) (socket : Nat) (new : List WriteBufferInfo)
    (rej : List ReactorEvent) : Prop :=
  ∃ d L, sentBytes s1.events socket = sentBytes s.events socket ++ d ∧
    callbackLog s1.events socket = callbackLog s.events socket ++ L ∧
    (s.find socket = none → new = []) ∧
    ((s1.find socket).isSome →
      rej = [] ∧ Served socket (s.queue socket ++ new) d L (s1.queue socket)) ∧
    (s1.find socket = none →
      ∃ L0 q, Served socket (s.queue socket ++ new) d L0 q ∧
        L = L0 ++ finishCallbacks SocketTCP.socketClosedError socket q ++ rej)

/-- A life of the connection `5` of `demoReactor`: two `write` calls, one event that
sends the first buffer, a `close`, and a `write` after it. -/
def lifeOps : List ReactorOp :=
  [ReactorOp.write 5 [1, 2, 3] 7 (some 1), ReactorOp.write 5 [4, 5, 6] 8 (some 2),
    ReactorOp.writable 5, ReactorOp.close 5, ReactorOp.write 5 [9] 3 (some 4)]

/-- The byte `b` with bit `k` flipped. -/
def flipBit (b : Byte) (k : Nat) : Byte := Byte.ofNat (b.val ^^^ 2 ^ k)

/-- The input with bit `k` of byte `i` flipped. -/
def flipAt (input : List Byte) (i k : Nat) : List Byte :=
  input.set i (flipBit (byteAt input i) k)

/-- The single-bit flips of bytes `0 .. 30`: byte index and bit number. -/
def bitFlips : List (Nat × Nat) :=
  ((List.range 31).map (fun i => (List.range 8).map (fun k => (i, k)))).flatten

/-- The number of single-bit flips of bytes `0 .. 30` that change the checksum. -/
def changedFlips (input : List Byte) : Nat :=
  bitFlips.countP (fun f =>
    decide (computeChecksum (flipAt input f.1 f.2) ≠ computeChecksum input))

/-- The checksum before a round, from the checksum after it and the byte of the round. -/
def checksumUnstep (checksum : Nat) (b : Byte) : Nat :=
  let z := (checksum ^^^ b.val) ^^^ 1
  (z ^^^ (z <<< 1) ^^^ (z <<< 2) ^^^ (z <<< 3) ^^^ (z <<< 4) ^^^ (z <<< 5) ^^^ (z <<< 6) ^^^
    (z <<< 7)) % 256

/-- A 31-byte input. -/
def sampleInput : List Byte :=
  [1, 2, 3, 4, 5, 6, 7, 8, 9, 10, 11, 12, 13, 14, 15, 16, 17, 18, 19, 20, 21, 22, 23, 24, 25,
    26, 27, 28, 29, 30, 31]

/-! ## Request handler: `lib/StringUtils.h` and `HTTPServer.h`

A `std::string` holding received data is the list of its bytes. The texts the program
builds are `String`s, one character per byte. `char` is signed (x86-64 Linux). -/

/-- The bytes of a string literal. -/
def ascii (s : String) : List Byte := s.toList.map (fun c => Byte.ofNat c.toNat)

namespace su

/-- The test `s[i] <= ' '` of `su::trim` on a signed `char`: the codes up to 32 and the
codes from 128 on, which are negative. -/
def isBlank (c : Byte) : Bool := decide (c.val ≤ 32 ∨ 128 ≤ c.val)

/-- The second loop of `su::trim`: `end` starts at `e` and goes down while `end > 0` and
`s[end]` is blank. -/
def trimEnd (s : List Byte) : Nat → Nat
  | 0 => 0
  | e + 1 => if isBlank (s.getD (e + 1) 0) then trimEnd s e else e + 1

/-- The function `su::trim(const string&, true)`. -/
def trim (s : List Byte) : List Byte :=
  if s.length = 0 then [] else
  let start := (s.takeWhile isBlank).length
  let «end» := trimEnd s (s.length - 1)
  if «end» ≥ start then (s.drop start).take («end» - start + 1) else []

/-- The tokens of the loop of `su::split(const string&, char, bool)`: the text up to each
occurrence of `delimiter` found from `start` on, and the text after the last one. -/
def tokens (delimiter : Byte) : List Byte → List (List Byte)
  | [] => [[]]
  | c :: cs =>
    if c = delimiter then [] :: tokens delimiter cs
    else
      match tokens delimiter cs with
      | t :: ts => (c :: t) :: ts
      | [] => [[c]]

/-- The function `su::split(const string&, char, bool)`. -/
def split (s : List Byte) (delimiter : Byte) (_trim : Bool) : List (List Byte) :=
  if _trim ∧ s.length = 0 then []
  else (tokens delimiter s).map (fun token => if _trim then trim token else token)

/-- The loop of `su::atou<T>` for a `T` of `w` bits, from the value `res` on: the error
flag and the result. -/
def atouLoop (w : Nat) : List Byte → Nat → Bool × Nat
  | [], res => (false, res)
  | c :: cs, res =>
    if c.val < 48 ∨ c.val > 57 then (true, 0)
    else atouLoop w cs ((res * 10 + c.val - 48) % 2 ^ w)

/-- The function `su::atou<T>` for an unsigned `T` of `w` bits: the value of `*error` and
the value returned. -/
def atou (w : Nat) (str : List Byte) : Bool × Nat :=
  if str.length = 0 ∨ str.length > 20 then (true, 0) else atouLoop w str 0

end su

/-- The type `unordered_map<string, string>`, as the list of its entries; one entry per
key. -/
abbrev Params := List (List Byte × List Byte)

/-- The call `params.find(key)`: the value of the entry, if there is one. -/
def Params.find (params : Params) (key : List Byte) : Option (List Byte) :=
  (List.find? (fun entry => entry.1 == key) params).map Prod.snd

/-- The call `params.emplace(key, value)`: nothing is stored when the key has an
entry. -/
def Params.emplace (params : Params) (key value : List Byte) : Params :=
  match params.find key with
  | some _ => params
  | none => params ++ [(key, value)]

namespace HTTPServer

/-- The loop of `onRead` over the items of the query: an item with exactly one `=` is
stored under its key. -/
def readParams (sParams : List (List Byte)) : Params :=
  sParams.foldl (fun params param =>
    match su.split param 61 false with
    | [key, value] => params.emplace key value
    | _ => params) []

/-- The raw response for an unparseable request. -/
def badRequest : String := "HTTP/1.1 400 Bad Request\r\nContent-Length: 11\r\n\r\nBad Request"

/-- The raw response for a method other than `GET`. -/
def notAllowed : String := "HTTP/1.1 405 Not Allowed\r\nContent-Length: 11\r\n\r\nNot Allowed"

/-- The raw response for a path other than `/litevna`. -/
def notFound : String := "HTTP/1.1 404 Not Found\r\nContent-Length: 9\r\n\r\nNot Found"

/-- How the first part of `onRead` ends: with a raw response written, or with the
parameters that go to `execute`. -/
inductive Routed where
  | reply (text : String)
  | query (params : Params)
deriving DecidableEq, Repr

/-- The first part of `onRead`, on the data received: the raw response it writes before
returning, or the parameters it passes to `execute`. -/
def route (received : List Byte) : Routed :=
  match su.split received 13 true with
  | [] => Routed.reply badRequest
  | line :: _ =>
    match su.split line 32 true with
    | [] => Routed.reply notAllowed
    | [_] => Routed.reply notAllowed
    | method :: target :: _ =>
      if method ≠ ascii "GET" then Routed.reply notAllowed else
      match su.split target 63 false with
      | [] => Routed.reply notFound
      | [path] =>
        if path ≠ ascii "/litevna" then Routed.reply notFound else Routed.reply badRequest
      | path :: query :: _ =>
        if path ≠ ascii "/litevna" then Routed.reply notFound
        else Routed.query (readParams (su.split query 38 false))

end HTTPServer

/-- The measurement functions `LiteVNA::logMag`, `LiteVNA::phase` and `LiteVNA::swr` on a
complex value, and the stream insertion of a `float`. -/
structure Measure (fm : FloatModel) where
  logMag : Cplx fm → fm.F
  phase : Cplx fm → fm.F
  swr : Cplx fm → fm.F
  showFloat : fm.F → String

namespace HTTPServer

/-- The body for a parameter that is not in the query. -/
def missingParameter (name : String) : String :=
  "\x7b\"error\": \"missing '" ++ name ++ "' parameter\"\x7d"

/-- The body for a parameter that `su::atou` rejects or that is zero. -/
def invalidParameter (name : String) : String :=
  "\x7b\"error\": \"invalid '" ++ name ++ "' parameter\"\x7d"

/-- The format of one entry of the result array. -/
def entryFormat : String :=
  "\x7b\"freq\": \x7b\x7d, \"s11\": \x7b\"log_mag\": \x7b\x7d, \"phase\": \x7b\x7d, \"swr\": \x7b\x7d\x7d,\"s21\": \x7b\"log_mag\": \x7b\x7d, \"phase\": \x7b\x7d\x7d\x7d"

/-- The entry of the result array for the frequency `freq` and the values `s11`, `s21`. -/
def resultEntry (fm : FloatModel) (m : Measure fm) (freq : Nat) (s11 s21 : Cplx fm) : String :=
  su.format entryFormat
    [showNat freq, m.showFloat (m.logMag s11), m.showFloat (m.phase s11),
      m.showFloat (m.swr s11), m.showFloat (m.logMag s21), m.showFloat (m.phase s21)]

/-- The element `channel[n]` of a vector of `ScanValues` (in range after a successful
`scan`, which resizes the vectors to `points`). -/
def valueAt (fm : FloatModel) (channel : List (Cplx fm)) (n : Nat) : Cplx fm :=
  channel.getD n (fm.zero, fm.zero)

/-- The loop `for (size_t n = 0; n < points; n++)` of `execute` with `remaining`
iterations left: the text `json` after it. `freq` is a `uint64_t`. -/
def resultLoop (fm : FloatModel) (m : Measure fm) (values : ScanValues fm) (step : Nat) :
    Nat → Nat → Nat → Bool → String → String
  | 0, _, _, _, json => json
  | remaining + 1, n, freq, addComma, json =>
    resultLoop fm m values step remaining (n + 1) ((freq + step) % 2 ^ 64) true
      ((if addComma then json ++ "," else json) ++
        resultEntry fm m freq (valueAt fm values.channel0In n) (valueAt fm values.channel1In n))

/-- The body for a successful scan. -/
def resultJson (fm : FloatModel) (m : Measure fm) (values : ScanValues fm)
    (start step points : Nat) : String :=
  resultLoop fm m values step points 0 start false "\x7b\"result\":[" ++ "]\x7d"

/-- The body for a failed scan. -/
def scanError (result : Result) : String :=
  su.format "\"\x7berror\": \"\x7b\x7d\"\x7d" [result.description]

/-- The method `HTTPServer::execute`: the body, and the device and the pending reads
afterwards (`none` when the device stops answering during the scan). -/
def execute (fm : FloatModel) (m : Measure fm) (vna : LiteVNA) (reads : List ReadStep)
    (params : Params) : Option (String × LiteVNA × List ReadStep) :=
  match params.find (ascii "start") with
  | none => some (missingParameter "start", vna, reads)
  | some startParam =>
  match su.atou 64 startParam with
  | (startError, start) =>
  if startError ∨ start = 0 then some (invalidParameter "start", vna, reads) else
  match params.find (ascii "step") with
  | none => some (missingParameter "step", vna, reads)
  | some stepParam =>
  match su.atou 64 stepParam with
  | (stepError, step) =>
  if stepError ∨ step = 0 then some (invalidParameter "step", vna, reads) else
  match params.find (ascii "points") with
  | none => some (missingParameter "points", vna, reads)
  | some pointsParam =>
  match su.atou 16 pointsParam with
  | (pointsError, points) =>
  if pointsError ∨ points = 0 then some (invalidParameter "points", vna, reads) else
  match LiteVNA.scan fm vna reads start step points (emptyValues fm) with
  | none => none
  | some (result, values, vna1, reads1) =>
    if result.isError then some (scanError result, vna1, reads1)
    else some (resultJson fm m values start step points, vna1, reads1)

/-- The response around a body: status line, headers, and the body. -/
def okResponse (json : String) : String :=
  su.format
    "HTTP/1.1 200 OK\r\nConnection: close\r\nContent-Type: application/json\r\nContent-Length: \x7b\x7d\r\n\r\n\x7b\x7d"
    [showNat json.length, json]

/-- The method `HTTPServer::onRead` on the data received: the text handed to `write`, and
the device and the pending reads afterwards. -/
def onRead (fm : FloatModel) (m : Measure fm) (vna : LiteVNA) (reads : List ReadStep)
    (received : List Byte) : Option (String × LiteVNA × List ReadStep) :=
  match route received with
  | Routed.reply text => some (text, vna, reads)
  | Routed.query params =>
    match execute fm m vna reads params with
    | none => none
    | some (json, vna1, reads1) => some (okResponse json, vna1, reads1)

end HTTPServer

/-- The text of a symbolic float. -/
def SymFloat.text : SymFloat → String
  | SymFloat.ofInt i => toString i
  | SymFloat.zero => "0"
  | SymFloat.divRe a b c d =>
    "re((" ++ a.text ++ "," ++ b.text ++ ")/(" ++ c.text ++ "," ++ d.text ++ "))"
  | SymFloat.divIm a b c d =>
    "im((" ++ a.text ++ "," ++ b.text ++ ")/(" ++ c.text ++ "," ++ d.text ++ "))"

/-- A stand-in for the measurement functions on symbolic floats: `logMag` and `swr` give
the real part, `phase` the imaginary part. -/
def symMeasure : Measure symModel :=
  { logMag := fun v => v.1
    phase := fun v => v.2
    swr := fun v => v.1
    showFloat := SymFloat.text }

namespace HTTPServer

/-- The request line of the data received: the text before the first carriage return,
trimmed. -/
def requestLine (received : List Byte) : List Byte :=
  su.trim (received.takeWhile (· ≠ 13))

/-- The method of a request: the text of the request line before its first space,
trimmed. -/
def requestMethod (received : List Byte) : List Byte :=
  su.trim ((requestLine received).takeWhile (· ≠ 32))

/-- The target of a request: the text of the request line between its first space and
the next one, trimmed; none when the request line has no space. -/
def requestTarget (received : List Byte) : Option (List Byte) :=
  if (32 : Byte) ∈ requestLine received then
    some (su.trim ((((requestLine received).dropWhile (· ≠ 32)).drop 1).takeWhile (· ≠ 32)))
  else none

/-- The path of a target: the text before its first `?`. -/
def targetPath (target : List Byte) : List Byte := target.takeWhile (· ≠ 63)

/-- The query of a target with a `?`: the text between the first `?` and the next one. -/
def targetQuery (target : List Byte) : List Byte :=
  ((target.dropWhile (· ≠ 63)).drop 1).takeWhile (· ≠ 63)

end HTTPServer

/-- The items `key=value` of a query, in order: the items with exactly one `=`. -/
def HTTPServer.queryPairs (sParams : List (List Byte)) : Params :=
  sParams.filterMap (fun param =>
    match su.split param 61 false with
    | [key, value] => some (key, value)
    | _ => none)

/-- A decimal digit. -/
def isDigit (c : Byte) : Prop := 48 ≤ c.val ∧ c.val ≤ 57

instance (c : Byte) : Decidable (isDigit c) := by
  unfold isDigit
  infer_instance

/-- The number that a string of decimal digits denotes, continuing from `n`. -/
def decimalValueFrom (n : Nat) (digits : List Byte) : Nat :=
  digits.foldl (fun value c => value * 10 + (c.val - 48)) n

/-- The number that a string of decimal digits denotes. -/
def decimalValue (digits : List Byte) : Nat := decimalValueFrom 0 digits

/-- The test of `execute` on a parameter value for a type of `w` bits: `su::atou` reports
no error and the value is not zero. -/
def HTTPServer.Accepted (w : Nat) (value : List Byte) : Prop :=
  (su.atou w value).1 = false ∧ (su.atou w value).2 ≠ 0

instance (w : Nat) (value : List Byte) : Decidable (HTTPServer.Accepted w value) := by
  unfold HTTPServer.Accepted
  infer_instance

/-- The texts `entries` separated by commas. -/
def commaSeparated : List String → String
  | [] => ""
  | [entry] => entry
  | entry :: next :: entries => entry ++ "," ++ commaSeparated (next :: entries)

/-- The entries that the loop of `execute` appends in `remaining` iterations from the
index `n` and the frequency `freq` on. -/
def HTTPServer.entriesFrom (fm : FloatModel) (m : Measure fm) (values : ScanValues fm)
    (step : Nat) : Nat → Nat → Nat → List String
  | 0, _, _ => []
  | remaining + 1, n, freq =>
    HTTPServer.resultEntry fm m freq (HTTPServer.valueAt fm values.channel0In n)
        (HTTPServer.valueAt fm values.channel1In n) ::
      HTTPServer.entriesFrom fm m values step remaining (n + 1) ((freq + step) % 2 ^ 64)

/-- The constant `LITEVNA_VSWR_MAX`. -/
def LITEVNA_VSWR_MAX : ℚ := 100000

/-- The method `LiteVNA::swr` after `float x = linear(value)`, with the `float`
operations read as the exact operations on rational numbers. -/
def swrExact (x : ℚ) : ℚ :=
  if x > (LITEVNA_VSWR_MAX - 1) / (LITEVNA_VSWR_MAX + 1) then LITEVNA_VSWR_MAX
  else (1 + x) / (1 - x)

/-- White space of a JSON text (RFC 8259). -/
def jsonWhitespace (c : Char) : Bool := c = ' ' ∨ c = '\t' ∨ c = '\n' ∨ c = '\r'

/-- The text after the closing quotation mark of a JSON string whose opening quotation
mark has been read; a backslash escapes the character after it. None when the string is
not closed. -/
def afterJsonString : List Char → Option (List Char)
  | [] => none
  | '"' :: rest => some rest
  | '\\' :: _ :: rest => afterJsonString rest
  | _ :: rest => afterJsonString rest

/-- A necessary condition for a text to be a JSON text (RFC 8259): when its first
character is a quotation mark, its value is a string, and only white space follows the
string. -/
def jsonStringShape (text : String) : Bool :=
  match text.toList with
  | '"' :: rest =>
    match afterJsonString rest with
    | some tail => tail.all jsonWhitespace
    | none => false
  | _ => true

/-- From `s` to `s1` the serial port has only been read: it is as open as before, the
OS answers writes as before, and the OS calls made in between are no writes. -/
def ReadsOnly (s s1 : LiteVNA) : Prop :=
  s1.serial.opened = s.serial.opened ∧ s1.serial.osWrite = s.serial.osWrite ∧
    ∃ evs, s1.serial.trace = s.serial.trace ++ evs ∧ ∀ e ∈ evs, SerialEvent.written e = none

/-- Example frame with `freqIndex = 1`, as `frameB`, and other values. -/
def frameD : List Byte :=
  mkFrame [9, 0, 0, 0, 8, 0, 0, 0, 7, 0, 0, 0, 6, 0, 0, 0, 5, 0, 0, 0, 4, 0, 0, 0, 1, 0]

/-- What one logged call does to the registration of `socket` with the event source: a
successful `epoll_ctl` of `EPOLL_CTL_ADD` or `EPOLL_CTL_MOD` sets its interest
(`readable` for `EPOLLIN`, `writable` for `EPOLLOUT`), a successful `EPOLL_CTL_DEL` and
the OS `close` remove it; every other call leaves it. -/
def interestStep (socket : Nat) (cur : Option (Bool × Bool)) :
    ReactorEvent → Option (Bool × Bool)
  | ReactorEvent.epollCtl sock op readable writable ok =>
    if sock = socket ∧ ok = true then
      match op with
      | EpollOp.delete => none
      | _ => some (readable, writable)
    else cur
  | ReactorEvent.osClose sock => if sock = socket then none else cur
  | _ => cur

/-- The interest `(readable, writable)` with which `socket` is registered with the event
source after the calls of a log; none when it is not registered. -/
def interest (evs : List ReactorEvent) (socket : Nat) : Option (Bool × Bool) :=
  evs.foldl (interestStep socket) none

/-- The registration of a connection follows its queue: a connection in the table is
registered for read-readiness, and for write-readiness exactly when its queue is not
empty. -/
def Registered (s : SocketTCP) (socket : Nat) : Prop :=
  ∀ peer, s.find socket = some peer →
    interest s.events socket = some (true, !peer.writeBuffers.isEmpty)

/-- From `s` to `s1` the registration of `id` has not been touched while the reactor
worked on `socket`: `epoll_ctl` answers as before, the table entry of `id` is the same
unless `id` is `socket`, and `id` is registered with the same interest. -/
def SameRegistration (id socket : Nat) (s s1 : SocketTCP) : Prop :=
  s1.osCtl = s.osCtl ∧ (id ≠ socket → s1.find id = s.find id) ∧
    interest s1.events id = interest s.events id

/-- The reactor `demoReactor` as the accept branch of `select` leaves it for the
connection `5`: the entry is in the table with an empty queue and the descriptor has
been registered with `EPOLL_CTL_ADD` for `EPOLLIN`. -/
def acceptedReactor : SocketTCP :=
  { demoReactor with events := [ReactorEvent.epollCtl 5 EpollOp.add true false true] }

/-! ## Reactor: the event loop of `select`, `signal` and `initialize` (Linux build)

The descriptors `epollFd`, `listenSocket` and `eventFd` are `none` while they are `-1`.
What `epoll_wait` reports and what the OS answers to the calls made while an event is
handled come from the environment. The read callback is opaque; what it does to the
reactor is the sequence of `write` and `close` calls it makes. -/

/-- The outcome of the `accept` call of the listening branch of `select` and of the
calls that prepare the accepted descriptor: `accept` returns `-1` with `EAGAIN` or
`EWOULDBLOCK`; `accept` returns `-1` with another error; a `fcntl` call fails; a
`setsockopt` call fails; or all succeed, with the accepted descriptor and the tag that
the accept callback stores through `&accepted->customData`. -/
inductive AcceptOutcome where
  | wouldBlock
  | failed
  | fcntlFailed
  | setsockoptFailed
  | connection (socket : Nat) (customData : Nat)
deriving DecidableEq, Repr

/-- One `epoll_event` reported by `epoll_wait`: the descriptor, whether one of
`EPOLLERR`, `EPOLLHUP`, `EPOLLRDHUP` is set (`hangup`), whether `EPOLLOUT` is set,
whether `EPOLLIN` is set; and the answers of the OS to the calls made while it is
handled: the return value of `recv` (`none` for `-1`), the count stored by
`ioctl(FIONREAD)` (`none` when `ioctl` returns `-1`), the outcome of `accept`. -/
structure Ready where
  fd : Nat
  hangup : Bool
  writable : Bool
  readable : Bool
  recv : Option Nat
  available : Option Int
  accepted : AcceptOutcome
deriving DecidableEq, Repr

/-- The outcome of a `write` call: the count returned, `-1` with `EAGAIN`, or `-1` with
another error. -/
inductive WriteOutcome where
  | written (count : Nat)
  | again
  | failed
deriving DecidableEq, Repr

/-- The class `SocketTCP` with the members that `select`, `signal` and `initialize` use
besides those of the write path (`tcp`): the three descriptors, whether a connect and
an accept callback are set, the read callback (`none` for a null function; the calls it
makes on the reactor, from the connection, the count and the tag), and the outcome of
the OS `write` by number of logged events, descriptor and value. -/
structure Reactor where
  tcp : SocketTCP
  epollFd : Option Nat
  listenSocket : Option Nat
  eventFd : Option Nat
  hasConnectCallback : Bool
  hasAcceptCallback : Bool
  readCallback : Option (Nat → Nat → Nat → List ReactorOp)
  osWrite : Nat → Option Nat → Nat → WriteOutcome

namespace Reactor

/-- The error of `select` for an event on a descriptor that is not in the table. -/
def notFoundError (fd : Nat) : Result :=
  Result.make "socket_error" "socket \x7b\x7d not found" [showNat fd]

/-- The body of the loop `for (int i = 0; i < total; i++)` of `select` for one event:
`Flow.returned r` when `select` returns `r` from inside the body, `Flow.done` when the
loop goes on; the value stored in `*totalSockets` inside the body, if any; and the new
state. -/
def handleEvent (r : Reactor) (e : Ready) : Flow Unit × Option Nat × Reactor :=
  if e.hangup then
    match r.tcp.find e.fd with
    | none => (Flow.returned (notFoundError e.fd), none, { r with tcp := r.tcp.close e.fd })
    | some peer =>
      let t1 :=
        if peer.status = Status.Connecting ∧ e.recv = none ∧ r.hasConnectCallback = true then
          r.tcp.emit [ReactorEvent.connectCalled
            (Result.make "socket_error" "`recv()` method error: \x7b\x7d" [r.tcp.osError])
            peer.socket]
        else r.tcp
      (Flow.returned Result.ok, some 1, { r with tcp := t1.close peer.socket })
  else if some e.fd = r.listenSocket then
    match e.accepted with
    | AcceptOutcome.wouldBlock => (Flow.done (), none, r)
    | AcceptOutcome.failed =>
      (Flow.returned
        (Result.make "socket_error" "`accept()` method error: \x7b\x7d" [r.tcp.osError]), none, r)
    | AcceptOutcome.fcntlFailed =>
      (Flow.returned
        (Result.make "socket_error" "`fcntl()` method error: \x7b\x7d" [r.tcp.osError]), none, r)
    | AcceptOutcome.setsockoptFailed =>
      (Flow.returned
        (Result.make "socket_error" "`setsockopt()` method error: \x7b\x7d" [r.tcp.osError]),
        none, r)
    | AcceptOutcome.connection socket customData =>
      let t1 := { r.tcp with
        peerSockets := ⟨Status.Connected, socket, 0, []⟩ :: (r.tcp.erase socket).peerSockets }
      match t1.setEvent socket EpollOp.add true false with
      | (result, t2) =>
        if result.isError then (Flow.returned result, none, { r with tcp := t2 })
        else if r.hasAcceptCallback then
          (Flow.done (), none,
            { r with tcp := ((t2.emit [ReactorEvent.acceptCalled socket]).modifyPeer socket
                (fun p => { p with customData := customData })) })
        else (Flow.done (), none, { r with tcp := t2 })
  else if e.writable then
    match r.tcp.handleWritable e.fd with
    | (Flow.returned result, t1) =>
      (Flow.returned result, if result.isError then none else some 1, { r with tcp := t1 })
    | (Flow.done _, t1) => (Flow.done (), none, { r with tcp := t1 })
  else if e.readable then
    if some e.fd = r.eventFd then
      match e.recv with
      | none =>
        (Flow.returned
          (Result.make "socket_error" "`read()` method error: \x7b\x7d" [r.tcp.osError]), none, r)
      | some _ => (Flow.done (), none, r)
    else
      match r.tcp.find e.fd with
      | none => (Flow.returned (notFoundError e.fd), none, { r with tcp := r.tcp.close e.fd })
      | some peer =>
        if peer.status = Status.Connecting then
          match e.recv with
          | none =>
            let t1 :=
              if r.hasConnectCallback then
                r.tcp.emit [ReactorEvent.connectCalled
                  (Result.make "socket_error" "`recv()` method error: \x7b\x7d" [r.tcp.osError])
                  peer.socket]
              else r.tcp
            (Flow.returned Result.ok, some 1, { r with tcp := t1.close peer.socket })
          | some _ =>
            let t1 :=
              if r.hasConnectCallback then
                r.tcp.emit [ReactorEvent.connectCalled Result.ok peer.socket]
              else r.tcp
            (Flow.done (), none,
              { r with tcp := (t1.modifyPeer peer.socket
                  (fun p => { p with status := Status.Connected })) })
        else
          match e.available with
          | none =>
            (Flow.returned
              (Result.make "socket_error" "`ioctl()` method error: \x7b\x7d" [r.tcp.osError]),
              none, r)
          | some count =>
            if count = 0 then
              (Flow.returned Result.ok, some 1, { r with tcp := r.tcp.close peer.socket })
            else if count > 0 then
              match r.readCallback with
              | some callback =>
                let t1 :=
                  (({ r.tcp with closedSocket := false }).emit
                    [ReactorEvent.readCalled peer.socket count.toNat peer.customData]).run
                    (callback peer.socket count.toNat peer.customData)
                if t1.closedSocket then (Flow.returned Result.ok, none, { r with tcp := t1 })
                else (Flow.done (), none, { r with tcp := t1 })
              | none => (Flow.done (), none, r)
            else (Flow.done (), none, r)
  else (Flow.done (), none, r)

/-- The loop `for (int i = 0; i < total; i++)` of `select` over the events still to
handle, and the statements after it: the result of `select`, the value stored in
`*totalSockets` if any, and the new state. -/
def selectLoop (total : Nat) : List Ready → Reactor → Result × Option Nat × Reactor
  | [], r => (Result.ok, some total, r)
  | e :: rest, r =>
    match r.handleEvent e with
    | (Flow.returned result, stored, r1) => (result, stored, r1)
    | (Flow.done _, _, r1) => selectLoop total rest r1

/-- The method `SocketTCP::select` (called with a `totalSockets` that is not null);
`wait` is what `epoll_wait` reports: `none` for `-1`, else the ready events. -/
def select (r : Reactor) (wait : Option (List Ready)) : Result × Option Nat × Reactor :=
  match wait with
  | none =>
    (Result.make "socket_error" "`epoll_wait()` method error: \x7b\x7d" [r.tcp.osError], none, r)
  | some [] => (Result.ok, some 0, r)
  | some (e :: rest) => r.selectLoop (e :: rest).length (e :: rest)

/-- The loop `do ... while (ret < 0 && errno == EAGAIN)` of `signal` with `fuel`
rounds at most: each round is one call `::write(epollFd, &val, sizeof(val))` with
`val = 0`. None when the rounds do not suffice. -/
def signalLoop : Nat → Reactor → Option Reactor
  | 0, _ => none
  | fuel + 1, r =>
    match r.osWrite r.tcp.events.length r.epollFd 0 with
    | WriteOutcome.written count =>
      some { r with tcp := r.tcp.emit [ReactorEvent.wrote r.epollFd 0 (some count)] }
    | WriteOutcome.failed =>
      some { r with tcp := r.tcp.emit [ReactorEvent.wrote r.epollFd 0 none] }
    | WriteOutcome.again =>
      signalLoop fuel { r with tcp := r.tcp.emit [ReactorEvent.wrote r.epollFd 0 none] }

/-- The method `SocketTCP::initialize`: `created` is what `epoll_create1` returns (`none`
for `-1`), `event` what `eventfd(0, EFD_NONBLOCK)` returns. The event descriptor is
registered for `EPOLLIN` (with `EPOLLHUP`, `EPOLLERR`, `EPOLLET`). -/
def startup (r : Reactor) (created : Option Nat) (event : Nat) : Result × Reactor :=
  match created with
  | none =>
    (Result.make "socket_error" "`epoll_create1()` method error: \x7b\x7d" [r.tcp.osError],
      { r with epollFd := none })
  | some fd =>
    match r.tcp.setEvent event EpollOp.add true false with
    | (result, t1) =>
      if result.isError then (result, { r with epollFd := some fd, eventFd := some event, tcp := t1 })
      else (Result.ok, { r with epollFd := some fd, eventFd := some event, tcp := t1 })

end Reactor

/-- The total that the `write` calls of a log have added to the counter of the eventfd
object behind the descriptor `fd`: a `write` on an eventfd that succeeds adds the
integer written to the counter. The counter starts at the value given to `eventfd`
(zero in `initialize`), nothing else raises it, and the descriptor is readable when the
counter is greater than zero. -/
def eventAdded (fd : Nat) : List ReactorEvent → Nat
  | [] => 0
  | ReactorEvent.wrote (some d) value (some _) :: rest =>
    (if d = fd then value else 0) + eventAdded fd rest
  | _ :: rest => eventAdded fd rest

/-- The state after the body of the loop of `select` has run for each event of a list
and the loop has gone on after each of them; none when `select` returns from inside the
body for one of them. -/
def Reactor.handleAll : List Ready → Reactor → Option Reactor
  | [], r => some r
  | e :: rest, r =>
    match r.handleEvent e with
    | (Flow.done _, _, r1) => Reactor.handleAll rest r1
    | (Flow.returned _, _, _) => none

/-- A reactor with two connections: `5`, with one byte queued, and `6`, with two bytes
queued. `send` fails for a length of one byte and takes everything otherwise; the read
callback closes the connection it is called for. -/
def loopReactor : Reactor :=
  { tcp :=
      { peerSockets :=
          [⟨Status.Connected, 5, 0, [⟨[1], 0, some 1, 7⟩]⟩,
            ⟨Status.Connected, 6, 0, [⟨[7, 8], 0, some 3, 9⟩]⟩]
        hasCloseCallback := true
        closedSocket := false
        events := []
        osSend := fun _ size => if size = 1 then none else some size
        osCtl := fun _ => true
        osError := "errno=104 (Connection reset by peer)" }
    epollFd := some 3
    listenSocket := some 4
    eventFd := some 10
    hasConnectCallback := false
    hasAcceptCallback := false
    readCallback := some (fun socket _ _ => [ReactorOp.close socket])
    osWrite := fun _ _ _ => WriteOutcome.failed }

/-- A hang-up of the peer of connection `5`. -/
def hangup5 : Ready := ⟨5, true, false, false, none, none, AcceptOutcome.wouldBlock⟩

/-- Read-readiness of connection `5` with no byte to read. -/
def empty5 : Ready := ⟨5, false, false, true, none, some 0, AcceptOutcome.wouldBlock⟩

/-- Read-readiness of connection `5` with four bytes to read. -/
def data5 : Ready := ⟨5, false, false, true, none, some 4, AcceptOutcome.wouldBlock⟩

/-- Write-readiness of connection `5`. -/
def writable5 : Ready := ⟨5, false, true, false, none, none, AcceptOutcome.wouldBlock⟩

/-- Write-readiness of connection `6`. -/
def writable6 : Ready := ⟨6, false, true, false, none, none, AcceptOutcome.wouldBlock⟩

/-- The reactor `loopReactor` before `initialize`: no epoll descriptor and no event
descriptor yet. -/
def freshReactor : Reactor := { loopReactor with epollFd := none, eventFd := none }

/-! # Properties -/

theorem isError_ok : Result.ok.isError = false := by decide

theorem SerialPort.read_deliver (sp : SerialPort) (n size : Nat) (h : sp.opened = true) :
    sp.read (ReadStep.deliver n) size =
      (Result.ok, sp.rx.take (min n size),
        { sp with rx := sp.rx.drop (min n size)
                  trace := sp.trace ++ [SerialEvent.read size (sp.rx.take (min n size))] }) := by
  unfold SerialPort.read
  simp [h]

theorem receivedBytes_nil : receivedBytes [] = [] := rfl

theorem receivedBytes_cons_read (size : Nat) (data : List Byte) (evs : List SerialEvent) :
    receivedBytes (SerialEvent.read size data :: evs) = data ++ receivedBytes evs := rfl

theorem receivedBytes_append (a b : List SerialEvent) :
    receivedBytes (a ++ b) = receivedBytes a ++ receivedBytes b := by
  simp [receivedBytes]

theorem receivedBytes_map_wrote (msgs : List (List Byte)) :
    receivedBytes (msgs.map SerialEvent.wrote) = [] := by
  induction msgs with
  | nil => rfl
  | cons a as ih =>
    simp only [List.map_cons]
    unfold receivedBytes at ih ⊢
    simp only [List.map_cons, List.flatten_cons, SerialEvent.received, ih, List.nil_append]

theorem frameReads_append (a : List SerialEvent) :
    ∀ (total : Nat) (b : List SerialEvent),
      FrameReads total a → FrameReads (total + (receivedBytes a).length) b →
      FrameReads total (a ++ b) := by
  induction a with
  | nil => intro total b _ hb; simpa [receivedBytes] using hb
  | cons e es ih =>
    intro total b ha hb
    cases e with
    | wrote buffer => simp [FrameReads] at ha
    | readFailed size => simp [FrameReads] at ha
    | read size data =>
      simp only [FrameReads] at ha
      obtain ⟨h1, h2, h3, h4⟩ := ha
      simp only [List.cons_append, FrameReads]
      refine ⟨h1, h2, h3, ih _ b h4 ?_⟩
      simpa [receivedBytes_cons_read, Nat.add_assoc] using hb

theorem afterReads_afterReads (s : LiteVNA) (a b : List Byte) (t u : Nat)
    (e1 e2 : List SerialEvent) :
    (s.afterReads a t e1).afterReads b u e2 = s.afterReads b (t + u) (e1 ++ e2) := by
  simp [LiteVNA.afterReads, Nat.add_assoc]

theorem readFrame_deliver (start : Nat) (clock : Nat → Nat)
    (hclock : ∀ j, ¬ ((start + 10000) % 2 ^ 64 < clock j % 2 ^ 64)) :
    ∀ (reads : List ReadStep) (s : LiteVNA) (buffer : List Byte) (total : Nat),
      s.clock = clock → s.serial.opened = true → ReadsDeliver reads →
      buffer.length ≤ 32 → total % 32 = buffer.length % 32 →
      32 - buffer.length ≤ s.serial.rx.length →
      32 - buffer.length ≤ reads.length →
      ∃ evs, evs.length ≤ 32 - buffer.length ∧ FrameReads total evs ∧
        receivedBytes evs = s.serial.rx.take (32 - buffer.length) ∧
        LiteVNA.readFrame start reads s buffer =
          some (Flow.done (buffer ++ s.serial.rx.take (32 - buffer.length)),
            s.afterReads (s.serial.rx.drop (32 - buffer.length)) evs.length evs,
            reads.drop evs.length) := by
  intro reads
  induction reads with
  | nil =>
    intro s buffer total hc ho _ hb _ _ hl
    simp at hl
    have h32 : buffer.length = 32 := by omega
    refine ⟨[], by simp, trivial, by simp [h32, receivedBytes], ?_⟩
    unfold LiteVNA.readFrame
    simp [fifoDataSize, h32, LiteVNA.afterReads]
  | cons step rest ih =>
    intro s buffer total hc ho hr hb htot hrx hl
    by_cases h32 : 32 ≤ buffer.length
    · have h0 : 32 - buffer.length = 0 := by omega
      refine ⟨[], by simp, trivial, by simp [h0, receivedBytes], ?_⟩
      unfold LiteVNA.readFrame
      simp [fifoDataSize, h32, h0, LiteVNA.afterReads]
    · obtain ⟨n, hn, rfl⟩ := hr step (List.mem_cons_self _ _)
      have hr' : ReadsDeliver rest := fun st hst => hr st (List.mem_cons_of_mem _ hst)
      set need := 32 - buffer.length with hneed
      set k := min n need with hk
      have hk1 : 1 ≤ k := by omega
      have hk2 : k ≤ need := by omega
      have hlen : (buffer ++ s.serial.rx.take k).length = buffer.length + k := by
        simp [List.length_take]; omega
      have hdata : (s.serial.rx.take k).length = k := by
        simp [List.length_take]; omega
      obtain ⟨evs, hm, hfr, hrecv, hrec⟩ := ih
        ({ s with serial := { s.serial with
                    rx := s.serial.rx.drop k
                    trace := s.serial.trace ++ [SerialEvent.read need (s.serial.rx.take k)] },
                  ticks := s.ticks + 1 })
        (buffer ++ s.serial.rx.take k) (total + k) hc ho hr'
        (by rw [hlen]; omega) (by rw [hlen]; omega)
        (by rw [hlen]; simp [List.length_drop]; omega)
        (by rw [hlen]; simp at hl; omega)
      have e1 : 32 - (buffer.length + k) = need - k := by omega
      have e2 : List.take k s.serial.rx ++ List.take (need - k) (List.drop k s.serial.rx)
          = List.take need s.serial.rx := by
        have : need = k + (need - k) := by omega
        conv_rhs => rw [this, List.take_add]
      have e3 : k + (need - k) = need := by omega
      refine ⟨SerialEvent.read need (s.serial.rx.take k) :: evs, ?_, ?_, ?_, ?_⟩
      · rw [hlen] at hm; simp only [List.length_cons]; omega
      · simp only [FrameReads]
        refine ⟨by omega, by omega, by omega, ?_⟩
        rw [hdata]; exact hfr
      · rw [receivedBytes_cons_read, hrecv, hlen, e1]
        exact e2
      · have hread : s.serial.read (ReadStep.deliver n) (fifoDataSize - buffer.length) =
            (Result.ok, s.serial.rx.take k,
              { s.serial with rx := s.serial.rx.drop k
                              trace := s.serial.trace ++ [SerialEvent.read need (s.serial.rx.take k)] }) := by
          exact SerialPort.read_deliver s.serial n _ ho
        have hcl := hclock s.ticks
        rw [← hc] at hcl
        rw [LiteVNA.readFrame]
        simp only [fifoDataSize, h32, if_false]
        simp only [fifoDataSize] at hread
        rw [hread]
        simp only [isError_ok, LiteVNA.nowMilliseconds, hcl, if_false, Bool.false_eq_true]
        rw [hrec, hlen]
        simp only [LiteVNA.afterReads, e1, List.append_assoc, List.drop_drop, List.drop_succ_cons,
          e2, e3, Nat.add_assoc, Nat.add_comm 1 evs.length, List.length_cons, List.singleton_append]

theorem readFrames_frames (fm : FloatModel) (points : Nat) :
    ∀ (frames : List (List Byte)) (remaining : Nat) (reads : List ReadStep) (s : LiteVNA)
      (values : ScanValues fm) (rest : List Byte) (total : Nat),
      (frames.length = remaining ∨
        (frames.length ≤ remaining ∧ ∃ r, (storeFrames fm points frames values).1 = Flow.returned r)) →
      s.serial.opened = true → ReadsDeliver reads → NoTimeout s.clock →
      (∀ f ∈ frames, f.length = 32) → s.serial.rx = frames.flatten ++ rest →
      32 * frames.length ≤ reads.length → total % 32 = 0 →
      ∃ t evs, evs.length ≤ 32 * (storeFrames fm points frames values).2.2 ∧
        FrameReads total evs ∧
        receivedBytes evs = (frames.take (storeFrames fm points frames values).2.2).flatten ∧
        LiteVNA.readFrames fm points remaining reads s values =
          some ((storeFrames fm points frames values).1, (storeFrames fm points frames values).2.1,
            s.afterReads ((frames.drop (storeFrames fm points frames values).2.2).flatten ++ rest)
              t evs,
            reads.drop evs.length) := by
  intro frames
  induction frames with
  | nil =>
    intro remaining reads s values rest total hrem _ _ _ _ hrx _ _
    have h0 : remaining = 0 := by
      rcases hrem with h | ⟨_, r, hr⟩
      · exact h.symm
      · simp [storeFrames] at hr
    subst h0
    refine ⟨0, [], by simp, trivial, by simp [receivedBytes], ?_⟩
    simp at hrx
    simp [LiteVNA.readFrames, storeFrames, LiteVNA.afterReads, ← hrx]
  | cons f fs ih =>
    intro remaining reads s values rest total hrem ho hr hnt hlen hrx hl htot
    have hf : f.length = 32 := hlen f (List.mem_cons_self _ _)
    have hfs : ∀ g ∈ fs, g.length = 32 := fun g hg => hlen g (List.mem_cons_of_mem _ hg)
    obtain ⟨n, rfl⟩ : ∃ n, remaining = n + 1 := by
      rcases hrem with h | ⟨h, _⟩
      · exact ⟨fs.length, by simpa using h.symm⟩
      · exact ⟨remaining - 1, by simp at h; omega⟩
    simp only [List.length_cons] at hl hrem
    obtain ⟨ev0, hm0, hfr0, hrecv0, hframe⟩ := readFrame_deliver (s.clock s.ticks % 2 ^ 64) s.clock
      (fun j => hnt s.ticks j) reads ({ s with ticks := s.ticks + 1 }) [] total rfl ho hr
      (by simp) (by simpa using htot) (by simp [hrx, hf]) (by simp; omega)
    have htake : List.take 32 s.serial.rx = f := by
      rw [hrx, List.flatten_cons, List.append_assoc, ← hf, List.take_left]
    have hdrop : List.drop 32 s.serial.rx = fs.flatten ++ rest := by
      rw [hrx, List.flatten_cons, List.append_assoc, ← hf, List.drop_left]
    simp only [List.length_nil, Nat.sub_zero, List.nil_append] at hframe hm0 hrecv0
    change LiteVNA.readFrame (s.clock s.ticks % 2 ^ 64) reads ({ s with ticks := s.ticks + 1 }) [] = _ at hframe
    change receivedBytes ev0 = List.take 32 s.serial.rx at hrecv0
    rw [htake, hdrop] at hframe
    rw [htake] at hrecv0
    rw [LiteVNA.readFrames]
    simp only [LiteVNA.nowMilliseconds]
    rw [hframe]
    simp only [storeFrames] at hrem ⊢
    have hr' : ReadsDeliver (reads.drop ev0.length) :=
      fun st hst => hr st (List.mem_of_mem_drop hst)
    cases hst : storeFrame fm points f values with
    | error r =>
      refine ⟨1 + ev0.length, ev0, by simp; omega, hfr0, by simp [hrecv0], ?_⟩
      simp [LiteVNA.afterReads, Nat.add_assoc]
    | ok values2 =>
      rw [hst] at hrem
      rcases hsf : storeFrames fm points fs values2 with ⟨fl, v3, c⟩
      have hrem' : fs.length = n ∨
          (fs.length ≤ n ∧ ∃ r, (storeFrames fm points fs values2).1 = Flow.returned r) := by
        rcases hrem with h | ⟨h, r, hr⟩
        · left; omega
        · right; refine ⟨by omega, r, ?_⟩
          simpa [hsf] using hr
      obtain ⟨t, evs, hm, hfr, hrecv, hrec⟩ := ih n (reads.drop ev0.length)
        (LiteVNA.afterReads { s with ticks := s.ticks + 1 } (fs.flatten ++ rest) ev0.length ev0)
        values2 rest (total + 32)
        hrem' ho hr' hnt hfs rfl (by simp; omega) (by omega)
      simp only [hsf] at hrec hm hrecv ⊢
      refine ⟨1 + ev0.length + t, ev0 ++ evs, by simp; omega, ?_, ?_, ?_⟩
      · apply frameReads_append _ _ _ hfr0
        rw [hrecv0, hf]; exact hfr
      · rw [receivedBytes_append, hrecv0, hrecv]; simp
      · rw [hrec]
        simp [LiteVNA.afterReads, Nat.add_assoc]

theorem write_ok (s : LiteVNA) (buffer : List Byte) (h : WritesSucceed s) :
    s.write buffer = (Result.ok, s.afterWrites [buffer]) := by
  obtain ⟨ho, hw⟩ := h
  simp [LiteVNA.write, SerialPort.write, ho, hw, LiteVNA.afterWrites]

theorem writesSucceed_afterWrites (s : LiteVNA) (msgs : List (List Byte)) (h : WritesSucceed s) :
    WritesSucceed (s.afterWrites msgs) := h

theorem writesSucceed_afterReads (s : LiteVNA) (rx1 : List Byte) (t : Nat)
    (evs : List SerialEvent) (h : WritesSucceed s) :
    WritesSucceed (s.afterReads rx1 t evs) := h

theorem afterWrites_afterWrites (s : LiteVNA) (a b : List (List Byte)) :
    (s.afterWrites a).afterWrites b = s.afterWrites (a ++ b) := by
  simp [LiteVNA.afterWrites]

theorem scan_setup (fm : FloatModel) (s : LiteVNA) (reads : List ReadStep)
    (start step points : Nat) (values : ScanValues fm) (h : WritesSucceed s) :
    LiteVNA.scan fm s reads start step points values =
      match LiteVNA.readFrames fm points points reads
          (s.afterWrites (scanSetupMessages start step points)) (values.resize points) with
      | none => none
      | some (Flow.returned r, values8, s8, reads8) => some (r, values8, s8, reads8)
      | some (Flow.done _, values8, s8, reads8) =>
        match s8.clearFifo with
        | (r9, s9) =>
        if r9.isError then some (r9, values8, s9, reads8) else
        match s9.leaveDataMode with
        | (r10, s10) =>
        if r10.isError then some (r10, values8, s10, reads8) else
        some (Result.ok, values8, s10, reads8) := by
  unfold LiteVNA.scan
  simp only [LiteVNA.clearFifo, LiteVNA.enterDataMode, LiteVNA.sendCmdWrite8, LiteVNA.sendCmdWrite2,
    LiteVNA.readFifo]
  rw [write_ok s _ h]
  simp only [isError_ok, Bool.false_eq_true, if_false]
  rw [write_ok _ _ (writesSucceed_afterWrites _ _ h)]
  simp only [isError_ok, Bool.false_eq_true, if_false, afterWrites_afterWrites]
  rw [write_ok _ _ (writesSucceed_afterWrites _ _ h)]
  simp only [isError_ok, Bool.false_eq_true, if_false, afterWrites_afterWrites]
  rw [write_ok _ _ (writesSucceed_afterWrites _ _ h)]
  simp only [isError_ok, Bool.false_eq_true, if_false, afterWrites_afterWrites]
  rw [write_ok _ _ (writesSucceed_afterWrites _ _ h)]
  simp only [isError_ok, Bool.false_eq_true, if_false, afterWrites_afterWrites]
  rw [write_ok _ _ (writesSucceed_afterWrites _ _ h)]
  simp only [isError_ok, Bool.false_eq_true, if_false, afterWrites_afterWrites]
  rw [write_ok _ _ (writesSucceed_afterWrites _ _ h)]
  simp only [isError_ok, Bool.false_eq_true, if_false, afterWrites_afterWrites]
  rfl

/-- Outcome of `scan` in an environment where writes succeed, reads deliver and no
deadline passes, in terms of the frames the device sends. -/
theorem scan_frames (fm : FloatModel) (s : LiteVNA) (reads : List ReadStep)
    (start step points : Nat) (values : ScanValues fm) (frames : List (List Byte))
    (rest : List Byte)
    (hw : WritesSucceed s) (hr : ReadsDeliver reads) (hnt : NoTimeout s.clock)
    (hrem : frames.length = points ∨ (frames.length ≤ points ∧
      ∃ r, (storeFrames fm points frames (values.resize points)).1 = Flow.returned r))
    (hlen : ∀ f ∈ frames, f.length = 32) (hrx : s.serial.rx = frames.flatten ++ rest)
    (hl : 32 * frames.length ≤ reads.length) :
    ∃ t evs, evs.length ≤ 32 * (storeFrames fm points frames (values.resize points)).2.2 ∧
      FrameReads 0 evs ∧
      receivedBytes evs =
        (frames.take (storeFrames fm points frames (values.resize points)).2.2).flatten ∧
      LiteVNA.scan fm s reads start step points values =
        some (match (storeFrames fm points frames (values.resize points)).1 with
          | Flow.returned r =>
            (r, (storeFrames fm points frames (values.resize points)).2.1,
              (s.afterWrites (scanSetupMessages start step points)).afterReads
                ((frames.drop (storeFrames fm points frames (values.resize points)).2.2).flatten
                  ++ rest) t evs,
              reads.drop evs.length)
          | Flow.done _ =>
            (Result.ok, (storeFrames fm points frames (values.resize points)).2.1,
              ((s.afterWrites (scanSetupMessages start step points)).afterReads
                ((frames.drop (storeFrames fm points frames (values.resize points)).2.2).flatten
                  ++ rest) t evs).afterWrites scanFinishMessages,
              reads.drop evs.length)) := by
  obtain ⟨t, evs, hm, hfr, hrecv, hloop⟩ := readFrames_frames fm points frames points reads
    (s.afterWrites (scanSetupMessages start step points)) (values.resize points) rest 0
    hrem hw.1 hr hnt hlen hrx hl rfl
  refine ⟨t, evs, hm, hfr, hrecv, ?_⟩
  rw [scan_setup fm s reads start step points values hw, hloop]
  rcases hsf : storeFrames fm points frames (values.resize points) with ⟨fl, v, c⟩
  cases fl with
  | returned r => rfl
  | done u =>
    simp only [LiteVNA.clearFifo, LiteVNA.leaveDataMode]
    have hw2 : WritesSucceed ((s.afterWrites (scanSetupMessages start step points)).afterReads
        ((frames.drop c).flatten ++ rest) t evs) := hw
    rw [write_ok _ _ hw2]
    simp only [isError_ok, Bool.false_eq_true, if_false]
    rw [write_ok _ _ (writesSucceed_afterWrites _ _ hw2)]
    simp only [isError_ok, Bool.false_eq_true, if_false, afterWrites_afterWrites]
    rfl

theorem xor_mod_two_pow (x y n : Nat) : (x ^^^ y) % 2 ^ n = (x % 2 ^ n) ^^^ (y % 2 ^ n) := by
  apply Nat.eq_of_testBit_eq
  intro i
  simp only [Nat.testBit_mod_two_pow, Nat.testBit_xor]
  by_cases h : i < n <;> simp [h]

theorem or_mod_two_pow (x y n : Nat) : (x ||| y) % 2 ^ n = (x % 2 ^ n) ||| (y % 2 ^ n) := by
  apply Nat.eq_of_testBit_eq
  intro i
  simp only [Nat.testBit_mod_two_pow, Nat.testBit_or]
  by_cases h : i < n <;> simp [h]

theorem checksumStep_eq_spec (c : Nat) (b : Byte) : checksumStep c b = specChecksumStep c b := by
  have h256 : (256 : Nat) = 2 ^ 8 := by norm_num
  unfold checksumStep specChecksumStep trunc8
  simp only [h256, xor_mod_two_pow, or_mod_two_pow, Nat.mod_mod]

theorem computeChecksum_eq_spec (buffer : List Byte) :
    computeChecksum buffer = specChecksum (checksummedBytes buffer) := by
  unfold computeChecksum specChecksum checksummedBytes
  rw [List.foldl_map]
  have : (fun c i => checksumStep c (byteAt buffer i)) =
      (fun c i => specChecksumStep c (byteAt buffer i)) := by
    funext c i; exact checksumStep_eq_spec c _
  rw [this]; rfl

theorem invalidFrequencyIndex_ne_invalidChecksum (idx c : Nat) :
    invalidFrequencyIndex idx ≠ invalidChecksum c := by
  intro h
  have h2 := congrArg (fun r => r.description.data) h
  simp [invalidFrequencyIndex, invalidChecksum, Result.make, su.format, su.formatAux] at h2

/-- C1: the checksum `scan` computes over bytes 0..30 of a frame is the left fold with
seed 0x46 and step `((c XOR ((c << 1) OR 1)) XOR b) mod 256`, it equals the fold in
8-bit arithmetic that truncates every intermediate value, and the frame passes the
checksum test (the frame loop does not return the checksum error) exactly when that
value equals byte 31. -/
theorem C1_checksum_fold (fm : FloatModel) (points : Nat) (buffer : List Byte)
    (values : ScanValues fm) :
    computeChecksum buffer =
        (checksummedBytes buffer).foldl
          (fun c b => ((c ^^^ ((c <<< 1) ||| 1)) ^^^ b.val) % 256) 0x46 ∧
      computeChecksum buffer = specChecksum (checksummedBytes buffer) ∧
      ((∀ c, storeFrame fm points buffer values ≠ Except.error (invalidChecksum c)) ↔
        specChecksum (checksummedBytes buffer) = (byteAt buffer 31).val) := by
  refine ⟨?_, computeChecksum_eq_spec buffer, ?_⟩
  · unfold computeChecksum checksummedBytes
    rw [List.foldl_map]
    rfl
  · rw [← computeChecksum_eq_spec]
    constructor
    · intro h
      by_contra hne
      apply h (computeChecksum buffer)
      unfold storeFrame
      rw [if_pos]
      exact hne
    · intro heq c
      unfold storeFrame
      rw [if_neg (by simpa [frameChecksumField] using heq)]
      split
      · intro h
        injection h with h
        exact invalidFrequencyIndex_ne_invalidChecksum _ _ h
      · intro h; cases h

theorem storeFrame_valid (fm : FloatModel) (points : Nat) (f : List Byte) (values : ScanValues fm)
    (h : ValidFrame points f) : storeFrame fm points f values = Except.ok (storeValues fm values f) := by
  obtain ⟨_, hc, hi⟩ := h
  unfold storeFrame storeValues
  rw [if_neg (by simpa using hc), if_neg (by omega)]

theorem storeFrames_valid (fm : FloatModel) (points : Nat) :
    ∀ (frames : List (List Byte)) (values : ScanValues fm),
      (∀ f ∈ frames, ValidFrame points f) →
      storeFrames fm points frames values =
        (Flow.done (), frames.foldl (storeValues fm) values, frames.length) := by
  intro frames
  induction frames with
  | nil => intro values _; rfl
  | cons f fs ih =>
    intro values h
    rw [storeFrames, storeFrame_valid fm points f values (h f (List.mem_cons_self _ _))]
    simp only []
    rw [ih _ (fun g hg => h g (List.mem_cons_of_mem _ hg))]
    rfl

theorem storeFrames_append (fm : FloatModel) (points : Nat) :
    ∀ (good more : List (List Byte)) (values : ScanValues fm),
      (∀ f ∈ good, ValidFrame points f) →
      storeFrames fm points (good ++ more) values =
        ((storeFrames fm points more (good.foldl (storeValues fm) values)).1,
         (storeFrames fm points more (good.foldl (storeValues fm) values)).2.1,
         good.length + (storeFrames fm points more (good.foldl (storeValues fm) values)).2.2) := by
  intro good
  induction good with
  | nil => intro more values _; simp
  | cons f fs ih =>
    intro more values h
    rw [List.cons_append, storeFrames,
      storeFrame_valid fm points f values (h f (List.mem_cons_self _ _))]
    simp only []
    rw [ih _ _ (fun g hg => h g (List.mem_cons_of_mem _ hg))]
    simp only [List.foldl_cons, List.length_cons]
    congr 2
    omega

/-! ### Stores by index -/

theorem foldl_set_length {α β : Type} (idx : β → Nat) (g : β → α) :
    ∀ (fs : List β) (l : List α),
      (fs.foldl (fun l f => l.set (idx f) (g f)) l).length = l.length := by
  intro fs
  induction fs with
  | nil => intro l; rfl
  | cons f fs ih => intro l; simp [ih]

theorem foldl_set_getElem?_of_not_mem {α β : Type} (idx : β → Nat) (g : β → α) (i : Nat) :
    ∀ (fs : List β) (l : List α), i ∉ fs.map idx →
      (fs.foldl (fun l f => l.set (idx f) (g f)) l)[i]? = l[i]? := by
  intro fs
  induction fs with
  | nil => intro l _; rfl
  | cons f fs ih =>
    intro l h
    simp only [List.map_cons, List.mem_cons, not_or] at h
    simp only [List.foldl_cons]
    rw [ih _ h.2, List.getElem?_set_ne (Ne.symm h.1)]

theorem foldl_set_getElem?_of_mem {α β : Type} (idx : β → Nat) (g : β → α) :
    ∀ (fs : List β) (l : List α) (f : β), (fs.map idx).Nodup → f ∈ fs → idx f < l.length →
      (fs.foldl (fun l f => l.set (idx f) (g f)) l)[idx f]? = some (g f) := by
  intro fs
  induction fs with
  | nil => intro l f _ hf; cases hf
  | cons a as ih =>
    intro l f hnd hf hlt
    simp only [List.map_cons, List.nodup_cons] at hnd
    simp only [List.foldl_cons]
    rcases List.mem_cons.mp hf with rfl | hmem
    · rw [foldl_set_getElem?_of_not_mem idx g _ _ _ hnd.1]
      exact List.getElem?_set_self hlt
    · exact ih _ f hnd.2 hmem (by simpa using hlt)

theorem foldl_storeValues_channel0Out (fm : FloatModel) :
    ∀ (fs : List (List Byte)) (values : ScanValues fm),
      (fs.foldl (storeValues fm) values).channel0Out =
        fs.foldl (fun l f => l.set (freqIndex f) (out0 fm f)) values.channel0Out := by
  intro fs
  induction fs with
  | nil => intro values; rfl
  | cons f fs ih => intro values; simp only [List.foldl_cons]; rw [ih]; rfl

theorem foldl_storeValues_channel0In (fm : FloatModel) :
    ∀ (fs : List (List Byte)) (values : ScanValues fm),
      (fs.foldl (storeValues fm) values).channel0In =
        fs.foldl (fun l f => l.set (freqIndex f) (in0 fm f)) values.channel0In := by
  intro fs
  induction fs with
  | nil => intro values; rfl
  | cons f fs ih => intro values; simp only [List.foldl_cons]; rw [ih]; rfl

theorem foldl_storeValues_channel1In (fm : FloatModel) :
    ∀ (fs : List (List Byte)) (values : ScanValues fm),
      (fs.foldl (storeValues fm) values).channel1In =
        fs.foldl (fun l f => l.set (freqIndex f) (in1 fm f)) values.channel1In := by
  intro fs
  induction fs with
  | nil => intro values; rfl
  | cons f fs ih => intro values; simp only [List.foldl_cons]; rw [ih]; rfl

theorem resize_length (fm : FloatModel) (l : List (Cplx fm)) (n : Nat) :
    (resize fm l n).length = n := by
  simp [resize, List.length_take]; omega

/-- Two lists of length `n` filled by stores at the indices of frame lists that are
reorderings of one another, the indices covering `0 .. n-1`, are equal. -/
theorem foldl_set_eq_of_perm {α : Type} (g : List Byte → α) (n : Nat)
    (fs₁ fs₂ : List (List Byte)) (l₁ l₂ : List α)
    (hidx : (fs₁.map freqIndex).Perm (List.range n)) (hperm : fs₂.Perm fs₁)
    (h₁ : l₁.length = n) (h₂ : l₂.length = n) :
    fs₁.foldl (fun l f => l.set (freqIndex f) (g f)) l₁ =
      fs₂.foldl (fun l f => l.set (freqIndex f) (g f)) l₂ := by
  have hnd₁ : (fs₁.map freqIndex).Nodup := hidx.nodup_iff.mpr (List.nodup_range n)
  have hnd₂ : (fs₂.map freqIndex).Nodup := (hperm.map freqIndex).nodup_iff.mpr hnd₁
  apply List.ext_getElem?
  intro i
  by_cases hi : i < n
  · have hmem : i ∈ fs₁.map freqIndex := hidx.mem_iff.mpr (List.mem_range.mpr hi)
    obtain ⟨f, hf, rfl⟩ := List.mem_map.mp hmem
    rw [foldl_set_getElem?_of_mem freqIndex g fs₁ l₁ f hnd₁ hf (by omega),
      foldl_set_getElem?_of_mem freqIndex g fs₂ l₂ f hnd₂ (hperm.mem_iff.mpr hf) (by omega)]
  · rw [List.getElem?_eq_none (by rw [foldl_set_length]; omega),
      List.getElem?_eq_none (by rw [foldl_set_length]; omega)]

theorem validFrame_of_perm_range (points : Nat) (frames : List (List Byte))
    (hlen : ∀ f ∈ frames, f.length = 32)
    (hck : ∀ f ∈ frames, computeChecksum f = frameChecksumField f)
    (hidx : (frames.map freqIndex).Perm (List.range points)) :
    ∀ f ∈ frames, ValidFrame points f := by
  intro f hf
  refine ⟨hlen f hf, hck f hf, ?_⟩
  exact List.mem_range.mp (hidx.mem_iff.mp (List.mem_map_of_mem _ hf))

theorem scan_valid_frames (fm : FloatModel) (s : LiteVNA) (reads : List ReadStep)
    (start step points : Nat) (values : ScanValues fm) (frames : List (List Byte))
    (rest : List Byte)
    (hw : WritesSucceed s) (hr : ReadsDeliver reads) (hnt : NoTimeout s.clock)
    (hn : frames.length = points) (hv : ∀ f ∈ frames, ValidFrame points f)
    (hrx : s.serial.rx = frames.flatten ++ rest) (hl : 32 * points ≤ reads.length) :
    ∃ t evs, evs.length ≤ 32 * points ∧ FrameReads 0 evs ∧ receivedBytes evs = frames.flatten ∧
      LiteVNA.scan fm s reads start step points values =
        some (Result.ok, frames.foldl (storeValues fm) (values.resize points),
          ((s.afterWrites (scanSetupMessages start step points)).afterReads rest t evs).afterWrites
            scanFinishMessages,
          reads.drop evs.length) := by
  obtain ⟨t, evs, hm, hfr, hrecv, hscan⟩ := scan_frames fm s reads start step points values
    frames rest hw hr hnt (Or.inl hn) (fun f hf => (hv f hf).1) hrx (by rw [hn]; exact hl)
  rw [storeFrames_valid fm points frames _ hv] at hm hrecv hscan
  simp only [List.take_length, List.drop_length, List.flatten_nil, List.nil_append] at hm hrecv hscan
  exact ⟨t, evs, by rw [← hn]; exact hm, hfr, hrecv, hscan⟩

/-- C2: when the device sends `points` checksum-valid frames whose `freqIndex` values are
a permutation of `0 .. points-1`, `scan` succeeds and returns three sequences of length
`points` in which the entry at index `freqIndex f` is computed from frame `f`; a scan
of any reordering of the same frames (whatever the caller's initial `ScanValues`)
returns the same `ScanValues`. -/
theorem C2_values_by_freq_index (fm : FloatModel) (s₁ s₂ : LiteVNA) (reads₁ reads₂ : List ReadStep)
    (start step points : Nat) (values₁ values₂ : ScanValues fm)
    (frames₁ frames₂ : List (List Byte)) (rest₁ rest₂ : List Byte)
    (hw₁ : WritesSucceed s₁) (hr₁ : ReadsDeliver reads₁) (hnt₁ : NoTimeout s₁.clock)
    (hw₂ : WritesSucceed s₂) (hr₂ : ReadsDeliver reads₂) (hnt₂ : NoTimeout s₂.clock)
    (hlen : ∀ f ∈ frames₁, f.length = 32)
    (hck : ∀ f ∈ frames₁, computeChecksum f = frameChecksumField f)
    (hidx : (frames₁.map freqIndex).Perm (List.range points))
    (hperm : frames₂.Perm frames₁)
    (hrx₁ : s₁.serial.rx = frames₁.flatten ++ rest₁)
    (hrx₂ : s₂.serial.rx = frames₂.flatten ++ rest₂)
    (hl₁ : 32 * points ≤ reads₁.length) (hl₂ : 32 * points ≤ reads₂.length) :
    ∃ v s₁' r₁' s₂' r₂',
      LiteVNA.scan fm s₁ reads₁ start step points values₁ = some (Result.ok, v, s₁', r₁') ∧
      LiteVNA.scan fm s₂ reads₂ start step points values₂ = some (Result.ok, v, s₂', r₂') ∧
      v.channel0Out.length = points ∧ v.channel0In.length = points ∧
      v.channel1In.length = points ∧
      ∀ f ∈ frames₁,
        v.channel0Out[freqIndex f]? = some (out0 fm f) ∧
        v.channel0In[freqIndex f]? = some (in0 fm f) ∧
        v.channel1In[freqIndex f]? = some (in1 fm f) := by
  have hv₁ := validFrame_of_perm_range points frames₁ hlen hck hidx
  have hv₂ : ∀ f ∈ frames₂, ValidFrame points f := fun f hf => hv₁ f (hperm.mem_iff.mp hf)
  have hn₁ : frames₁.length = points := by
    have := hidx.length_eq
    simpa using this
  have hn₂ : frames₂.length = points := by rw [hperm.length_eq, hn₁]
  have hnd : (frames₁.map freqIndex).Nodup := hidx.nodup_iff.mpr (List.nodup_range points)
  obtain ⟨t₁, e₁, _, _, _, hs₁⟩ := scan_valid_frames fm s₁ reads₁ start step points values₁
    frames₁ rest₁ hw₁ hr₁ hnt₁ hn₁ hv₁ hrx₁ hl₁
  obtain ⟨t₂, e₂, _, _, _, hs₂⟩ := scan_valid_frames fm s₂ reads₂ start step points values₂
    frames₂ rest₂ hw₂ hr₂ hnt₂ hn₂ hv₂ hrx₂ hl₂
  have heq : frames₁.foldl (storeValues fm) (values₁.resize points) =
      frames₂.foldl (storeValues fm) (values₂.resize points) := by
    have h0 := foldl_set_eq_of_perm (out0 fm) points frames₁ frames₂
      (values₁.resize points).channel0Out (values₂.resize points).channel0Out hidx hperm
      (resize_length _ _ _) (resize_length _ _ _)
    have h1 := foldl_set_eq_of_perm (in0 fm) points frames₁ frames₂
      (values₁.resize points).channel0In (values₂.resize points).channel0In hidx hperm
      (resize_length _ _ _) (resize_length _ _ _)
    have h2 := foldl_set_eq_of_perm (in1 fm) points frames₁ frames₂
      (values₁.resize points).channel1In (values₂.resize points).channel1In hidx hperm
      (resize_length _ _ _) (resize_length _ _ _)
    rw [← foldl_storeValues_channel0Out, ← foldl_storeValues_channel0Out] at h0
    rw [← foldl_storeValues_channel0In, ← foldl_storeValues_channel0In] at h1
    rw [← foldl_storeValues_channel1In, ← foldl_storeValues_channel1In] at h2
    cases hA : frames₁.foldl (storeValues fm) (values₁.resize points)
    cases hB : frames₂.foldl (storeValues fm) (values₂.resize points)
    rw [hA, hB] at h0 h1 h2
    simp only at h0 h1 h2
    rw [h0, h1, h2]
  refine ⟨frames₁.foldl (storeValues fm) (values₁.resize points), _, _, _, _, hs₁,
    by rw [heq]; exact hs₂, ?_, ?_, ?_, ?_⟩
  · rw [foldl_storeValues_channel0Out, foldl_set_length]; exact resize_length _ _ _
  · rw [foldl_storeValues_channel0In, foldl_set_length]; exact resize_length _ _ _
  · rw [foldl_storeValues_channel1In, foldl_set_length]; exact resize_length _ _ _
  · intro f hf
    have hlt : freqIndex f < points := (hv₁ f hf).2.2
    refine ⟨?_, ?_, ?_⟩
    · rw [foldl_storeValues_channel0Out]
      exact foldl_set_getElem?_of_mem freqIndex (out0 fm) frames₁ _ f hnd hf
        (by rw [show (values₁.resize points).channel0Out.length = points from resize_length _ _ _]; exact hlt)
    · rw [foldl_storeValues_channel0In]
      exact foldl_set_getElem?_of_mem freqIndex (in0 fm) frames₁ _ f hnd hf
        (by rw [show (values₁.resize points).channel0In.length = points from resize_length _ _ _]; exact hlt)
    · rw [foldl_storeValues_channel1In]
      exact foldl_set_getElem?_of_mem freqIndex (in1 fm) frames₁ _ f hnd hf
        (by rw [show (values₁.resize points).channel1In.length = points from resize_length _ _ _]; exact hlt)




theorem demoDevice_writesSucceed (rx : List Byte) : WritesSucceed (demoDevice rx) :=
  ⟨rfl, fun _ _ => rfl⟩

theorem demoDevice_noTimeout (rx : List Byte) : NoTimeout (demoDevice rx).clock := by
  intro i j
  show ¬ ((1000 % 2 ^ 64 + 10000) % 2 ^ 64 < 1000 % 2 ^ 64)
  decide

theorem readsDeliver_replicate (k n : Nat) (h : 0 < n) :
    ReadsDeliver (List.replicate k (ReadStep.deliver n)) :=
  fun _ hst => ⟨n, h, List.eq_of_mem_replicate hst⟩

/-- Witness of C2: two points, frames sent in the order 0, 1 to one device (in reads of 7
bytes) and in the order 1, 0 to another (in reads of up to 100 bytes). -/
theorem C2_values_by_freq_index_witness :
    ∃ v s₁' r₁' s₂' r₂',
      LiteVNA.scan symModel (demoDevice ([frameA, frameB].flatten ++ []))
        (List.replicate 64 (ReadStep.deliver 7)) 4300000000 10000000 2 (emptyValues symModel)
          = some (Result.ok, v, s₁', r₁') ∧
      LiteVNA.scan symModel (demoDevice ([frameB, frameA].flatten ++ [9, 9]))
        (List.replicate 64 (ReadStep.deliver 100)) 4300000000 10000000 2 (emptyValues symModel)
          = some (Result.ok, v, s₂', r₂') ∧
      v.channel0Out.length = 2 ∧ v.channel0In.length = 2 ∧ v.channel1In.length = 2 ∧
      ∀ f ∈ [frameA, frameB],
        v.channel0Out[freqIndex f]? = some (out0 symModel f) ∧
        v.channel0In[freqIndex f]? = some (in0 symModel f) ∧
        v.channel1In[freqIndex f]? = some (in1 symModel f) :=
  C2_values_by_freq_index symModel (demoDevice ([frameA, frameB].flatten ++ []))
    (demoDevice ([frameB, frameA].flatten ++ [9, 9]))
    (List.replicate 64 (ReadStep.deliver 7)) (List.replicate 64 (ReadStep.deliver 100))
    4300000000 10000000 2 (emptyValues symModel) (emptyValues symModel)
    [frameA, frameB] [frameB, frameA] [] [9, 9]
    (demoDevice_writesSucceed _) (readsDeliver_replicate 64 7 (by decide)) (demoDevice_noTimeout _)
    (demoDevice_writesSucceed _) (readsDeliver_replicate 64 100 (by decide)) (demoDevice_noTimeout _)
    (by decide) (by decide) (by decide) (List.Perm.swap _ _ _) rfl rfl (by decide) (by decide)

/-- Outcome of `scan` when the device sends the valid frames `good` and then a frame the
frame loop rejects with `r`. -/
theorem scan_rejected_frame (fm : FloatModel) (s : LiteVNA) (reads : List ReadStep)
    (start step points : Nat) (values : ScanValues fm) (good : List (List Byte))
    (bad rest : List Byte) (r : Result)
    (hw : WritesSucceed s) (hr : ReadsDeliver reads) (hnt : NoTimeout s.clock)
    (hgood : ∀ f ∈ good, ValidFrame points f) (hk : good.length < points)
    (hblen : bad.length = 32)
    (hbad : ∀ v, storeFrame fm points bad v = Except.error r)
    (hrx : s.serial.rx = (good ++ [bad]).flatten ++ rest)
    (hl : 32 * (good.length + 1) ≤ reads.length) :
    ∃ t evs, evs.length ≤ 32 * (good.length + 1) ∧ FrameReads 0 evs ∧
      receivedBytes evs = (good ++ [bad]).flatten ∧
      LiteVNA.scan fm s reads start step points values =
        some (r, good.foldl (storeValues fm) (values.resize points),
          (s.afterWrites (scanSetupMessages start step points)).afterReads rest t evs,
          reads.drop evs.length) := by
  have hsf : storeFrames fm points (good ++ [bad]) (values.resize points) =
      (Flow.returned r, good.foldl (storeValues fm) (values.resize points), good.length + 1) := by
    rw [storeFrames_append fm points good [bad] _ hgood]
    simp only [storeFrames, hbad]
  obtain ⟨t, evs, hm, hfr, hrecv, hscan⟩ := scan_frames fm s reads start step points values
    (good ++ [bad]) rest hw hr hnt
    (Or.inr ⟨by simp; omega, r, by rw [hsf]⟩)
    (by
      intro f hf
      rcases List.mem_append.mp hf with h | h
      · exact (hgood f h).1
      · rw [List.mem_singleton.mp h]; exact hblen)
    hrx (by simpa using hl)
  rw [hsf] at hm hrecv hscan
  have hlen : (good ++ [bad]).length = good.length + 1 := by simp
  simp only [← hlen, List.take_length, List.drop_length, List.flatten_nil, List.nil_append]
    at hm hrecv hscan
  exact ⟨t, evs, by rw [← hlen]; exact hm, hfr, hrecv, hscan⟩

/-- C3: when the device has sent valid frames that were accepted and then sends a
checksum-valid frame whose `freqIndex` is at least `points`, `scan` fails with code
`lite_vna_error` and a description that begins `Invalid Frequency Index`, and the scan
values are those left by the accepted frames: nothing is stored for that frame. -/
theorem C3_invalid_frequency_index (fm : FloatModel) (s : LiteVNA) (reads : List ReadStep)
    (start step points : Nat) (values : ScanValues fm) (good : List (List Byte))
    (bad rest : List Byte)
    (hw : WritesSucceed s) (hr : ReadsDeliver reads) (hnt : NoTimeout s.clock)
    (hgood : ∀ f ∈ good, ValidFrame points f) (hk : good.length < points)
    (hblen : bad.length = 32) (hbck : computeChecksum bad = frameChecksumField bad)
    (hbidx : points ≤ freqIndex bad)
    (hrx : s.serial.rx = (good ++ [bad]).flatten ++ rest)
    (hl : 32 * (good.length + 1) ≤ reads.length) :
    ∃ r s' reads',
      LiteVNA.scan fm s reads start step points values =
        some (r, good.foldl (storeValues fm) (values.resize points), s', reads') ∧
      r.code = "lite_vna_error" ∧
      (∃ tail, r.description = "Invalid Frequency Index" ++ tail) ∧
      r.description = "Invalid Frequency Index `" ++ showNat (freqIndex bad) ++ "`" := by
  have hbad : ∀ v, storeFrame fm points bad v =
      Except.error (invalidFrequencyIndex (freqIndex bad)) := by
    intro v
    unfold storeFrame
    rw [if_neg (by simpa using hbck), if_pos hbidx]
  obtain ⟨t, evs, _, _, _, hscan⟩ := scan_rejected_frame fm s reads start step points values
    good bad rest _ hw hr hnt hgood hk hblen hbad hrx hl
  exact ⟨_, _, _, hscan, rfl, ⟨_, rfl⟩, rfl⟩

/-- Example frame: valid checksum, `freqIndex = 2`, sent in a sweep of 2 points. -/
theorem C3_invalid_frequency_index_witness :
    ∃ r s' reads',
      LiteVNA.scan symModel (demoDevice (([frameB] ++ [frameC]).flatten ++ frameA))
          (List.replicate 64 (ReadStep.deliver 5)) 4300000000 10000000 2 (emptyValues symModel) =
        some (r, [frameB].foldl (storeValues symModel) ((emptyValues symModel).resize 2),
          s', reads') ∧
      r.code = "lite_vna_error" ∧
      (∃ tail, r.description = "Invalid Frequency Index" ++ tail) ∧
      r.description = "Invalid Frequency Index `" ++ showNat (freqIndex frameC) ++ "`" :=
  C3_invalid_frequency_index symModel (demoDevice (([frameB] ++ [frameC]).flatten ++ frameA))
    (List.replicate 64 (ReadStep.deliver 5)) 4300000000 10000000 2 (emptyValues symModel)
    [frameB] frameC frameA
    (demoDevice_writesSucceed _) (readsDeliver_replicate 64 5 (by decide)) (demoDevice_noTimeout _)
    (by intro f hf; rw [List.mem_singleton.mp hf]; exact ⟨by decide, by decide, by decide⟩)
    (by decide) (by decide) (by decide) (by decide) rfl (by decide)

/-- C4: when the device has sent valid frames that were accepted and then sends a frame
whose checksum over bytes 0..30 differs from byte 31, `scan` returns code
`lite_vna_error` with a description that begins `Invalid Checksum`. The OS calls it has
made are the seven setup writes followed by reads only, which received exactly the
frames up to the rejected one: no byte after that frame is read (`rest` is still to be
delivered) and nothing is written after the reads, so the frame is not requested
again. -/
theorem C4_invalid_checksum (fm : FloatModel) (s : LiteVNA) (reads : List ReadStep)
    (start step points : Nat) (values : ScanValues fm) (good : List (List Byte))
    (bad rest : List Byte)
    (hw : WritesSucceed s) (hr : ReadsDeliver reads) (hnt : NoTimeout s.clock)
    (hgood : ∀ f ∈ good, ValidFrame points f) (hk : good.length < points)
    (hblen : bad.length = 32) (hbck : computeChecksum bad ≠ frameChecksumField bad)
    (hrx : s.serial.rx = (good ++ [bad]).flatten ++ rest)
    (hl : 32 * (good.length + 1) ≤ reads.length) :
    ∃ r v s' evs,
      LiteVNA.scan fm s reads start step points values =
        some (r, v, s', reads.drop evs.length) ∧
      r.code = "lite_vna_error" ∧
      (∃ tail, r.description = "Invalid Checksum" ++ tail) ∧
      s'.serial.trace = s.serial.trace ++
        (scanSetupMessages start step points).map SerialEvent.wrote ++ evs ∧
      FrameReads 0 evs ∧ receivedBytes evs = (good ++ [bad]).flatten ∧
      evs.length ≤ 32 * (good.length + 1) ∧
      s'.serial.rx = rest := by
  have hbad : ∀ v, storeFrame fm points bad v =
      Except.error (invalidChecksum (computeChecksum bad)) := by
    intro v
    unfold storeFrame
    rw [if_pos hbck]
  obtain ⟨t, evs, hm, hfr, hrecv, hscan⟩ := scan_rejected_frame fm s reads start step points
    values good bad rest _ hw hr hnt hgood hk hblen hbad hrx hl
  exact ⟨_, _, _, evs, hscan, rfl, ⟨_, rfl⟩, rfl, hfr, hrecv, hm, rfl⟩

/-- Witness of C4: a sweep of 2 points in which the second frame has a wrong checksum
byte and is followed by further bytes. -/
theorem C4_invalid_checksum_witness :
    ∃ r v s' evs,
      LiteVNA.scan symModel (demoDevice (([frameB] ++ [frameBad]).flatten ++ frameA))
          (List.replicate 64 (ReadStep.deliver 5)) 4300000000 10000000 2 (emptyValues symModel) =
        some (r, v, s', (List.replicate 64 (ReadStep.deliver 5)).drop evs.length) ∧
      r.code = "lite_vna_error" ∧
      (∃ tail, r.description = "Invalid Checksum" ++ tail) ∧
      s'.serial.trace = (demoDevice (([frameB] ++ [frameBad]).flatten ++ frameA)).serial.trace ++
        (scanSetupMessages 4300000000 10000000 2).map SerialEvent.wrote ++ evs ∧
      FrameReads 0 evs ∧ receivedBytes evs = ([frameB] ++ [frameBad]).flatten ∧
      evs.length ≤ 32 * ([frameB].length + 1) ∧
      s'.serial.rx = frameA :=
  C4_invalid_checksum symModel (demoDevice (([frameB] ++ [frameBad]).flatten ++ frameA))
    (List.replicate 64 (ReadStep.deliver 5)) 4300000000 10000000 2 (emptyValues symModel)
    [frameB] frameBad frameA
    (demoDevice_writesSucceed _) (readsDeliver_replicate 64 5 (by decide)) (demoDevice_noTimeout _)
    (by intro f hf; rw [List.mem_singleton.mp hf]; exact ⟨by decide, by decide, by decide⟩)
    (by decide) (by decide) (by decide) rfl (by decide)

theorem frameReads_written (evs : List SerialEvent) :
    ∀ total, FrameReads total evs → evs.filterMap SerialEvent.written = [] := by
  induction evs with
  | nil => intro _ _; rfl
  | cons e es ih =>
    intro total h
    cases e with
    | wrote buffer => simp [FrameReads] at h
    | readFailed size => simp [FrameReads] at h
    | read size data =>
      simp only [FrameReads] at h
      simp only [List.filterMap_cons, SerialEvent.written]
      exact ih _ h.2.2.2

theorem filterMap_written_map_wrote (msgs : List (List Byte)) :
    (msgs.map SerialEvent.wrote).filterMap SerialEvent.written = msgs := by
  induction msgs with
  | nil => rfl
  | cons m ms ih => simp [SerialEvent.written, ih]

/-- The OS calls of a successful `scan`, with the payloads as the memory images that
`sendCmdWrite8` and `sendCmdWrite2` store. -/
theorem scan_trace (fm : FloatModel) (s : LiteVNA) (reads : List ReadStep)
    (start step points : Nat) (values : ScanValues fm) (frames : List (List Byte))
    (rest : List Byte)
    (hw : WritesSucceed s) (hr : ReadsDeliver reads) (hnt : NoTimeout s.clock)
    (hn : frames.length = points) (hv : ∀ f ∈ frames, ValidFrame points f)
    (hrx : s.serial.rx = frames.flatten ++ rest) (hl : 32 * points ≤ reads.length) :
    ∃ v s' evs,
      LiteVNA.scan fm s reads start step points values =
        some (Result.ok, v, s', reads.drop evs.length) ∧
      FrameReads 0 evs ∧ receivedBytes evs = frames.flatten ∧
      s'.serial.trace = s.serial.trace ++
        [SerialEvent.wrote [0, 0, 0, 0, 0, 0, 0, 0],
         SerialEvent.wrote [0x20, 0x26, 0x03],
         SerialEvent.wrote ([0x23, 0x00] ++ littleEndian 8 start),
         SerialEvent.wrote ([0x23, 0x10] ++ littleEndian 8 step),
         SerialEvent.wrote ([0x21, 0x20] ++ littleEndian 2 points),
         SerialEvent.wrote [0x21, 0x22, 0x01, 0x00],
         SerialEvent.wrote [0x18, 0x30, 0x00]] ++ evs ++
        [SerialEvent.wrote [0, 0, 0, 0, 0, 0, 0, 0],
         SerialEvent.wrote [0x20, 0x26, 0x02]] ∧
      s'.serial.tx = s.serial.tx ++
        [[0, 0, 0, 0, 0, 0, 0, 0], [0x20, 0x26, 0x03],
         [0x23, 0x00] ++ littleEndian 8 start, [0x23, 0x10] ++ littleEndian 8 step,
         [0x21, 0x20] ++ littleEndian 2 points, [0x21, 0x22, 0x01, 0x00], [0x18, 0x30, 0x00],
         [0, 0, 0, 0, 0, 0, 0, 0], [0x20, 0x26, 0x02]] := by
  obtain ⟨t, evs, _, hfr, hrecv, hscan⟩ := scan_valid_frames fm s reads start step points values
    frames rest hw hr hnt hn hv hrx hl
  refine ⟨_, _, evs, hscan, hfr, hrecv, rfl, ?_⟩
  have hwr := frameReads_written evs 0 hfr
  simp only [SerialPort.tx, LiteVNA.afterWrites, LiteVNA.afterReads, List.filterMap_append,
    filterMap_written_map_wrote, hwr, List.append_nil, List.append_assoc]
  rfl

/-- The memory image of a `uint64_t` on the little-endian host, byte by byte. -/
theorem littleEndian_eight (v : Nat) :
    littleEndian 8 v =
      [Byte.ofNat v, Byte.ofNat (v / 256), Byte.ofNat (v / 256 ^ 2), Byte.ofNat (v / 256 ^ 3),
        Byte.ofNat (v / 256 ^ 4), Byte.ofNat (v / 256 ^ 5), Byte.ofNat (v / 256 ^ 6),
        Byte.ofNat (v / 256 ^ 7)] := by
  unfold littleEndian
  rw [show List.range 8 = [0, 1, 2, 3, 4, 5, 6, 7] from rfl]
  simp

/-- The memory image of a `uint16_t` on the little-endian host, byte by byte. -/
theorem littleEndian_two (v : Nat) :
    littleEndian 2 v = [Byte.ofNat v, Byte.ofNat (v / 256)] := by
  unfold littleEndian
  rw [show List.range 2 = [0, 1] from rfl]
  simp

/-- C5: on a run in which every serial write succeeds and the device sends `points`
valid frames, `scan` succeeds and the OS calls it makes on the port are, in this order:
writes of eight zero bytes; of `[0x20, 0x26, 0x03]`; of `[0x23, 0x00]` followed by the
8 little-endian bytes of `start` (byte `i` is `start / 256^i` truncated to 8 bits); of
`[0x23, 0x10]` followed by the 8 little-endian bytes of `step`; of `[0x21, 0x20]`
followed by the 2 little-endian bytes of `points`; of `[0x21, 0x22, 0x01, 0x00]`; of
`[0x18, 0x30, 0x00]`; then the reads that receive the frames; then writes of eight zero
bytes and of `[0x20, 0x26, 0x02]`. The buffers written are those nine, in that order. -/
theorem C5_bytes_written (fm : FloatModel) (s : LiteVNA) (reads : List ReadStep)
    (start step points : Nat) (values : ScanValues fm) (frames : List (List Byte))
    (rest : List Byte)
    (hw : WritesSucceed s) (hr : ReadsDeliver reads) (hnt : NoTimeout s.clock)
    (hn : frames.length = points) (hv : ∀ f ∈ frames, ValidFrame points f)
    (hrx : s.serial.rx = frames.flatten ++ rest) (hl : 32 * points ≤ reads.length) :
    ∃ v s' evs,
      LiteVNA.scan fm s reads start step points values =
        some (Result.ok, v, s', reads.drop evs.length) ∧
      FrameReads 0 evs ∧ receivedBytes evs = frames.flatten ∧
      s'.serial.trace = s.serial.trace ++
        [SerialEvent.wrote [0, 0, 0, 0, 0, 0, 0, 0],
         SerialEvent.wrote [0x20, 0x26, 0x03],
         SerialEvent.wrote [0x23, 0x00, Byte.ofNat start, Byte.ofNat (start / 256),
           Byte.ofNat (start / 256 ^ 2), Byte.ofNat (start / 256 ^ 3),
           Byte.ofNat (start / 256 ^ 4), Byte.ofNat (start / 256 ^ 5),
           Byte.ofNat (start / 256 ^ 6), Byte.ofNat (start / 256 ^ 7)],
         SerialEvent.wrote [0x23, 0x10, Byte.ofNat step, Byte.ofNat (step / 256),
           Byte.ofNat (step / 256 ^ 2), Byte.ofNat (step / 256 ^ 3),
           Byte.ofNat (step / 256 ^ 4), Byte.ofNat (step / 256 ^ 5),
           Byte.ofNat (step / 256 ^ 6), Byte.ofNat (step / 256 ^ 7)],
         SerialEvent.wrote [0x21, 0x20, Byte.ofNat points, Byte.ofNat (points / 256)],
         SerialEvent.wrote [0x21, 0x22, 0x01, 0x00],
         SerialEvent.wrote [0x18, 0x30, 0x00]] ++ evs ++
        [SerialEvent.wrote [0, 0, 0, 0, 0, 0, 0, 0],
         SerialEvent.wrote [0x20, 0x26, 0x02]] ∧
      s'.serial.tx = s.serial.tx ++
        [[0, 0, 0, 0, 0, 0, 0, 0], [0x20, 0x26, 0x03],
         [0x23, 0x00, Byte.ofNat start, Byte.ofNat (start / 256),
           Byte.ofNat (start / 256 ^ 2), Byte.ofNat (start / 256 ^ 3),
           Byte.ofNat (start / 256 ^ 4), Byte.ofNat (start / 256 ^ 5),
           Byte.ofNat (start / 256 ^ 6), Byte.ofNat (start / 256 ^ 7)],
         [0x23, 0x10, Byte.ofNat step, Byte.ofNat (step / 256),
           Byte.ofNat (step / 256 ^ 2), Byte.ofNat (step / 256 ^ 3),
           Byte.ofNat (step / 256 ^ 4), Byte.ofNat (step / 256 ^ 5),
           Byte.ofNat (step / 256 ^ 6), Byte.ofNat (step / 256 ^ 7)],
         [0x21, 0x20, Byte.ofNat points, Byte.ofNat (points / 256)],
         [0x21, 0x22, 0x01, 0x00], [0x18, 0x30, 0x00],
         [0, 0, 0, 0, 0, 0, 0, 0], [0x20, 0x26, 0x02]] := by
  obtain ⟨v, s', evs, hscan, hfr, hrecv, htrace, htx⟩ := scan_trace fm s reads start step
    points values frames rest hw hr hnt hn hv hrx hl
  rw [littleEndian_eight start, littleEndian_eight step, littleEndian_two points] at htrace htx
  exact ⟨v, s', evs, hscan, hfr, hrecv, htrace, htx⟩

/-- Witness of C5: a sweep of 2 points starting at 4.3 GHz (`0x1004CCB00`) in steps of
10 MHz (`0x989680`). -/
theorem C5_bytes_written_witness :
    ∃ v s' evs,
      LiteVNA.scan symModel (demoDevice ([frameB, frameA].flatten ++ []))
          (List.replicate 64 (ReadStep.deliver 5)) 4300000000 10000000 2 (emptyValues symModel) =
        some (Result.ok, v, s', (List.replicate 64 (ReadStep.deliver 5)).drop evs.length) ∧
      FrameReads 0 evs ∧ receivedBytes evs = [frameB, frameA].flatten ∧
      s'.serial.trace = (demoDevice ([frameB, frameA].flatten ++ [])).serial.trace ++
        [SerialEvent.wrote [0, 0, 0, 0, 0, 0, 0, 0],
         SerialEvent.wrote [0x20, 0x26, 0x03],
         SerialEvent.wrote [0x23, 0x00, 0x00, 0xCB, 0x4C, 0x00, 0x01, 0x00, 0x00, 0x00],
         SerialEvent.wrote [0x23, 0x10, 0x80, 0x96, 0x98, 0x00, 0x00, 0x00, 0x00, 0x00],
         SerialEvent.wrote [0x21, 0x20, 0x02, 0x00],
         SerialEvent.wrote [0x21, 0x22, 0x01, 0x00],
         SerialEvent.wrote [0x18, 0x30, 0x00]] ++ evs ++
        [SerialEvent.wrote [0, 0, 0, 0, 0, 0, 0, 0],
         SerialEvent.wrote [0x20, 0x26, 0x02]] ∧
      s'.serial.tx = (demoDevice ([frameB, frameA].flatten ++ [])).serial.tx ++
        [[0, 0, 0, 0, 0, 0, 0, 0], [0x20, 0x26, 0x03],
         [0x23, 0x00, 0x00, 0xCB, 0x4C, 0x00, 0x01, 0x00, 0x00, 0x00],
         [0x23, 0x10, 0x80, 0x96, 0x98, 0x00, 0x00, 0x00, 0x00, 0x00],
         [0x21, 0x20, 0x02, 0x00], [0x21, 0x22, 0x01, 0x00], [0x18, 0x30, 0x00],
         [0, 0, 0, 0, 0, 0, 0, 0], [0x20, 0x26, 0x02]] :=
  C5_bytes_written symModel (demoDevice ([frameB, frameA].flatten ++ []))
    (List.replicate 64 (ReadStep.deliver 5)) 4300000000 10000000 2 (emptyValues symModel)
    [frameB, frameA] []
    (demoDevice_writesSucceed _) (readsDeliver_replicate 64 5 (by decide)) (demoDevice_noTimeout _)
    rfl (by decide) rfl (by decide)

theorem littleEndian_example :
    littleEndian 8 4300000000 = [0x00, 0xCB, 0x4C, 0x00, 0x01, 0x00, 0x00, 0x00] ∧
    littleEndian 2 513 = [0x01, 0x02] := by decide

theorem int32At_eq_spec (f : List Byte) (off : Nat) :
    int32At f off =
      specInt32 (byteAt f off) (byteAt f (off + 1)) (byteAt f (off + 2)) (byteAt f (off + 3)) := by
  unfold int32At specInt32 toInt32 fromLittleEndian fromLittleEndian fromLittleEndian
    fromLittleEndian fromLittleEndian
  have h0 := (byteAt f off).isLt
  have h1 := (byteAt f (off + 1)).isLt
  have h2 := (byteAt f (off + 2)).isLt
  have h3 := (byteAt f (off + 3)).isLt
  generalize (byteAt f off).val = a at *
  generalize (byteAt f (off + 1)).val = b at *
  generalize (byteAt f (off + 2)).val = c at *
  generalize (byteAt f (off + 3)).val = d at *
  have e32 : (2 : Nat) ^ 32 = 4294967296 := by norm_num
  have e31 : (2 : Nat) ^ 31 = 2147483648 := by norm_num
  have e32i : (2 : Int) ^ 32 = 4294967296 := by norm_num
  rw [e32, e31, e32i]
  have hu : (a + 256 * (b + 256 * (c + 256 * (d + 256 * 0)))) % 4294967296 =
      a + 256 * b + 65536 * c + 16777216 * d := by omega
  rw [hu]
  by_cases hd : 128 ≤ d
  · rw [if_neg (by omega), if_pos hd]; push_cast; ring
  · rw [if_pos (by omega), if_neg hd]; push_cast; ring

theorem freqIndex_eq_spec (f : List Byte) :
    freqIndex f = specUInt16 (byteAt f 24) (byteAt f 25) := by
  unfold freqIndex specUInt16 fromLittleEndian fromLittleEndian fromLittleEndian
  omega

/-- C6: `scan` interprets each frame by the unpadded little-endian layout of the
specification (`decodeDeviceFrame`): the frame loop compares its checksum with the byte
at offset 31, and after a scan of `points` valid frames with distinct indices the entry
at the frame's `freqIndex` is `(ch0OutRe, ch0OutIm)` in `channel0Out`,
`(ch0InRe, ch0InIm) / (ch0OutRe, ch0OutIm)` in `channel0In` and
`(ch1InRe, ch1InIm) / (ch0OutRe, ch0OutIm)` in `channel1In`, each integer converted to
float and `/` the complex division. -/
theorem C6_frame_layout (fm : FloatModel) (s : LiteVNA) (reads : List ReadStep)
    (start step points : Nat) (values : ScanValues fm) (frames : List (List Byte))
    (rest : List Byte)
    (hw : WritesSucceed s) (hr : ReadsDeliver reads) (hnt : NoTimeout s.clock)
    (hlen : ∀ f ∈ frames, f.length = 32)
    (hck : ∀ f ∈ frames, computeChecksum f = (decodeDeviceFrame f).checksum)
    (hidx : (frames.map (fun f => (decodeDeviceFrame f).freqIndex)).Perm (List.range points))
    (hrx : s.serial.rx = frames.flatten ++ rest) (hl : 32 * points ≤ reads.length) :
    ∃ v s' reads',
      LiteVNA.scan fm s reads start step points values = some (Result.ok, v, s', reads') ∧
      ∀ f ∈ frames,
        v.channel0Out[(decodeDeviceFrame f).freqIndex]? =
          some (fm.ofInt32 (decodeDeviceFrame f).ch0OutRe, fm.ofInt32 (decodeDeviceFrame f).ch0OutIm) ∧
        v.channel0In[(decodeDeviceFrame f).freqIndex]? =
          some (fm.cdiv
            (fm.ofInt32 (decodeDeviceFrame f).ch0InRe, fm.ofInt32 (decodeDeviceFrame f).ch0InIm)
            (fm.ofInt32 (decodeDeviceFrame f).ch0OutRe, fm.ofInt32 (decodeDeviceFrame f).ch0OutIm)) ∧
        v.channel1In[(decodeDeviceFrame f).freqIndex]? =
          some (fm.cdiv
            (fm.ofInt32 (decodeDeviceFrame f).ch1InRe, fm.ofInt32 (decodeDeviceFrame f).ch1InIm)
            (fm.ofInt32 (decodeDeviceFrame f).ch0OutRe, fm.ofInt32 (decodeDeviceFrame f).ch0OutIm)) := by
  have hfi : (fun f => (decodeDeviceFrame f).freqIndex) = freqIndex := by
    funext f; exact (freqIndex_eq_spec f).symm
  rw [hfi] at hidx
  have hv := validFrame_of_perm_range points frames hlen hck hidx
  have hn : frames.length = points := by simpa using hidx.length_eq
  have hnd : (frames.map freqIndex).Nodup := hidx.nodup_iff.mpr (List.nodup_range points)
  obtain ⟨t, evs, _, _, _, hscan⟩ := scan_valid_frames fm s reads start step points values
    frames rest hw hr hnt hn hv hrx hl
  refine ⟨_, _, _, hscan, ?_⟩
  intro f hf
  have hlt : freqIndex f < points := (hv f hf).2.2
  have hf' : (decodeDeviceFrame f).freqIndex = freqIndex f := (freqIndex_eq_spec f).symm
  have e0 : (fm.ofInt32 (decodeDeviceFrame f).ch0OutRe, fm.ofInt32 (decodeDeviceFrame f).ch0OutIm)
      = out0 fm f := by
    simp only [out0, decodeDeviceFrame, int32At_eq_spec]
  have e1 : fm.cdiv
      (fm.ofInt32 (decodeDeviceFrame f).ch0InRe, fm.ofInt32 (decodeDeviceFrame f).ch0InIm)
      (fm.ofInt32 (decodeDeviceFrame f).ch0OutRe, fm.ofInt32 (decodeDeviceFrame f).ch0OutIm)
      = in0 fm f := by
    simp only [in0, out0, decodeDeviceFrame, int32At_eq_spec]
  have e2 : fm.cdiv
      (fm.ofInt32 (decodeDeviceFrame f).ch1InRe, fm.ofInt32 (decodeDeviceFrame f).ch1InIm)
      (fm.ofInt32 (decodeDeviceFrame f).ch0OutRe, fm.ofInt32 (decodeDeviceFrame f).ch0OutIm)
      = in1 fm f := by
    simp only [in1, out0, decodeDeviceFrame, int32At_eq_spec]
  rw [e1, e2, e0, hf']
  refine ⟨?_, ?_, ?_⟩
  · rw [foldl_storeValues_channel0Out]
    exact foldl_set_getElem?_of_mem freqIndex (out0 fm) frames _ f hnd hf
      (by rw [show (values.resize points).channel0Out.length = points from resize_length _ _ _]; exact hlt)
  · rw [foldl_storeValues_channel0In]
    exact foldl_set_getElem?_of_mem freqIndex (in0 fm) frames _ f hnd hf
      (by rw [show (values.resize points).channel0In.length = points from resize_length _ _ _]; exact hlt)
  · rw [foldl_storeValues_channel1In]
    exact foldl_set_getElem?_of_mem freqIndex (in1 fm) frames _ f hnd hf
      (by rw [show (values.resize points).channel1In.length = points from resize_length _ _ _]; exact hlt)

/-- Witness of C6: two frames, one with a negative `ch0OutRe` (bytes `FF FF FF FF`). -/
theorem C6_frame_layout_witness :
    (decodeDeviceFrame frameB).ch0OutRe = -1 ∧ (decodeDeviceFrame frameB).freqIndex = 1 ∧
    ∃ v s' reads',
      LiteVNA.scan symModel (demoDevice ([frameB, frameA].flatten ++ []))
          (List.replicate 64 (ReadStep.deliver 5)) 4300000000 10000000 2 (emptyValues symModel) =
        some (Result.ok, v, s', reads') ∧
      ∀ f ∈ [frameB, frameA],
        v.channel0Out[(decodeDeviceFrame f).freqIndex]? =
          some (symModel.ofInt32 (decodeDeviceFrame f).ch0OutRe,
            symModel.ofInt32 (decodeDeviceFrame f).ch0OutIm) ∧
        v.channel0In[(decodeDeviceFrame f).freqIndex]? =
          some (symModel.cdiv
            (symModel.ofInt32 (decodeDeviceFrame f).ch0InRe,
              symModel.ofInt32 (decodeDeviceFrame f).ch0InIm)
            (symModel.ofInt32 (decodeDeviceFrame f).ch0OutRe,
              symModel.ofInt32 (decodeDeviceFrame f).ch0OutIm)) ∧
        v.channel1In[(decodeDeviceFrame f).freqIndex]? =
          some (symModel.cdiv
            (symModel.ofInt32 (decodeDeviceFrame f).ch1InRe,
              symModel.ofInt32 (decodeDeviceFrame f).ch1InIm)
            (symModel.ofInt32 (decodeDeviceFrame f).ch0OutRe,
              symModel.ofInt32 (decodeDeviceFrame f).ch0OutIm)) :=
  ⟨by decide, by decide,
    C6_frame_layout symModel (demoDevice ([frameB, frameA].flatten ++ []))
      (List.replicate 64 (ReadStep.deliver 5)) 4300000000 10000000 2 (emptyValues symModel)
      [frameB, frameA] []
      (demoDevice_writesSucceed _) (readsDeliver_replicate 64 5 (by decide))
      (demoDevice_noTimeout _)
      (by decide) (by decide) (by decide) rfl (by decide)⟩

theorem flatten_length_of_frames (frames : List (List Byte)) (h : ∀ f ∈ frames, f.length = 32) :
    frames.flatten.length = 32 * frames.length := by
  induction frames with
  | nil => rfl
  | cons f fs ih =>
    rw [List.flatten_cons, List.length_append, h f (List.mem_cons_self _ _),
      ih (fun g hg => h g (List.mem_cons_of_mem _ hg)), List.length_cons]
    omega

/-- C7: when the device sends `points` valid frames (followed by any further bytes
`rest`), `scan` succeeds having consumed exactly `32 * points` bytes: the reads it made
received exactly the frames, in order, and left `rest` undelivered; each read asked for
exactly what the current frame still lacked (`FrameReads`: `32 - received % 32`) and
stored at least one and at most that many bytes, so a frame is continued across short
reads and no read reaches into the next frame; the values returned are those of the
`points` frames. -/
theorem C7_consumes_exact_frames (fm : FloatModel) (s : LiteVNA) (reads : List ReadStep)
    (start step points : Nat) (values : ScanValues fm) (frames : List (List Byte))
    (rest : List Byte)
    (hw : WritesSucceed s) (hr : ReadsDeliver reads) (hnt : NoTimeout s.clock)
    (hn : frames.length = points) (hv : ∀ f ∈ frames, ValidFrame points f)
    (hrx : s.serial.rx = frames.flatten ++ rest) (hl : 32 * points ≤ reads.length) :
    ∃ s' evs,
      LiteVNA.scan fm s reads start step points values =
        some (Result.ok, frames.foldl (storeValues fm) (values.resize points), s',
          reads.drop evs.length) ∧
      s'.serial.trace = s.serial.trace ++
        (scanSetupMessages start step points).map SerialEvent.wrote ++ evs ++
        scanFinishMessages.map SerialEvent.wrote ∧
      FrameReads 0 evs ∧
      receivedBytes evs = frames.flatten ∧
      (receivedBytes evs).length = 32 * points ∧
      s'.serial.rx = rest := by
  obtain ⟨t, evs, _, hfr, hrecv, hscan⟩ := scan_valid_frames fm s reads start step points values
    frames rest hw hr hnt hn hv hrx hl
  refine ⟨_, evs, hscan, ?_, hfr, hrecv, ?_, rfl⟩
  · simp [LiteVNA.afterWrites, LiteVNA.afterReads]
  · rw [hrecv, flatten_length_of_frames frames (fun f hf => (hv f hf).1), hn]

/-- Witness of C7: 3 frames delivered in reads of up to 7 bytes, followed by two stray
bytes that stay unread. -/
theorem C7_consumes_exact_frames_witness :
    ∃ s' evs,
      LiteVNA.scan symModel (demoDevice ([frameC, frameA, frameB].flatten ++ [1, 2]))
          (List.replicate 96 (ReadStep.deliver 7)) 4300000000 10000000 3 (emptyValues symModel) =
        some (Result.ok,
          [frameC, frameA, frameB].foldl (storeValues symModel) ((emptyValues symModel).resize 3),
          s', (List.replicate 96 (ReadStep.deliver 7)).drop evs.length) ∧
      s'.serial.trace =
        (demoDevice ([frameC, frameA, frameB].flatten ++ [1, 2])).serial.trace ++
        (scanSetupMessages 4300000000 10000000 3).map SerialEvent.wrote ++ evs ++
        scanFinishMessages.map SerialEvent.wrote ∧
      FrameReads 0 evs ∧
      receivedBytes evs = [frameC, frameA, frameB].flatten ∧
      (receivedBytes evs).length = 32 * 3 ∧
      s'.serial.rx = [1, 2] :=
  C7_consumes_exact_frames symModel (demoDevice ([frameC, frameA, frameB].flatten ++ [1, 2]))
    (List.replicate 96 (ReadStep.deliver 7)) 4300000000 10000000 3 (emptyValues symModel)
    [frameC, frameA, frameB] [1, 2]
    (demoDevice_writesSucceed _) (readsDeliver_replicate 96 7 (by decide)) (demoDevice_noTimeout _)
    rfl (by decide) rfl (by decide)

theorem readReply_deliver (s : LiteVNA) (n : Nat) (garbage b : Byte) (rest : List Byte)
    (ho : s.serial.opened = true) (hn : 0 < n) (hrx : s.serial.rx = b :: rest) :
    s.readReply (ReadStep.deliver n) garbage =
      (Result.ok, b, s.afterReads rest 0 [SerialEvent.read 1 [b]]) := by
  unfold LiteVNA.readReply
  rw [SerialPort.read_deliver _ _ _ ho]
  have h1 : min n 1 = 1 := by omega
  simp [h1, hrx, LiteVNA.afterReads]

theorem isError_make_lite_vna_error (d : String) (args : List String) :
    (Result.make "lite_vna_error" d args).isError = true := by
  simp [Result.make, Result.isError]
  decide

theorem checkIndicate_deliver (s : LiteVNA) (n : Nat) (more : List ReadStep) (garbage b : Byte)
    (rest : List Byte) (hw : WritesSucceed s) (hn : 0 < n) (hrx : s.serial.rx = b :: rest) :
    s.checkIndicate (ReadStep.deliver n :: more) garbage =
      some (if b ≠ 0x32 then Result.make "lite_vna_error"
          "Invalid device indicate, expected 0x32 but found 0x\x7b\x7d. Is LiteVNA connected to the correct com port?"
          [LiteVNA.toHex b] else Result.ok,
        (s.afterWrites [[0x0D]]).afterReads rest 0 [SerialEvent.read 1 [b]], more) := by
  unfold LiteVNA.checkIndicate
  rw [write_ok s _ hw]
  simp only [isError_ok, Bool.false_eq_true, if_false]
  rw [readReply_deliver (s.afterWrites [[0x0D]]) n garbage b rest hw.1 hn hrx]
  simp only [isError_ok, Bool.false_eq_true, if_false]
  split <;> rfl

theorem checkDeviceVariant_deliver (s : LiteVNA) (n : Nat) (more : List ReadStep)
    (garbage b : Byte) (rest : List Byte) (hw : WritesSucceed s) (hn : 0 < n)
    (hrx : s.serial.rx = b :: rest) :
    s.checkDeviceVariant (ReadStep.deliver n :: more) garbage =
      some (if b ≠ 0x02 then Result.make "lite_vna_error"
          "Invalid device variant, expected 0x02 but found 0x\x7b\x7d. Is LiteVNA connected to the correct com port?"
          [LiteVNA.toHex b] else Result.ok,
        (s.afterWrites [[0x10, 0xF0]]).afterReads rest 0 [SerialEvent.read 1 [b]], more) := by
  unfold LiteVNA.checkDeviceVariant
  rw [write_ok s _ hw]
  simp only [isError_ok, Bool.false_eq_true, if_false]
  rw [readReply_deliver (s.afterWrites [[0x10, 0xF0]]) n garbage b rest hw.1 hn hrx]
  simp only [isError_ok, Bool.false_eq_true, if_false]
  split <;> rfl

theorem checkProtocolVersion_deliver (s : LiteVNA) (n : Nat) (more : List ReadStep)
    (garbage b : Byte) (rest : List Byte) (hw : WritesSucceed s) (hn : 0 < n)
    (hrx : s.serial.rx = b :: rest) :
    s.checkProtocolVersion (ReadStep.deliver n :: more) garbage =
      some (if b ≠ 0x01 then Result.make "lite_vna_error"
          "Invalidprotocol version, expected 0x01 but found 0x\x7b\x7d."
          [LiteVNA.toHex b] else Result.ok,
        (s.afterWrites [[0x10, 0xF1]]).afterReads rest 0 [SerialEvent.read 1 [b]], more) := by
  unfold LiteVNA.checkProtocolVersion
  rw [write_ok s _ hw]
  simp only [isError_ok, Bool.false_eq_true, if_false]
  rw [readReply_deliver (s.afterWrites [[0x10, 0xF1]]) n garbage b rest hw.1 hn hrx]
  simp only [isError_ok, Bool.false_eq_true, if_false]
  split <;> rfl

theorem open_ok (sp : SerialPort) (h : sp.opened = true ∨ sp.osOpen = true) :
    sp.«open» = (Result.ok, { sp with opened := true }) := by
  unfold SerialPort.«open»
  by_cases ho : sp.opened = true
  · rw [if_pos ho]
    cases sp
    simp only at ho
    simp [ho]
  · rw [if_neg ho]
    have h2 : sp.osOpen = true := h.resolve_left ho
    simp [h2]

/-- C8: when the serial channel opens, every write succeeds and every read delivers
the reply byte, the handshake returns ok if and only if the three replies are 0x32,
0x02 and 0x01 in that order; at the first mismatching reply it returns code
`lite_vna_error`, and the buffers written stop at the command that reply answered:
no later handshake command is sent. -/
theorem C8_handshake (s : LiteVNA) (n1 n2 n3 : Nat) (more : List ReadStep) (garbage : Byte)
    (b1 b2 b3 : Byte) (rest : List Byte)
    (hopen : s.serial.opened = true ∨ s.serial.osOpen = true)
    (hwrite : ∀ k n, s.serial.osWrite k n = some n)
    (h1 : 0 < n1) (h2 : 0 < n2) (h3 : 0 < n3)
    (hrx : s.serial.rx = b1 :: b2 :: b3 :: rest) :
    ∃ r s' reads',
      s.startup (ReadStep.deliver n1 :: ReadStep.deliver n2 :: ReadStep.deliver n3 :: more)
        garbage = some (r, s', reads') ∧
      (r.isError = false ↔ (b1 = 0x32 ∧ b2 = 0x02 ∧ b3 = 0x01)) ∧
      (r = Result.ok ↔ (b1 = 0x32 ∧ b2 = 0x02 ∧ b3 = 0x01)) ∧
      (b1 ≠ 0x32 → r.code = "lite_vna_error" ∧
        s'.serial.tx = s.serial.tx ++ [[0, 0, 0, 0, 0, 0, 0, 0], [0x20, 0x26, 0x02], [0x0D]]) ∧
      (b1 = 0x32 → b2 ≠ 0x02 → r.code = "lite_vna_error" ∧
        s'.serial.tx = s.serial.tx ++
          [[0, 0, 0, 0, 0, 0, 0, 0], [0x20, 0x26, 0x02], [0x0D], [0x10, 0xF0]]) ∧
      (b1 = 0x32 → b2 = 0x02 → b3 ≠ 0x01 → r.code = "lite_vna_error" ∧
        s'.serial.tx = s.serial.tx ++
          [[0, 0, 0, 0, 0, 0, 0, 0], [0x20, 0x26, 0x02], [0x0D], [0x10, 0xF0], [0x10, 0xF1]]) := by
  have hw0 : WritesSucceed { s with serial := { s.serial with opened := true } } :=
    ⟨rfl, hwrite⟩
  have hne : ∀ (d : String) (args : List String),
      ¬ (Result.make "lite_vna_error" d args = Result.ok) := by
    intro d args h
    exact absurd (congrArg Result.code h) (by simp [Result.make, Result.ok])
  unfold LiteVNA.startup
  rw [open_ok s.serial hopen]
  simp only [isError_ok, Bool.false_eq_true, if_false, LiteVNA.clearFifo, LiteVNA.leaveDataMode]
  rw [write_ok _ _ hw0]
  simp only [isError_ok, Bool.false_eq_true, if_false]
  rw [write_ok _ _ (writesSucceed_afterWrites _ _ hw0)]
  simp only [isError_ok, Bool.false_eq_true, if_false, afterWrites_afterWrites]
  rw [checkIndicate_deliver _ n1 _ garbage b1 (b2 :: b3 :: rest)
    (writesSucceed_afterWrites _ _ hw0) h1 hrx]
  by_cases hb1 : b1 = 0x32
  · rw [if_neg (not_not.mpr hb1)]
    simp only [isError_ok, Bool.false_eq_true, if_false]
    rw [checkDeviceVariant_deliver _ n2 _ garbage b2 (b3 :: rest) ?_ h2 ?_]
    rotate_left
    · exact hw0
    · rfl
    by_cases hb2 : b2 = 0x02
    · rw [if_neg (not_not.mpr hb2)]
      simp only [isError_ok, Bool.false_eq_true, if_false]
      rw [checkProtocolVersion_deliver _ n3 _ garbage b3 rest ?_ h3 ?_]
      rotate_left
      · exact hw0
      · rfl
      by_cases hb3 : b3 = 0x01
      · rw [if_neg (not_not.mpr hb3)]
        exact ⟨_, _, _, rfl, by simp [isError_ok, hb1, hb2, hb3], by simp [hb1, hb2, hb3],
          fun h => absurd hb1 h, fun _ h => absurd hb2 h, fun _ _ h => absurd hb3 h⟩
      · rw [if_pos hb3]
        refine ⟨_, _, _, rfl, ?_, ?_, fun h => absurd hb1 h, fun _ h => absurd hb2 h,
          fun _ _ _ => ⟨rfl, ?_⟩⟩
        · rw [isError_make_lite_vna_error]; simp [hb3]
        · simp [hne, hb3]
        · simp [SerialPort.tx, LiteVNA.afterWrites, LiteVNA.afterReads, SerialEvent.written]
    · rw [if_pos hb2]
      simp only [isError_make_lite_vna_error, if_true]
      refine ⟨_, _, _, rfl, ?_, ?_, fun h => absurd hb1 h, fun _ _ => ⟨rfl, ?_⟩,
        fun _ h => absurd h hb2⟩
      · rw [isError_make_lite_vna_error]; simp [hb2]
      · simp [hne, hb2]
      · simp [SerialPort.tx, LiteVNA.afterWrites, LiteVNA.afterReads, SerialEvent.written]
  · rw [if_pos hb1]
    simp only [isError_make_lite_vna_error, if_true]
    refine ⟨_, _, _, rfl, ?_, ?_, fun _ => ⟨rfl, ?_⟩, fun h => absurd h hb1,
      fun h => absurd h hb1⟩
    · rw [isError_make_lite_vna_error]; simp [hb1]
    · simp [hne, hb1]
    · simp [SerialPort.tx, LiteVNA.afterWrites, LiteVNA.afterReads, SerialEvent.written]

/-- Witness of C8: a device that answers 0x32, 0xAB, 0x01: the variant reply is wrong. -/
theorem C8_handshake_witness :
    ∃ r s' reads',
      (demoDevice [0x32, 0xAB, 0x01]).startup
        (ReadStep.deliver 1 :: ReadStep.deliver 1 :: ReadStep.deliver 1 :: []) 0 =
          some (r, s', reads') ∧
      (r.isError = false ↔ ((0x32 : Byte) = 0x32 ∧ (0xAB : Byte) = 0x02 ∧ (0x01 : Byte) = 0x01)) ∧
      (r = Result.ok ↔ ((0x32 : Byte) = 0x32 ∧ (0xAB : Byte) = 0x02 ∧ (0x01 : Byte) = 0x01)) ∧
      ((0x32 : Byte) ≠ 0x32 → r.code = "lite_vna_error" ∧
        s'.serial.tx = (demoDevice [0x32, 0xAB, 0x01]).serial.tx ++
          [[0, 0, 0, 0, 0, 0, 0, 0], [0x20, 0x26, 0x02], [0x0D]]) ∧
      ((0x32 : Byte) = 0x32 → (0xAB : Byte) ≠ 0x02 → r.code = "lite_vna_error" ∧
        s'.serial.tx = (demoDevice [0x32, 0xAB, 0x01]).serial.tx ++
          [[0, 0, 0, 0, 0, 0, 0, 0], [0x20, 0x26, 0x02], [0x0D], [0x10, 0xF0]]) ∧
      ((0x32 : Byte) = 0x32 → (0xAB : Byte) = 0x02 → (0x01 : Byte) ≠ 0x01 →
        r.code = "lite_vna_error" ∧
        s'.serial.tx = (demoDevice [0x32, 0xAB, 0x01]).serial.tx ++
          [[0, 0, 0, 0, 0, 0, 0, 0], [0x20, 0x26, 0x02], [0x0D], [0x10, 0xF0], [0x10, 0xF1]]) :=
  C8_handshake (demoDevice [0x32, 0xAB, 0x01]) 1 1 1 [] 0 0x32 0xAB 0x01 []
    (Or.inl rfl) (fun _ _ => rfl) (by decide) (by decide) (by decide) rfl

/-- The inner loop of `scan` when, after some reads that neither fail nor fill the frame
nor pass the deadline, a read returns and the clock is then past the deadline. -/
theorem readFrame_timeout (start : Nat) :
    ∀ (pre : List ReadStep) (s : LiteVNA) (buffer : List Byte) (n : Nat) (more : List ReadStep),
      s.serial.opened = true → (∀ st ∈ pre, ∃ m, st = ReadStep.deliver m) →
      buffer.length + (pre.map ReadStep.offered).sum < 32 →
      (∀ i, i < pre.length → ¬ ((start + 10000) % 2 ^ 64 < s.clock (s.ticks + i) % 2 ^ 64)) →
      (start + 10000) % 2 ^ 64 < s.clock (s.ticks + pre.length) % 2 ^ 64 →
      ∃ s' evs,
        LiteVNA.readFrame start (pre ++ ReadStep.deliver n :: more) s buffer =
          some (Flow.returned LiteVNA.timeoutError, s', more) ∧
        s'.serial.trace = s.serial.trace ++ evs ∧ evs.length = pre.length + 1 ∧
        (∀ e ∈ evs, ∃ size data, e = SerialEvent.read size data) ∧
        evs.filterMap SerialEvent.written = [] := by
  intro pre
  induction pre with
  | nil =>
    intro s buffer n more ho _ hlen _ hlate
    simp only [List.map_nil, List.sum_nil, Nat.add_zero, List.length_nil] at hlen hlate
    refine ⟨LiteVNA.afterReads s (s.serial.rx.drop (min n (32 - buffer.length))) 1
        [SerialEvent.read (32 - buffer.length) (s.serial.rx.take (min n (32 - buffer.length)))],
      [SerialEvent.read (32 - buffer.length) (s.serial.rx.take (min n (32 - buffer.length)))],
      ?_, ?_, rfl, ?_, rfl⟩
    · rw [List.nil_append, LiteVNA.readFrame]
      simp only [fifoDataSize, Nat.not_le.mpr hlen, if_false]
      rw [SerialPort.read_deliver _ _ _ ho]
      simp only [isError_ok, Bool.false_eq_true, if_false, LiteVNA.nowMilliseconds, hlate, if_true]
      rfl
    · rfl
    · intro e he
      rw [List.mem_singleton.mp he]
      exact ⟨_, _, rfl⟩
  | cons st pre ih =>
    intro s buffer n more ho hpre hlen hfine hlate
    obtain ⟨m, rfl⟩ := hpre st (List.mem_cons_self _ _)
    simp only [List.map_cons, List.sum_cons, ReadStep.offered, List.length_cons] at hlen hlate
    have hlt : buffer.length < 32 := by omega
    have hdata : (s.serial.rx.take (min m (32 - buffer.length))).length ≤ m := by
      rw [List.length_take]; omega
    have h0 : ¬ ((start + 10000) % 2 ^ 64 < s.clock s.ticks % 2 ^ 64) := hfine 0 (by simp)
    obtain ⟨s', evs, hrun, htr, hevl, hevs, hwr⟩ := ih
      ({ s with serial := { s.serial with
                  rx := s.serial.rx.drop (min m (32 - buffer.length))
                  trace := s.serial.trace ++
                    [SerialEvent.read (32 - buffer.length)
                      (s.serial.rx.take (min m (32 - buffer.length)))] },
                ticks := s.ticks + 1 })
      (buffer ++ s.serial.rx.take (min m (32 - buffer.length))) n more ho
      (fun st hst => hpre st (List.mem_cons_of_mem _ hst))
      (by rw [List.length_append]; omega)
      (by
        intro i hi
        have := hfine (i + 1) (by simp; omega)
        simpa [Nat.add_assoc, Nat.add_comm 1 i] using this)
      (by simpa [Nat.add_assoc, Nat.add_comm 1 pre.length] using hlate)
    refine ⟨s', SerialEvent.read (32 - buffer.length)
      (s.serial.rx.take (min m (32 - buffer.length))) :: evs, ?_, ?_, ?_, ?_, ?_⟩
    · rw [List.cons_append, LiteVNA.readFrame]
      simp only [fifoDataSize, Nat.not_le.mpr hlt, if_false]
      rw [SerialPort.read_deliver _ _ _ ho]
      simp only [isError_ok, Bool.false_eq_true, if_false, LiteVNA.nowMilliseconds]
      rw [if_neg h0]
      exact hrun
    · rw [htr]; simp
    · simp [hevl]
    · intro e he
      rcases List.mem_cons.mp he with rfl | h
      · exact ⟨_, _, rfl⟩
      · exact hevs e h
    · simp [SerialEvent.written, hwr]

theorem readFrames_split (fm : FloatModel) (points : Nat) :
    ∀ (a b : Nat) (reads : List ReadStep) (s : LiteVNA) (values : ScanValues fm)
      (va : ScanValues fm) (sa : LiteVNA) (ra : List ReadStep),
      LiteVNA.readFrames fm points a reads s values = some (Flow.done (), va, sa, ra) →
      LiteVNA.readFrames fm points (a + b) reads s values =
        LiteVNA.readFrames fm points b ra sa va := by
  intro a
  induction a with
  | zero =>
    intro b reads s values va sa ra h
    simp only [LiteVNA.readFrames, Option.some.injEq, Prod.mk.injEq, true_and] at h
    obtain ⟨rfl, rfl, rfl⟩ := h
    simp
  | succ a ih =>
    intro b reads s values va sa ra h
    rw [Nat.succ_add]
    rw [LiteVNA.readFrames] at h ⊢
    simp only [LiteVNA.nowMilliseconds] at h ⊢
    cases hrf : LiteVNA.readFrame (s.clock s.ticks % 2 ^ 64) reads
        { serial := s.serial, clock := s.clock, ticks := s.ticks + 1 } [] with
    | none => rw [hrf] at h; simp at h
    | some res =>
      obtain ⟨fl, s2, r2⟩ := res
      rw [hrf] at h
      cases fl with
      | returned r => simp at h
      | done buffer =>
        simp only [] at h ⊢
        cases hst : storeFrame fm points buffer values with
        | error r => rw [hst] at h; simp at h
        | ok v2 =>
          rw [hst] at h
          simp only [] at h ⊢
          exact ih b r2 s2 v2 va sa ra h

/-- C9: while `scan` accumulates a frame (after `k < points` frames were accepted and
after reads `pre` that neither failed, nor filled the frame, nor passed the deadline),
if the clock observed after the next read is more than 10000 ms past the reading taken
when that frame was begun, `scan` returns code `lite_vna_error` with description
`Timeout reading LiteVNA Fifo data`; the remaining read outcomes `more` are left
unused and the OS calls made since the frame was begun are the `pre.length + 1` reads
only. The deadline refers to the reading `sk.clock sk.ticks` taken at the start of this
frame, whatever the clock did during earlier frames. -/
theorem C9_frame_deadline (fm : FloatModel) (s : LiteVNA) (reads : List ReadStep)
    (start step points : Nat) (values : ScanValues fm) (k : Nat) (vk : ScanValues fm)
    (sk : LiteVNA) (pre : List ReadStep) (n : Nat) (more : List ReadStep)
    (hw : WritesSucceed s) (hk : k < points)
    (hfirst : LiteVNA.readFrames fm points k reads
        (s.afterWrites (scanSetupMessages start step points)) (values.resize points) =
      some (Flow.done (), vk, sk, pre ++ ReadStep.deliver n :: more))
    (hopen : sk.serial.opened = true)
    (hpre : ∀ st ∈ pre, ∃ m, st = ReadStep.deliver m)
    (hshort : (pre.map ReadStep.offered).sum < 32)
    (hfine : ∀ i, i < pre.length →
      ¬ ((sk.clock sk.ticks % 2 ^ 64 + 10000) % 2 ^ 64 < sk.clock (sk.ticks + 1 + i) % 2 ^ 64))
    (hlate : sk.clock sk.ticks % 2 ^ 64 + 10000 < sk.clock (sk.ticks + 1 + pre.length) % 2 ^ 64) :
    ∃ r s' evs,
      LiteVNA.scan fm s reads start step points values = some (r, vk, s', more) ∧
      r.code = "lite_vna_error" ∧ r.description = "Timeout reading LiteVNA Fifo data" ∧
      s'.serial.trace = sk.serial.trace ++ evs ∧ evs.length = pre.length + 1 ∧
      (∀ e ∈ evs, ∃ size data, e = SerialEvent.read size data) := by
  have hlate' : (sk.clock sk.ticks % 2 ^ 64 + 10000) % 2 ^ 64 <
      sk.clock (sk.ticks + 1 + pre.length) % 2 ^ 64 := by
    have hb : sk.clock (sk.ticks + 1 + pre.length) % 2 ^ 64 < 2 ^ 64 :=
      Nat.mod_lt _ (by norm_num)
    rw [Nat.mod_eq_of_lt (by omega)]
    exact hlate
  obtain ⟨s', evs, hrun, htr, hevl, hevs, _⟩ := readFrame_timeout (sk.clock sk.ticks % 2 ^ 64)
    pre ({ sk with ticks := sk.ticks + 1 }) [] n more hopen hpre (by simpa using hshort)
    hfine hlate'
  refine ⟨LiteVNA.timeoutError, s', evs, ?_, rfl, rfl, htr, hevl, hevs⟩
  obtain ⟨m, rfl⟩ : ∃ m, points = k + (m + 1) := ⟨points - k - 1, by omega⟩
  rw [scan_setup fm s reads start step (k + (m + 1)) values hw,
    readFrames_split fm (k + (m + 1)) k (m + 1) _ _ _ _ _ _ hfirst, LiteVNA.readFrames]
  simp only [LiteVNA.nowMilliseconds]
  rw [hrun]

/-- Witness of C9: a sweep of 2 points; the first frame arrives in one read, the second
frame gets 10 bytes in time and its next read returns 10001 ms after the frame was
begun. -/
theorem C9_frame_deadline_witness :
    ∃ r s' evs,
      LiteVNA.scan symModel (stallingDevice (frameA ++ frameB))
          [ReadStep.deliver 32, ReadStep.deliver 10, ReadStep.deliver 10, ReadStep.deliver 12]
          4300000000 10000000 2 (emptyValues symModel) =
        some (r, storeValues symModel ((emptyValues symModel).resize 2) frameA, s',
          [ReadStep.deliver 12]) ∧
      r.code = "lite_vna_error" ∧ r.description = "Timeout reading LiteVNA Fifo data" ∧
      s'.serial.trace =
        (((stallingDevice (frameA ++ frameB)).afterWrites
          (scanSetupMessages 4300000000 10000000 2)).afterReads frameB 2
            [SerialEvent.read 32 frameA]).serial.trace ++ evs ∧
      evs.length = [ReadStep.deliver 10].length + 1 ∧
      (∀ e ∈ evs, ∃ size data, e = SerialEvent.read size data) :=
  C9_frame_deadline symModel (stallingDevice (frameA ++ frameB))
    [ReadStep.deliver 32, ReadStep.deliver 10, ReadStep.deliver 10, ReadStep.deliver 12]
    4300000000 10000000 2 (emptyValues symModel) 1
    (storeValues symModel ((emptyValues symModel).resize 2) frameA)
    (((stallingDevice (frameA ++ frameB)).afterWrites
      (scanSetupMessages 4300000000 10000000 2)).afterReads frameB 2
        [SerialEvent.read 32 frameA])
    [ReadStep.deliver 10] 10 [ReadStep.deliver 12]
    ⟨rfl, fun _ _ => rfl⟩ (by decide) rfl rfl
    (by intro st hst; exact ⟨10, List.mem_singleton.mp hst⟩)
    (by decide)
    (by
      intro i hi
      have h0 : i = 0 := by simpa using hi
      subst h0
      show ¬ ((1000 % 2 ^ 64 + 10000) % 2 ^ 64 < 1000 % 2 ^ 64)
      decide)
    (by
      show 1000 % 2 ^ 64 + 10000 < 11001 % 2 ^ 64
      decide)

namespace SocketTCP

theorem find_emit (s : SocketTCP) (evs : List ReactorEvent) (id : Nat) :
    (s.emit evs).find id = s.find id := rfl

theorem events_emit (s : SocketTCP) (evs : List ReactorEvent) :
    (s.emit evs).events = s.events ++ evs := rfl

theorem find_socket (s : SocketTCP) (id : Nat) (p : PeerSocketInfo) (h : s.find id = some p) :
    p.socket = id := by
  have := List.find?_some h
  simpa using this

theorem find_modifyPeer (s : SocketTCP) (id id' : Nat) (f : PeerSocketInfo → PeerSocketInfo)
    (hf : ∀ p, (f p).socket = p.socket) :
    (s.modifyPeer id f).find id' = if id' = id then (s.find id').map f else s.find id' := by
  unfold modifyPeer find
  simp only
  induction s.peerSockets with
  | nil => simp
  | cons p ps ih =>
    simp only [List.map_cons, List.find?_cons]
    by_cases hp : p.socket = id
    · rw [if_pos hp]
      by_cases hid : id' = id
      · have h1 : ((f p).socket == id') = true := by simp [hf, hp, hid]
        have h2 : (p.socket == id') = true := by simp [hp, hid]
        rw [h1, h2, if_pos hid]
        rfl
      · have h1 : ((f p).socket == id') = false := by
          simp [hf, hp]; exact fun h => hid h.symm
        have h2 : (p.socket == id') = false := by
          simp [hp]; exact fun h => hid h.symm
        rw [h1, h2]
        simpa [hid] using ih
    · rw [if_neg hp]
      by_cases hq : (p.socket == id') = true
      · have hid : ¬ id' = id := by
          intro h; apply hp; rw [← h]; simpa using hq
        simp [hq, hid]
      · have hq' : (p.socket == id') = false := by simpa using hq
        rw [hq']
        exact ih

theorem find_erase (s : SocketTCP) (id id' : Nat) :
    (s.erase id).find id' = if id' = id then none else s.find id' := by
  unfold erase find
  simp only
  induction s.peerSockets with
  | nil => simp
  | cons p ps ih =>
    by_cases hp : p.socket = id
    · have : List.filter (fun p => decide (p.socket ≠ id)) (p :: ps) =
          List.filter (fun p => decide (p.socket ≠ id)) ps := by
        simp [List.filter_cons, hp]
      rw [this, ih]
      by_cases hid : id' = id
      · simp [hid]
      · have h2 : (p.socket == id') = false := by
          simp [hp]; exact fun h => hid h.symm
        simp [hid, List.find?_cons, h2]
    · have : List.filter (fun p => decide (p.socket ≠ id)) (p :: ps) =
          p :: List.filter (fun p => decide (p.socket ≠ id)) ps := by
        simp [List.filter_cons, hp]
      rw [this]
      simp only [List.find?_cons]
      by_cases hq : (p.socket == id') = true
      · have hid : ¬ id' = id := by
          intro h; apply hp; rw [← h]; simpa using hq
        simp [hq, hid]
      · have hq' : (p.socket == id') = false := by simpa using hq
        rw [hq']
        exact ih

end SocketTCP

theorem sentBytes_append (a b : List ReactorEvent) (id : Nat) :
    sentBytes (a ++ b) id = sentBytes a id ++ sentBytes b id := by
  simp [sentBytes]

theorem sentBytes_nil (id : Nat) : sentBytes [] id = [] := rfl

theorem sentBytes_closed (a b id : Nat) : sentBytes [ReactorEvent.closed a b] id = [] := rfl

theorem sentBytes_osClose (a id : Nat) : sentBytes [ReactorEvent.osClose a] id = [] := rfl

theorem sentBytes_epollCtl (a : Nat) (op : EpollOp) (r w ok : Bool) (id : Nat) :
    sentBytes [ReactorEvent.epollCtl a op r w ok] id = [] := rfl

theorem sentBytes_writeFinished (cb : Nat) (r : Result) (a b id : Nat) :
    sentBytes [ReactorEvent.writeFinished cb r a b] id = [] := rfl

theorem sentBytes_closeCallbacks (socket id : Nat) (q : List WriteBufferInfo) :
    sentBytes (SocketTCP.closeCallbacks socket q) id = [] := by
  induction q with
  | nil => rfl
  | cons b rest ih =>
    rw [SocketTCP.closeCallbacks, sentBytes_append, ih]
    cases b.writeFinishCallback <;> rfl

namespace SocketTCP

theorem setEvent_find (s : SocketTCP) (socket : Nat) (op : EpollOp) (r w : Bool) (id : Nat) :
    (s.setEvent socket op r w).2.find id = s.find id := by
  unfold setEvent
  simp only
  split <;> rfl

theorem setEvent_sentBytes (s : SocketTCP) (socket : Nat) (op : EpollOp) (r w : Bool) (id : Nat) :
    sentBytes (s.setEvent socket op r w).2.events id = sentBytes s.events id := by
  unfold setEvent
  simp only
  split <;> simp only [events_emit, sentBytes_append, sentBytes_epollCtl, List.append_nil]

theorem close_find (s : SocketTCP) (socketId id : Nat) :
    (s.close socketId).find id = if id = socketId then none else s.find id := by
  unfold close
  simp only [find_emit, setEvent_find]
  cases h : find { s with closedSocket := true } socketId with
  | none =>
    simp only
    by_cases hid : id = socketId
    · rw [if_pos hid, hid]; exact h
    · rw [if_neg hid]; rfl
  | some peer =>
    simp only
    split
    · rw [find_emit, find_erase, find_emit]; rfl
    · rw [find_erase, find_emit]; rfl

theorem close_sentBytes (s : SocketTCP) (socketId id : Nat) :
    sentBytes (s.close socketId).events id = sentBytes s.events id := by
  unfold close
  simp only [events_emit, sentBytes_append, setEvent_sentBytes, sentBytes_osClose,
    List.append_nil]
  cases h : find { s with closedSocket := true } socketId with
  | none => rfl
  | some peer =>
    simp only
    split
    · simp only [events_emit, erase, sentBytes_append, sentBytes_closeCallbacks,
        sentBytes_closed, List.append_nil]
    · simp only [events_emit, erase, sentBytes_append, sentBytes_closeCallbacks,
        List.append_nil]

end SocketTCP

theorem conserves_refl (s : SocketTCP) (socket : Nat) : Conserves s s socket [] :=
  ⟨[], by simp, ⟨s.pendingBytes socket, by simp⟩, fun _ => by simp, fun h => ⟨h, rfl⟩⟩

theorem pendingBytes_of_find_none (s : SocketTCP) (socket : Nat) (h : s.find socket = none) :
    s.pendingBytes socket = [] := by
  unfold SocketTCP.pendingBytes
  rw [h]

theorem conserves_trans (s s1 s2 : SocketTCP) (socket : Nat) (a b : List Byte)
    (h1 : Conserves s s1 socket a) (h2 : Conserves s1 s2 socket b)
    (hb : s1.find socket = none → b = []) :
    Conserves s s2 socket (a ++ b) := by
  obtain ⟨d1, hs1, ⟨t1, ht1⟩, hc1, hn1⟩ := h1
  obtain ⟨d2, hs2, ⟨t2, ht2⟩, hc2, hn2⟩ := h2
  refine ⟨d1 ++ d2, by rw [hs2, hs1, List.append_assoc], ?_, ?_, ?_⟩
  · cases hf : s1.find socket with
    | none =>
      obtain ⟨_, hd2⟩ := hn2 hf
      rw [hd2, hb hf]
      exact ⟨t1, by simpa using ht1⟩
    | some p =>
      have := hc1 (by rw [hf]; rfl)
      refine ⟨t2, ?_⟩
      rw [← List.append_assoc, ← this, List.append_assoc, ht2, List.append_assoc]
  · intro hopen
    cases hf : s1.find socket with
    | none =>
      rw [(hn2 hf).1] at hopen
      cases hopen
    | some p =>
      have e1 := hc1 (by rw [hf]; rfl)
      have e2 := hc2 hopen
      rw [List.append_assoc, e2, ← List.append_assoc, e1, List.append_assoc]
  · intro hnone
    obtain ⟨hf1, hd1⟩ := hn1 hnone
    obtain ⟨hf2, hd2⟩ := hn2 hf1
    exact ⟨hf2, by rw [hd1, hd2]; rfl⟩

/-- A transition that leaves the entry of `socket` and the bytes sent on it as they are. -/
theorem conserves_of_untouched (s s1 : SocketTCP) (socket : Nat)
    (hf : s1.find socket = s.find socket)
    (hs : sentBytes s1.events socket = sentBytes s.events socket) :
    Conserves s s1 socket [] := by
  have hp : s1.pendingBytes socket = s.pendingBytes socket := by
    unfold SocketTCP.pendingBytes; rw [hf]
  exact ⟨[], by simp [hs], ⟨s.pendingBytes socket, by simp⟩, fun _ => by simp [hp],
    fun h => ⟨by rw [hf, h], rfl⟩⟩

/-- A transition that removes the entry of `socket` and sends nothing on it. -/
theorem conserves_of_closed (s s1 : SocketTCP) (socket : Nat) (acc : List Byte)
    (hf : s1.find socket = none)
    (hs : sentBytes s1.events socket = sentBytes s.events socket) :
    Conserves s s1 socket acc := by
  refine ⟨[], by simp [hs], ⟨s.pendingBytes socket ++ acc, by simp⟩, ?_, fun _ => ⟨hf, rfl⟩⟩
  intro h
  rw [hf] at h
  cases h

theorem close_conserves (s : SocketTCP) (socketId socket : Nat) :
    Conserves s (s.close socketId) socket [] := by
  by_cases h : socket = socketId
  · exact conserves_of_closed _ _ _ _ (by rw [SocketTCP.close_find, if_pos h])
      (SocketTCP.close_sentBytes _ _ _)
  · exact conserves_of_untouched _ _ _ (by rw [SocketTCP.close_find, if_neg h])
      (SocketTCP.close_sentBytes _ _ _)

namespace WriteBufferInfo

theorem getRemainingBuffer_length (b : WriteBufferInfo) :
    b.getRemainingBuffer.length = b.getRemainingBufferSize := by
  unfold getRemainingBuffer getRemainingBufferSize len
  split
  · rfl
  · simp

theorem getRemainingBuffer_writeDone (b : WriteBufferInfo) (c : Nat) :
    (b.writeDone c).getRemainingBuffer = b.getRemainingBuffer.drop c := by
  unfold getRemainingBuffer writeDone len
  simp only
  by_cases h1 : b.pos ≥ b.buffer.length
  · rw [if_pos h1, if_pos (by omega)]; simp
  · rw [if_neg h1]
    by_cases h2 : b.pos + c ≥ b.buffer.length
    · rw [if_pos h2]
      symm
      apply List.drop_eq_nil_of_le
      simp; omega
    · rw [if_neg h2, List.drop_drop, Nat.add_comm]

theorem getRemainingBuffer_eq_nil (b : WriteBufferInfo) (h : ¬ b.getRemainingBufferSize > 0) :
    b.getRemainingBuffer = [] := by
  apply List.eq_nil_of_length_eq_zero
  rw [getRemainingBuffer_length]; omega

end WriteBufferInfo

theorem sentBytes_sent (socket id : Nat) (data : List Byte) (count : Option Nat) :
    sentBytes [ReactorEvent.sent socket data count] id =
      match count with
      | some c => if socket = id then data.take c else []
      | none => [] := by
  cases count <;> simp [sentBytes, ReactorEvent.sentTo]

/-- One round of the flush loop that replaces the queue `wb :: rest` of `socket` by `q`
after `send` took the bytes `d` (and callbacks were logged in `evs`). -/
theorem conserves_flush_round (s : SocketTCP) (socket : Nat) (peer : PeerSocketInfo)
    (wb : WriteBufferInfo) (rest q : List WriteBufferInfo) (d : List Byte)
    (evs : List ReactorEvent)
    (hfind : s.find socket = some peer) (hq : peer.writeBuffers = wb :: rest)
    (hsent : ∀ id, sentBytes evs id = if id = socket then d else [])
    (hbytes : d ++ (q.map WriteBufferInfo.getRemainingBuffer).flatten =
      ((wb :: rest).map WriteBufferInfo.getRemainingBuffer).flatten)
    (id : Nat) :
    Conserves s ((s.emit evs).modifyPeer socket (fun p => { p with writeBuffers := q })) id [] := by
  have hfind' : ∀ id', ((s.emit evs).modifyPeer socket
      (fun p => { p with writeBuffers := q })).find id' =
        if id' = socket then (s.find id').map (fun p => { p with writeBuffers := q })
        else s.find id' := by
    intro id'
    rw [SocketTCP.find_modifyPeer (s.emit evs) socket id'
      (fun p => { p with writeBuffers := q }) (fun _ => rfl), SocketTCP.find_emit]
  have hev : ((s.emit evs).modifyPeer socket (fun p => { p with writeBuffers := q })).events =
      s.events ++ evs := rfl
  by_cases hid : id = socket
  · subst hid
    refine ⟨d, ?_, ?_, ?_, ?_⟩
    · rw [hev, sentBytes_append, hsent, if_pos rfl]
    · refine ⟨(q.map WriteBufferInfo.getRemainingBuffer).flatten, ?_⟩
      simp only [SocketTCP.pendingBytes, hfind, hq, List.append_nil]
      exact hbytes.symm
    · intro _
      simp only [SocketTCP.pendingBytes, hfind', if_true, hfind, List.append_nil,
        Option.map_some', hq]
      exact hbytes
    · intro hnone
      rw [hfind] at hnone
      cases hnone
  · apply conserves_of_untouched
    · rw [hfind', if_neg hid]
    · rw [hev, sentBytes_append, hsent, if_neg hid, List.append_nil]

theorem flushWrites_conserves (socket id : Nat) :
    ∀ (n : Nat) (s : SocketTCP), Conserves s (SocketTCP.flushWrites socket n s).2 id [] := by
  intro n
  induction n with
  | zero => intro s; exact conserves_refl s id
  | succ n ih =>
    intro s
    rw [SocketTCP.flushWrites]
    cases hfind : s.find socket with
    | none => exact conserves_refl s id
    | some peer =>
      simp only
      cases hq : peer.writeBuffers with
      | nil => exact conserves_refl s id
      | cons wb rest =>
        simp only
        by_cases hsize : wb.getRemainingBufferSize > 0
        · rw [if_pos hsize]
          cases hsend : s.osSend s.events.length (SocketTCP.sendLength wb.getRemainingBufferSize) with
          | none =>
            simp only
            have h1 : Conserves s (s.emit [ReactorEvent.sent socket wb.getRemainingBuffer none])
                id [] :=
              conserves_of_untouched _ _ _ rfl
                (by rw [SocketTCP.events_emit, sentBytes_append, sentBytes_sent]; simp)
            have h2 := close_conserves
              (s.emit [ReactorEvent.sent socket wb.getRemainingBuffer none]) socket id
            simpa using conserves_trans _ _ _ id [] [] h1 h2 (fun _ => rfl)
          | some count =>
            simp only
            by_cases hdone : (wb.writeDone count).getRemainingBufferSize = 0
            · rw [if_pos hdone]
              have hrem : (wb.writeDone count).getRemainingBuffer = [] :=
                WriteBufferInfo.getRemainingBuffer_eq_nil _ (by omega)
              rw [WriteBufferInfo.getRemainingBuffer_writeDone] at hrem
              have htake : wb.getRemainingBuffer.take count = wb.getRemainingBuffer := by
                have := List.take_append_drop count wb.getRemainingBuffer
                rw [hrem, List.append_nil] at this
                exact this
              have hround : Conserves s
                  ((s.emit ([ReactorEvent.sent socket wb.getRemainingBuffer (some count)] ++
                    (match (wb.writeDone count).writeFinishCallback with
                      | some cb => [ReactorEvent.writeFinished cb Result.ok socket
                          (wb.writeDone count).customData]
                      | none => []))).modifyPeer socket
                    (fun p => { p with writeBuffers := rest })) id [] := by
                apply conserves_flush_round s socket peer wb rest rest
                  (wb.getRemainingBuffer.take count) _ hfind hq
                · intro id'
                  rw [sentBytes_append, sentBytes_sent]
                  have : sentBytes (match (wb.writeDone count).writeFinishCallback with
                      | some cb => [ReactorEvent.writeFinished cb Result.ok socket
                          (wb.writeDone count).customData]
                      | none => []) id' = [] := by
                    cases (wb.writeDone count).writeFinishCallback <;> rfl
                  rw [this, List.append_nil]
                  by_cases h : id' = socket
                  · simp [h]
                  · have h' : ¬ socket = id' := fun e => h e.symm
                    simp [h, h']
                · rw [htake]; simp
              have hst : (match (wb.writeDone count).writeFinishCallback with
                  | some cb => (s.emit [ReactorEvent.sent socket wb.getRemainingBuffer
                      (some count)]).emit [ReactorEvent.writeFinished cb Result.ok socket
                        (wb.writeDone count).customData]
                  | none => s.emit [ReactorEvent.sent socket wb.getRemainingBuffer
                      (some count)]) =
                  s.emit ([ReactorEvent.sent socket wb.getRemainingBuffer (some count)] ++
                    (match (wb.writeDone count).writeFinishCallback with
                      | some cb => [ReactorEvent.writeFinished cb Result.ok socket
                          (wb.writeDone count).customData]
                      | none => [])) := by
                cases (wb.writeDone count).writeFinishCallback <;>
                  simp [SocketTCP.emit]
              rw [hst]
              simpa using conserves_trans _ _ _ id [] [] hround (ih _) (fun _ => rfl)
            · rw [if_neg hdone]
              have hround : Conserves s
                  ((s.emit [ReactorEvent.sent socket wb.getRemainingBuffer
                    (some count)]).modifyPeer socket
                    (fun p => { p with writeBuffers := wb.writeDone count :: rest })) id [] := by
                apply conserves_flush_round s socket peer wb rest (wb.writeDone count :: rest)
                  (wb.getRemainingBuffer.take count) _ hfind hq
                · intro id'
                  rw [sentBytes_sent]
                  by_cases h : id' = socket
                  · simp [h]
                  · have h' : ¬ socket = id' := fun e => h e.symm
                    simp [h, h']
                · simp only [List.map_cons, List.flatten_cons,
                    WriteBufferInfo.getRemainingBuffer_writeDone]
                  rw [← List.append_assoc, List.take_append_drop]
              simpa using conserves_trans _ _ _ id [] [] hround (ih _) (fun _ => rfl)
        · rw [if_neg hsize]
          have hrem : wb.getRemainingBuffer = [] :=
            WriteBufferInfo.getRemainingBuffer_eq_nil _ hsize
          have hround : Conserves s
              ((s.emit (match wb.writeFinishCallback with
                  | some cb => [ReactorEvent.writeFinished cb Result.ok socket wb.customData]
                  | none => [])).modifyPeer socket
                (fun p => { p with writeBuffers := rest })) id [] := by
            apply conserves_flush_round s socket peer wb rest rest [] _ hfind hq
            · intro id'
              have : sentBytes (match wb.writeFinishCallback with
                  | some cb => [ReactorEvent.writeFinished cb Result.ok socket wb.customData]
                  | none => []) id' = [] := by
                cases wb.writeFinishCallback <;> rfl
              rw [this]; simp
            · simp [hrem]
          have hst : (match wb.writeFinishCallback with
              | some cb => s.emit [ReactorEvent.writeFinished cb Result.ok socket wb.customData]
              | none => s) =
              s.emit (match wb.writeFinishCallback with
                  | some cb => [ReactorEvent.writeFinished cb Result.ok socket wb.customData]
                  | none => []) := by
            cases wb.writeFinishCallback <;> simp [SocketTCP.emit]
          rw [hst]
          simpa using conserves_trans _ _ _ id [] [] hround (ih _) (fun _ => rfl)

theorem write_conserves (s : SocketTCP) (socketId socket : Nat) (buffer : List Byte)
    (customData : Nat) (callback : Option Nat) :
    Conserves s (s.write socketId buffer customData callback).2 socket
      (if socketId = socket ∧ (s.find socket).isSome then buffer else []) := by
  unfold SocketTCP.write
  cases hfind : s.find socketId with
  | none =>
    simp only
    have hacc : (if socketId = socket ∧ (s.find socket).isSome then buffer else []) = [] := by
      apply if_neg
      rintro ⟨rfl, h⟩
      rw [hfind] at h
      cases h
    rw [hacc]
    cases callback with
    | none => exact conserves_refl s socket
    | some cb =>
      exact conserves_of_untouched _ _ _ rfl
        (by simp only [SocketTCP.events_emit, sentBytes_append, sentBytes_writeFinished,
          List.append_nil])
  | some peer =>
    simp only
    have hstate : ∀ (r : Result × SocketTCP),
        (match r with
          | (result, s2) => if result.isError then (result, s2) else (Result.ok, s2)).2 = r.2 := by
      rintro ⟨r, s2⟩
      simp only
      split <;> rfl
    rw [hstate]
    have hfind' := SocketTCP.find_modifyPeer s socketId socket
      (fun p => { p with writeBuffers :=
        p.writeBuffers ++ [⟨buffer, 0, callback, customData⟩] }) (fun _ => rfl)
    by_cases hid : socketId = socket
    · subst hid
      rw [if_pos ⟨rfl, by rw [hfind]; rfl⟩]
      refine ⟨[], ?_, ⟨s.pendingBytes socketId ++ buffer, by simp⟩, ?_, ?_⟩
      · rw [SocketTCP.setEvent_sentBytes]
        simp [SocketTCP.modifyPeer]
      · intro _
        have hrem : WriteBufferInfo.getRemainingBuffer ⟨buffer, 0, callback, customData⟩ =
            buffer := by
          unfold WriteBufferInfo.getRemainingBuffer WriteBufferInfo.len
          cases buffer <;> simp
        simp only [SocketTCP.pendingBytes, SocketTCP.setEvent_find, hfind', if_true, hfind,
          Option.map_some', List.map_append, List.flatten_append, List.map_cons, List.map_nil,
          List.flatten_cons, List.flatten_nil, List.append_nil, List.nil_append, hrem]
      · intro hnone
        rw [hfind] at hnone
        cases hnone
    · have hacc : (if socketId = socket ∧ (s.find socket).isSome then buffer else []) = [] :=
        if_neg (fun h => hid h.1)
      rw [hacc]
      apply conserves_of_untouched
      · rw [SocketTCP.setEvent_find, hfind', if_neg (fun e => hid e.symm)]
      · rw [SocketTCP.setEvent_sentBytes]
        rfl

theorem handleWritable_conserves (s : SocketTCP) (fd socket : Nat) :
    Conserves s (s.handleWritable fd).2 socket [] := by
  unfold SocketTCP.handleWritable
  cases hfind : s.find fd with
  | none => exact close_conserves s fd socket
  | some peer =>
    simp only
    have hloop := flushWrites_conserves peer.socket socket peer.writeBuffers.length s
    rcases hfl : SocketTCP.flushWrites peer.socket peer.writeBuffers.length s with ⟨fl, s1⟩
    rw [hfl] at hloop
    cases fl with
    | returned r => exact hloop
    | done u =>
      simp only
      cases hfind1 : s1.find fd with
      | none => exact hloop
      | some peer1 =>
        simp only
        by_cases hlen : peer1.writeBuffers.length = 0
        · rw [if_pos hlen]
          have hstate : ∀ (r : Result × SocketTCP),
              (match r with
                | (result, s2) =>
                  if result.isError then (Flow.returned result, s2)
                  else ((Flow.done () : Flow Unit), s2)).2 = r.2 := by
            rintro ⟨r, s2⟩
            simp only
            split <;> rfl
          rw [hstate]
          have h2 : Conserves s1 (s1.setEvent peer1.socket EpollOp.modify true false).2
              socket [] :=
            conserves_of_untouched _ _ _ (SocketTCP.setEvent_find _ _ _ _ _ _)
              (SocketTCP.setEvent_sentBytes _ _ _ _ _ _)
          simpa using conserves_trans _ _ _ socket [] [] hloop h2 (fun _ => rfl)
        · rw [if_neg hlen]
          exact hloop

theorem step_conserves (s : SocketTCP) (op : ReactorOp) (socket : Nat) :
    Conserves s (s.step op) socket (s.enqueuedBytes socket [op]) := by
  cases op with
  | write socketId buffer customData callback =>
    simpa [SocketTCP.step, SocketTCP.enqueuedBytes] using
      write_conserves s socketId socket buffer customData callback
  | writable fd =>
    simpa [SocketTCP.step, SocketTCP.enqueuedBytes] using handleWritable_conserves s fd socket
  | close socketId =>
    simpa [SocketTCP.step, SocketTCP.enqueuedBytes] using close_conserves s socketId socket

theorem step_find_none (s : SocketTCP) (op : ReactorOp) (socket : Nat)
    (h : s.find socket = none) : (s.step op).find socket = none :=
  ((step_conserves s op socket).choose_spec.2.2.2 h).1

theorem enqueuedBytes_cons (s : SocketTCP) (socket : Nat) (op : ReactorOp)
    (ops : List ReactorOp) :
    s.enqueuedBytes socket (op :: ops) =
      s.enqueuedBytes socket [op] ++ (s.step op).enqueuedBytes socket ops := by
  simp [SocketTCP.enqueuedBytes]

theorem enqueuedBytes_of_find_none (socket : Nat) :
    ∀ (ops : List ReactorOp) (s : SocketTCP), s.find socket = none →
      s.enqueuedBytes socket ops = [] := by
  intro ops
  induction ops with
  | nil => intro s _; rfl
  | cons op ops ih =>
    intro s h
    rw [enqueuedBytes_cons, ih _ (step_find_none s op socket h), List.append_nil]
    cases op <;> simp [SocketTCP.enqueuedBytes, h]

theorem run_conserves (socket : Nat) :
    ∀ (ops : List ReactorOp) (s : SocketTCP),
      Conserves s (s.run ops) socket (s.enqueuedBytes socket ops) := by
  intro ops
  induction ops with
  | nil => intro s; exact conserves_refl s socket
  | cons op ops ih =>
    intro s
    rw [enqueuedBytes_cons]
    exact conserves_trans s (s.step op) ((s.step op).run ops) socket _ _
      (step_conserves s op socket) (ih (s.step op))
      (enqueuedBytes_of_find_none socket ops (s.step op))

theorem WriteBufferInfo.writeDone_writeDone (b : WriteBufferInfo) (c1 c2 : Nat) :
    (b.writeDone c1).writeDone c2 = b.writeDone (c1 + c2) := by
  simp [WriteBufferInfo.writeDone, Nat.add_assoc]

theorem drained_append (q q1 new : List WriteBufferInfo) (d : List Byte)
    (h : Drained q d q1) : Drained (q ++ new) d (q1 ++ new) := by
  induction h with
  | stay q => exact Drained.stay _
  | advance b rest count => exact Drained.advance b (rest ++ new) count
  | pop b rest d q _ ih => exact Drained.pop b (rest ++ new) d (q ++ new) ih

theorem drained_trans (q q1 q2 : List WriteBufferInfo) (d1 d2 : List Byte)
    (h1 : Drained q d1 q1) (h2 : Drained q1 d2 q2) : Drained q (d1 ++ d2) q2 := by
  induction h1 with
  | stay q => simpa using h2
  | advance b rest count =>
    cases h2 with
    | stay => simpa using Drained.advance b rest count
    | advance _ _ count2 =>
      rw [WriteBufferInfo.writeDone_writeDone, WriteBufferInfo.getRemainingBuffer_writeDone,
        ← List.take_add]
      exact Drained.advance b rest (count + count2)
    | pop _ _ d q h =>
      rw [WriteBufferInfo.getRemainingBuffer_writeDone, ← List.append_assoc,
        List.take_append_drop]
      exact Drained.pop b rest d q2 h
  | pop b rest d q _ ih =>
    rw [List.append_assoc]
    exact Drained.pop b rest (d ++ d2) q2 (ih h2)

/-- The bytes of a drained queue: what was sent and what is still queued make up what
was queued. -/
theorem drained_bytes (q q1 : List WriteBufferInfo) (d : List Byte) (h : Drained q d q1) :
    d ++ (q1.map WriteBufferInfo.getRemainingBuffer).flatten =
      (q.map WriteBufferInfo.getRemainingBuffer).flatten := by
  induction h with
  | stay q => rfl
  | advance b rest count =>
    simp only [List.map_cons, List.flatten_cons, WriteBufferInfo.getRemainingBuffer_writeDone]
    rw [← List.append_assoc, List.take_append_drop]
  | pop b rest d q _ ih =>
    simp only [List.map_cons, List.flatten_cons]
    rw [List.append_assoc, ih]

theorem conserves_find_none (s s1 : SocketTCP) (socket : Nat) (acc : List Byte)
    (h : Conserves s s1 socket acc) (hf : s.find socket = none) : s1.find socket = none :=
  (h.choose_spec.2.2.2 hf).1

theorem flushes_refl (s : SocketTCP) (socket : Nat) : Flushes s s socket [] :=
  fun _ => ⟨[], by simp, by simpa using Drained.stay (s.queue socket)⟩

theorem flushes_of_untouched (s s1 : SocketTCP) (socket : Nat)
    (hf : s1.find socket = s.find socket)
    (hs : sentBytes s1.events socket = sentBytes s.events socket) :
    Flushes s s1 socket [] := by
  intro _
  have hq : s1.queue socket = s.queue socket := by
    unfold SocketTCP.queue; rw [hf]
  exact ⟨[], by simp [hs], by rw [hq]; simpa using Drained.stay (s.queue socket)⟩

theorem flushes_of_closed (s s1 : SocketTCP) (socket : Nat) (new : List WriteBufferInfo)
    (hf : s1.find socket = none) : Flushes s s1 socket new := by
  intro h
  rw [hf] at h
  cases h

theorem flushes_trans (s s1 s2 : SocketTCP) (socket : Nat) (a b : List WriteBufferInfo)
    (h1 : Flushes s s1 socket a) (h2 : Flushes s1 s2 socket b)
    (hn : s1.find socket = none → s2.find socket = none) :
    Flushes s s2 socket (a ++ b) := by
  intro hopen
  have hopen1 : (s1.find socket).isSome := by
    cases hf : s1.find socket with
    | none => rw [hn hf] at hopen; cases hopen
    | some p => rfl
  obtain ⟨d1, hs1, hd1⟩ := h1 hopen1
  obtain ⟨d2, hs2, hd2⟩ := h2 hopen
  refine ⟨d1 ++ d2, by rw [hs2, hs1, List.append_assoc], ?_⟩
  rw [← List.append_assoc]
  exact drained_trans _ _ _ _ _ (drained_append _ _ b _ hd1) hd2

theorem close_flushes (s : SocketTCP) (socketId socket : Nat) :
    Flushes s (s.close socketId) socket [] := by
  by_cases h : socket = socketId
  · exact flushes_of_closed _ _ _ _ (by rw [SocketTCP.close_find, if_pos h])
  · exact flushes_of_untouched _ _ _ (by rw [SocketTCP.close_find, if_neg h])
      (SocketTCP.close_sentBytes _ _ _)

/-- One round of the flush loop that replaces the queue `wb :: rest` of `socket` by `q`
after `send` took the bytes `d`. -/
theorem flushes_flush_round (s : SocketTCP) (socket : Nat) (peer : PeerSocketInfo)
    (wb : WriteBufferInfo) (rest q : List WriteBufferInfo) (d : List Byte)
    (evs : List ReactorEvent)
    (hfind : s.find socket = some peer) (hq : peer.writeBuffers = wb :: rest)
    (hsent : ∀ id, sentBytes evs id = if id = socket then d else [])
    (hdrained : Drained (wb :: rest) d q)
    (id : Nat) :
    Flushes s ((s.emit evs).modifyPeer socket (fun p => { p with writeBuffers := q })) id [] := by
  have hfind' : ∀ id', ((s.emit evs).modifyPeer socket
      (fun p => { p with writeBuffers := q })).find id' =
        if id' = socket then (s.find id').map (fun p => { p with writeBuffers := q })
        else s.find id' := by
    intro id'
    rw [SocketTCP.find_modifyPeer (s.emit evs) socket id'
      (fun p => { p with writeBuffers := q }) (fun _ => rfl), SocketTCP.find_emit]
  have hev : ((s.emit evs).modifyPeer socket (fun p => { p with writeBuffers := q })).events =
      s.events ++ evs := rfl
  by_cases hid : id = socket
  · subst hid
    intro _
    refine ⟨d, by rw [hev, sentBytes_append, hsent, if_pos rfl], ?_⟩
    simp only [SocketTCP.queue, hfind', if_true, hfind, List.append_nil, Option.map_some', hq]
    exact hdrained
  · apply flushes_of_untouched
    · rw [hfind', if_neg hid]
    · rw [hev, sentBytes_append, hsent, if_neg hid, List.append_nil]

theorem flushWrites_flushes (socket id : Nat) :
    ∀ (n : Nat) (s : SocketTCP), Flushes s (SocketTCP.flushWrites socket n s).2 id [] := by
  intro n
  induction n with
  | zero => intro s; exact flushes_refl s id
  | succ n ih =>
    intro s
    rw [SocketTCP.flushWrites]
    cases hfind : s.find socket with
    | none => exact flushes_refl s id
    | some peer =>
      simp only
      cases hq : peer.writeBuffers with
      | nil => exact flushes_refl s id
      | cons wb rest =>
        simp only
        by_cases hsize : wb.getRemainingBufferSize > 0
        · rw [if_pos hsize]
          cases hsend : s.osSend s.events.length
              (SocketTCP.sendLength wb.getRemainingBufferSize) with
          | none =>
            simp only
            have h1 : Flushes s (s.emit [ReactorEvent.sent socket wb.getRemainingBuffer none])
                id [] :=
              flushes_of_untouched _ _ _ rfl
                (by rw [SocketTCP.events_emit, sentBytes_append, sentBytes_sent]; simp)
            have h2 := close_flushes
              (s.emit [ReactorEvent.sent socket wb.getRemainingBuffer none]) socket id
            simpa using flushes_trans _ _ _ id [] [] h1 h2
              (conserves_find_none _ _ _ _ (close_conserves _ socket id))
          | some count =>
            simp only
            by_cases hdone : (wb.writeDone count).getRemainingBufferSize = 0
            · rw [if_pos hdone]
              have hrem : (wb.writeDone count).getRemainingBuffer = [] :=
                WriteBufferInfo.getRemainingBuffer_eq_nil _ (by omega)
              rw [WriteBufferInfo.getRemainingBuffer_writeDone] at hrem
              have htake : wb.getRemainingBuffer.take count = wb.getRemainingBuffer := by
                have := List.take_append_drop count wb.getRemainingBuffer
                rw [hrem, List.append_nil] at this
                exact this
              have hround : Flushes s
                  ((s.emit ([ReactorEvent.sent socket wb.getRemainingBuffer (some count)] ++
                    (match (wb.writeDone count).writeFinishCallback with
                      | some cb => [ReactorEvent.writeFinished cb Result.ok socket
                          (wb.writeDone count).customData]
                      | none => []))).modifyPeer socket
                    (fun p => { p with writeBuffers := rest })) id [] := by
                apply flushes_flush_round s socket peer wb rest rest
                  (wb.getRemainingBuffer.take count) _ hfind hq
                · intro id'
                  rw [sentBytes_append, sentBytes_sent]
                  have : sentBytes (match (wb.writeDone count).writeFinishCallback with
                      | some cb => [ReactorEvent.writeFinished cb Result.ok socket
                          (wb.writeDone count).customData]
                      | none => []) id' = [] := by
                    cases (wb.writeDone count).writeFinishCallback <;> rfl
                  rw [this, List.append_nil]
                  by_cases h : id' = socket
                  · simp [h]
                  · have h' : ¬ socket = id' := fun e => h e.symm
                    simp [h, h']
                · rw [htake]
                  simpa using Drained.pop wb rest [] rest (Drained.stay rest)
              have hst : (match (wb.writeDone count).writeFinishCallback with
                  | some cb => (s.emit [ReactorEvent.sent socket wb.getRemainingBuffer
                      (some count)]).emit [ReactorEvent.writeFinished cb Result.ok socket
                        (wb.writeDone count).customData]
                  | none => s.emit [ReactorEvent.sent socket wb.getRemainingBuffer
                      (some count)]) =
                  s.emit ([ReactorEvent.sent socket wb.getRemainingBuffer (some count)] ++
                    (match (wb.writeDone count).writeFinishCallback with
                      | some cb => [ReactorEvent.writeFinished cb Result.ok socket
                          (wb.writeDone count).customData]
                      | none => [])) := by
                cases (wb.writeDone count).writeFinishCallback <;>
                  simp [SocketTCP.emit]
              rw [hst]
              simpa using flushes_trans _ _ _ id [] [] hround (ih _)
                (conserves_find_none _ _ _ _ (flushWrites_conserves socket id n _))
            · rw [if_neg hdone]
              have hround : Flushes s
                  ((s.emit [ReactorEvent.sent socket wb.getRemainingBuffer
                    (some count)]).modifyPeer socket
                    (fun p => { p with writeBuffers := wb.writeDone count :: rest })) id [] := by
                apply flushes_flush_round s socket peer wb rest (wb.writeDone count :: rest)
                  (wb.getRemainingBuffer.take count) _ hfind hq
                · intro id'
                  rw [sentBytes_sent]
                  by_cases h : id' = socket
                  · simp [h]
                  · have h' : ¬ socket = id' := fun e => h e.symm
                    simp [h, h']
                · exact Drained.advance wb rest count
              simpa using flushes_trans _ _ _ id [] [] hround (ih _)
                (conserves_find_none _ _ _ _ (flushWrites_conserves socket id n _))
        · rw [if_neg hsize]
          have hrem : wb.getRemainingBuffer = [] :=
            WriteBufferInfo.getRemainingBuffer_eq_nil _ hsize
          have hround : Flushes s
              ((s.emit (match wb.writeFinishCallback with
                  | some cb => [ReactorEvent.writeFinished cb Result.ok socket wb.customData]
                  | none => [])).modifyPeer socket
                (fun p => { p with writeBuffers := rest })) id [] := by
            apply flushes_flush_round s socket peer wb rest rest [] _ hfind hq
            · intro id'
              have : sentBytes (match wb.writeFinishCallback with
                  | some cb => [ReactorEvent.writeFinished cb Result.ok socket wb.customData]
                  | none => []) id' = [] := by
                cases wb.writeFinishCallback <;> rfl
              rw [this]; simp
            · have := Drained.pop wb rest [] rest (Drained.stay rest)
              rw [hrem] at this
              exact this
          have hst : (match wb.writeFinishCallback with
              | some cb => s.emit [ReactorEvent.writeFinished cb Result.ok socket wb.customData]
              | none => s) =
              s.emit (match wb.writeFinishCallback with
                  | some cb => [ReactorEvent.writeFinished cb Result.ok socket wb.customData]
                  | none => []) := by
            cases wb.writeFinishCallback <;> simp [SocketTCP.emit]
          rw [hst]
          simpa using flushes_trans _ _ _ id [] [] hround (ih _)
            (conserves_find_none _ _ _ _ (flushWrites_conserves socket id n _))

theorem write_flushes (s : SocketTCP) (socketId socket : Nat) (buffer : List Byte)
    (customData : Nat) (callback : Option Nat) :
    Flushes s (s.write socketId buffer customData callback).2 socket
      (if socketId = socket ∧ (s.find socket).isSome then
        [⟨buffer, 0, callback, customData⟩] else []) := by
  unfold SocketTCP.write
  cases hfind : s.find socketId with
  | none =>
    simp only
    have hacc : (if socketId = socket ∧ (s.find socket).isSome then
        [(⟨buffer, 0, callback, customData⟩ : WriteBufferInfo)] else []) = [] := by
      apply if_neg
      rintro ⟨rfl, h⟩
      rw [hfind] at h
      cases h
    rw [hacc]
    cases callback with
    | none => exact flushes_refl s socket
    | some cb =>
      exact flushes_of_untouched _ _ _ rfl
        (by simp only [SocketTCP.events_emit, sentBytes_append, sentBytes_writeFinished,
          List.append_nil])
  | some peer =>
    simp only
    have hstate : ∀ (r : Result × SocketTCP),
        (match r with
          | (result, s2) => if result.isError then (result, s2) else (Result.ok, s2)).2 = r.2 := by
      rintro ⟨r, s2⟩
      simp only
      split <;> rfl
    rw [hstate]
    have hfind' := SocketTCP.find_modifyPeer s socketId socket
      (fun p => { p with writeBuffers :=
        p.writeBuffers ++ [⟨buffer, 0, callback, customData⟩] }) (fun _ => rfl)
    by_cases hid : socketId = socket
    · subst hid
      rw [if_pos ⟨rfl, by rw [hfind]; rfl⟩]
      intro _
      refine ⟨[], ?_, ?_⟩
      · rw [SocketTCP.setEvent_sentBytes]
        simp [SocketTCP.modifyPeer]
      · simp only [SocketTCP.queue, SocketTCP.setEvent_find, hfind', if_true, hfind,
          Option.map_some']
        exact Drained.stay _
    · have hacc : (if socketId = socket ∧ (s.find socket).isSome then
          [(⟨buffer, 0, callback, customData⟩ : WriteBufferInfo)] else []) = [] :=
        if_neg (fun h => hid h.1)
      rw [hacc]
      apply flushes_of_untouched
      · rw [SocketTCP.setEvent_find, hfind', if_neg (fun e => hid e.symm)]
      · rw [SocketTCP.setEvent_sentBytes]
        rfl

theorem handleWritable_flushes (s : SocketTCP) (fd socket : Nat) :
    Flushes s (s.handleWritable fd).2 socket [] := by
  unfold SocketTCP.handleWritable
  cases hfind : s.find fd with
  | none => exact close_flushes s fd socket
  | some peer =>
    simp only
    have hloop := flushWrites_flushes peer.socket socket peer.writeBuffers.length s
    rcases hfl : SocketTCP.flushWrites peer.socket peer.writeBuffers.length s with ⟨fl, s1⟩
    rw [hfl] at hloop
    cases fl with
    | returned r => exact hloop
    | done u =>
      simp only
      cases hfind1 : s1.find fd with
      | none => exact hloop
      | some peer1 =>
        simp only
        by_cases hlen : peer1.writeBuffers.length = 0
        · rw [if_pos hlen]
          have hstate : ∀ (r : Result × SocketTCP),
              (match r with
                | (result, s2) =>
                  if result.isError then (Flow.returned result, s2)
                  else ((Flow.done () : Flow Unit), s2)).2 = r.2 := by
            rintro ⟨r, s2⟩
            simp only
            split <;> rfl
          rw [hstate]
          have h2 : Flushes s1 (s1.setEvent peer1.socket EpollOp.modify true false).2
              socket [] :=
            flushes_of_untouched _ _ _ (SocketTCP.setEvent_find _ _ _ _ _ _)
              (SocketTCP.setEvent_sentBytes _ _ _ _ _ _)
          simpa using flushes_trans _ _ _ socket [] [] hloop h2
            (fun h => by rw [SocketTCP.setEvent_find]; exact h)
        · rw [if_neg hlen]
          exact hloop

theorem enqueuedBuffers_cons (s : SocketTCP) (socket : Nat) (op : ReactorOp)
    (ops : List ReactorOp) :
    s.enqueuedBuffers socket (op :: ops) =
      s.enqueuedBuffers socket [op] ++ (s.step op).enqueuedBuffers socket ops := by
  simp [SocketTCP.enqueuedBuffers]

theorem step_flushes (s : SocketTCP) (op : ReactorOp) (socket : Nat) :
    Flushes s (s.step op) socket (s.enqueuedBuffers socket [op]) := by
  cases op with
  | write socketId buffer customData callback =>
    simpa [SocketTCP.step, SocketTCP.enqueuedBuffers] using
      write_flushes s socketId socket buffer customData callback
  | writable fd =>
    simpa [SocketTCP.step, SocketTCP.enqueuedBuffers] using handleWritable_flushes s fd socket
  | close socketId =>
    simpa [SocketTCP.step, SocketTCP.enqueuedBuffers] using close_flushes s socketId socket

theorem run_find_none (socket : Nat) :
    ∀ (ops : List ReactorOp) (s : SocketTCP), s.find socket = none →
      (s.run ops).find socket = none := by
  intro ops
  induction ops with
  | nil => intro s h; exact h
  | cons op ops ih => intro s h; exact ih _ (step_find_none s op socket h)

theorem run_flushes (socket : Nat) :
    ∀ (ops : List ReactorOp) (s : SocketTCP),
      Flushes s (s.run ops) socket (s.enqueuedBuffers socket ops) := by
  intro ops
  induction ops with
  | nil => intro s; exact flushes_refl s socket
  | cons op ops ih =>
    intro s
    rw [enqueuedBuffers_cons]
    exact flushes_trans s (s.step op) ((s.step op).run ops) socket _ _
      (step_flushes s op socket) (ih (s.step op)) (run_find_none socket ops (s.step op))

/-- The bytes enqueued are the bytes of the buffers enqueued. -/
theorem enqueuedBytes_eq (socket : Nat) :
    ∀ (ops : List ReactorOp) (s : SocketTCP),
      s.enqueuedBytes socket ops =
        ((s.enqueuedBuffers socket ops).map WriteBufferInfo.getRemainingBuffer).flatten := by
  intro ops
  induction ops with
  | nil => intro s; rfl
  | cons op ops ih =>
    intro s
    rw [enqueuedBytes_cons, enqueuedBuffers_cons, List.map_append, List.flatten_append, ih]
    congr 1
    cases op with
    | write socketId buffer customData callback =>
      have hrem : WriteBufferInfo.getRemainingBuffer ⟨buffer, 0, callback, customData⟩ =
          buffer := by
        unfold WriteBufferInfo.getRemainingBuffer WriteBufferInfo.len
        cases buffer <;> simp
      by_cases h : socketId = socket ∧ (s.find socket).isSome
      · simp [SocketTCP.enqueuedBytes, SocketTCP.enqueuedBuffers, h, hrem]
      · simp [SocketTCP.enqueuedBytes, SocketTCP.enqueuedBuffers, h]
    | writable fd => rfl
    | close socketId => rfl

/-- C10: for every connection `socket`, every state `s` of the reactor and every
interleaving `ops` of `write` calls, write-readiness events and `close` calls, whatever
`send` returns each time (any count, or failure): the bytes taken by `send` for the
connection during the run are the first bytes of the concatenation of the unsent rest of
its queue and the buffers enqueued for it, in enqueue order; and as long as the
connection is in the table after the run, its queue is the queue of all those buffers
without some buffers at its front, every unsent byte of which has been sent
(`Drained`): a buffer with a byte not yet sent is still queued, so it leaves the queue
only fully sent or when the connection is closed. -/
theorem C10_fifo_write_order (s : SocketTCP) (ops : List ReactorOp) (socket : Nat) :
    ∃ d, sentBytes (s.run ops).events socket = sentBytes s.events socket ++ d ∧
      d <+: s.pendingBytes socket ++ s.enqueuedBytes socket ops ∧
      (((s.run ops).find socket).isSome →
        Drained (s.queue socket ++ s.enqueuedBuffers socket ops) d
            ((s.run ops).queue socket) ∧
          d ++ (s.run ops).pendingBytes socket =
            s.pendingBytes socket ++ s.enqueuedBytes socket ops) := by
  obtain ⟨d, hsent, ⟨t, ht⟩, hkeep, _⟩ := run_conserves socket ops s
  refine ⟨d, hsent, ⟨t, ht.symm⟩, fun hopen => ⟨?_, hkeep hopen⟩⟩
  obtain ⟨d1, hsent1, hdrained⟩ := run_flushes socket ops s hopen
  have hd : d1 = d := List.append_cancel_left (hsent1.symm.trans hsent)
  rw [← hd]
  exact hdrained

/-- On the example the event sends the first buffer in two calls and leaves the second
one queued: the loop runs once per buffer queued at the start of the event. -/
theorem demoReactor_run :
    sentBytes (demoReactor.run demoOps).events 5 = [1, 2, 3] ∧
      (demoReactor.run demoOps).queue 5 = [⟨[4, 5, 6], 0, some 2, 8⟩] ∧
      demoReactor.enqueuedBytes 5 demoOps = [1, 2, 3, 4, 5, 6] ∧
      sentBytes ((demoReactor.run demoOps).run [ReactorOp.writable 5]).events 5 =
        [1, 2, 3, 4, 5] ∧
      ((demoReactor.run demoOps).run [ReactorOp.writable 5]).queue 5 =
        [⟨[4, 5, 6], 2, some 2, 8⟩] := by
  decide

theorem closeCallbacks_eq (socket : Nat) (q : List WriteBufferInfo) :
    SocketTCP.closeCallbacks socket q =
      finishCallbacks SocketTCP.socketClosedError socket q := by
  induction q with
  | nil => rfl
  | cons b rest ih =>
    rw [SocketTCP.closeCallbacks, ih]
    cases h : b.writeFinishCallback <;> simp [finishCallbacks, List.filterMap_cons, h]

theorem finishCallbacks_length (result : Result) (socket : Nat) (q : List WriteBufferInfo)
    (h : ∀ b ∈ q, b.writeFinishCallback.isSome) :
    (finishCallbacks result socket q).length = q.length := by
  induction q with
  | nil => rfl
  | cons b rest ih =>
    have hb := h b (List.mem_cons_self _ _)
    have hrest := ih (fun x hx => h x (List.mem_cons_of_mem _ hx))
    cases hcb : b.writeFinishCallback with
    | none => rw [hcb] at hb; cases hb
    | some cb =>
      simp only [finishCallbacks, List.filterMap_cons, hcb, Option.map_some', List.length_cons]
      exact congrArg (· + 1) hrest

/-- What `close` does for an identity that is in the table. -/
theorem close_open (s : SocketTCP) (id : Nat) (peer : PeerSocketInfo)
    (h : s.find id = some peer) :
    ∃ ok, (s.close id).events =
      s.events ++ finishCallbacks SocketTCP.socketClosedError id peer.writeBuffers ++
        (if s.hasCloseCallback then [ReactorEvent.closed id peer.customData] else []) ++
        [ReactorEvent.epollCtl id EpollOp.delete false false ok, ReactorEvent.osClose id] := by
  have hsock := SocketTCP.find_socket s id peer h
  have h1 : SocketTCP.find { s with closedSocket := true } id = some peer := h
  unfold SocketTCP.close
  simp only [h1, closeCallbacks_eq, hsock]
  by_cases hcb : s.hasCloseCallback = true
  · simp [SocketTCP.setEvent, SocketTCP.emit, SocketTCP.erase, hcb]
    split <;> simp
  · simp [SocketTCP.setEvent, SocketTCP.emit, SocketTCP.erase, hcb]
    split <;> simp

/-- What `close` does for an identity that is not in the table. -/
theorem close_absent (s : SocketTCP) (id : Nat) (h : s.find id = none) :
    s.close id =
      { s with
        closedSocket := true
        events := s.events ++
          [ReactorEvent.epollCtl id EpollOp.delete false false (s.osCtl s.events.length),
            ReactorEvent.osClose id] } := by
  have h1 : SocketTCP.find { s with closedSocket := true } id = none := h
  unfold SocketTCP.close
  simp only [h1]
  simp only [SocketTCP.setEvent, SocketTCP.emit]
  split <;> simp

/-- C12: `close(id)` on a connection that is in the table, whose `k` queued buffers all
have a completion callback, with a close callback registered: the reactor invokes the
`k` completion callbacks in queue order, each with the failure result whose description
is "Could not send data, socket is closed", then the close callback once with the
connection's tag, then deregisters and closes the descriptor; afterwards the identity is
not in the table. -/
theorem C12_close_drains_queue (s : SocketTCP) (id : Nat) (peer : PeerSocketInfo)
    (hopen : s.find id = some peer)
    (hcallbacks : ∀ b ∈ peer.writeBuffers, b.writeFinishCallback.isSome)
    (hclose : s.hasCloseCallback = true) :
    (∃ ok, (s.close id).events =
      s.events ++ finishCallbacks SocketTCP.socketClosedError id peer.writeBuffers ++
        [ReactorEvent.closed id peer.customData] ++
        [ReactorEvent.epollCtl id EpollOp.delete false false ok, ReactorEvent.osClose id]) ∧
      (finishCallbacks SocketTCP.socketClosedError id peer.writeBuffers).length =
        peer.writeBuffers.length ∧
      SocketTCP.socketClosedError.isError = true ∧
      SocketTCP.socketClosedError.description = "Could not send data, socket is closed" ∧
      (s.close id).find id = none := by
  refine ⟨?_, finishCallbacks_length _ _ _ hcallbacks, by decide, by decide, ?_⟩
  · obtain ⟨ok, h⟩ := close_open s id peer hopen
    rw [hclose, if_pos rfl] at h
    exact ⟨ok, h⟩
  · rw [SocketTCP.close_find, if_pos rfl]

theorem C12_close_drains_queue_witness :
    (busyReactor.close 5).events =
      busyReactor.events ++
        [ReactorEvent.writeFinished 1 SocketTCP.socketClosedError 5 7,
          ReactorEvent.writeFinished 2 SocketTCP.socketClosedError 5 8,
          ReactorEvent.closed 5 0,
          ReactorEvent.epollCtl 5 EpollOp.delete false false true,
          ReactorEvent.osClose 5] ∧
      (busyReactor.close 5).find 5 = none := by
  have h := C12_close_drains_queue busyReactor 5
    ⟨Status.Connected, 5, 0, [⟨[1, 2, 3], 0, some 1, 7⟩, ⟨[4, 5, 6], 0, some 2, 8⟩]⟩
    (by decide) (by decide) (by decide)
  exact ⟨by decide, h.2.2.2.2⟩

/-- C13 as stated fails: on a reactor whose table does not hold the identity `9`,
`close(9)` sets the flag `closedSocket` and performs `epoll_ctl(EPOLL_CTL_DEL)` and the
OS `close` on the descriptor. -/
theorem C13_close_absent_counterexample :
    demoReactor.find 9 = none ∧
      demoReactor.closedSocket = false ∧ (demoReactor.close 9).closedSocket = true ∧
      demoReactor.events = [] ∧
      (demoReactor.close 9).events =
        [ReactorEvent.epollCtl 9 EpollOp.delete false false true, ReactorEvent.osClose 9] := by
  decide

/-- C13 amended: `close(id)` on an identity that is not in the table invokes no
completion or close callback and leaves the connection table (and every queue) as it
is; it sets the flag `closedSocket`, and performs `epoll_ctl(EPOLL_CTL_DEL)` and the OS
`close` on the descriptor, and nothing else. -/
theorem C13_close_absent (s : SocketTCP) (id : Nat) (habsent : s.find id = none) :
    (s.close id).peerSockets = s.peerSockets ∧
      (s.close id).events = s.events ++
        [ReactorEvent.epollCtl id EpollOp.delete false false (s.osCtl s.events.length),
          ReactorEvent.osClose id] ∧
      (s.close id).closedSocket = true ∧
      (s.close id).hasCloseCallback = s.hasCloseCallback ∧
      (∀ socket, (s.close id).find socket = s.find socket) := by
  rw [close_absent s id habsent]
  exact ⟨rfl, rfl, rfl, rfl, fun _ => rfl⟩

theorem C13_close_absent_witness :
    ((busyReactor.close 5).close 5).peerSockets = (busyReactor.close 5).peerSockets ∧
      ((busyReactor.close 5).close 5).events = (busyReactor.close 5).events ++
        [ReactorEvent.epollCtl 5 EpollOp.delete false false true, ReactorEvent.osClose 5] := by
  have h := C13_close_absent (busyReactor.close 5) 5 (by decide)
  exact ⟨h.1, h.2.1⟩

/-- C14: `write(id, ...)` with an identity that is not in the table and a completion
callback `cb`: the only thing the reactor does is invoke `cb` once, inside the call, with
the error `invalid_socket_id` (and the identity and tag of the call); the call returns
the error `socket_error`; the connection table, so every write queue, is unchanged. -/
theorem C14_write_unknown_identity (s : SocketTCP) (id : Nat) (buffer : List Byte)
    (customData cb : Nat) (habsent : s.find id = none) :
    (s.write id buffer customData (some cb)).1 =
        Result.make "socket_error" "invalid socketId" [] ∧
      (s.write id buffer customData (some cb)).1.isError = true ∧
      (s.write id buffer customData (some cb)).2.events = s.events ++
        [ReactorEvent.writeFinished cb
          (Result.make "invalid_socket_id" "invalid socket id \x7b\x7d" [showNat id])
          id customData] ∧
      (Result.make "invalid_socket_id" "invalid socket id \x7b\x7d" [showNat id]).isError =
        true ∧
      (s.write id buffer customData (some cb)).2.peerSockets = s.peerSockets ∧
      (∀ socket, (s.write id buffer customData (some cb)).2.queue socket = s.queue socket) := by
  have hw : s.write id buffer customData (some cb) =
      (Result.make "socket_error" "invalid socketId" [],
        s.emit [ReactorEvent.writeFinished cb
          (Result.make "invalid_socket_id" "invalid socket id \x7b\x7d" [showNat id])
          id customData]) := by
    unfold SocketTCP.write
    rw [habsent]
  rw [hw]
  refine ⟨rfl, ?_, rfl, ?_, rfl, fun _ => rfl⟩
  · show decide ("socket_error".length > 0) = true
    decide
  · show decide ("invalid_socket_id".length > 0) = true
    decide

theorem C14_write_unknown_identity_witness :
    (busyReactor.write 9 [1, 2] 3 (some 4)).1 =
        Result.make "socket_error" "invalid socketId" [] ∧
      (busyReactor.write 9 [1, 2] 3 (some 4)).2.events = busyReactor.events ++
        [ReactorEvent.writeFinished 4 ⟨"invalid_socket_id", "invalid socket id 9"⟩ 9 3] ∧
      (busyReactor.write 9 [1, 2] 3 (some 4)).2.queue 5 = busyReactor.queue 5 := by
  have h := C14_write_unknown_identity busyReactor 9 [1, 2] 3 4 (by decide)
  exact ⟨h.1, by decide, h.2.2.2.2.2 5⟩

theorem finishCallbacks_append (r : Result) (socket : Nat) (a b : List WriteBufferInfo) :
    finishCallbacks r socket (a ++ b) = finishCallbacks r socket a ++ finishCallbacks r socket b := by
  simp [finishCallbacks, List.filterMap_append]

theorem finishCallbacks_writeDone (r : Result) (socket : Nat) (b : WriteBufferInfo)
    (rest : List WriteBufferInfo) (count : Nat) :
    finishCallbacks r socket (b.writeDone count :: rest) = finishCallbacks r socket (b :: rest) := by
  simp [finishCallbacks, List.filterMap_cons, WriteBufferInfo.writeDone]

theorem served_append (socket : Nat) (q q1 new : List WriteBufferInfo) (d : List Byte)
    (L : List ReactorEvent) (h : Served socket q d L q1) :
    Served socket (q ++ new) d L (q1 ++ new) := by
  induction h with
  | stay q => exact Served.stay _
  | advance b rest count => exact Served.advance b (rest ++ new) count
  | pop b rest d L q _ ih => exact Served.pop b (rest ++ new) d L (q ++ new) ih

theorem served_trans (socket : Nat) (q q1 q2 : List WriteBufferInfo) (d1 d2 : List Byte)
    (L1 L2 : List ReactorEvent)
    (h1 : Served socket q d1 L1 q1) (h2 : Served socket q1 d2 L2 q2) :
    Served socket q (d1 ++ d2) (L1 ++ L2) q2 := by
  induction h1 generalizing d2 L2 q2 with
  | stay q => simpa using h2
  | advance b rest count =>
    cases h2 with
    | stay => simpa using Served.advance b rest count
    | advance _ _ count2 =>
      rw [WriteBufferInfo.writeDone_writeDone, WriteBufferInfo.getRemainingBuffer_writeDone,
        ← List.take_add]
      exact Served.advance b rest (count + count2)
    | pop _ _ d L q h =>
      rw [WriteBufferInfo.getRemainingBuffer_writeDone, ← List.append_assoc,
        List.take_append_drop, finishCallbacks_writeDone, List.nil_append]
      exact Served.pop b rest d L q2 h
  | pop b rest d L q _ ih =>
    rw [List.append_assoc, List.append_assoc]
    exact Served.pop b rest (d ++ d2) (L ++ L2) q2 (ih _ _ _ h2)

theorem served_nil (socket : Nat) (d : List Byte) (L : List ReactorEvent)
    (q : List WriteBufferInfo) (h : Served socket [] d L q) : d = [] ∧ L = [] ∧ q = [] := by
  cases h
  exact ⟨rfl, rfl, rfl⟩

theorem queue_of_find_none (s : SocketTCP) (socket : Nat) (h : s.find socket = none) :
    s.queue socket = [] := by
  unfold SocketTCP.queue
  rw [h]

theorem life_trans (s s1 s2 : SocketTCP) (socket : Nat) (new1 new2 : List WriteBufferInfo)
    (rej1 rej2 : List ReactorEvent)
    (h1 : Life s s1 socket new1 rej1) (h2 : Life s1 s2 socket new2 rej2)
    (hn1 : s.find socket = none → s1.find socket = none)
    (hn2 : s1.find socket = none → s2.find socket = none) :
    Life s s2 socket (new1 ++ new2) (rej1 ++ rej2) := by
  obtain ⟨d1, L1, hs1, hl1, hnew1, hopen1, hclosed1⟩ := h1
  obtain ⟨d2, L2, hs2, hl2, hnew2, hopen2, hclosed2⟩ := h2
  refine ⟨d1 ++ d2, L1 ++ L2, by rw [hs2, hs1, List.append_assoc],
    by rw [hl2, hl1, List.append_assoc], ?_, ?_, ?_⟩
  · intro h
    rw [hnew1 h, hnew2 (hn1 h)]
    rfl
  · intro hopen
    have ho1 : (s1.find socket).isSome := by
      cases hf : s1.find socket with
      | none => rw [hn2 hf] at hopen; cases hopen
      | some p => rfl
    obtain ⟨hr1, hv1⟩ := hopen1 ho1
    obtain ⟨hr2, hv2⟩ := hopen2 hopen
    refine ⟨by rw [hr1, hr2]; rfl, ?_⟩
    rw [← List.append_assoc]
    exact served_trans _ _ _ _ _ _ _ _ (served_append _ _ _ new2 _ _ hv1) hv2
  · intro hclosed
    obtain ⟨L0, q, hv2, hL2⟩ := hclosed2 hclosed
    cases hf : s1.find socket with
    | some p =>
      obtain ⟨hr1, hv1⟩ := hopen1 (by rw [hf]; rfl)
      refine ⟨L1 ++ L0, q, ?_, ?_⟩
      · rw [← List.append_assoc]
        exact served_trans _ _ _ _ _ _ _ _ (served_append _ _ _ new2 _ _ hv1) hv2
      · rw [hL2, hr1]
        simp
    | none =>
      obtain ⟨L0a, qa, hv1, hL1⟩ := hclosed1 hf
      rw [queue_of_find_none s1 socket hf, hnew2 hf] at hv2
      obtain ⟨hd2, hL0, hq⟩ := served_nil _ _ _ _ hv2
      refine ⟨L0a, qa, ?_, ?_⟩
      · rw [hd2, hnew2 hf, List.append_nil, List.append_nil]
        exact hv1
      · rw [hL2, hL1, hL0, hq]
        simp [finishCallbacks]

theorem callbackLog_append (a b : List ReactorEvent) (socket : Nat) :
    callbackLog (a ++ b) socket = callbackLog a socket ++ callbackLog b socket := by
  simp [callbackLog, List.filter_append]

theorem callbackLog_finishCallbacks (r : Result) (socket id : Nat) (q : List WriteBufferInfo) :
    callbackLog (finishCallbacks r socket q) id =
      if socket = id then finishCallbacks r socket q else [] := by
  induction q with
  | nil => simp [finishCallbacks, callbackLog]
  | cons b rest ih =>
    have hc : finishCallbacks r socket (b :: rest) =
        finishCallbacks r socket [b] ++ finishCallbacks r socket rest :=
      finishCallbacks_append r socket [b] rest
    rw [hc, callbackLog_append, ih]
    cases hcb : b.writeFinishCallback with
    | none =>
      have : finishCallbacks r socket [b] = [] := by
        simp [finishCallbacks, List.filterMap_cons, hcb]
      rw [this]
      simp [callbackLog]
    | some cb =>
      have : finishCallbacks r socket [b] =
          [ReactorEvent.writeFinished cb r socket b.customData] := by
        simp [finishCallbacks, List.filterMap_cons, hcb]
      rw [this]
      by_cases h : socket = id
      · simp [callbackLog, h]
      · simp [callbackLog, h]

theorem setEvent_events (s : SocketTCP) (socket : Nat) (op : EpollOp) (r w : Bool) :
    (s.setEvent socket op r w).2.events =
      s.events ++ [ReactorEvent.epollCtl socket op r w (s.osCtl s.events.length)] := by
  unfold SocketTCP.setEvent
  simp only
  split <;> rfl

theorem setEvent_callbackLog (s : SocketTCP) (socket : Nat) (op : EpollOp) (r w : Bool)
    (id : Nat) :
    callbackLog (s.setEvent socket op r w).2.events id = callbackLog s.events id := by
  rw [setEvent_events, callbackLog_append]
  simp [callbackLog]

theorem queue_of_find (s : SocketTCP) (socket : Nat) (p : PeerSocketInfo)
    (h : s.find socket = some p) : s.queue socket = p.writeBuffers := by
  unfold SocketTCP.queue
  rw [h]

theorem close_callbackLog (s : SocketTCP) (id socket : Nat) :
    callbackLog (s.close id).events socket =
      callbackLog s.events socket ++
        (if id = socket then finishCallbacks SocketTCP.socketClosedError id (s.queue id)
          else []) := by
  cases hf : s.find id with
  | none =>
    rw [close_absent s id hf, queue_of_find_none s id hf]
    simp [callbackLog, finishCallbacks]
  | some peer =>
    obtain ⟨ok, h⟩ := close_open s id peer hf
    rw [h, queue_of_find s id peer hf]
    simp only [callbackLog_append, callbackLog_finishCallbacks]
    have h1 : callbackLog (if s.hasCloseCallback = true then
        [ReactorEvent.closed id peer.customData] else []) socket = [] := by
      split <;> rfl
    have h2 : callbackLog [ReactorEvent.epollCtl id EpollOp.delete false false ok,
        ReactorEvent.osClose id] socket = [] := rfl
    rw [h1, h2, List.append_nil, List.append_nil]

theorem life_refl (s : SocketTCP) (socket : Nat) : Life s s socket [] [] := by
  refine ⟨[], [], by simp, by simp, fun _ => rfl, fun _ => ⟨rfl, ?_⟩, fun hc => ⟨[], [], ?_, ?_⟩⟩
  · simpa using Served.stay (s.queue socket)
  · rw [queue_of_find_none s socket hc]
    exact Served.stay []
  · simp [finishCallbacks]

theorem life_of_untouched (s s1 : SocketTCP) (socket : Nat)
    (hf : s1.find socket = s.find socket)
    (hs : sentBytes s1.events socket = sentBytes s.events socket)
    (hl : callbackLog s1.events socket = callbackLog s.events socket) :
    Life s s1 socket [] [] := by
  have hq : s1.queue socket = s.queue socket := by
    unfold SocketTCP.queue; rw [hf]
  refine ⟨[], [], by simp [hs], by simp [hl], fun _ => rfl, fun _ => ⟨rfl, ?_⟩,
    fun hc => ⟨[], [], ?_, ?_⟩⟩
  · rw [hq]; simpa using Served.stay (s.queue socket)
  · rw [hf] at hc
    rw [queue_of_find_none s socket hc]
    exact Served.stay []
  · simp [finishCallbacks]

theorem close_life (s : SocketTCP) (id socket : Nat) :
    Life s (s.close id) socket [] [] := by
  by_cases h : id = socket
  · subst h
    refine ⟨[], finishCallbacks SocketTCP.socketClosedError id (s.queue id), ?_, ?_,
      fun _ => rfl, ?_, ?_⟩
    · rw [SocketTCP.close_sentBytes]; simp
    · rw [close_callbackLog, if_pos rfl]
    · intro hopen
      rw [SocketTCP.close_find, if_pos rfl] at hopen
      cases hopen
    · intro _
      refine ⟨[], s.queue id, ?_, by simp⟩
      simpa using Served.stay (s.queue id)
  · apply life_of_untouched
    · rw [SocketTCP.close_find, if_neg (fun e => h e.symm)]
    · exact SocketTCP.close_sentBytes _ _ _
    · rw [close_callbackLog, if_neg h, List.append_nil]

theorem write_life (s : SocketTCP) (socketId socket : Nat) (buffer : List Byte)
    (customData : Nat) (callback : Option Nat) :
    Life s (s.write socketId buffer customData callback).2 socket
      (if socketId = socket ∧ (s.find socket).isSome then
        [⟨buffer, 0, callback, customData⟩] else [])
      (if socketId = socket ∧ s.find socket = none then
        match callback with
        | some cb =>
          [ReactorEvent.writeFinished cb
            (Result.make "invalid_socket_id" "invalid socket id \x7b\x7d" [showNat socketId])
            socketId customData]
        | none => []
      else []) := by
  unfold SocketTCP.write
  cases hfind : s.find socketId with
  | none =>
    simp only
    have hacc : (if socketId = socket ∧ (s.find socket).isSome then
        [(⟨buffer, 0, callback, customData⟩ : WriteBufferInfo)] else []) = [] := by
      apply if_neg
      rintro ⟨rfl, h⟩
      rw [hfind] at h
      cases h
    rw [hacc]
    by_cases hid : socketId = socket
    · subst hid
      rw [if_pos ⟨rfl, hfind⟩]
      cases callback with
      | none => exact life_refl s socketId
      | some cb =>
        simp only
        refine ⟨[], [ReactorEvent.writeFinished cb
            (Result.make "invalid_socket_id" "invalid socket id \x7b\x7d" [showNat socketId])
            socketId customData], ?_, ?_, fun _ => rfl, ?_, ?_⟩
        · simp only [SocketTCP.events_emit, sentBytes_append, sentBytes_writeFinished]
        · rw [SocketTCP.events_emit, callbackLog_append]
          simp [callbackLog]
        · intro hopen
          rw [SocketTCP.find_emit, hfind] at hopen
          cases hopen
        · intro _
          refine ⟨[], [], ?_, by simp [finishCallbacks]⟩
          rw [queue_of_find_none s socketId hfind]
          exact Served.stay []
    · rw [if_neg (fun h => hid h.1)]
      cases callback with
      | none => exact life_refl s socket
      | some cb =>
        simp only
        apply life_of_untouched
        · rfl
        · simp only [SocketTCP.events_emit, sentBytes_append, sentBytes_writeFinished,
            List.append_nil]
        · rw [SocketTCP.events_emit, callbackLog_append]
          simp [callbackLog, hid]
  | some peer =>
    simp only
    have hstate : ∀ (r : Result × SocketTCP),
        (match r with
          | (result, s2) => if result.isError then (result, s2) else (Result.ok, s2)).2 = r.2 := by
      rintro ⟨r, s2⟩
      simp only
      split <;> rfl
    rw [hstate]
    have hfind' := SocketTCP.find_modifyPeer s socketId socket
      (fun p => { p with writeBuffers :=
        p.writeBuffers ++ [⟨buffer, 0, callback, customData⟩] }) (fun _ => rfl)
    by_cases hid : socketId = socket
    · subst hid
      have hrej : ¬ (socketId = socketId ∧ s.find socketId = none) := by
        rintro ⟨_, h⟩
        rw [hfind] at h
        cases h
      rw [if_pos ⟨rfl, by rw [hfind]; rfl⟩, if_neg hrej]
      refine ⟨[], [], ?_, ?_, ?_, ?_, ?_⟩
      · rw [SocketTCP.setEvent_sentBytes]
        simp [SocketTCP.modifyPeer]
      · rw [setEvent_callbackLog]
        simp [SocketTCP.modifyPeer]
      · intro h
        rw [hfind] at h
        cases h
      · intro _
        refine ⟨rfl, ?_⟩
        simp only [SocketTCP.queue, SocketTCP.setEvent_find, hfind', if_true, hfind,
          Option.map_some']
        exact Served.stay _
      · intro hclosed
        rw [SocketTCP.setEvent_find, hfind', if_pos rfl, hfind] at hclosed
        cases hclosed
    · rw [if_neg (fun h => hid h.1), if_neg (fun h => hid h.1)]
      apply life_of_untouched
      · rw [SocketTCP.setEvent_find, hfind', if_neg (fun e => hid e.symm)]
      · rw [SocketTCP.setEvent_sentBytes]
        rfl
      · rw [setEvent_callbackLog]
        rfl

/-- One round of the flush loop that replaces the queue `wb :: rest` of `socket` by `q`
after `send` took the bytes `d` and the callbacks `L` were invoked. -/
theorem life_flush_round (s : SocketTCP) (socket : Nat) (peer : PeerSocketInfo)
    (wb : WriteBufferInfo) (rest q : List WriteBufferInfo) (d : List Byte)
    (L evs : List ReactorEvent)
    (hfind : s.find socket = some peer) (hq : peer.writeBuffers = wb :: rest)
    (hsent : ∀ id, sentBytes evs id = if id = socket then d else [])
    (hlog : ∀ id, callbackLog evs id = if id = socket then L else [])
    (hserved : Served socket (wb :: rest) d L q)
    (id : Nat) :
    Life s ((s.emit evs).modifyPeer socket (fun p => { p with writeBuffers := q })) id
      [] [] := by
  have hfind' : ∀ id', ((s.emit evs).modifyPeer socket
      (fun p => { p with writeBuffers := q })).find id' =
        if id' = socket then (s.find id').map (fun p => { p with writeBuffers := q })
        else s.find id' := by
    intro id'
    rw [SocketTCP.find_modifyPeer (s.emit evs) socket id'
      (fun p => { p with writeBuffers := q }) (fun _ => rfl), SocketTCP.find_emit]
  have hev : ((s.emit evs).modifyPeer socket (fun p => { p with writeBuffers := q })).events =
      s.events ++ evs := rfl
  by_cases hid : id = socket
  · subst hid
    refine ⟨d, L, by rw [hev, sentBytes_append, hsent, if_pos rfl],
      by rw [hev, callbackLog_append, hlog, if_pos rfl], fun _ => rfl, ?_, ?_⟩
    · intro _
      refine ⟨rfl, ?_⟩
      simp only [SocketTCP.queue, hfind', if_true, hfind, List.append_nil, Option.map_some', hq]
      exact hserved
    · intro hclosed
      rw [hfind', if_pos rfl, hfind] at hclosed
      cases hclosed
  · apply life_of_untouched
    · rw [hfind', if_neg hid]
    · rw [hev, sentBytes_append, hsent, if_neg hid, List.append_nil]
    · rw [hev, callbackLog_append, hlog, if_neg hid, List.append_nil]

theorem callbackLog_sent (socket id : Nat) (data : List Byte) (count : Option Nat) :
    callbackLog [ReactorEvent.sent socket data count] id = [] := rfl

/-- The log entry of the success callback of a buffer. -/
theorem callbackLog_ok (socket id : Nat) (b : WriteBufferInfo) :
    callbackLog (match b.writeFinishCallback with
      | some cb => [ReactorEvent.writeFinished cb Result.ok socket b.customData]
      | none => []) id =
      if id = socket then finishCallbacks Result.ok socket [b] else [] := by
  cases hcb : b.writeFinishCallback with
  | none => simp [callbackLog, finishCallbacks, List.filterMap_cons, hcb]
  | some cb =>
    by_cases h : id = socket
    · simp [callbackLog, finishCallbacks, List.filterMap_cons, hcb, h]
    · have h' : ¬ socket = id := fun e => h e.symm
      simp [callbackLog, finishCallbacks, List.filterMap_cons, hcb, h, h']

theorem sentBytes_ok (socket id : Nat) (b : WriteBufferInfo) :
    sentBytes (match b.writeFinishCallback with
      | some cb => [ReactorEvent.writeFinished cb Result.ok socket b.customData]
      | none => []) id = [] := by
  cases b.writeFinishCallback <;> rfl

theorem flushWrites_find_none (socket id : Nat) (n : Nat) (s : SocketTCP)
    (h : s.find id = none) : (SocketTCP.flushWrites socket n s).2.find id = none :=
  conserves_find_none _ _ _ _ (flushWrites_conserves socket id n s) h

theorem round_find_none (s : SocketTCP) (evs : List ReactorEvent) (socket id : Nat)
    (q : List WriteBufferInfo) (h : s.find id = none) :
    ((s.emit evs).modifyPeer socket (fun p => { p with writeBuffers := q })).find id = none := by
  rw [SocketTCP.find_modifyPeer (s.emit evs) socket id
    (fun p => { p with writeBuffers := q }) (fun _ => rfl), SocketTCP.find_emit, h]
  split <;> rfl

theorem flushWrites_life (socket id : Nat) :
    ∀ (n : Nat) (s : SocketTCP), Life s (SocketTCP.flushWrites socket n s).2 id [] [] := by
  intro n
  induction n with
  | zero => intro s; exact life_refl s id
  | succ n ih =>
    intro s
    rw [SocketTCP.flushWrites]
    cases hfind : s.find socket with
    | none => exact life_refl s id
    | some peer =>
      simp only
      cases hq : peer.writeBuffers with
      | nil => exact life_refl s id
      | cons wb rest =>
        simp only
        by_cases hsize : wb.getRemainingBufferSize > 0
        · rw [if_pos hsize]
          cases hsend : s.osSend s.events.length
              (SocketTCP.sendLength wb.getRemainingBufferSize) with
          | none =>
            simp only
            have h1 : Life s (s.emit [ReactorEvent.sent socket wb.getRemainingBuffer none])
                id [] [] :=
              life_of_untouched _ _ _ rfl
                (by rw [SocketTCP.events_emit, sentBytes_append, sentBytes_sent]; simp)
                (by rw [SocketTCP.events_emit, callbackLog_append, callbackLog_sent]; simp)
            have h2 := close_life
              (s.emit [ReactorEvent.sent socket wb.getRemainingBuffer none]) socket id
            simpa using life_trans _ _ _ id [] [] [] [] h1 h2 (fun h => h)
              (conserves_find_none _ _ _ _ (close_conserves _ socket id))
          | some count =>
            simp only
            by_cases hdone : (wb.writeDone count).getRemainingBufferSize = 0
            · rw [if_pos hdone]
              have hrem : (wb.writeDone count).getRemainingBuffer = [] :=
                WriteBufferInfo.getRemainingBuffer_eq_nil _ (by omega)
              rw [WriteBufferInfo.getRemainingBuffer_writeDone] at hrem
              have htake : wb.getRemainingBuffer.take count = wb.getRemainingBuffer := by
                have := List.take_append_drop count wb.getRemainingBuffer
                rw [hrem, List.append_nil] at this
                exact this
              have hround : Life s
                  ((s.emit ([ReactorEvent.sent socket wb.getRemainingBuffer (some count)] ++
                    (match (wb.writeDone count).writeFinishCallback with
                      | some cb => [ReactorEvent.writeFinished cb Result.ok socket
                          (wb.writeDone count).customData]
                      | none => []))).modifyPeer socket
                    (fun p => { p with writeBuffers := rest })) id [] [] := by
                apply life_flush_round s socket peer wb rest rest
                  (wb.getRemainingBuffer.take count)
                  (finishCallbacks Result.ok socket [wb]) _ hfind hq
                · intro id'
                  rw [sentBytes_append, sentBytes_sent, sentBytes_ok, List.append_nil]
                  by_cases h : id' = socket
                  · simp [h]
                  · have h' : ¬ socket = id' := fun e => h e.symm
                    simp [h, h']
                · intro id'
                  rw [callbackLog_append, callbackLog_sent, callbackLog_ok, List.nil_append,
                    finishCallbacks_writeDone]
                · rw [htake]
                  simpa using Served.pop wb rest [] [] rest (Served.stay rest)
              have hst : (match (wb.writeDone count).writeFinishCallback with
                  | some cb => (s.emit [ReactorEvent.sent socket wb.getRemainingBuffer
                      (some count)]).emit [ReactorEvent.writeFinished cb Result.ok socket
                        (wb.writeDone count).customData]
                  | none => s.emit [ReactorEvent.sent socket wb.getRemainingBuffer
                      (some count)]) =
                  s.emit ([ReactorEvent.sent socket wb.getRemainingBuffer (some count)] ++
                    (match (wb.writeDone count).writeFinishCallback with
                      | some cb => [ReactorEvent.writeFinished cb Result.ok socket
                          (wb.writeDone count).customData]
                      | none => [])) := by
                cases (wb.writeDone count).writeFinishCallback <;>
                  simp [SocketTCP.emit]
              rw [hst]
              simpa using life_trans _ _ _ id [] [] [] [] hround (ih _)
                (round_find_none s _ socket id rest)
                (flushWrites_find_none socket id n _)
            · rw [if_neg hdone]
              have hround : Life s
                  ((s.emit [ReactorEvent.sent socket wb.getRemainingBuffer
                    (some count)]).modifyPeer socket
                    (fun p => { p with writeBuffers := wb.writeDone count :: rest }))
                  id [] [] := by
                apply life_flush_round s socket peer wb rest (wb.writeDone count :: rest)
                  (wb.getRemainingBuffer.take count) [] _ hfind hq
                · intro id'
                  rw [sentBytes_sent]
                  by_cases h : id' = socket
                  · simp [h]
                  · have h' : ¬ socket = id' := fun e => h e.symm
                    simp [h, h']
                · intro id'
                  rw [callbackLog_sent]
                  simp
                · exact Served.advance wb rest count
              simpa using life_trans _ _ _ id [] [] [] [] hround (ih _)
                (round_find_none s _ socket id _)
                (flushWrites_find_none socket id n _)
        · rw [if_neg hsize]
          have hrem : wb.getRemainingBuffer = [] :=
            WriteBufferInfo.getRemainingBuffer_eq_nil _ hsize
          have hround : Life s
              ((s.emit (match wb.writeFinishCallback with
                  | some cb => [ReactorEvent.writeFinished cb Result.ok socket wb.customData]
                  | none => [])).modifyPeer socket
                (fun p => { p with writeBuffers := rest })) id [] [] := by
            apply life_flush_round s socket peer wb rest rest []
              (finishCallbacks Result.ok socket [wb]) _ hfind hq
            · intro id'
              rw [sentBytes_ok]
              simp
            · intro id'
              rw [callbackLog_ok]
            · have hpop : Served socket (wb :: rest) (wb.getRemainingBuffer ++ [])
                  (finishCallbacks Result.ok socket [wb] ++ []) rest :=
                Served.pop wb rest [] [] rest (Served.stay rest)
              rw [hrem] at hpop
              simpa using hpop
          have hst : (match wb.writeFinishCallback with
              | some cb => s.emit [ReactorEvent.writeFinished cb Result.ok socket wb.customData]
              | none => s) =
              s.emit (match wb.writeFinishCallback with
                  | some cb => [ReactorEvent.writeFinished cb Result.ok socket wb.customData]
                  | none => []) := by
            cases wb.writeFinishCallback <;> simp [SocketTCP.emit]
          rw [hst]
          simpa using life_trans _ _ _ id [] [] [] [] hround (ih _)
            (round_find_none s _ socket id rest)
            (flushWrites_find_none socket id n _)

theorem handleWritable_find_none (s : SocketTCP) (fd id : Nat) (h : s.find id = none) :
    (s.handleWritable fd).2.find id = none :=
  conserves_find_none _ _ _ _ (handleWritable_conserves s fd id) h

theorem handleWritable_life (s : SocketTCP) (fd socket : Nat) :
    Life s (s.handleWritable fd).2 socket [] [] := by
  unfold SocketTCP.handleWritable
  cases hfind : s.find fd with
  | none => exact close_life s fd socket
  | some peer =>
    simp only
    have hloop := flushWrites_life peer.socket socket peer.writeBuffers.length s
    have hnone := flushWrites_find_none peer.socket socket peer.writeBuffers.length s
    rcases hfl : SocketTCP.flushWrites peer.socket peer.writeBuffers.length s with ⟨fl, s1⟩
    rw [hfl] at hloop hnone
    cases fl with
    | returned r => exact hloop
    | done u =>
      simp only
      cases hfind1 : s1.find fd with
      | none => exact hloop
      | some peer1 =>
        simp only
        by_cases hlen : peer1.writeBuffers.length = 0
        · rw [if_pos hlen]
          have hstate : ∀ (r : Result × SocketTCP),
              (match r with
                | (result, s2) =>
                  if result.isError then (Flow.returned result, s2)
                  else ((Flow.done () : Flow Unit), s2)).2 = r.2 := by
            rintro ⟨r, s2⟩
            simp only
            split <;> rfl
          rw [hstate]
          have h2 : Life s1 (s1.setEvent peer1.socket EpollOp.modify true false).2
              socket [] [] :=
            life_of_untouched _ _ _ (SocketTCP.setEvent_find _ _ _ _ _ _)
              (SocketTCP.setEvent_sentBytes _ _ _ _ _ _) (setEvent_callbackLog _ _ _ _ _ _)
          simpa using life_trans _ _ _ socket [] [] [] [] hloop h2 hnone
            (fun h => by rw [SocketTCP.setEvent_find]; exact h)
        · rw [if_neg hlen]
          exact hloop

theorem rejectedCallbacks_cons (s : SocketTCP) (socket : Nat) (op : ReactorOp)
    (ops : List ReactorOp) :
    s.rejectedCallbacks socket (op :: ops) =
      s.rejectedCallbacks socket [op] ++ (s.step op).rejectedCallbacks socket ops := by
  simp [SocketTCP.rejectedCallbacks]

theorem step_life (s : SocketTCP) (op : ReactorOp) (socket : Nat) :
    Life s (s.step op) socket (s.enqueuedBuffers socket [op])
      (s.rejectedCallbacks socket [op]) := by
  cases op with
  | write socketId buffer customData callback =>
    simpa [SocketTCP.step, SocketTCP.enqueuedBuffers, SocketTCP.rejectedCallbacks] using
      write_life s socketId socket buffer customData callback
  | writable fd =>
    simpa [SocketTCP.step, SocketTCP.enqueuedBuffers, SocketTCP.rejectedCallbacks] using
      handleWritable_life s fd socket
  | close socketId =>
    simpa [SocketTCP.step, SocketTCP.enqueuedBuffers, SocketTCP.rejectedCallbacks] using
      close_life s socketId socket

theorem run_life (socket : Nat) :
    ∀ (ops : List ReactorOp) (s : SocketTCP),
      Life s (s.run ops) socket (s.enqueuedBuffers socket ops)
        (s.rejectedCallbacks socket ops) := by
  intro ops
  induction ops with
  | nil => intro s; exact life_refl s socket
  | cons op ops ih =>
    intro s
    rw [enqueuedBuffers_cons, rejectedCallbacks_cons]
    exact life_trans s (s.step op) ((s.step op).run ops) socket _ _ _ _
      (step_life s op socket) (ih (s.step op)) (step_find_none s op socket)
      (run_find_none socket ops (s.step op))

/-- The buffers that left a served queue are its first `j`: their callbacks were invoked
with success, their bytes were sent, and the rest is still queued. -/
theorem served_take (socket : Nat) (q q1 : List WriteBufferInfo) (d : List Byte)
    (L : List ReactorEvent) (h : Served socket q d L q1) :
    ∃ j, L = finishCallbacks Result.ok socket (q.take j) ∧
      ((q.take j).map WriteBufferInfo.getRemainingBuffer).flatten <+: d ∧
      ∀ r, finishCallbacks r socket q1 = finishCallbacks r socket (q.drop j) := by
  induction h with
  | stay q => exact ⟨0, by simp [finishCallbacks], by simp, fun _ => rfl⟩
  | advance b rest count =>
    exact ⟨0, by simp [finishCallbacks], by simp,
      fun r => finishCallbacks_writeDone r socket b rest count⟩
  | pop b rest d L q _ ih =>
    obtain ⟨j, hL, ⟨t, ht⟩, hq⟩ := ih
    refine ⟨j + 1, ?_, ⟨t, ?_⟩, fun r => ?_⟩
    · rw [hL, List.take_succ_cons]
      exact (finishCallbacks_append Result.ok socket [b] (rest.take j)).symm
    · simp only [List.take_succ_cons, List.map_cons, List.flatten_cons, List.append_assoc]
      rw [ht]
    · rw [hq r]
      rfl

theorem map_invoked_finishCallbacks (r : Result) (socket : Nat) (q : List WriteBufferInfo) :
    (finishCallbacks r socket q).map ReactorEvent.invoked = (queuedCallbacks q).map some := by
  induction q with
  | nil => rfl
  | cons b rest ih =>
    have hc : finishCallbacks r socket (b :: rest) =
        finishCallbacks r socket [b] ++ finishCallbacks r socket rest :=
      finishCallbacks_append r socket [b] rest
    have hq : queuedCallbacks (b :: rest) = queuedCallbacks [b] ++ queuedCallbacks rest := by
      simp [queuedCallbacks, List.filterMap_cons]
      cases b.writeFinishCallback <;> simp
    rw [hc, hq, List.map_append, List.map_append, ih]
    congr 1
    cases hcb : b.writeFinishCallback <;>
      simp [finishCallbacks, queuedCallbacks, List.filterMap_cons, hcb, ReactorEvent.invoked]

theorem enqueuedBuffers_of_find_none (socket : Nat) :
    ∀ (ops : List ReactorOp) (s : SocketTCP), s.find socket = none →
      s.enqueuedBuffers socket ops = [] := by
  intro ops
  induction ops with
  | nil => intro s _; rfl
  | cons op ops ih =>
    intro s h
    rw [enqueuedBuffers_cons, ih _ (step_find_none s op socket h), List.append_nil]
    cases op <;> simp [SocketTCP.enqueuedBuffers, h]

theorem suppliedCallbacks_cons (socket : Nat) (op : ReactorOp) (ops : List ReactorOp) :
    suppliedCallbacks socket (op :: ops) =
      suppliedCallbacks socket [op] ++ suppliedCallbacks socket ops := by
  have : op :: ops = [op] ++ ops := rfl
  rw [this, suppliedCallbacks, List.filterMap_append]
  rfl

/-- Every callback supplied to a `write` call on `socket` is either queued with its
buffer or invoked inside the call. -/
theorem supplied_split (socket : Nat) :
    ∀ (ops : List ReactorOp) (s : SocketTCP),
      (queuedCallbacks (s.enqueuedBuffers socket ops)).map some ++
          (s.rejectedCallbacks socket ops).map ReactorEvent.invoked =
        (suppliedCallbacks socket ops).map some := by
  intro ops
  induction ops with
  | nil => intro s; rfl
  | cons op ops ih =>
    intro s
    have hstep : (queuedCallbacks (s.enqueuedBuffers socket [op])).map some ++
        (s.rejectedCallbacks socket [op]).map ReactorEvent.invoked =
          (suppliedCallbacks socket [op]).map some := by
      cases op with
      | write socketId buffer customData callback =>
        by_cases hid : socketId = socket
        · cases hf : s.find socket with
          | none =>
            cases callback <;>
              simp [SocketTCP.enqueuedBuffers, SocketTCP.rejectedCallbacks, suppliedCallbacks,
                queuedCallbacks, hid, hf, ReactorEvent.invoked]
          | some p =>
            cases callback <;>
              simp [SocketTCP.enqueuedBuffers, SocketTCP.rejectedCallbacks, suppliedCallbacks,
                queuedCallbacks, hid, hf, ReactorEvent.invoked]
        · cases callback <;>
            simp [SocketTCP.enqueuedBuffers, SocketTCP.rejectedCallbacks, suppliedCallbacks,
              queuedCallbacks, hid]
      | writable fd => rfl
      | close socketId => rfl
    rw [suppliedCallbacks_cons, List.map_append, ← hstep, ← ih (s.step op)]
    cases hf : s.find socket with
    | none =>
      have h1 : s.enqueuedBuffers socket (op :: ops) = [] :=
        enqueuedBuffers_of_find_none socket _ s hf
      have h2 : s.enqueuedBuffers socket [op] = [] :=
        enqueuedBuffers_of_find_none socket _ s hf
      have h3 : (s.step op).enqueuedBuffers socket ops = [] :=
        enqueuedBuffers_of_find_none socket _ _ (step_find_none s op socket hf)
      rw [h1, h2, h3, rejectedCallbacks_cons]
      simp [queuedCallbacks]
    | some p =>
      have hrej : s.rejectedCallbacks socket [op] = [] := by
        cases op <;> simp [SocketTCP.rejectedCallbacks, hf]
      rw [enqueuedBuffers_cons, rejectedCallbacks_cons, hrej]
      simp [queuedCallbacks, List.filterMap_append]

theorem rejectedCallbacks_error (socket : Nat) :
    ∀ (ops : List ReactorOp) (s : SocketTCP),
      ∀ e ∈ s.rejectedCallbacks socket ops, ∃ cb tag,
        e = ReactorEvent.writeFinished cb
          (Result.make "invalid_socket_id" "invalid socket id \x7b\x7d" [showNat socket])
          socket tag := by
  intro ops
  induction ops with
  | nil => intro s e he; cases he
  | cons op ops ih =>
    intro s e he
    rw [rejectedCallbacks_cons, List.mem_append] at he
    rcases he with he | he
    · cases op with
      | write socketId buffer customData callback =>
        by_cases hc : socketId = socket ∧ s.find socket = none
        · cases callback with
          | none => simp [SocketTCP.rejectedCallbacks, hc] at he
          | some cb =>
            simp [SocketTCP.rejectedCallbacks, hc] at he
            exact ⟨cb, customData, he⟩
        · simp [SocketTCP.rejectedCallbacks, hc] at he
      | writable fd => simp [SocketTCP.rejectedCallbacks] at he
      | close socketId => simp [SocketTCP.rejectedCallbacks] at he
    · exact ih _ e he

/-- C11: over a run of the reactor (any interleaving of `write` calls, write-readiness
events and `close` calls, whatever `send` returns) that ends with the connection `socket`
not in the table, the completion callbacks invoked for `socket` during the run are, as a
list of (callback, tag), exactly the callbacks of the buffers queued at the start followed
by the callbacks supplied to the `write` calls of the run, in call order: each is invoked
once, none twice, none never. The invocations are: with success (`Result::ok()`) for the
first `j` buffers, all of whose bytes were sent; with the failure "socket is closed" for
the buffers still queued when the connection closed; with the failure `invalid_socket_id`
for the `write` calls made when the identity was not in the table. -/
theorem C11_callback_exactly_once (s : SocketTCP) (ops : List ReactorOp) (socket : Nat)
    (hclosed : (s.run ops).find socket = none) :
    ∃ L, callbackLog (s.run ops).events socket = callbackLog s.events socket ++ L ∧
      L.map ReactorEvent.invoked =
        (queuedCallbacks (s.queue socket) ++ suppliedCallbacks socket ops).map some ∧
      (∃ j d, sentBytes (s.run ops).events socket = sentBytes s.events socket ++ d ∧
        (((s.queue socket ++ s.enqueuedBuffers socket ops).take j).map
          WriteBufferInfo.getRemainingBuffer).flatten <+: d ∧
        L = finishCallbacks Result.ok socket
              ((s.queue socket ++ s.enqueuedBuffers socket ops).take j) ++
            finishCallbacks SocketTCP.socketClosedError socket
              ((s.queue socket ++ s.enqueuedBuffers socket ops).drop j) ++
            s.rejectedCallbacks socket ops) ∧
      Result.ok.isError = false ∧ SocketTCP.socketClosedError.isError = true ∧
      (∀ e ∈ s.rejectedCallbacks socket ops, ∃ cb tag,
        e = ReactorEvent.writeFinished cb
          (Result.make "invalid_socket_id" "invalid socket id \x7b\x7d" [showNat socket])
          socket tag) ∧
      (Result.make "invalid_socket_id" "invalid socket id \x7b\x7d" [showNat socket]).isError =
        true := by
  obtain ⟨d, L, hsent, hlog, _, _, hend⟩ := run_life socket ops s
  obtain ⟨L0, q, hserved, hL⟩ := hend hclosed
  obtain ⟨j, hL0, hbytes, hrest⟩ := served_take socket _ _ _ _ hserved
  have hLj : L = finishCallbacks Result.ok socket
        ((s.queue socket ++ s.enqueuedBuffers socket ops).take j) ++
      finishCallbacks SocketTCP.socketClosedError socket
        ((s.queue socket ++ s.enqueuedBuffers socket ops).drop j) ++
      s.rejectedCallbacks socket ops := by
    rw [hL, hL0, hrest]
  refine ⟨L, hlog, ?_, ⟨j, d, hsent, hbytes, hLj⟩, by decide, by decide,
    rejectedCallbacks_error socket ops s, ?_⟩
  · rw [hLj, List.map_append, List.map_append, map_invoked_finishCallbacks,
      map_invoked_finishCallbacks, ← List.map_append]
    have hq : queuedCallbacks ((s.queue socket ++ s.enqueuedBuffers socket ops).take j) ++
        queuedCallbacks ((s.queue socket ++ s.enqueuedBuffers socket ops).drop j) =
          queuedCallbacks (s.queue socket) ++
            queuedCallbacks (s.enqueuedBuffers socket ops) := by
      unfold queuedCallbacks
      rw [← List.filterMap_append, List.take_append_drop, List.filterMap_append]
    rw [hq, List.map_append, List.map_append, List.append_assoc, supplied_split]
  · show decide ("invalid_socket_id".length > 0) = true
    decide

theorem C11_callback_exactly_once_witness :
    callbackLog (demoReactor.run lifeOps).events 5 =
        [ReactorEvent.writeFinished 1 Result.ok 5 7,
          ReactorEvent.writeFinished 2 SocketTCP.socketClosedError 5 8,
          ReactorEvent.writeFinished 4 ⟨"invalid_socket_id", "invalid socket id 5"⟩ 5 3] ∧
      suppliedCallbacks 5 lifeOps = [(1, 7), (2, 8), (4, 3)] ∧
      ∃ L, callbackLog (demoReactor.run lifeOps).events 5 =
          callbackLog demoReactor.events 5 ++ L ∧
        L.map ReactorEvent.invoked =
          (queuedCallbacks (demoReactor.queue 5) ++ suppliedCallbacks 5 lifeOps).map some := by
  obtain ⟨L, h1, h2, _⟩ := C11_callback_exactly_once demoReactor lifeOps 5 (by decide)
  exact ⟨by decide, by decide, L, h1, h2⟩

set_option maxRecDepth 100000 in
theorem unstep_step_zero :
    ∀ c < 256, checksumUnstep ((c ^^^ ((c <<< 1) ||| 1)) % 256) 0 = c := by
  decide

theorem checksumStep_eq_xor (c : Nat) (b : Byte) :
    checksumStep c b = ((c ^^^ ((c <<< 1) ||| 1)) % 256) ^^^ b.val := by
  unfold checksumStep
  have h := xor_mod_two_pow (c ^^^ ((c <<< 1) ||| 1)) b.val 8
  have hb : b.val % 2 ^ 8 = b.val := Nat.mod_eq_of_lt b.isLt
  rw [hb] at h
  exact h

theorem checksumStep_lt (c : Nat) (b : Byte) : checksumStep c b < 256 :=
  Nat.mod_lt _ (by norm_num)

/-- A round of the checksum loop can be undone: it is one-to-one in the checksum. -/
theorem checksumUnstep_step (c : Nat) (b : Byte) (hc : c < 256) :
    checksumUnstep (checksumStep c b) b = c := by
  have h := unstep_step_zero c hc
  have e1 : ∀ g : Nat, g ^^^ b.val ^^^ b.val = g := fun g => by
    rw [Nat.xor_assoc, Nat.xor_self, Nat.xor_zero]
  have e0 : ∀ g : Nat, g ^^^ (0 : Byte).val = g := fun g => Nat.xor_zero g
  unfold checksumUnstep at h ⊢
  rw [checksumStep_eq_xor, e1]
  rw [e0] at h
  exact h

theorem checksumStep_ne_of_ne (c c1 : Nat) (b : Byte) (hc : c < 256) (hc1 : c1 < 256)
    (h : c ≠ c1) : checksumStep c b ≠ checksumStep c1 b := by
  intro he
  apply h
  rw [← checksumUnstep_step c b hc, ← checksumUnstep_step c1 b hc1, he]

theorem checksumStep_ne_of_byte_ne (c : Nat) (b b1 : Byte) (h : b ≠ b1) :
    checksumStep c b ≠ checksumStep c b1 := by
  intro he
  apply h
  rw [checksumStep_eq_xor, checksumStep_eq_xor] at he
  exact Fin.ext (Nat.xor_right_injective he)

theorem foldl_checksumStep_lt (bytes : List Byte) (c : Nat) (hc : c < 256) :
    bytes.foldl checksumStep c < 256 := by
  induction bytes generalizing c with
  | nil => exact hc
  | cons b rest ih => exact ih _ (checksumStep_lt c b)

theorem foldl_checksumStep_ne (bytes : List Byte) (c c1 : Nat) (hc : c < 256)
    (hc1 : c1 < 256) (h : c ≠ c1) :
    bytes.foldl checksumStep c ≠ bytes.foldl checksumStep c1 := by
  induction bytes generalizing c c1 with
  | nil => exact h
  | cons b rest ih =>
    exact ih _ _ (checksumStep_lt c b) (checksumStep_lt c1 b)
      (checksumStep_ne_of_ne c c1 b hc hc1 h)

theorem flipBit_ne (b : Byte) (k : Nat) (hk : k < 8) : flipBit b k ≠ b := by
  intro he
  have hv := congrArg Fin.val he
  have hlt : b.val ^^^ 2 ^ k < 2 ^ 8 :=
    Nat.xor_lt_two_pow b.isLt (Nat.pow_lt_pow_right (by norm_num) hk)
  have hval : (flipBit b k).val = b.val ^^^ 2 ^ k := by
    show (b.val ^^^ 2 ^ k) % 256 = _
    exact Nat.mod_eq_of_lt hlt
  rw [hval] at hv
  have h0 : b.val ^^^ 2 ^ k = b.val ^^^ 0 := by rw [hv, Nat.xor_zero]
  have := Nat.xor_right_injective h0
  exact absurd this (by positivity)

theorem computeChecksum_eq_foldl (buffer : List Byte) :
    computeChecksum buffer = (checksummedBytes buffer).foldl checksumStep 0x46 := by
  unfold computeChecksum checksummedBytes
  rw [List.foldl_map]
  rfl

theorem checksummedBytes_length (buffer : List Byte) : (checksummedBytes buffer).length = 31 := by
  simp [checksummedBytes]

theorem checksummedBytes_getElem (buffer : List Byte) (j : Nat)
    (hj : j < (checksummedBytes buffer).length) :
    (checksummedBytes buffer)[j] = byteAt buffer j := by
  simp [checksummedBytes]

theorem checksummedBytes_set (buffer : List Byte) (i : Nat) (b : Byte) (hi : i < 31)
    (hlen : 31 ≤ buffer.length) :
    checksummedBytes (buffer.set i b) = (checksummedBytes buffer).set i b := by
  apply List.ext_getElem
  · simp [checksummedBytes_length]
  · intro j h1 h2
    rw [checksummedBytes_getElem, List.getElem_set]
    have hj : j < 31 := by rw [checksummedBytes_length] at h1; exact h1
    by_cases hij : i = j
    · subst hij
      rw [if_pos rfl]
      unfold byteAt
      rw [List.getD_eq_getElem _ _ (by rw [List.length_set]; omega), List.getElem_set_self]
    · rw [if_neg hij, checksummedBytes_getElem]
      unfold byteAt
      rw [List.getD_eq_getElem _ _ (by rw [List.length_set]; omega),
        List.getD_eq_getElem _ _ (by omega), List.getElem_set_ne hij]

/-- Replacing one of the bytes `0 .. 30` by a different byte changes the checksum. -/
theorem computeChecksum_set_ne (buffer : List Byte) (i : Nat) (b : Byte) (hi : i < 31)
    (hlen : 31 ≤ buffer.length) (hb : b ≠ byteAt buffer i) :
    computeChecksum (buffer.set i b) ≠ computeChecksum buffer := by
  rw [computeChecksum_eq_foldl, computeChecksum_eq_foldl, checksummedBytes_set buffer i b hi hlen]
  have hL : i < (checksummedBytes buffer).length := by rw [checksummedBytes_length]; exact hi
  have hsplit : checksummedBytes buffer =
      (checksummedBytes buffer).take i ++ byteAt buffer i :: (checksummedBytes buffer).drop (i + 1) := by
    rw [← checksummedBytes_getElem buffer i hL, ← List.drop_eq_getElem_cons hL,
      List.take_append_drop]
  rw [List.set_eq_take_append_cons_drop, if_pos hL]
  conv_rhs => rw [hsplit]
  rw [List.foldl_append, List.foldl_append, List.foldl_cons, List.foldl_cons]
  apply foldl_checksumStep_ne _ _ _ (checksumStep_lt _ _) (checksumStep_lt _ _)
  exact checksumStep_ne_of_byte_ne _ _ _ hb

theorem mem_bitFlips (f : Nat × Nat) (h : f ∈ bitFlips) : f.1 < 31 ∧ f.2 < 8 := by
  simp only [bitFlips, List.mem_flatten, List.mem_map, List.mem_range] at h
  obtain ⟨l, ⟨i, hi, rfl⟩, hf⟩ := h
  simp only [List.mem_map, List.mem_range] at hf
  obtain ⟨k, hk, rfl⟩ := hf
  exact ⟨hi, hk⟩

set_option maxRecDepth 100000 in
theorem bitFlips_length : bitFlips.length = 248 := by decide

/-- C20: for every input of at least 31 bytes (a 31-byte input, or a 32-byte frame),
flipping any single bit of any of the bytes `0 .. 30` changes the checksum computed by
the checksum loop of `scan`: all of the 248 possible flips change it, which is at least
99% of them. The checksum is a byte and depends on nothing but the bytes `0 .. 30`, so
computing it again on the same input gives the same byte. -/
theorem C20_checksum_bit_flips (input : List Byte) (hlen : 31 ≤ input.length) :
    (∀ i < 31, ∀ k < 8, computeChecksum (flipAt input i k) ≠ computeChecksum input) ∧
      bitFlips.length = 248 ∧
      changedFlips input = 248 ∧
      99 * bitFlips.length ≤ 100 * changedFlips input ∧
      computeChecksum input < 256 ∧
      (∀ other, checksummedBytes other = checksummedBytes input →
        computeChecksum other = computeChecksum input) := by
  have hall : ∀ i < 31, ∀ k < 8,
      computeChecksum (flipAt input i k) ≠ computeChecksum input := by
    intro i hi k hk
    exact computeChecksum_set_ne input i _ hi hlen (flipBit_ne _ k hk)
  have hcount : changedFlips input = bitFlips.length := by
    unfold changedFlips
    rw [List.countP_eq_length]
    intro f hf
    obtain ⟨h1, h2⟩ := mem_bitFlips f hf
    simpa using hall f.1 h1 f.2 h2
  have hflips : bitFlips.length = 248 := bitFlips_length
  refine ⟨hall, hflips, by rw [hcount, hflips], by rw [hcount]; omega, ?_, ?_⟩
  · rw [computeChecksum_eq_foldl]
    exact foldl_checksumStep_lt _ _ (by norm_num)
  · intro other h
    rw [computeChecksum_eq_foldl, computeChecksum_eq_foldl, h]

theorem C20_checksum_bit_flips_witness :
    31 ≤ sampleInput.length ∧ changedFlips sampleInput = 248 ∧
      computeChecksum (flipAt sampleInput 30 0) ≠ computeChecksum sampleInput :=
  ⟨by decide, (C20_checksum_bit_flips sampleInput (by decide)).2.2.1,
    (C20_checksum_bit_flips sampleInput (by decide)).1 30 (by decide) 0 (by decide)⟩

/-- The tokens of `su::split`: the text before the first delimiter, then the tokens of
the text after it. -/
theorem tokens_eq (d : Byte) (s : List Byte) :
    su.tokens d s =
      s.takeWhile (· ≠ d) ::
        (if d ∈ s then su.tokens d ((s.dropWhile (· ≠ d)).drop 1) else []) := by
  induction s with
  | nil => simp [su.tokens]
  | cons c cs ih =>
    by_cases hc : c = d
    · subst hc
      simp [su.tokens]
    · have hd : ¬ d = c := fun e => hc e.symm
      rw [su.tokens, if_neg hc, ih]
      simp [hc, hd]

theorem tokens_ne_nil (d : Byte) (s : List Byte) : su.tokens d s ≠ [] := by
  rw [tokens_eq]
  exact List.cons_ne_nil _ _

theorem split_trim_eq (d : Byte) (s : List Byte) (hs : s ≠ []) :
    su.split s d true =
      su.trim (s.takeWhile (· ≠ d)) ::
        (if d ∈ s then (su.tokens d ((s.dropWhile (· ≠ d)).drop 1)).map su.trim else []) := by
  have hlen : ¬ s.length = 0 := fun h => hs (List.length_eq_zero.mp h)
  unfold su.split
  rw [if_neg (fun h => hlen h.2), tokens_eq]
  by_cases hd : d ∈ s <;> simp [hd]

theorem split_plain_eq (d : Byte) (s : List Byte) :
    su.split s d false =
      s.takeWhile (· ≠ d) ::
        (if d ∈ s then su.tokens d ((s.dropWhile (· ≠ d)).drop 1) else []) := by
  unfold su.split
  simp only [Bool.false_eq_true, false_and, if_false, List.map_id']
  exact tokens_eq d s

/-- The first part of `onRead` in terms of the request line, the method, the target, the
path and the query of the data received. -/
theorem route_eq (received : List Byte) (hne : received ≠ []) :
    HTTPServer.route received =
      if HTTPServer.requestMethod received ≠ ascii "GET" then
        HTTPServer.Routed.reply HTTPServer.notAllowed
      else
        match HTTPServer.requestTarget received with
        | none => HTTPServer.Routed.reply HTTPServer.notAllowed
        | some target =>
          if HTTPServer.targetPath target ≠ ascii "/litevna" then
            HTTPServer.Routed.reply HTTPServer.notFound
          else if (63 : Byte) ∈ target then
            HTTPServer.Routed.query
              (HTTPServer.readParams (su.split (HTTPServer.targetQuery target) 38 false))
          else HTTPServer.Routed.reply HTTPServer.badRequest := by
  unfold HTTPServer.route
  rw [split_trim_eq 13 received hne]
  simp only
  have hline : su.trim (received.takeWhile (· ≠ 13)) = HTTPServer.requestLine received := rfl
  rw [hline]
  by_cases hl : HTTPServer.requestLine received = []
  · have hm : HTTPServer.requestMethod received = [] := by
      unfold HTTPServer.requestMethod
      rw [hl]
      rfl
    have hsplit : su.split (HTTPServer.requestLine received) 32 true = [] := by
      rw [hl]; rfl
    rw [hsplit, hm, if_pos (by decide)]
  · rw [split_trim_eq 32 _ hl]
    have hmeth : su.trim ((HTTPServer.requestLine received).takeWhile (· ≠ 32)) =
        HTTPServer.requestMethod received := rfl
    rw [hmeth]
    by_cases hsp : (32 : Byte) ∈ HTTPServer.requestLine received
    · have htarget : HTTPServer.requestTarget received =
          some (su.trim ((((HTTPServer.requestLine received).dropWhile (· ≠ 32)).drop 1).takeWhile
            (· ≠ 32))) := by
        unfold HTTPServer.requestTarget
        rw [if_pos hsp]
      rw [if_pos hsp, tokens_eq, List.map_cons, htarget]
      simp only
      by_cases hg : HTTPServer.requestMethod received = ascii "GET"
      · rw [if_neg (fun h => h hg), if_neg (fun h => h hg), split_plain_eq]
        generalize su.trim ((((HTTPServer.requestLine received).dropWhile (· ≠ 32)).drop 1).takeWhile
            (· ≠ 32)) = target
        have hpath : target.takeWhile (· ≠ 63) = HTTPServer.targetPath target := rfl
        rw [hpath]
        by_cases hq : (63 : Byte) ∈ target
        · rw [if_pos hq, tokens_eq]
          simp only
          by_cases hp : HTTPServer.targetPath target = ascii "/litevna"
          · rw [if_neg (fun h => h hp), if_neg (fun h => h hp), if_pos hq]
            rfl
          · rw [if_pos hp, if_pos hp]
        · rw [if_neg hq]
          simp only
          by_cases hp : HTTPServer.targetPath target = ascii "/litevna"
          · rw [if_neg (fun h => h hp), if_neg (fun h => h hp), if_neg hq]
          · rw [if_pos hp, if_pos hp]
      · rw [if_pos hg, if_pos hg]
    · have htarget : HTTPServer.requestTarget received = none := by
        unfold HTTPServer.requestTarget
        rw [if_neg hsp]
      rw [if_neg hsp, htarget]
      simp only
      split <;> rfl

theorem onRead_reply (fm : FloatModel) (m : Measure fm) (vna : LiteVNA) (reads : List ReadStep)
    (received : List Byte) (text : String)
    (h : HTTPServer.route received = HTTPServer.Routed.reply text) :
    HTTPServer.onRead fm m vna reads received = some (text, vna, reads) := by
  unfold HTTPServer.onRead
  rw [h]

/-- C18 as stated fails: the request `GET` has the method `GET` and no target, so the
rule for a method that is not `GET` does not apply to it and its path is not
`/litevna`; it is answered with 405 "Not Allowed", not with 404. And for data of no
byte, whose method is not `GET`, the response is 400 "Bad Request", not 405. -/
theorem C18_raw_error_responses_counterexample :
    HTTPServer.requestMethod (ascii "GET") = ascii "GET" ∧
    HTTPServer.requestTarget (ascii "GET") = none ∧
    HTTPServer.onRead symModel symMeasure (demoDevice []) [] (ascii "GET") =
      some ("HTTP/1.1 405 Not Allowed\r\nContent-Length: 11\r\n\r\nNot Allowed",
        demoDevice [], []) ∧
    HTTPServer.requestMethod (ascii "GET\r\n\r\n") = ascii "GET" ∧
    HTTPServer.onRead symModel symMeasure (demoDevice []) [] (ascii "GET\r\n\r\n") =
      some ("HTTP/1.1 405 Not Allowed\r\nContent-Length: 11\r\n\r\nNot Allowed",
        demoDevice [], []) ∧
    HTTPServer.requestMethod [] ≠ ascii "GET" ∧
    HTTPServer.onRead symModel symMeasure (demoDevice []) [] [] =
      some ("HTTP/1.1 400 Bad Request\r\nContent-Length: 11\r\n\r\nBad Request",
        demoDevice [], []) := by
  refine ⟨by decide, by decide, ?_, by decide, ?_, by decide, ?_⟩
  · exact onRead_reply _ _ _ _ _ _ (by decide)
  · exact onRead_reply _ _ _ _ _ _ (by decide)
  · exact onRead_reply _ _ _ _ _ _ (by decide)

/-- C18 amended: for every request received. Data of no byte is answered with 400 "Bad
Request". For data of at least one byte: if the method of its first line is not `GET`,
or the first line is the method alone, with no target after it, the response is the 405
status line with the body "Not Allowed"; if the method is `GET` and the path of the
target is not `/litevna`, the response is 404 with the body "Not Found"; if it is
`GET /litevna` and the target has no `?`, the response is 400 with the body "Bad
Request". The device is not touched. -/
theorem C18_raw_error_responses (fm : FloatModel) (m : Measure fm) (vna : LiteVNA)
    (reads : List ReadStep) (received : List Byte) :
    (received = [] →
      HTTPServer.onRead fm m vna reads received =
        some ("HTTP/1.1 400 Bad Request\r\nContent-Length: 11\r\n\r\nBad Request",
          vna, reads)) ∧
    (received ≠ [] → HTTPServer.requestMethod received ≠ ascii "GET" →
      HTTPServer.onRead fm m vna reads received =
        some ("HTTP/1.1 405 Not Allowed\r\nContent-Length: 11\r\n\r\nNot Allowed",
          vna, reads)) ∧
    (received ≠ [] → HTTPServer.requestTarget received = none →
      HTTPServer.onRead fm m vna reads received =
        some ("HTTP/1.1 405 Not Allowed\r\nContent-Length: 11\r\n\r\nNot Allowed",
          vna, reads)) ∧
    (∀ target, received ≠ [] → HTTPServer.requestMethod received = ascii "GET" →
      HTTPServer.requestTarget received = some target →
      HTTPServer.targetPath target ≠ ascii "/litevna" →
      HTTPServer.onRead fm m vna reads received =
        some ("HTTP/1.1 404 Not Found\r\nContent-Length: 9\r\n\r\nNot Found", vna, reads)) ∧
    (∀ target, received ≠ [] → HTTPServer.requestMethod received = ascii "GET" →
      HTTPServer.requestTarget received = some target →
      HTTPServer.targetPath target = ascii "/litevna" → (63 : Byte) ∉ target →
      HTTPServer.onRead fm m vna reads received =
        some ("HTTP/1.1 400 Bad Request\r\nContent-Length: 11\r\n\r\nBad Request",
          vna, reads)) := by
  refine ⟨fun he => ?_, fun hne hm => ?_, fun hne ht => ?_, fun target hne hm ht hp => ?_,
    fun target hne hm ht hp hq => ?_⟩
  · apply onRead_reply
    rw [he]
    rfl
  · apply onRead_reply
    rw [route_eq received hne, if_pos hm]
    rfl
  · apply onRead_reply
    rw [route_eq received hne, ht]
    by_cases hm : HTTPServer.requestMethod received ≠ ascii "GET"
    · rw [if_pos hm]
      rfl
    · rw [if_neg hm]
      rfl
  · apply onRead_reply
    rw [route_eq received hne, if_neg (fun h => h hm), ht]
    simp only
    rw [if_pos hp]
    rfl
  · apply onRead_reply
    rw [route_eq received hne, if_neg (fun h => h hm), ht]
    simp only
    rw [if_neg (fun h => h hp), if_neg hq]
    rfl

/-- Witness of C18: a `POST`, a `GET` alone, a `GET` of another path, a `GET /litevna`
without a query. -/
theorem C18_raw_error_responses_witness :
    HTTPServer.onRead symModel symMeasure (demoDevice []) [] (ascii "POST /litevna") =
        some ("HTTP/1.1 405 Not Allowed\r\nContent-Length: 11\r\n\r\nNot Allowed",
          demoDevice [], []) ∧
      HTTPServer.onRead symModel symMeasure (demoDevice []) [] (ascii "GET") =
        some ("HTTP/1.1 405 Not Allowed\r\nContent-Length: 11\r\n\r\nNot Allowed",
          demoDevice [], []) ∧
      HTTPServer.onRead symModel symMeasure (demoDevice []) []
          (ascii "GET /other?start=1 HTTP/1.1\r\n\r\n") =
        some ("HTTP/1.1 404 Not Found\r\nContent-Length: 9\r\n\r\nNot Found",
          demoDevice [], []) ∧
      HTTPServer.onRead symModel symMeasure (demoDevice []) []
          (ascii "GET /litevna HTTP/1.1\r\n\r\n") =
        some ("HTTP/1.1 400 Bad Request\r\nContent-Length: 11\r\n\r\nBad Request",
          demoDevice [], []) :=
  ⟨(C18_raw_error_responses symModel symMeasure (demoDevice []) []
      (ascii "POST /litevna")).2.1 (by decide) (by decide),
    (C18_raw_error_responses symModel symMeasure (demoDevice []) []
      (ascii "GET")).2.2.1 (by decide) (by decide),
    (C18_raw_error_responses symModel symMeasure (demoDevice []) []
      (ascii "GET /other?start=1 HTTP/1.1\r\n\r\n")).2.2.2.1 (ascii "/other?start=1")
      (by decide) (by decide) (by decide) (by decide),
    (C18_raw_error_responses symModel symMeasure (demoDevice []) []
      (ascii "GET /litevna HTTP/1.1\r\n\r\n")).2.2.2.2 (ascii "/litevna")
      (by decide) (by decide) (by decide) (by decide) (by decide)⟩

/-- C19 on the code: the responses to `POST /litevna` (405), to `GET /other?start=1`
(404) and to `GET /litevna` (400) have the header `Content-Length` only; the text
`Connection: close` occurs in none of them. It occurs in the response with status 200. -/
theorem C19_error_responses_without_connection_close :
    HTTPServer.route (ascii "POST /litevna HTTP/1.1\r\n\r\n") =
        HTTPServer.Routed.reply
          "HTTP/1.1 405 Not Allowed\r\nContent-Length: 11\r\n\r\nNot Allowed" ∧
      HTTPServer.route (ascii "GET /other?start=1 HTTP/1.1\r\n\r\n") =
        HTTPServer.Routed.reply
          "HTTP/1.1 404 Not Found\r\nContent-Length: 9\r\n\r\nNot Found" ∧
      HTTPServer.route (ascii "GET /litevna HTTP/1.1\r\n\r\n") =
        HTTPServer.Routed.reply
          "HTTP/1.1 400 Bad Request\r\nContent-Length: 11\r\n\r\nBad Request" ∧
      ¬ ("Connection: close".toList <:+: HTTPServer.notAllowed.toList) ∧
      ¬ ("Connection: close".toList <:+: HTTPServer.notFound.toList) ∧
      ¬ ("Connection: close".toList <:+: HTTPServer.badRequest.toList) ∧
      "Connection: close".toList <:+:
        (HTTPServer.okResponse (HTTPServer.missingParameter "points")).toList := by
  decide

theorem Params.find_append (a b : Params) (key : List Byte) :
    Params.find (a ++ b) key = (Params.find a key).or (Params.find b key) := by
  unfold Params.find
  rw [List.find?_append]
  cases List.find? (fun entry => entry.1 == key) a <;> simp

theorem Params.find_emplace_append (params rest : Params) (k v key : List Byte) :
    Params.find (params.emplace k v ++ rest) key =
      Params.find (params ++ (k, v) :: rest) key := by
  unfold Params.emplace
  cases hk : params.find k with
  | none =>
    simp only
    rw [List.append_assoc]
    rfl
  | some x =>
    simp only
    rw [Params.find_append, Params.find_append]
    cases hkey : Params.find params key with
    | some y => rfl
    | none =>
      have hne : ¬ k = key := by
        intro e
        rw [e, hkey] at hk
        cases hk
      simp only [Option.or]
      unfold Params.find
      rw [List.find?_cons]
      have : ((k, v).1 == key) = false := by simpa using hne
      rw [this]

/-- A parameter is in the map when the query has an item `key=value` for it, and its
value is that of the first such item. -/
theorem readParams_find (sParams : List (List Byte)) (key : List Byte) :
    (HTTPServer.readParams sParams).find key =
      Params.find (HTTPServer.queryPairs sParams) key := by
  have hgen : ∀ (items : List (List Byte)) (acc : Params),
      Params.find (items.foldl (fun params param =>
        match su.split param 61 false with
        | [key, value] => params.emplace key value
        | _ => params) acc) key =
      Params.find (acc ++ HTTPServer.queryPairs items) key := by
    intro items
    induction items with
    | nil => intro acc; simp [HTTPServer.queryPairs]
    | cons item rest ih =>
      intro acc
      rw [List.foldl_cons, ih]
      unfold HTTPServer.queryPairs
      rw [List.filterMap_cons]
      rcases hsp : su.split item 61 false with _ | ⟨k, _ | ⟨v, _ | ⟨c, l⟩⟩⟩
      · rfl
      · rfl
      · exact Params.find_emplace_append acc _ k v key
      · rfl
  have := hgen sParams []
  simpa [HTTPServer.readParams] using this

theorem onRead_query (fm : FloatModel) (m : Measure fm) (vna vna1 : LiteVNA)
    (reads reads1 : List ReadStep) (received : List Byte) (params : Params) (json : String)
    (hroute : HTTPServer.route received = HTTPServer.Routed.query params)
    (hexec : HTTPServer.execute fm m vna reads params = some (json, vna1, reads1)) :
    HTTPServer.onRead fm m vna reads received =
      some (HTTPServer.okResponse json, vna1, reads1) := by
  unfold HTTPServer.onRead
  rw [hroute]
  simp only
  rw [hexec]

theorem execute_missing_start (fm : FloatModel) (m : Measure fm) (vna : LiteVNA)
    (reads : List ReadStep) (params : Params) (h : params.find (ascii "start") = none) :
    HTTPServer.execute fm m vna reads params =
      some (HTTPServer.missingParameter "start", vna, reads) := by
  unfold HTTPServer.execute
  rw [h]

theorem execute_missing_step (fm : FloatModel) (m : Measure fm) (vna : LiteVNA)
    (reads : List ReadStep) (params : Params) (v : List Byte) (n : Nat)
    (h1 : params.find (ascii "start") = some v) (h2 : su.atou 64 v = (false, n)) (h3 : n ≠ 0)
    (h : params.find (ascii "step") = none) :
    HTTPServer.execute fm m vna reads params =
      some (HTTPServer.missingParameter "step", vna, reads) := by
  unfold HTTPServer.execute
  rw [h1]
  simp only [h2]
  rw [if_neg (by simp [h3]), h]

theorem execute_missing_points (fm : FloatModel) (m : Measure fm) (vna : LiteVNA)
    (reads : List ReadStep) (params : Params) (v1 v2 : List Byte) (n1 n2 : Nat)
    (h1 : params.find (ascii "start") = some v1) (h2 : su.atou 64 v1 = (false, n1))
    (h3 : n1 ≠ 0)
    (h4 : params.find (ascii "step") = some v2) (h5 : su.atou 64 v2 = (false, n2))
    (h6 : n2 ≠ 0)
    (h : params.find (ascii "points") = none) :
    HTTPServer.execute fm m vna reads params =
      some (HTTPServer.missingParameter "points", vna, reads) := by
  unfold HTTPServer.execute
  rw [h1]
  simp only [h2]
  rw [if_neg (by simp [h3]), h4]
  simp only [h5]
  rw [if_neg (by simp [h6]), h]

/-- C15: the request handler looks at `start`, `step` and `points` in that order. For
every request that reaches `execute` (a `GET /litevna?...`): when `start` is not in the
query, the response is HTTP 200 with the body `{"error": "missing 'start' parameter"}`;
when `start` is there and valid (accepted by `su::atou`, not zero) and `step` is not, the
body is `{"error": "missing 'step' parameter"}`; when `start` and `step` are there and
valid and `points` is not, the body is `{"error": "missing 'points' parameter"}`. In all
three cases the device is not scanned: nothing is written to it or read from it. -/
theorem C15_missing_parameter (fm : FloatModel) (m : Measure fm) (vna : LiteVNA)
    (reads : List ReadStep) (received : List Byte) (params : Params)
    (hroute : HTTPServer.route received = HTTPServer.Routed.query params) :
    (params.find (ascii "start") = none →
      HTTPServer.onRead fm m vna reads received =
        some ("HTTP/1.1 200 OK\r\nConnection: close\r\nContent-Type: application/json\r\nContent-Length: 38\r\n\r\n\x7b\"error\": \"missing 'start' parameter\"\x7d",
          vna, reads)) ∧
    (∀ v n, params.find (ascii "start") = some v → su.atou 64 v = (false, n) → n ≠ 0 →
      params.find (ascii "step") = none →
      HTTPServer.onRead fm m vna reads received =
        some ("HTTP/1.1 200 OK\r\nConnection: close\r\nContent-Type: application/json\r\nContent-Length: 37\r\n\r\n\x7b\"error\": \"missing 'step' parameter\"\x7d",
          vna, reads)) ∧
    (∀ v1 n1 v2 n2, params.find (ascii "start") = some v1 → su.atou 64 v1 = (false, n1) →
      n1 ≠ 0 → params.find (ascii "step") = some v2 → su.atou 64 v2 = (false, n2) →
      n2 ≠ 0 → params.find (ascii "points") = none →
      HTTPServer.onRead fm m vna reads received =
        some ("HTTP/1.1 200 OK\r\nConnection: close\r\nContent-Type: application/json\r\nContent-Length: 39\r\n\r\n\x7b\"error\": \"missing 'points' parameter\"\x7d",
          vna, reads)) := by
  have e1 : HTTPServer.okResponse (HTTPServer.missingParameter "start") =
      "HTTP/1.1 200 OK\r\nConnection: close\r\nContent-Type: application/json\r\nContent-Length: 38\r\n\r\n\x7b\"error\": \"missing 'start' parameter\"\x7d" := by
    decide
  have e2 : HTTPServer.okResponse (HTTPServer.missingParameter "step") =
      "HTTP/1.1 200 OK\r\nConnection: close\r\nContent-Type: application/json\r\nContent-Length: 37\r\n\r\n\x7b\"error\": \"missing 'step' parameter\"\x7d" := by
    decide
  have e3 : HTTPServer.okResponse (HTTPServer.missingParameter "points") =
      "HTTP/1.1 200 OK\r\nConnection: close\r\nContent-Type: application/json\r\nContent-Length: 39\r\n\r\n\x7b\"error\": \"missing 'points' parameter\"\x7d" := by
    decide
  refine ⟨fun h => ?_, fun v n h1 h2 h3 h => ?_, fun v1 n1 v2 n2 h1 h2 h3 h4 h5 h6 h => ?_⟩
  · rw [← e1]
    exact onRead_query fm m vna vna reads reads received params _ hroute
      (execute_missing_start fm m vna reads params h)
  · rw [← e2]
    exact onRead_query fm m vna vna reads reads received params _ hroute
      (execute_missing_step fm m vna reads params v n h1 h2 h3 h)
  · rw [← e3]
    exact onRead_query fm m vna vna reads reads received params _ hroute
      (execute_missing_points fm m vna reads params v1 v2 n1 n2 h1 h2 h3 h4 h5 h6 h)

theorem C15_missing_parameter_witness :
    HTTPServer.onRead symModel symMeasure (demoDevice []) []
        (ascii "GET /litevna?start=4300000000&step=10000000 HTTP/1.1\r\n\r\n") =
      some ("HTTP/1.1 200 OK\r\nConnection: close\r\nContent-Type: application/json\r\nContent-Length: 39\r\n\r\n\x7b\"error\": \"missing 'points' parameter\"\x7d",
        demoDevice [], []) :=
  (C15_missing_parameter symModel symMeasure (demoDevice []) []
    (ascii "GET /litevna?start=4300000000&step=10000000 HTTP/1.1\r\n\r\n")
    [(ascii "start", ascii "4300000000"), (ascii "step", ascii "10000000")]
    (by decide)).2.2 (ascii "4300000000") 4300000000 (ascii "10000000") 10000000
    (by decide) (by decide) (by decide) (by decide) (by decide) (by decide) (by decide)

theorem decimalValueFrom_modEq (M : Nat) (digits : List Byte) :
    ∀ a b : Nat, a % M = b % M → decimalValueFrom a digits % M = decimalValueFrom b digits % M := by
  induction digits with
  | nil => intro a b h; exact h
  | cons c cs ih =>
    intro a b h
    apply ih
    have : a ≡ b [MOD M] := h
    exact (this.mul_right 10).add_right _

theorem atouLoop_digits (w : Nat) (digits : List Byte) (hd : ∀ c ∈ digits, isDigit c) :
    ∀ res : Nat, (su.atouLoop w digits res).1 = false ∧
      (su.atouLoop w digits res).2 % 2 ^ w = decimalValueFrom res digits % 2 ^ w ∧
      (res < 2 ^ w → (su.atouLoop w digits res).2 < 2 ^ w) := by
  induction digits with
  | nil => intro res; exact ⟨rfl, rfl, fun h => h⟩
  | cons c cs ih =>
    intro res
    have hc : isDigit c := hd c (List.mem_cons_self _ _)
    have hnot : ¬ (c.val < 48 ∨ c.val > 57) := by
      unfold isDigit at hc
      omega
    obtain ⟨h1, h2, h3⟩ := ih (fun x hx => hd x (List.mem_cons_of_mem _ hx))
      ((res * 10 + c.val - 48) % 2 ^ w)
    rw [su.atouLoop, if_neg hnot]
    refine ⟨h1, ?_, fun _ => h3 (Nat.mod_lt _ (by positivity))⟩
    rw [h2]
    have hsub : res * 10 + c.val - 48 = res * 10 + (c.val - 48) := by
      unfold isDigit at hc
      omega
    rw [hsub]
    exact decimalValueFrom_modEq _ cs _ _ (Nat.mod_mod _ _)

theorem atouLoop_not_digits (w : Nat) (text : List Byte) (h : ¬ ∀ c ∈ text, isDigit c) :
    ∀ res : Nat, su.atouLoop w text res = (true, 0) := by
  induction text with
  | nil => exact absurd (fun c hc => by cases hc) h
  | cons c cs ih =>
    intro res
    by_cases hc : isDigit c
    · have hnot : ¬ (c.val < 48 ∨ c.val > 57) := by
        unfold isDigit at hc
        omega
      rw [su.atouLoop, if_neg hnot]
      apply ih
      intro hall
      apply h
      intro x hx
      rcases List.mem_cons.mp hx with rfl | hx
      · exact hc
      · exact hall x hx
    · have hyes : c.val < 48 ∨ c.val > 57 := by
        unfold isDigit at hc
        omega
      rw [su.atouLoop, if_pos hyes]

/-- What `su::atou` returns: no error exactly for 1 to 20 decimal digits, and then the
number they denote reduced modulo `2^w`. -/
theorem atou_eq (w : Nat) (value : List Byte) :
    su.atou w value =
      if 1 ≤ value.length ∧ value.length ≤ 20 ∧ ∀ c ∈ value, isDigit c then
        (false, decimalValue value % 2 ^ w)
      else (true, 0) := by
  unfold su.atou
  by_cases hlen : value.length = 0 ∨ value.length > 20
  · rw [if_pos hlen, if_neg (by omega)]
  · rw [if_neg hlen]
    by_cases hd : ∀ c ∈ value, isDigit c
    · rw [if_pos ⟨by omega, by omega, hd⟩]
      obtain ⟨h1, h2, h3⟩ := atouLoop_digits w value hd 0
      have hlt := h3 (by positivity)
      rw [Nat.mod_eq_of_lt hlt] at h2
      exact Prod.ext h1 h2
    · rw [if_neg (fun h => hd h.2.2)]
      exact atouLoop_not_digits w value hd 0

theorem accepted_iff (w : Nat) (value : List Byte) :
    HTTPServer.Accepted w value ↔
      1 ≤ value.length ∧ value.length ≤ 20 ∧ (∀ c ∈ value, isDigit c) ∧
        decimalValue value % 2 ^ w ≠ 0 := by
  unfold HTTPServer.Accepted
  rw [atou_eq]
  by_cases h : 1 ≤ value.length ∧ value.length ≤ 20 ∧ ∀ c ∈ value, isDigit c
  · rw [if_pos h]
    simp only [true_and]
    exact ⟨fun h2 => ⟨h.1, h.2.1, h.2.2, h2⟩, fun h2 => h2.2.2.2⟩
  · rw [if_neg h]
    simp only [Bool.true_eq_false, false_and, false_iff]
    intro h2
    exact h ⟨h2.1, h2.2.1, h2.2.2.1⟩

theorem atou_of_accepted (w : Nat) (value : List Byte) (h : HTTPServer.Accepted w value) :
    su.atou w value = (false, decimalValue value % 2 ^ w) := by
  have h2 := (accepted_iff w value).mp h
  rw [atou_eq, if_pos ⟨h2.1, h2.2.1, h2.2.2.1⟩]

theorem execute_invalid_start (fm : FloatModel) (m : Measure fm) (vna : LiteVNA)
    (reads : List ReadStep) (params : Params) (v : List Byte)
    (h1 : params.find (ascii "start") = some v) (h2 : ¬ HTTPServer.Accepted 64 v) :
    HTTPServer.execute fm m vna reads params =
      some (HTTPServer.invalidParameter "start", vna, reads) := by
  unfold HTTPServer.execute
  rw [h1]
  simp only
  rw [if_pos]
  unfold HTTPServer.Accepted at h2
  by_cases he : (su.atou 64 v).1 = true
  · exact Or.inl he
  · right
    by_contra hz
    exact h2 ⟨by simpa using he, hz⟩

theorem execute_invalid_step (fm : FloatModel) (m : Measure fm) (vna : LiteVNA)
    (reads : List ReadStep) (params : Params) (v1 v : List Byte)
    (h1 : params.find (ascii "start") = some v1) (h2 : HTTPServer.Accepted 64 v1)
    (h3 : params.find (ascii "step") = some v) (h4 : ¬ HTTPServer.Accepted 64 v) :
    HTTPServer.execute fm m vna reads params =
      some (HTTPServer.invalidParameter "step", vna, reads) := by
  unfold HTTPServer.execute
  rw [h1]
  simp only
  rw [if_neg (by unfold HTTPServer.Accepted at h2; simp [h2.1, h2.2]), h3]
  simp only
  rw [if_pos]
  unfold HTTPServer.Accepted at h4
  by_cases he : (su.atou 64 v).1 = true
  · exact Or.inl he
  · right
    by_contra hz
    exact h4 ⟨by simpa using he, hz⟩

theorem execute_invalid_points (fm : FloatModel) (m : Measure fm) (vna : LiteVNA)
    (reads : List ReadStep) (params : Params) (v1 v2 v : List Byte)
    (h1 : params.find (ascii "start") = some v1) (h2 : HTTPServer.Accepted 64 v1)
    (h3 : params.find (ascii "step") = some v2) (h4 : HTTPServer.Accepted 64 v2)
    (h5 : params.find (ascii "points") = some v) (h6 : ¬ HTTPServer.Accepted 16 v) :
    HTTPServer.execute fm m vna reads params =
      some (HTTPServer.invalidParameter "points", vna, reads) := by
  unfold HTTPServer.execute
  rw [h1]
  simp only
  rw [if_neg (by unfold HTTPServer.Accepted at h2; simp [h2.1, h2.2]), h3]
  simp only
  rw [if_neg (by unfold HTTPServer.Accepted at h4; simp [h4.1, h4.2]), h5]
  simp only
  rw [if_pos]
  unfold HTTPServer.Accepted at h6
  by_cases he : (su.atou 16 v).1 = true
  · exact Or.inl he
  · right
    by_contra hz
    exact h6 ⟨by simpa using he, hz⟩

/-- With the three parameters accepted, `execute` scans with their values reduced to the
width of their types. -/
theorem execute_accepted (fm : FloatModel) (m : Measure fm) (vna : LiteVNA)
    (reads : List ReadStep) (params : Params) (v1 v2 v3 : List Byte)
    (h1 : params.find (ascii "start") = some v1) (h2 : HTTPServer.Accepted 64 v1)
    (h3 : params.find (ascii "step") = some v2) (h4 : HTTPServer.Accepted 64 v2)
    (h5 : params.find (ascii "points") = some v3) (h6 : HTTPServer.Accepted 16 v3) :
    HTTPServer.execute fm m vna reads params =
      match LiteVNA.scan fm vna reads (decimalValue v1 % 2 ^ 64) (decimalValue v2 % 2 ^ 64)
          (decimalValue v3 % 2 ^ 16) (emptyValues fm) with
      | none => none
      | some (result, values, vna1, reads1) =>
        if result.isError then some (HTTPServer.scanError result, vna1, reads1)
        else some (HTTPServer.resultJson fm m values (decimalValue v1 % 2 ^ 64)
          (decimalValue v2 % 2 ^ 64) (decimalValue v3 % 2 ^ 16), vna1, reads1) := by
  have a1 := atou_of_accepted 64 v1 h2
  have a2 := atou_of_accepted 64 v2 h4
  have a3 := atou_of_accepted 16 v3 h6
  have n1 := ((accepted_iff 64 v1).mp h2).2.2.2
  have n2 := ((accepted_iff 64 v2).mp h4).2.2.2
  have n3 := ((accepted_iff 16 v3).mp h6).2.2.2
  unfold HTTPServer.execute
  rw [h1]
  simp only [a1]
  rw [if_neg (fun h => h.elim (fun e => Bool.noConfusion e) n1), h3]
  simp only [a2]
  rw [if_neg (fun h => h.elim (fun e => Bool.noConfusion e) n2), h5]
  simp only [a3]
  rw [if_neg (fun h => h.elim (fun e => Bool.noConfusion e) n3)]

/-- With the three parameters accepted and a device that sends `points` valid frames, one
per index, `execute` returns the result body for the values stored by index. -/
theorem execute_scan_frames (fm : FloatModel) (m : Measure fm) (vna : LiteVNA)
    (reads : List ReadStep) (params : Params) (v1 v2 v3 : List Byte)
    (frames : List (List Byte)) (rest : List Byte)
    (h1 : params.find (ascii "start") = some v1) (h2 : HTTPServer.Accepted 64 v1)
    (h3 : params.find (ascii "step") = some v2) (h4 : HTTPServer.Accepted 64 v2)
    (h5 : params.find (ascii "points") = some v3) (h6 : HTTPServer.Accepted 16 v3)
    (hw : WritesSucceed vna) (hr : ReadsDeliver reads) (hnt : NoTimeout vna.clock)
    (hn : frames.length = decimalValue v3 % 2 ^ 16)
    (hv : ∀ f ∈ frames, ValidFrame (decimalValue v3 % 2 ^ 16) f)
    (hrx : vna.serial.rx = frames.flatten ++ rest)
    (hl : 32 * (decimalValue v3 % 2 ^ 16) ≤ reads.length) :
    ∃ vna1 reads1, HTTPServer.execute fm m vna reads params =
      some (HTTPServer.resultJson fm m
        (frames.foldl (storeValues fm) ((emptyValues fm).resize (decimalValue v3 % 2 ^ 16)))
        (decimalValue v1 % 2 ^ 64) (decimalValue v2 % 2 ^ 64) (decimalValue v3 % 2 ^ 16),
        vna1, reads1) := by
  obtain ⟨t, evs, _, _, _, hscan⟩ := scan_valid_frames fm vna reads (decimalValue v1 % 2 ^ 64)
    (decimalValue v2 % 2 ^ 64) (decimalValue v3 % 2 ^ 16) (emptyValues fm) frames rest
    hw hr hnt hn hv hrx hl
  rw [execute_accepted fm m vna reads params v1 v2 v3 h1 h2 h3 h4 h5 h6, hscan]
  exact ⟨_, _, rfl⟩

set_option maxRecDepth 100000 in
theorem resultJson_one_point :
    HTTPServer.resultJson symModel symMeasure
      ([frameA].foldl (storeValues symModel)
        ((emptyValues symModel).resize (decimalValue (ascii "65537") % 2 ^ 16)))
      (decimalValue (ascii "1") % 2 ^ 64) (decimalValue (ascii "1") % 2 ^ 64)
      (decimalValue (ascii "65537") % 2 ^ 16) =
      "\x7b\"result\":[\x7b\"freq\": 1, \"s11\": \x7b\"log_mag\": re((3,4)/(1,2)), \"phase\": im((3,4)/(1,2)), \"swr\": re((3,4)/(1,2))\x7d,\"s21\": \x7b\"log_mag\": re((5,6)/(1,2)), \"phase\": im((5,6)/(1,2))\x7d\x7d]\x7d" := by
  decide

/-- C16 as stated fails: the value `65537` of `points` is too large for 16 bits, yet it
is accepted; the device is scanned, for one point, and the response is a result array.
And the 21 digits `000000000000000000001`, which denote 1, are rejected for `start`. -/
theorem C16_parameter_values_counterexample :
    ¬ decimalValue (ascii "65537") < 2 ^ 16 ∧
      su.atou 16 (ascii "65537") = (false, 1) ∧
      (∃ vna1 reads1,
        HTTPServer.execute symModel symMeasure (demoDevice ([frameA].flatten ++ []))
            (List.replicate 32 (ReadStep.deliver 32))
            [(ascii "start", ascii "1"), (ascii "step", ascii "1"),
              (ascii "points", ascii "65537")] =
          some ("\x7b\"result\":[\x7b\"freq\": 1, \"s11\": \x7b\"log_mag\": re((3,4)/(1,2)), \"phase\": im((3,4)/(1,2)), \"swr\": re((3,4)/(1,2))\x7d,\"s21\": \x7b\"log_mag\": re((5,6)/(1,2)), \"phase\": im((5,6)/(1,2))\x7d\x7d]\x7d",
            vna1, reads1)) ∧
      decimalValue (ascii "000000000000000000001") = 1 ∧
      su.atou 64 (ascii "000000000000000000001") = (true, 0) := by
  refine ⟨by decide, by decide, ?_, by decide, by decide⟩
  obtain ⟨vna1, reads1, h⟩ := execute_scan_frames symModel symMeasure
    (demoDevice ([frameA].flatten ++ [])) (List.replicate 32 (ReadStep.deliver 32))
    [(ascii "start", ascii "1"), (ascii "step", ascii "1"), (ascii "points", ascii "65537")]
    (ascii "1") (ascii "1") (ascii "65537") [frameA] []
    (by decide) (by decide) (by decide) (by decide) (by decide) (by decide)
    (demoDevice_writesSucceed _) (readsDeliver_replicate 32 32 (by decide))
    (demoDevice_noTimeout _) (by decide) (by decide) rfl (by decide)
  refine ⟨vna1, reads1, ?_⟩
  rw [h]
  rw [resultJson_one_point]

/-- C16 amended: the request handler accepts a parameter value exactly when it is a
string of 1 to 20 decimal digits whose number, reduced modulo `2^64` for `start` and
`step` and modulo `2^16` for `points`, is not zero; for a number that the type can
represent this is: when it is not zero. Every other value of a parameter (empty, longer
than 20 characters, with a character that is not a digit, reducing to zero) is answered
with `{"error": "invalid '<name>' parameter"}` for the first such parameter in the order
`start`, `step`, `points`, and the device is not scanned. With the three values accepted
the device is scanned with the reduced numbers. -/
theorem C16_parameter_values (fm : FloatModel) (m : Measure fm) (vna : LiteVNA)
    (reads : List ReadStep) (params : Params) :
    (∀ w value, HTTPServer.Accepted w value ↔
      1 ≤ value.length ∧ value.length ≤ 20 ∧ (∀ c ∈ value, isDigit c) ∧
        decimalValue value % 2 ^ w ≠ 0) ∧
    (∀ w value, decimalValue value < 2 ^ w →
      (HTTPServer.Accepted w value ↔
        1 ≤ value.length ∧ value.length ≤ 20 ∧ (∀ c ∈ value, isDigit c) ∧
          decimalValue value ≠ 0)) ∧
    (∀ v, params.find (ascii "start") = some v → ¬ HTTPServer.Accepted 64 v →
      HTTPServer.execute fm m vna reads params =
        some ("\x7b\"error\": \"invalid 'start' parameter\"\x7d", vna, reads)) ∧
    (∀ v1 v, params.find (ascii "start") = some v1 → HTTPServer.Accepted 64 v1 →
      params.find (ascii "step") = some v → ¬ HTTPServer.Accepted 64 v →
      HTTPServer.execute fm m vna reads params =
        some ("\x7b\"error\": \"invalid 'step' parameter\"\x7d", vna, reads)) ∧
    (∀ v1 v2 v, params.find (ascii "start") = some v1 → HTTPServer.Accepted 64 v1 →
      params.find (ascii "step") = some v2 → HTTPServer.Accepted 64 v2 →
      params.find (ascii "points") = some v → ¬ HTTPServer.Accepted 16 v →
      HTTPServer.execute fm m vna reads params =
        some ("\x7b\"error\": \"invalid 'points' parameter\"\x7d", vna, reads)) ∧
    (∀ v1 v2 v3, params.find (ascii "start") = some v1 → HTTPServer.Accepted 64 v1 →
      params.find (ascii "step") = some v2 → HTTPServer.Accepted 64 v2 →
      params.find (ascii "points") = some v3 → HTTPServer.Accepted 16 v3 →
      HTTPServer.execute fm m vna reads params =
        match LiteVNA.scan fm vna reads (decimalValue v1 % 2 ^ 64) (decimalValue v2 % 2 ^ 64)
            (decimalValue v3 % 2 ^ 16) (emptyValues fm) with
        | none => none
        | some (result, values, vna1, reads1) =>
          if result.isError then some (HTTPServer.scanError result, vna1, reads1)
          else some (HTTPServer.resultJson fm m values (decimalValue v1 % 2 ^ 64)
            (decimalValue v2 % 2 ^ 64) (decimalValue v3 % 2 ^ 16), vna1, reads1)) := by
  refine ⟨accepted_iff, ?_, ?_, ?_, ?_, ?_⟩
  · intro w value hlt
    rw [accepted_iff, Nat.mod_eq_of_lt hlt]
  · intro v h1 h2
    exact execute_invalid_start fm m vna reads params v h1 h2
  · intro v1 v h1 h2 h3 h4
    exact execute_invalid_step fm m vna reads params v1 v h1 h2 h3 h4
  · intro v1 v2 v h1 h2 h3 h4 h5 h6
    exact execute_invalid_points fm m vna reads params v1 v2 v h1 h2 h3 h4 h5 h6
  · intro v1 v2 v3 h1 h2 h3 h4 h5 h6
    exact execute_accepted fm m vna reads params v1 v2 v3 h1 h2 h3 h4 h5 h6

theorem C16_parameter_values_witness :
    HTTPServer.execute symModel symMeasure (demoDevice []) []
        [(ascii "start", ascii "4300000000"), (ascii "step", ascii "10000000"),
          (ascii "points", ascii "65536")] =
      some ("\x7b\"error\": \"invalid 'points' parameter\"\x7d", demoDevice [], []) ∧
    HTTPServer.execute symModel symMeasure (demoDevice []) []
        [(ascii "start", ascii "4300000000"), (ascii "step", ascii "1e7"),
          (ascii "points", ascii "2")] =
      some ("\x7b\"error\": \"invalid 'step' parameter\"\x7d", demoDevice [], []) ∧
    HTTPServer.execute symModel symMeasure (demoDevice []) []
        [(ascii "start", ascii ""), (ascii "step", ascii "1"), (ascii "points", ascii "2")] =
      some ("\x7b\"error\": \"invalid 'start' parameter\"\x7d", demoDevice [], []) :=
  ⟨(C16_parameter_values symModel symMeasure (demoDevice []) []
      [(ascii "start", ascii "4300000000"), (ascii "step", ascii "10000000"),
        (ascii "points", ascii "65536")]).2.2.2.2.1 (ascii "4300000000") (ascii "10000000")
      (ascii "65536") (by decide) (by decide) (by decide) (by decide) (by decide) (by decide),
    (C16_parameter_values symModel symMeasure (demoDevice []) []
      [(ascii "start", ascii "4300000000"), (ascii "step", ascii "1e7"),
        (ascii "points", ascii "2")]).2.2.2.1 (ascii "4300000000") (ascii "1e7")
      (by decide) (by decide) (by decide) (by decide),
    (C16_parameter_values symModel symMeasure (demoDevice []) []
      [(ascii "start", ascii ""), (ascii "step", ascii "1"), (ascii "points", ascii "2")]).2.2.1
      (ascii "") (by decide) (by decide)⟩

theorem resultLoop_eq (fm : FloatModel) (m : Measure fm) (values : ScanValues fm) (step : Nat) :
    ∀ (remaining n freq : Nat) (addComma : Bool) (json : String),
      HTTPServer.resultLoop fm m values step (remaining + 1) n freq addComma json =
        (if addComma then json ++ "," else json) ++
          commaSeparated (HTTPServer.entriesFrom fm m values step (remaining + 1) n freq) := by
  intro remaining
  induction remaining with
  | zero =>
    intro n freq addComma json
    rfl
  | succ k ih =>
    intro n freq addComma json
    rw [HTTPServer.resultLoop, ih]
    simp only [if_true]
    obtain ⟨next, rest, hcons⟩ : ∃ next rest,
        HTTPServer.entriesFrom fm m values step (k + 1) (n + 1) ((freq + step) % 2 ^ 64) =
          next :: rest := by
      rw [HTTPServer.entriesFrom]
      exact ⟨_, _, rfl⟩
    have hall : HTTPServer.entriesFrom fm m values step (k + 1 + 1) n freq =
        HTTPServer.resultEntry fm m freq (HTTPServer.valueAt fm values.channel0In n)
          (HTTPServer.valueAt fm values.channel1In n) :: next :: rest := by
      rw [← hcons]
      rfl
    rw [hall, hcons]
    show _ = _ ++ (_ ++ "," ++ commaSeparated (next :: rest))
    simp only [String.append_assoc]

theorem resultJson_eq_entriesFrom (fm : FloatModel) (m : Measure fm) (values : ScanValues fm)
    (start step points : Nat) :
    HTTPServer.resultJson fm m values start step points =
      "\x7b\"result\":[" ++
        commaSeparated (HTTPServer.entriesFrom fm m values step points 0 start) ++ "]\x7d" := by
  unfold HTTPServer.resultJson
  cases points with
  | zero => rfl
  | succ k =>
    rw [resultLoop_eq]
    rfl

theorem entriesFrom_eq (fm : FloatModel) (m : Measure fm) (values : ScanValues fm) (step : Nat) :
    ∀ (remaining n freq : Nat), freq < 2 ^ 64 →
      HTTPServer.entriesFrom fm m values step remaining n freq =
        (List.range remaining).map (fun i =>
          HTTPServer.resultEntry fm m ((freq + i * step) % 2 ^ 64)
            (HTTPServer.valueAt fm values.channel0In (n + i))
            (HTTPServer.valueAt fm values.channel1In (n + i))) := by
  intro remaining
  induction remaining with
  | zero => intro n freq _; rfl
  | succ k ih =>
    intro n freq hlt
    rw [HTTPServer.entriesFrom, ih (n + 1) _ (Nat.mod_lt _ (by positivity)),
      List.range_succ_eq_map, List.map_cons, List.map_map]
    congr 1
    · have h0 : (freq + 0 * step) % 2 ^ 64 = freq := by
        rw [Nat.zero_mul, Nat.add_zero, Nat.mod_eq_of_lt hlt]
      show _ = HTTPServer.resultEntry fm m ((freq + 0 * step) % 2 ^ 64) _ _
      rw [h0]
      rfl
    · apply List.map_congr_left
      intro i _
      simp only [Function.comp]
      have hf : ((freq + step) % 2 ^ 64 + i * step) % 2 ^ 64 =
          (freq + (i + 1) * step) % 2 ^ 64 := by
        rw [Nat.add_mod, Nat.mod_mod, ← Nat.add_mod]
        congr 1
        ring
      have hn : n + 1 + i = n + (i + 1) := by omega
      rw [hf, hn]

/-- The body for a successful scan: the entries for the indices `0 .. points-1`, in that
order, separated by commas; the frequency of entry `n` is `start + n * step` in 64-bit
arithmetic. -/
theorem resultJson_eq (fm : FloatModel) (m : Measure fm) (values : ScanValues fm)
    (start step points : Nat) (hstart : start < 2 ^ 64) :
    HTTPServer.resultJson fm m values start step points =
      "\x7b\"result\":[" ++
        commaSeparated ((List.range points).map (fun n =>
          HTTPServer.resultEntry fm m ((start + n * step) % 2 ^ 64)
            (HTTPServer.valueAt fm values.channel0In n)
            (HTTPServer.valueAt fm values.channel1In n))) ++ "]\x7d" := by
  rw [resultJson_eq_entriesFrom, entriesFrom_eq fm m values step points 0 start hstart]
  simp

theorem atou_lt (w : Nat) (value : List Byte) : (su.atou w value).2 < 2 ^ w := by
  rw [atou_eq]
  split
  · exact Nat.mod_lt _ (by positivity)
  · exact Nat.pos_of_ne_zero (by positivity)

theorem accepted_of_atou (w : Nat) (value : List Byte) (n : Nat)
    (h : su.atou w value = (false, n)) (hn : n ≠ 0) :
    HTTPServer.Accepted w value ∧ decimalValue value % 2 ^ w = n := by
  have hacc : HTTPServer.Accepted w value := by
    unfold HTTPServer.Accepted
    rw [h]
    exact ⟨rfl, hn⟩
  have h2 := atou_of_accepted w value hacc
  rw [h] at h2
  exact ⟨hacc, (congrArg Prod.snd h2).symm⟩

theorem valueAt_of_getElem? (fm : FloatModel) (channel : List (Cplx fm)) (n : Nat)
    (v : Cplx fm) (h : channel[n]? = some v) : HTTPServer.valueAt fm channel n = v := by
  unfold HTTPServer.valueAt
  rw [List.getD_eq_getElem?_getD, h]
  rfl

/-- C17 amended: for every successful scan started by the request handler (the three
parameters accepted with the values `start`, `step`, `points`; the device sends `points`
checksum-valid frames, one per frequency index, in any order), the body is
`{"result":[` entries `]}` with exactly `points` entries separated by commas; entry `n`
(`n = 0 .. points-1`) has `freq` equal to `start + n * step` reduced modulo `2^64`, which
is `start + n * step` itself when the last frequency is below `2^64`, and the `s11` and
`s21` values computed from `channel0In[n]` and `channel1In[n]` of the `ScanValues` that
`scan` returned, which are those of the frame whose `freqIndex` is `n`. -/
theorem C17_result_entries (fm : FloatModel) (m : Measure fm) (vna : LiteVNA)
    (reads : List ReadStep) (params : Params) (v1 v2 v3 : List Byte)
    (start step points : Nat) (frames : List (List Byte)) (rest : List Byte)
    (h1 : params.find (ascii "start") = some v1) (a1 : su.atou 64 v1 = (false, start))
    (n1 : start ≠ 0)
    (h2 : params.find (ascii "step") = some v2) (a2 : su.atou 64 v2 = (false, step))
    (n2 : step ≠ 0)
    (h3 : params.find (ascii "points") = some v3) (a3 : su.atou 16 v3 = (false, points))
    (n3 : points ≠ 0)
    (hw : WritesSucceed vna) (hr : ReadsDeliver reads) (hnt : NoTimeout vna.clock)
    (hlen : ∀ f ∈ frames, f.length = 32)
    (hck : ∀ f ∈ frames, computeChecksum f = frameChecksumField f)
    (hidx : (frames.map freqIndex).Perm (List.range points))
    (hrx : vna.serial.rx = frames.flatten ++ rest)
    (hl : 32 * points ≤ reads.length) :
    ∃ values vna1 reads1,
      LiteVNA.scan fm vna reads start step points (emptyValues fm) =
        some (Result.ok, values, vna1, reads1) ∧
      HTTPServer.execute fm m vna reads params =
        some ("\x7b\"result\":[" ++
          commaSeparated ((List.range points).map (fun n =>
            HTTPServer.resultEntry fm m ((start + n * step) % 2 ^ 64)
              (HTTPServer.valueAt fm values.channel0In n)
              (HTTPServer.valueAt fm values.channel1In n))) ++ "]\x7d", vna1, reads1) ∧
      ((List.range points).map (fun n =>
        HTTPServer.resultEntry fm m ((start + n * step) % 2 ^ 64)
          (HTTPServer.valueAt fm values.channel0In n)
          (HTTPServer.valueAt fm values.channel1In n))).length = points ∧
      (∀ f ∈ frames,
        HTTPServer.valueAt fm values.channel0In (freqIndex f) = in0 fm f ∧
        HTTPServer.valueAt fm values.channel1In (freqIndex f) = in1 fm f) ∧
      (start + (points - 1) * step < 2 ^ 64 →
        ∀ n < points, (start + n * step) % 2 ^ 64 = start + n * step) := by
  obtain ⟨acc1, e1⟩ := accepted_of_atou 64 v1 start a1 n1
  obtain ⟨acc2, e2⟩ := accepted_of_atou 64 v2 step a2 n2
  obtain ⟨acc3, e3⟩ := accepted_of_atou 16 v3 points a3 n3
  have hstart : start < 2 ^ 64 := by
    have := atou_lt 64 v1
    rw [a1] at this
    exact this
  have hv := validFrame_of_perm_range points frames hlen hck hidx
  have hn : frames.length = points := by
    have := hidx.length_eq
    simpa using this
  have hnd : (frames.map freqIndex).Nodup := hidx.nodup_iff.mpr (List.nodup_range points)
  obtain ⟨t, evs, _, _, _, hscan⟩ := scan_valid_frames fm vna reads start step points
    (emptyValues fm) frames rest hw hr hnt hn hv hrx hl
  have hexec := execute_accepted fm m vna reads params v1 v2 v3 h1 acc1 h2 acc2 h3 acc3
  rw [e1, e2, e3, hscan] at hexec
  simp only [isError_ok, Bool.false_eq_true, if_false] at hexec
  rw [resultJson_eq fm m _ start step points hstart] at hexec
  refine ⟨_, _, _, hscan, hexec, by simp, ?_, ?_⟩
  · intro f hf
    have hlt : freqIndex f < points := (hv f hf).2.2
    constructor
    · apply valueAt_of_getElem?
      rw [foldl_storeValues_channel0In]
      exact foldl_set_getElem?_of_mem freqIndex (in0 fm) frames _ f hnd hf
        (by rw [show ((emptyValues fm).resize points).channel0In.length = points from
          resize_length _ _ _]; exact hlt)
    · apply valueAt_of_getElem?
      rw [foldl_storeValues_channel1In]
      exact foldl_set_getElem?_of_mem freqIndex (in1 fm) frames _ f hnd hf
        (by rw [show ((emptyValues fm).resize points).channel1In.length = points from
          resize_length _ _ _]; exact hlt)
  · intro hlast n hlt
    apply Nat.mod_eq_of_lt
    have : n * step ≤ (points - 1) * step := Nat.mul_le_mul_right _ (by omega)
    omega

set_option maxRecDepth 100000 in
theorem resultJson_two_points :
    HTTPServer.resultJson symModel symMeasure
      ([frameB, frameA].foldl (storeValues symModel)
        ((emptyValues symModel).resize (decimalValue (ascii "2") % 2 ^ 16)))
      (decimalValue (ascii "4300000000") % 2 ^ 64) (decimalValue (ascii "10000000") % 2 ^ 64)
      (decimalValue (ascii "2") % 2 ^ 16) =
      "\x7b\"result\":[\x7b\"freq\": 4300000000, \"s11\": \x7b\"log_mag\": re((3,4)/(1,2)), \"phase\": im((3,4)/(1,2)), \"swr\": re((3,4)/(1,2))\x7d,\"s21\": \x7b\"log_mag\": re((5,6)/(1,2)), \"phase\": im((5,6)/(1,2))\x7d\x7d,\x7b\"freq\": 4310000000, \"s11\": \x7b\"log_mag\": re((3,4)/(-1,2)), \"phase\": im((3,4)/(-1,2)), \"swr\": re((3,4)/(-1,2))\x7d,\"s21\": \x7b\"log_mag\": re((5,6)/(-1,2)), \"phase\": im((5,6)/(-1,2))\x7d\x7d]\x7d" := by
  decide

set_option maxRecDepth 100000 in
theorem resultJson_wrapped :
    HTTPServer.resultJson symModel symMeasure
      ([frameB, frameA].foldl (storeValues symModel)
        ((emptyValues symModel).resize (decimalValue (ascii "2") % 2 ^ 16)))
      (decimalValue (ascii "18446744073709551615") % 2 ^ 64)
      (decimalValue (ascii "1") % 2 ^ 64) (decimalValue (ascii "2") % 2 ^ 16) =
      "\x7b\"result\":[\x7b\"freq\": 18446744073709551615, \"s11\": \x7b\"log_mag\": re((3,4)/(1,2)), \"phase\": im((3,4)/(1,2)), \"swr\": re((3,4)/(1,2))\x7d,\"s21\": \x7b\"log_mag\": re((5,6)/(1,2)), \"phase\": im((5,6)/(1,2))\x7d\x7d,\x7b\"freq\": 0, \"s11\": \x7b\"log_mag\": re((3,4)/(-1,2)), \"phase\": im((3,4)/(-1,2)), \"swr\": re((3,4)/(-1,2))\x7d,\"s21\": \x7b\"log_mag\": re((5,6)/(-1,2)), \"phase\": im((5,6)/(-1,2))\x7d\x7d]\x7d" := by
  decide

/-- C17 as stated fails: for `start=18446744073709551615`, `step=1`, `points=2` and a
device that sends two valid frames, the scan succeeds and the second entry of the result
array has `freq` 0, not `start + 1 * step`; the entries are not in ascending frequency
order. -/
theorem C17_result_entries_counterexample :
    (∃ vna1 reads1,
      HTTPServer.execute symModel symMeasure (demoDevice ([frameB, frameA].flatten ++ []))
          (List.replicate 64 (ReadStep.deliver 32))
          [(ascii "start", ascii "18446744073709551615"), (ascii "step", ascii "1"),
            (ascii "points", ascii "2")] =
        some ("\x7b\"result\":[\x7b\"freq\": 18446744073709551615, \"s11\": \x7b\"log_mag\": re((3,4)/(1,2)), \"phase\": im((3,4)/(1,2)), \"swr\": re((3,4)/(1,2))\x7d,\"s21\": \x7b\"log_mag\": re((5,6)/(1,2)), \"phase\": im((5,6)/(1,2))\x7d\x7d,\x7b\"freq\": 0, \"s11\": \x7b\"log_mag\": re((3,4)/(-1,2)), \"phase\": im((3,4)/(-1,2)), \"swr\": re((3,4)/(-1,2))\x7d,\"s21\": \x7b\"log_mag\": re((5,6)/(-1,2)), \"phase\": im((5,6)/(-1,2))\x7d\x7d]\x7d",
          vna1, reads1)) ∧
      18446744073709551615 + 1 * 1 ≠ 0 := by
  refine ⟨?_, by decide⟩
  obtain ⟨vna1, reads1, h⟩ := execute_scan_frames symModel symMeasure
    (demoDevice ([frameB, frameA].flatten ++ [])) (List.replicate 64 (ReadStep.deliver 32))
    [(ascii "start", ascii "18446744073709551615"), (ascii "step", ascii "1"),
      (ascii "points", ascii "2")]
    (ascii "18446744073709551615") (ascii "1") (ascii "2") [frameB, frameA] []
    (by decide) (by decide) (by decide) (by decide) (by decide) (by decide)
    (demoDevice_writesSucceed _) (readsDeliver_replicate 64 32 (by decide))
    (demoDevice_noTimeout _) (by decide) (by decide) rfl (by decide)
  refine ⟨vna1, reads1, ?_⟩
  rw [h, resultJson_wrapped]

/-- Witness of C17: the request `start=4300000000, step=10000000, points=2` with a device
that sends the frame of index 1 before the frame of index 0. -/
theorem C17_result_entries_witness :
    (∃ values vna1 reads1,
      LiteVNA.scan symModel (demoDevice ([frameB, frameA].flatten ++ []))
          (List.replicate 64 (ReadStep.deliver 32)) 4300000000 10000000 2
          (emptyValues symModel) = some (Result.ok, values, vna1, reads1) ∧
      HTTPServer.execute symModel symMeasure (demoDevice ([frameB, frameA].flatten ++ []))
          (List.replicate 64 (ReadStep.deliver 32))
          [(ascii "start", ascii "4300000000"), (ascii "step", ascii "10000000"),
            (ascii "points", ascii "2")] =
        some ("\x7b\"result\":[" ++
          commaSeparated ((List.range 2).map (fun n =>
            HTTPServer.resultEntry symModel symMeasure ((4300000000 + n * 10000000) % 2 ^ 64)
              (HTTPServer.valueAt symModel values.channel0In n)
              (HTTPServer.valueAt symModel values.channel1In n))) ++ "]\x7d", vna1, reads1) ∧
      ((List.range 2).map (fun n =>
        HTTPServer.resultEntry symModel symMeasure ((4300000000 + n * 10000000) % 2 ^ 64)
          (HTTPServer.valueAt symModel values.channel0In n)
          (HTTPServer.valueAt symModel values.channel1In n))).length = 2 ∧
      (∀ f ∈ [frameB, frameA],
        HTTPServer.valueAt symModel values.channel0In (freqIndex f) = in0 symModel f ∧
        HTTPServer.valueAt symModel values.channel1In (freqIndex f) = in1 symModel f) ∧
      (4300000000 + (2 - 1) * 10000000 < 2 ^ 64 →
        ∀ n < 2, (4300000000 + n * 10000000) % 2 ^ 64 = 4300000000 + n * 10000000)) ∧
    (∃ vna1 reads1,
      HTTPServer.execute symModel symMeasure (demoDevice ([frameB, frameA].flatten ++ []))
          (List.replicate 64 (ReadStep.deliver 32))
          [(ascii "start", ascii "4300000000"), (ascii "step", ascii "10000000"),
            (ascii "points", ascii "2")] =
        some ("\x7b\"result\":[\x7b\"freq\": 4300000000, \"s11\": \x7b\"log_mag\": re((3,4)/(1,2)), \"phase\": im((3,4)/(1,2)), \"swr\": re((3,4)/(1,2))\x7d,\"s21\": \x7b\"log_mag\": re((5,6)/(1,2)), \"phase\": im((5,6)/(1,2))\x7d\x7d,\x7b\"freq\": 4310000000, \"s11\": \x7b\"log_mag\": re((3,4)/(-1,2)), \"phase\": im((3,4)/(-1,2)), \"swr\": re((3,4)/(-1,2))\x7d,\"s21\": \x7b\"log_mag\": re((5,6)/(-1,2)), \"phase\": im((5,6)/(-1,2))\x7d\x7d]\x7d",
          vna1, reads1)) := by
  refine ⟨C17_result_entries symModel symMeasure (demoDevice ([frameB, frameA].flatten ++ []))
    (List.replicate 64 (ReadStep.deliver 32))
    [(ascii "start", ascii "4300000000"), (ascii "step", ascii "10000000"),
      (ascii "points", ascii "2")]
    (ascii "4300000000") (ascii "10000000") (ascii "2") 4300000000 10000000 2
    [frameB, frameA] []
    (by decide) (by decide) (by decide) (by decide) (by decide) (by decide)
    (by decide) (by decide) (by decide)
    (demoDevice_writesSucceed _) (readsDeliver_replicate 64 32 (by decide))
    (demoDevice_noTimeout _) (by decide) (by decide) (by decide) rfl (by decide), ?_⟩
  obtain ⟨vna1, reads1, h⟩ := execute_scan_frames symModel symMeasure
    (demoDevice ([frameB, frameA].flatten ++ [])) (List.replicate 64 (ReadStep.deliver 32))
    [(ascii "start", ascii "4300000000"), (ascii "step", ascii "10000000"),
      (ascii "points", ascii "2")]
    (ascii "4300000000") (ascii "10000000") (ascii "2") [frameB, frameA] []
    (by decide) (by decide) (by decide) (by decide) (by decide) (by decide)
    (demoDevice_writesSucceed _) (readsDeliver_replicate 64 32 (by decide))
    (demoDevice_noTimeout _) (by decide) (by decide) rfl (by decide)
  refine ⟨vna1, reads1, ?_⟩
  rw [h, resultJson_two_points]

/-- C21: with `x = linear(v) >= 0` and the arithmetic exact, `swr` returns exactly 100000
whenever `x > 99999/100001` and `(1 + x)/(1 - x)` otherwise; the divisor `1 - x` of the
second branch is then positive, so never zero, and the result is at least 1 and never
exceeds 100000. -/
theorem C21_swr_saturates (x : ℚ) (hx : 0 ≤ x) :
    (x > 99999 / 100001 → swrExact x = 100000) ∧
      (¬ x > 99999 / 100001 → swrExact x = (1 + x) / (1 - x) ∧ 0 < 1 - x ∧ 1 - x ≠ 0) ∧
      swrExact x ≤ 100000 ∧ 1 ≤ swrExact x := by
  have hthr : (LITEVNA_VSWR_MAX - 1) / (LITEVNA_VSWR_MAX + 1) = 99999 / 100001 := by
    unfold LITEVNA_VSWR_MAX
    norm_num
  have hmax : LITEVNA_VSWR_MAX = 100000 := rfl
  unfold swrExact
  rw [hthr, hmax]
  by_cases h : x > 99999 / 100001
  · rw [if_pos h]
    exact ⟨fun _ => rfl, fun hn => absurd h hn, le_refl _, by norm_num⟩
  · rw [if_neg h]
    have hle : x ≤ 99999 / 100001 := not_lt.mp h
    have hpos : 0 < 1 - x := by linarith
    refine ⟨fun hy => absurd hy h, fun _ => ⟨rfl, hpos, ne_of_gt hpos⟩, ?_, ?_⟩
    · rw [div_le_iff₀ hpos]
      linarith
    · rw [le_div_iff₀ hpos]
      linarith

theorem C21_swr_saturates_witness :
    swrExact (1 / 2) = 3 ∧ swrExact 1 = 100000 ∧ swrExact (99999 / 100001) = 100000 ∧
      swrExact (1 / 2) ≤ 100000 :=
  ⟨by norm_num [swrExact, LITEVNA_VSWR_MAX], by norm_num [swrExact, LITEVNA_VSWR_MAX],
    by norm_num [swrExact, LITEVNA_VSWR_MAX],
    (C21_swr_saturates (1 / 2) (by norm_num)).2.2.1⟩

theorem formatAux_copy (p cs : List Char) (v : String) (vs : List String)
    (hp : '\x7b' ∉ p) :
    su.formatAux (p ++ cs) (v :: vs) = p ++ su.formatAux cs (v :: vs) := by
  induction p with
  | nil => rfl
  | cons c p ih =>
    have hc : c ≠ '\x7b' := fun e => hp (by rw [e]; exact List.mem_cons_self _ _)
    have hrest : '\x7b' ∉ p := fun h => hp (List.mem_cons_of_mem _ h)
    rw [List.cons_append, su.formatAux, ih hrest]
    · rfl
    · intro cs' h1 _
      exact hc h1

theorem formatAux_hole (cs : List Char) (v : String) (vs : List String) :
    su.formatAux ('\x7b' :: '\x7d' :: cs) (v :: vs) = v.toList ++ su.formatAux cs vs := by
  rw [su.formatAux]

theorem formatAux_done (cs : List Char) : su.formatAux cs [] = cs := by
  rw [su.formatAux]

theorem okResponse_eq (json : String) :
    HTTPServer.okResponse json =
      "HTTP/1.1 200 OK\r\nConnection: close\r\nContent-Type: application/json\r\nContent-Length: " ++
        showNat json.length ++ "\r\n\r\n" ++ json := by
  unfold HTTPServer.okResponse su.format
  apply String.ext
  have hfmt : ("HTTP/1.1 200 OK\r\nConnection: close\r\nContent-Type: application/json\r\nContent-Length: \x7b\x7d\r\n\r\n\x7b\x7d" : String).toList =
      ("HTTP/1.1 200 OK\r\nConnection: close\r\nContent-Type: application/json\r\nContent-Length: " : String).toList ++
        ('\x7b' :: '\x7d' :: (("\r\n\r\n" : String).toList ++ ('\x7b' :: '\x7d' :: []))) := by
    decide
  rw [hfmt, formatAux_copy _ _ _ _ (by decide), formatAux_hole,
    formatAux_copy _ _ _ _ (by decide), formatAux_hole, formatAux_done]
  simp [String.data_append]

theorem scanError_eq (result : Result) :
    HTTPServer.scanError result = "\"\x7berror\": \"" ++ result.description ++ "\"\x7d" := by
  unfold HTTPServer.scanError su.format
  apply String.ext
  have hfmt : ("\"\x7berror\": \"\x7b\x7d\"\x7d" : String).toList =
      '"' :: '\x7b' :: (("error\": \"" : String).toList ++
        ('\x7b' :: '\x7d' :: ("\"\x7d" : String).toList)) := by
    decide
  rw [hfmt, su.formatAux, su.formatAux, formatAux_copy _ _ _ _ (by decide), formatAux_hole,
    formatAux_done]
  · simp [String.data_append]
  all_goals intros; simp_all

theorem toDigitsCore_isDigit :
    ∀ (fuel n : Nat) (ds : List Char), (∀ c ∈ ds, c.isDigit = true) →
      ∀ c ∈ Nat.toDigitsCore 10 fuel n ds, c.isDigit = true := by
  have hdigit : ∀ k < 10, (Nat.digitChar k).isDigit = true := by decide
  intro fuel
  induction fuel with
  | zero => intro n ds h; exact h
  | succ fuel ih =>
    intro n ds h
    have hd : ∀ c ∈ Nat.digitChar (n % 10) :: ds, c.isDigit = true := by
      intro c hc
      rcases List.mem_cons.mp hc with rfl | hc
      · exact hdigit _ (Nat.mod_lt _ (by norm_num))
      · exact h c hc
    rw [Nat.toDigitsCore]
    split
    · exact hd
    · exact ih _ _ hd

theorem showNat_isDigit (n : Nat) : ∀ c ∈ (showNat n).toList, c.isDigit = true := by
  intro c hc
  have : (showNat n).toList = Nat.toDigits 10 n := rfl
  rw [this] at hc
  exact toDigitsCore_isDigit _ _ _ (fun _ h => by cases h) c hc

theorem route_reply (received : List Byte) (text : String)
    (h : HTTPServer.route received = HTTPServer.Routed.reply text) :
    text = HTTPServer.badRequest ∨ text = HTTPServer.notAllowed ∨ text = HTTPServer.notFound := by
  unfold HTTPServer.route at h
  repeat' split at h
  all_goals first
    | (injection h with h; subst h
       first
        | exact Or.inl rfl
        | exact Or.inr (Or.inl rfl)
        | exact Or.inr (Or.inr rfl))
    | cases h

/-- C30: every response that the request handler builds (the 200 response around any
body, and the 400, 404 and 405 responses) is a status line and headers, the header
`Content-Length: N`, the blank line, and a body, where `N` is the decimal text of the
exact length of that body. -/
theorem C30_content_length (fm : FloatModel) (m : Measure fm) (vna vna1 : LiteVNA)
    (reads reads1 : List ReadStep) (received : List Byte) (text : String)
    (h : HTTPServer.onRead fm m vna reads received = some (text, vna1, reads1)) :
    ∃ head body,
      text = head ++ "Content-Length: " ++ showNat body.length ++ "\r\n\r\n" ++ body ∧
      (head = "HTTP/1.1 200 OK\r\nConnection: close\r\nContent-Type: application/json\r\n" ∨
        (head = "HTTP/1.1 400 Bad Request\r\n" ∧ body = "Bad Request") ∨
        (head = "HTTP/1.1 405 Not Allowed\r\n" ∧ body = "Not Allowed") ∨
        (head = "HTTP/1.1 404 Not Found\r\n" ∧ body = "Not Found")) ∧
      (∀ c ∈ (showNat body.length).toList, c.isDigit = true) := by
  unfold HTTPServer.onRead at h
  cases hr : HTTPServer.route received with
  | reply t =>
    rw [hr] at h
    simp only [Option.some.injEq, Prod.mk.injEq] at h
    obtain ⟨ht, _, _⟩ := h
    subst ht
    rcases route_reply received t hr with rfl | rfl | rfl
    · exact ⟨"HTTP/1.1 400 Bad Request\r\n", "Bad Request", by decide,
        Or.inr (Or.inl ⟨rfl, rfl⟩), showNat_isDigit _⟩
    · exact ⟨"HTTP/1.1 405 Not Allowed\r\n", "Not Allowed", by decide,
        Or.inr (Or.inr (Or.inl ⟨rfl, rfl⟩)), showNat_isDigit _⟩
    · exact ⟨"HTTP/1.1 404 Not Found\r\n", "Not Found", by decide,
        Or.inr (Or.inr (Or.inr ⟨rfl, rfl⟩)), showNat_isDigit _⟩
  | query params =>
    rw [hr] at h
    simp only at h
    cases he : HTTPServer.execute fm m vna reads params with
    | none =>
      rw [he] at h
      cases h
    | some res =>
      obtain ⟨json, vna2, reads2⟩ := res
      rw [he] at h
      simp only [Option.some.injEq, Prod.mk.injEq] at h
      obtain ⟨ht, _, _⟩ := h
      subst ht
      refine ⟨"HTTP/1.1 200 OK\r\nConnection: close\r\nContent-Type: application/json\r\n",
        json, ?_, Or.inl rfl, showNat_isDigit _⟩
      rw [okResponse_eq]
      have hsplit : ("HTTP/1.1 200 OK\r\nConnection: close\r\nContent-Type: application/json\r\nContent-Length: " : String) =
          "HTTP/1.1 200 OK\r\nConnection: close\r\nContent-Type: application/json\r\n" ++
            "Content-Length: " := by
        decide
      rw [hsplit]

theorem C30_content_length_witness :
    ∃ head body,
      ("HTTP/1.1 405 Not Allowed\r\nContent-Length: 11\r\n\r\nNot Allowed" : String) =
        head ++ "Content-Length: " ++ showNat body.length ++ "\r\n\r\n" ++ body ∧
      (head = "HTTP/1.1 200 OK\r\nConnection: close\r\nContent-Type: application/json\r\n" ∨
        (head = "HTTP/1.1 400 Bad Request\r\n" ∧ body = "Bad Request") ∨
        (head = "HTTP/1.1 405 Not Allowed\r\n" ∧ body = "Not Allowed") ∨
        (head = "HTTP/1.1 404 Not Found\r\n" ∧ body = "Not Found")) ∧
      (∀ c ∈ (showNat body.length).toList, c.isDigit = true) :=
  C30_content_length symModel symMeasure (demoDevice []) (demoDevice []) [] []
    (ascii "POST /litevna")
    "HTTP/1.1 405 Not Allowed\r\nContent-Length: 11\r\n\r\nNot Allowed"
    (onRead_reply symModel symMeasure (demoDevice []) [] (ascii "POST /litevna") _
      (by decide))

/-- The body for a failed scan is never a JSON text: it opens with the string `"{error"`,
and a colon follows. -/
theorem scanError_not_json (result : Result) :
    jsonStringShape (HTTPServer.scanError result) = false := by
  rw [scanError_eq]
  unfold jsonStringShape
  have hlist : (("\"\x7berror\": \"" : String) ++ result.description ++ "\"\x7d").toList =
      '"' :: '\x7b' :: 'e' :: 'r' :: 'r' :: 'o' :: 'r' :: '"' :: ':' :: ' ' :: '"' ::
        (result.description.toList ++ ['"', '\x7d']) := by
    simp [String.data_append]
  rw [hlist]
  simp [afterJsonString, jsonWhitespace]

/-- With the three parameters accepted and a scan that fails, `execute` returns the
body built from the description of the failure. -/
theorem execute_scan_failed (fm : FloatModel) (m : Measure fm) (vna vna1 : LiteVNA)
    (reads reads1 : List ReadStep) (params : Params) (v1 v2 v3 : List Byte)
    (result : Result) (values : ScanValues fm)
    (h1 : params.find (ascii "start") = some v1) (h2 : HTTPServer.Accepted 64 v1)
    (h3 : params.find (ascii "step") = some v2) (h4 : HTTPServer.Accepted 64 v2)
    (h5 : params.find (ascii "points") = some v3) (h6 : HTTPServer.Accepted 16 v3)
    (hscan : LiteVNA.scan fm vna reads (decimalValue v1 % 2 ^ 64) (decimalValue v2 % 2 ^ 64)
      (decimalValue v3 % 2 ^ 16) (emptyValues fm) = some (result, values, vna1, reads1))
    (herr : result.isError = true) :
    HTTPServer.execute fm m vna reads params =
      some (HTTPServer.scanError result, vna1, reads1) := by
  rw [execute_accepted fm m vna reads params v1 v2 v3 h1 h2 h3 h4 h5 h6, hscan]
  simp only [herr, if_true]

/-- With the three parameters accepted, valid frames followed by a checksum-valid frame
whose `freqIndex` is out of range make `execute` return the body built from the
`Invalid Frequency Index` failure; the device is left where the scan left it. -/
theorem execute_invalid_index (fm : FloatModel) (m : Measure fm) (vna : LiteVNA)
    (reads : List ReadStep) (params : Params) (v1 v2 v3 : List Byte)
    (good : List (List Byte)) (bad rest : List Byte)
    (h1 : params.find (ascii "start") = some v1) (h2 : HTTPServer.Accepted 64 v1)
    (h3 : params.find (ascii "step") = some v2) (h4 : HTTPServer.Accepted 64 v2)
    (h5 : params.find (ascii "points") = some v3) (h6 : HTTPServer.Accepted 16 v3)
    (hw : WritesSucceed vna) (hr : ReadsDeliver reads) (hnt : NoTimeout vna.clock)
    (hgood : ∀ f ∈ good, ValidFrame (decimalValue v3 % 2 ^ 16) f)
    (hk : good.length < decimalValue v3 % 2 ^ 16)
    (hblen : bad.length = 32) (hbck : computeChecksum bad = frameChecksumField bad)
    (hbidx : decimalValue v3 % 2 ^ 16 ≤ freqIndex bad)
    (hrx : vna.serial.rx = (good ++ [bad]).flatten ++ rest)
    (hl : 32 * (good.length + 1) ≤ reads.length) :
    ∃ vna1 reads1,
      LiteVNA.scan fm vna reads (decimalValue v1 % 2 ^ 64) (decimalValue v2 % 2 ^ 64)
          (decimalValue v3 % 2 ^ 16) (emptyValues fm) =
        some (invalidFrequencyIndex (freqIndex bad),
          good.foldl (storeValues fm) ((emptyValues fm).resize (decimalValue v3 % 2 ^ 16)),
          vna1, reads1) ∧
      HTTPServer.execute fm m vna reads params =
        some (HTTPServer.scanError (invalidFrequencyIndex (freqIndex bad)), vna1, reads1) := by
  have hbad : ∀ v, storeFrame fm (decimalValue v3 % 2 ^ 16) bad v =
      Except.error (invalidFrequencyIndex (freqIndex bad)) := by
    intro v
    unfold storeFrame
    rw [if_neg (by simpa using hbck), if_pos hbidx]
  obtain ⟨t, evs, _, _, _, hscan⟩ := scan_rejected_frame fm vna reads (decimalValue v1 % 2 ^ 64)
    (decimalValue v2 % 2 ^ 64) (decimalValue v3 % 2 ^ 16) (emptyValues fm)
    good bad rest _ hw hr hnt hgood hk hblen hbad hrx hl
  exact ⟨_, _, hscan, execute_scan_failed fm m vna _ reads _ params v1 v2 v3 _ _
    h1 h2 h3 h4 h5 h6 hscan rfl⟩

/-- The sweep of 2 points used in the examples of a failed scan: `frameB` is accepted,
then `frameC` reports `freqIndex = 2`. -/
theorem execute_invalid_index_demo :
    ∃ vna1 reads1,
      LiteVNA.scan symModel (demoDevice (([frameB] ++ [frameC]).flatten ++ frameA))
          (List.replicate 64 (ReadStep.deliver 5)) 4300000000 10000000 2 (emptyValues symModel) =
        some (invalidFrequencyIndex 2,
          [frameB].foldl (storeValues symModel) ((emptyValues symModel).resize 2),
          vna1, reads1) ∧
      HTTPServer.execute symModel symMeasure
          (demoDevice (([frameB] ++ [frameC]).flatten ++ frameA))
          (List.replicate 64 (ReadStep.deliver 5))
          [(ascii "start", ascii "4300000000"), (ascii "step", ascii "10000000"),
            (ascii "points", ascii "2")] =
        some (HTTPServer.scanError (invalidFrequencyIndex 2), vna1, reads1) :=
  execute_invalid_index symModel symMeasure
    (demoDevice (([frameB] ++ [frameC]).flatten ++ frameA))
    (List.replicate 64 (ReadStep.deliver 5))
    [(ascii "start", ascii "4300000000"), (ascii "step", ascii "10000000"),
      (ascii "points", ascii "2")]
    (ascii "4300000000") (ascii "10000000") (ascii "2") [frameB] frameC frameA
    (by decide) (by decide) (by decide) (by decide) (by decide) (by decide)
    (demoDevice_writesSucceed _) (readsDeliver_replicate 64 5 (by decide)) (demoDevice_noTimeout _)
    (by intro f hf; rw [List.mem_singleton.mp hf]; exact ⟨by decide, by decide, by decide⟩)
    (by decide) (by decide) (by decide) (by decide) rfl (by decide)

theorem route_demo_sweep :
    HTTPServer.route (ascii "GET /litevna?start=4300000000&step=10000000&points=2 HTTP/1.1\r\n\r\n") =
      HTTPServer.Routed.query [(ascii "start", ascii "4300000000"),
        (ascii "step", ascii "10000000"), (ascii "points", ascii "2")] := by
  decide

theorem okResponse_invalid_index_demo :
    HTTPServer.okResponse (HTTPServer.scanError (invalidFrequencyIndex 2)) =
      "HTTP/1.1 200 OK\r\nConnection: close\r\nContent-Type: application/json\r\nContent-Length: 40\r\n\r\n\"\x7berror\": \"Invalid Frequency Index `2`\"\x7d" := by
  decide

set_option maxRecDepth 100000 in
theorem error_fragment_absent :
    ¬ ("\x7b\"error\": \"Invalid Frequency Index `2`\"\x7d").toList <:+:
      ("HTTP/1.1 200 OK\r\nConnection: close\r\nContent-Type: application/json\r\nContent-Length: 40\r\n\r\n\"\x7berror\": \"Invalid Frequency Index `2`\"\x7d").toList := by
  decide

/-- C27 as stated fails: for a sweep of 2 points whose second frame reports
`freqIndex = 2`, the response is HTTP 200 and its body is
`"{error": "Invalid Frequency Index ` + "`2`" + `"}`: it starts with a quotation mark,
not with a brace; the fragment `{"error": "<description>"}` occurs nowhere in the
response; and the body has one opening and one closing brace, none of them extra. -/
theorem C27_scan_error_body_counterexample :
    ∃ vna1 reads1,
      HTTPServer.onRead symModel symMeasure
          (demoDevice (([frameB] ++ [frameC]).flatten ++ frameA))
          (List.replicate 64 (ReadStep.deliver 5))
          (ascii "GET /litevna?start=4300000000&step=10000000&points=2 HTTP/1.1\r\n\r\n") =
        some ("HTTP/1.1 200 OK\r\nConnection: close\r\nContent-Type: application/json\r\nContent-Length: 40\r\n\r\n\"\x7berror\": \"Invalid Frequency Index `2`\"\x7d",
          vna1, reads1) ∧
      (invalidFrequencyIndex 2).description = "Invalid Frequency Index `2`" ∧
      ¬ ("\x7b\"error\": \"Invalid Frequency Index `2`\"\x7d").toList <:+:
        ("HTTP/1.1 200 OK\r\nConnection: close\r\nContent-Type: application/json\r\nContent-Length: 40\r\n\r\n\"\x7berror\": \"Invalid Frequency Index `2`\"\x7d").toList ∧
      ("\"\x7berror\": \"Invalid Frequency Index `2`\"\x7d").toList.count '\x7b' = 1 ∧
      ("\"\x7berror\": \"Invalid Frequency Index `2`\"\x7d").toList.count '\x7d' = 1 := by
  obtain ⟨vna1, reads1, _, hexec⟩ := execute_invalid_index_demo
  refine ⟨vna1, reads1, ?_, by decide, error_fragment_absent, by decide, by decide⟩
  rw [onRead_query symModel symMeasure _ vna1 _ reads1 _ _ _ route_demo_sweep hexec,
    okResponse_invalid_index_demo]

/-- C27 amended: when the three parameters are accepted and `scan` fails, the request
handler still answers HTTP 200 (with `Content-Length` the length of the body) and the
body is the text `"{error": "<description>"}`, the scan's description string
substituted: a quotation mark, an opening brace, `error": "`, the description, a
quotation mark and a closing brace. Apart from the braces of the description it has one
opening and one closing brace, and it is not well-formed JSON: it begins with the JSON
string `"{error"`, which a colon follows. -/
theorem C27_scan_error_body (fm : FloatModel) (m : Measure fm) (vna vna1 : LiteVNA)
    (reads reads1 : List ReadStep) (received : List Byte) (params : Params)
    (v1 v2 v3 : List Byte) (result : Result) (values : ScanValues fm)
    (hroute : HTTPServer.route received = HTTPServer.Routed.query params)
    (h1 : params.find (ascii "start") = some v1) (h2 : HTTPServer.Accepted 64 v1)
    (h3 : params.find (ascii "step") = some v2) (h4 : HTTPServer.Accepted 64 v2)
    (h5 : params.find (ascii "points") = some v3) (h6 : HTTPServer.Accepted 16 v3)
    (hscan : LiteVNA.scan fm vna reads (decimalValue v1 % 2 ^ 64) (decimalValue v2 % 2 ^ 64)
      (decimalValue v3 % 2 ^ 16) (emptyValues fm) = some (result, values, vna1, reads1))
    (herr : result.isError = true) :
    HTTPServer.onRead fm m vna reads received =
      some ("HTTP/1.1 200 OK\r\nConnection: close\r\nContent-Type: application/json\r\nContent-Length: "
          ++ showNat ("\"\x7berror\": \"" ++ result.description ++ "\"\x7d").length ++ "\r\n\r\n"
          ++ ("\"\x7berror\": \"" ++ result.description ++ "\"\x7d"), vna1, reads1) ∧
      jsonStringShape ("\"\x7berror\": \"" ++ result.description ++ "\"\x7d") = false ∧
      ("\"\x7berror\": \"" ++ result.description ++ "\"\x7d").toList.count '\x7b' =
        result.description.toList.count '\x7b' + 1 ∧
      ("\"\x7berror\": \"" ++ result.description ++ "\"\x7d").toList.count '\x7d' =
        result.description.toList.count '\x7d' + 1 := by
  refine ⟨?_, ?_, ?_, ?_⟩
  · rw [onRead_query fm m vna vna1 reads reads1 received params _ hroute
      (execute_scan_failed fm m vna vna1 reads reads1 params v1 v2 v3 result values
        h1 h2 h3 h4 h5 h6 hscan herr), okResponse_eq, scanError_eq]
  · rw [← scanError_eq]
    exact scanError_not_json result
  · simp [String.data_append, List.count_append, List.count_cons]
  · simp [String.data_append, List.count_append, List.count_cons]

/-- Witness of C27: the sweep of 2 points whose second frame reports `freqIndex = 2`. -/
theorem C27_scan_error_body_witness :
    ∃ vna1 reads1,
      HTTPServer.onRead symModel symMeasure
          (demoDevice (([frameB] ++ [frameC]).flatten ++ frameA))
          (List.replicate 64 (ReadStep.deliver 5))
          (ascii "GET /litevna?start=4300000000&step=10000000&points=2 HTTP/1.1\r\n\r\n") =
        some ("HTTP/1.1 200 OK\r\nConnection: close\r\nContent-Type: application/json\r\nContent-Length: "
          ++ showNat ("\"\x7berror\": \"" ++ (invalidFrequencyIndex 2).description ++ "\"\x7d").length
          ++ "\r\n\r\n"
          ++ ("\"\x7berror\": \"" ++ (invalidFrequencyIndex 2).description ++ "\"\x7d"),
          vna1, reads1) ∧
      jsonStringShape ("\"\x7berror\": \"" ++ (invalidFrequencyIndex 2).description ++ "\"\x7d") =
        false := by
  obtain ⟨vna1, reads1, hscan, _⟩ := execute_invalid_index_demo
  have h := C27_scan_error_body symModel symMeasure _ vna1 _ reads1
    (ascii "GET /litevna?start=4300000000&step=10000000&points=2 HTTP/1.1\r\n\r\n")
    [(ascii "start", ascii "4300000000"), (ascii "step", ascii "10000000"),
      (ascii "points", ascii "2")]
    (ascii "4300000000") (ascii "10000000") (ascii "2") _ _
    route_demo_sweep (by decide) (by decide) (by decide) (by decide) (by decide) (by decide)
    hscan (by decide)
  exact ⟨vna1, reads1, h.1, h.2.1⟩

/-- After stores at the indices of a list, the entry at the index of an element that no
later element of the list repeats is the value of that element. -/
theorem foldl_set_getElem?_last {α β : Type} (idx : β → Nat) (g : β → α)
    (pre post : List β) (f : β) (l : List α)
    (hpost : idx f ∉ post.map idx) (hlt : idx f < l.length) :
    ((pre ++ f :: post).foldl (fun l f => l.set (idx f) (g f)) l)[idx f]? = some (g f) := by
  rw [List.foldl_append, List.foldl_cons, foldl_set_getElem?_of_not_mem idx g _ _ _ hpost]
  exact List.getElem?_set_self (by rw [foldl_set_length]; exact hlt)

/-- What the stores of a list of frames leave in a `ScanValues` whose three sequences
have `points` entries: the lengths stay, the last frame of each reported index is at
that index, and an index no frame reports keeps its entry. -/
theorem foldl_storeValues_spec (fm : FloatModel) (points : Nat) (frames : List (List Byte))
    (values : ScanValues fm)
    (h0 : values.channel0Out.length = points) (h1 : values.channel0In.length = points)
    (h2 : values.channel1In.length = points) :
    (frames.foldl (storeValues fm) values).channel0Out.length = points ∧
    (frames.foldl (storeValues fm) values).channel0In.length = points ∧
    (frames.foldl (storeValues fm) values).channel1In.length = points ∧
    (∀ pre f post, frames = pre ++ f :: post → freqIndex f < points →
      freqIndex f ∉ post.map freqIndex →
      (frames.foldl (storeValues fm) values).channel0Out[freqIndex f]? = some (out0 fm f) ∧
      (frames.foldl (storeValues fm) values).channel0In[freqIndex f]? = some (in0 fm f) ∧
      (frames.foldl (storeValues fm) values).channel1In[freqIndex f]? = some (in1 fm f)) ∧
    (∀ i, i ∉ frames.map freqIndex →
      (frames.foldl (storeValues fm) values).channel0Out[i]? = values.channel0Out[i]? ∧
      (frames.foldl (storeValues fm) values).channel0In[i]? = values.channel0In[i]? ∧
      (frames.foldl (storeValues fm) values).channel1In[i]? = values.channel1In[i]?) := by
  rw [foldl_storeValues_channel0Out, foldl_storeValues_channel0In, foldl_storeValues_channel1In]
  refine ⟨by rw [foldl_set_length]; exact h0, by rw [foldl_set_length]; exact h1,
    by rw [foldl_set_length]; exact h2, ?_, ?_⟩
  · intro pre f post hsplit hlt hpost
    subst hsplit
    exact ⟨foldl_set_getElem?_last freqIndex (out0 fm) pre post f _ hpost (by rw [h0]; exact hlt),
      foldl_set_getElem?_last freqIndex (in0 fm) pre post f _ hpost (by rw [h1]; exact hlt),
      foldl_set_getElem?_last freqIndex (in1 fm) pre post f _ hpost (by rw [h2]; exact hlt)⟩
  · intro i hi
    exact ⟨foldl_set_getElem?_of_not_mem freqIndex (out0 fm) i _ _ hi,
      foldl_set_getElem?_of_not_mem freqIndex (in0 fm) i _ _ hi,
      foldl_set_getElem?_of_not_mem freqIndex (in1 fm) i _ _ hi⟩

theorem scanValues_resize_lengths (fm : FloatModel) (values : ScanValues fm) (points : Nat) :
    (values.resize points).channel0Out.length = points ∧
    (values.resize points).channel0In.length = points ∧
    (values.resize points).channel1In.length = points :=
  ⟨resize_length fm _ _, resize_length fm _ _, resize_length fm _ _⟩

/-- A frame with a wrong checksum byte, or with a right one and `freqIndex` out of
range, is rejected with an error and stores nothing. -/
theorem storeFrame_rejected (fm : FloatModel) (points : Nat) (bad : List Byte)
    (hbad : computeChecksum bad ≠ frameChecksumField bad ∨ points ≤ freqIndex bad) :
    ∃ r : Result, r.isError = true ∧ r.code = "lite_vna_error" ∧
      ∀ v, storeFrame fm points bad v = Except.error r := by
  by_cases hck : computeChecksum bad ≠ frameChecksumField bad
  · refine ⟨invalidChecksum (computeChecksum bad), rfl, rfl, fun v => ?_⟩
    unfold storeFrame
    rw [if_pos hck]
  · have hidx : points ≤ freqIndex bad := hbad.resolve_left hck
    refine ⟨invalidFrequencyIndex (freqIndex bad), rfl, rfl, fun v => ?_⟩
    unfold storeFrame
    rw [if_neg hck, if_pos hidx]

theorem frameB_values_nonzero :
    out0 symModel frameB ≠ (symModel.zero, symModel.zero) ∧
    in0 symModel frameB ≠ (symModel.zero, symModel.zero) ∧
    in1 symModel frameB ≠ (symModel.zero, symModel.zero) := by
  refine ⟨fun h => ?_, fun h => ?_, fun h => ?_⟩ <;>
  · have h1 := congrArg Prod.fst h
    cases h1

theorem frameB_stored :
    ([frameB].foldl (storeValues symModel) ((emptyValues symModel).resize 2)).channel0Out[1]? =
        some (out0 symModel frameB) ∧
    ([frameB].foldl (storeValues symModel) ((emptyValues symModel).resize 2)).channel0In[1]? =
        some (in0 symModel frameB) ∧
    ([frameB].foldl (storeValues symModel) ((emptyValues symModel).resize 2)).channel1In[1]? =
        some (in1 symModel frameB) :=
  ⟨rfl, rfl, rfl⟩

/-- C26 as stated fails: in a sweep of 2 points started on an empty `ScanValues`, where
`frameB` (index 1) is accepted and the next frame reports `freqIndex = 2 = points`,
`scan` fails and the caller's `ScanValues` is no longer empty: each sequence has two
entries and the entry at index 1 holds the values of `frameB`, which are not the zero
complex value. -/
theorem C26_failed_scan_values_counterexample :
    ∃ r v s' reads',
      LiteVNA.scan symModel (demoDevice (([frameB] ++ [frameC]).flatten ++ frameA))
          (List.replicate 64 (ReadStep.deliver 5)) 4300000000 10000000 2 (emptyValues symModel) =
        some (r, v, s', reads') ∧
      r.isError = true ∧ r.description = "Invalid Frequency Index `2`" ∧
      freqIndex frameC = 2 ∧
      v.channel0Out[1]? = some (out0 symModel frameB) ∧
      v.channel0In[1]? = some (in0 symModel frameB) ∧
      v.channel1In[1]? = some (in1 symModel frameB) ∧
      out0 symModel frameB ≠ (symModel.zero, symModel.zero) ∧
      in0 symModel frameB ≠ (symModel.zero, symModel.zero) ∧
      in1 symModel frameB ≠ (symModel.zero, symModel.zero) := by
  obtain ⟨vna1, reads1, hscan, _⟩ := execute_invalid_index_demo
  exact ⟨_, _, vna1, reads1, hscan, by decide, by decide, by decide, frameB_stored.1,
    frameB_stored.2.1, frameB_stored.2.2, frameB_values_nonzero.1, frameB_values_nonzero.2.1,
    frameB_values_nonzero.2.2⟩

/-- C26 amended: when `scan` fails on a frame (wrong checksum byte, or `freqIndex` at
least `points`) after earlier frames of the same sweep were accepted, it returns the
error and leaves a partial result in the caller's `ScanValues`: the three sequences have
been resized to `points` entries, the entry at the index of an accepted frame holds the
values of the last accepted frame that reported that index, every other entry is what
the resize left there, and nothing of the failing frame is stored. -/
theorem C26_failed_scan_values (fm : FloatModel) (s : LiteVNA) (reads : List ReadStep)
    (start step points : Nat) (values : ScanValues fm) (good : List (List Byte))
    (bad rest : List Byte)
    (hw : WritesSucceed s) (hr : ReadsDeliver reads) (hnt : NoTimeout s.clock)
    (hgood : ∀ f ∈ good, ValidFrame points f) (hk : good.length < points)
    (hblen : bad.length = 32)
    (hbad : computeChecksum bad ≠ frameChecksumField bad ∨ points ≤ freqIndex bad)
    (hrx : s.serial.rx = (good ++ [bad]).flatten ++ rest)
    (hl : 32 * (good.length + 1) ≤ reads.length) :
    ∃ r v s' reads',
      LiteVNA.scan fm s reads start step points values = some (r, v, s', reads') ∧
      r.isError = true ∧ r.code = "lite_vna_error" ∧
      v = good.foldl (storeValues fm) (values.resize points) ∧
      v.channel0Out.length = points ∧ v.channel0In.length = points ∧
      v.channel1In.length = points ∧
      (∀ pre f post, good = pre ++ f :: post → freqIndex f ∉ post.map freqIndex →
        v.channel0Out[freqIndex f]? = some (out0 fm f) ∧
        v.channel0In[freqIndex f]? = some (in0 fm f) ∧
        v.channel1In[freqIndex f]? = some (in1 fm f)) ∧
      (∀ i, i ∉ good.map freqIndex →
        v.channel0Out[i]? = (values.resize points).channel0Out[i]? ∧
        v.channel0In[i]? = (values.resize points).channel0In[i]? ∧
        v.channel1In[i]? = (values.resize points).channel1In[i]?) := by
  obtain ⟨r, herr, hcode, hstore⟩ := storeFrame_rejected fm points bad hbad
  obtain ⟨t, evs, _, _, _, hscan⟩ := scan_rejected_frame fm s reads start step points values
    good bad rest r hw hr hnt hgood hk hblen hstore hrx hl
  obtain ⟨l0, l1, l2⟩ := scanValues_resize_lengths fm values points
  obtain ⟨k0, k1, k2, hlast, hkeep⟩ := foldl_storeValues_spec fm points good
    (values.resize points) l0 l1 l2
  refine ⟨r, _, _, _, hscan, herr, hcode, rfl, k0, k1, k2, ?_, hkeep⟩
  intro pre f post hsplit hpost
  exact hlast pre f post hsplit
    (hgood f (by rw [hsplit]; exact List.mem_append_right _ (List.mem_cons_self _ _))).2.2 hpost

/-- Witness of C26: the sweep of 2 points in which `frameB` is accepted and the next
frame reports `freqIndex = 2`. -/
theorem C26_failed_scan_values_witness :
    ∃ r v s' reads',
      LiteVNA.scan symModel (demoDevice (([frameB] ++ [frameC]).flatten ++ frameA))
          (List.replicate 64 (ReadStep.deliver 5)) 4300000000 10000000 2 (emptyValues symModel) =
        some (r, v, s', reads') ∧
      r.isError = true ∧
      v = [frameB].foldl (storeValues symModel) ((emptyValues symModel).resize 2) ∧
      v.channel0In.length = 2 := by
  obtain ⟨r, v, s', reads', hscan, herr, _, hv, _, hlen, _⟩ :=
    C26_failed_scan_values symModel (demoDevice (([frameB] ++ [frameC]).flatten ++ frameA))
      (List.replicate 64 (ReadStep.deliver 5)) 4300000000 10000000 2 (emptyValues symModel)
      [frameB] frameC frameA
      (demoDevice_writesSucceed _) (readsDeliver_replicate 64 5 (by decide))
      (demoDevice_noTimeout _)
      (by intro f hf; rw [List.mem_singleton.mp hf]; exact ⟨by decide, by decide, by decide⟩)
      (by decide) (by decide) (Or.inr (by decide)) rfl (by decide)
  exact ⟨r, v, s', reads', hscan, herr, hv, hlen⟩

theorem readsOnly_refl (s : LiteVNA) : ReadsOnly s s :=
  ⟨rfl, rfl, [], by simp, by simp⟩

theorem readsOnly_trans {a b c : LiteVNA} (h1 : ReadsOnly a b) (h2 : ReadsOnly b c) :
    ReadsOnly a c := by
  obtain ⟨o1, w1, e1, t1, n1⟩ := h1
  obtain ⟨o2, w2, e2, t2, n2⟩ := h2
  refine ⟨o2.trans o1, w2.trans w1, e1 ++ e2, by rw [t2, t1, List.append_assoc], ?_⟩
  intro e he
  rcases List.mem_append.mp he with h | h
  · exact n1 e h
  · exact n2 e h

theorem readsOnly_read (s : LiteVNA) (step : ReadStep) (size : Nat) :
    ReadsOnly s { s with serial := (s.serial.read step size).2.2 } := by
  unfold SerialPort.read
  split
  · exact readsOnly_refl s
  · cases step with
    | fail => exact ⟨rfl, rfl, [SerialEvent.readFailed size], rfl, by simp [SerialEvent.written]⟩
    | deliver n => exact ⟨rfl, rfl, [SerialEvent.read size _], rfl, by simp [SerialEvent.written]⟩

theorem readsOnly_nowMilliseconds (s : LiteVNA) : ReadsOnly s s.nowMilliseconds.2 :=
  ⟨rfl, rfl, [], by simp [LiteVNA.nowMilliseconds], by simp⟩

/-- The inner loop of `scan` only reads. -/
theorem readFrame_readsOnly (start : Nat) :
    ∀ (reads : List ReadStep) (s : LiteVNA) (buffer : List Byte)
      (flow : Flow (List Byte)) (s1 : LiteVNA) (reads1 : List ReadStep),
      LiteVNA.readFrame start reads s buffer = some (flow, s1, reads1) → ReadsOnly s s1 := by
  intro reads
  induction reads with
  | nil =>
    intro s buffer flow s1 reads1 h
    rw [LiteVNA.readFrame] at h
    split at h
    · injection h with h
      injection h with _ h
      injection h with h _
      rw [← h]
      exact readsOnly_refl s
    · cases h
  | cons step rest ih =>
    intro s buffer flow s1 reads1 h
    rw [LiteVNA.readFrame] at h
    split at h
    · injection h with h
      injection h with _ h
      injection h with h _
      rw [← h]
      exact readsOnly_refl s
    · have hread := readsOnly_read s step (fifoDataSize - buffer.length)
      simp only at h
      split at h
      · injection h with h
        injection h with _ h
        injection h with h _
        rw [← h]
        exact hread
      · have hnow := readsOnly_nowMilliseconds
          { s with serial := (s.serial.read step (fifoDataSize - buffer.length)).2.2 }
        split at h
        · injection h with h
          injection h with _ h
          injection h with h _
          rw [← h]
          exact readsOnly_trans hread hnow
        · exact readsOnly_trans (readsOnly_trans hread hnow) (ih _ _ _ _ _ h)

/-- The outer loop of `scan` only reads. -/
theorem readFrames_readsOnly (fm : FloatModel) (points : Nat) :
    ∀ (remaining : Nat) (reads : List ReadStep) (s : LiteVNA) (values : ScanValues fm)
      (flow : Flow Unit) (values1 : ScanValues fm) (s1 : LiteVNA) (reads1 : List ReadStep),
      LiteVNA.readFrames fm points remaining reads s values = some (flow, values1, s1, reads1) →
      ReadsOnly s s1 := by
  intro remaining
  induction remaining with
  | zero =>
    intro reads s values flow values1 s1 reads1 h
    rw [LiteVNA.readFrames] at h
    injection h with h
    injection h with _ h
    injection h with _ h
    injection h with h _
    rw [← h]
    exact readsOnly_refl s
  | succ n ih =>
    intro reads s values flow values1 s1 reads1 h
    rw [LiteVNA.readFrames] at h
    have hnow := readsOnly_nowMilliseconds s
    simp only at h
    rcases hrf : LiteVNA.readFrame s.nowMilliseconds.1 reads s.nowMilliseconds.2 [] with
      _ | ⟨fl, s2, reads2⟩
    · rw [hrf] at h
      cases h
    · rw [hrf] at h
      have hframe := readFrame_readsOnly _ _ _ _ _ _ _ hrf
      cases fl with
      | returned r =>
        simp only at h
        injection h with h
        injection h with _ h
        injection h with _ h
        injection h with h _
        rw [← h]
        exact readsOnly_trans hnow hframe
      | done buffer =>
        simp only at h
        split at h
        · injection h with h
          injection h with _ h
          injection h with _ h
          injection h with h _
          rw [← h]
          exact readsOnly_trans hnow hframe
        · exact readsOnly_trans (readsOnly_trans hnow hframe) (ih _ _ _ _ _ _ _ h)

/-- With writes that succeed, a `scan` that returns an error has returned from the frame
loop: since the seven setup writes the port has only been read. -/
theorem scan_error_readsOnly (fm : FloatModel) (s s1 : LiteVNA) (reads reads1 : List ReadStep)
    (start step points : Nat) (values values1 : ScanValues fm) (r : Result)
    (hw : WritesSucceed s)
    (hscan : LiteVNA.scan fm s reads start step points values = some (r, values1, s1, reads1))
    (herr : r.isError = true) :
    ReadsOnly (s.afterWrites (scanSetupMessages start step points)) s1 := by
  rw [scan_setup fm s reads start step points values hw] at hscan
  rcases hrf : LiteVNA.readFrames fm points points reads
      (s.afterWrites (scanSetupMessages start step points)) (values.resize points) with
    _ | ⟨fl, values8, s8, reads8⟩
  · rw [hrf] at hscan
    cases hscan
  · rw [hrf] at hscan
    have hro := readFrames_readsOnly fm points _ _ _ _ _ _ _ _ hrf
    cases fl with
    | returned r8 =>
      simp only at hscan
      injection hscan with hscan
      injection hscan with _ hscan
      injection hscan with _ hscan
      injection hscan with hscan _
      rw [← hscan]
      exact hro
    | done u =>
      exfalso
      have hw8 : WritesSucceed s8 := by
        obtain ⟨ho, hos, _⟩ := hro
        exact ⟨by rw [ho]; exact hw.1, by rw [hos]; exact hw.2⟩
      simp only [LiteVNA.clearFifo, LiteVNA.leaveDataMode] at hscan
      rw [write_ok s8 _ hw8] at hscan
      simp only [isError_ok, Bool.false_eq_true, if_false] at hscan
      rw [write_ok _ _ (writesSucceed_afterWrites _ _ hw8)] at hscan
      simp only [isError_ok, Bool.false_eq_true, if_false] at hscan
      injection hscan with hscan
      injection hscan with hscan _
      rw [← hscan] at herr
      exact absurd herr (by decide)

theorem filterMap_written_of_none (evs : List SerialEvent)
    (h : ∀ e ∈ evs, SerialEvent.written e = none) :
    evs.filterMap SerialEvent.written = [] := by
  induction evs with
  | nil => rfl
  | cons e es ih =>
    rw [List.filterMap_cons, h e (List.mem_cons_self _ _)]
    exact ih (fun x hx => h x (List.mem_cons_of_mem _ hx))

/-- C28: when the writes of `scan` succeed and `scan` fails (so it fails while reading
frames: read error, timeout, checksum or frequency-index failure), the OS calls it has
made on the serial channel are the seven setup writes followed by calls that are no
writes. So the buffers written are the setup messages only, the last of them the
read-FIFO command; neither the clear-FIFO bytes nor the leave-data-mode command is
written after the frames, the leave-data-mode command is not written at all, and the
channel is still open. -/
theorem C28_failed_scan_writes_nothing (fm : FloatModel) (s s1 : LiteVNA)
    (reads reads1 : List ReadStep) (start step points : Nat) (values values1 : ScanValues fm)
    (r : Result) (hw : WritesSucceed s)
    (hscan : LiteVNA.scan fm s reads start step points values = some (r, values1, s1, reads1))
    (herr : r.isError = true) :
    (∃ evs, s1.serial.trace =
        s.serial.trace ++ (scanSetupMessages start step points).map SerialEvent.wrote ++ evs ∧
      ∀ e ∈ evs, SerialEvent.written e = none) ∧
    s1.serial.tx = s.serial.tx ++ scanSetupMessages start step points ∧
    (scanSetupMessages start step points).getLast? = some [0x18, 0x30, 0x00] ∧
    [0x20, 0x26, 0x02] ∉ scanSetupMessages start step points ∧
    s1.serial.opened = true := by
  obtain ⟨ho, _, evs, htrace, hnone⟩ :=
    scan_error_readsOnly fm s s1 reads reads1 start step points values values1 r hw hscan herr
  have htrace1 : s1.serial.trace =
      s.serial.trace ++ (scanSetupMessages start step points).map SerialEvent.wrote ++ evs := htrace
  refine ⟨⟨evs, htrace1, hnone⟩, ?_, rfl, ?_, ?_⟩
  · unfold SerialPort.tx
    rw [htrace1, List.filterMap_append, List.filterMap_append, filterMap_written_map_wrote,
      filterMap_written_of_none evs hnone, List.append_nil]
  · simp [scanSetupMessages]
  · rw [ho]
    exact hw.1

/-- Witness of C28: the sweep of 2 points whose second frame reports `freqIndex = 2`. -/
theorem C28_failed_scan_writes_nothing_witness :
    ∃ r v s1 reads1,
      LiteVNA.scan symModel (demoDevice (([frameB] ++ [frameC]).flatten ++ frameA))
          (List.replicate 64 (ReadStep.deliver 5)) 4300000000 10000000 2 (emptyValues symModel) =
        some (r, v, s1, reads1) ∧
      r.isError = true ∧
      s1.serial.tx = (demoDevice (([frameB] ++ [frameC]).flatten ++ frameA)).serial.tx ++
        scanSetupMessages 4300000000 10000000 2 ∧
      s1.serial.opened = true := by
  obtain ⟨vna1, reads1, hscan, _⟩ := execute_invalid_index_demo
  have h := C28_failed_scan_writes_nothing symModel
    (demoDevice (([frameB] ++ [frameC]).flatten ++ frameA)) vna1
    (List.replicate 64 (ReadStep.deliver 5)) reads1 4300000000 10000000 2
    (emptyValues symModel) _ (invalidFrequencyIndex 2) (demoDevice_writesSucceed _) hscan
    (by decide)
  exact ⟨_, _, vna1, reads1, hscan, by decide, h.2.1, h.2.2.2.2⟩

theorem resize_empty_getElem? (fm : FloatModel) (points i : Nat) (h : i < points) :
    (resize fm [] points)[i]? = some (fm.zero, fm.zero) := by
  simp [resize, List.getElem?_replicate, h]

/-- C29: `scan` does not require the reported frequency indices to be distinct. For
every sequence of `points` frames that are checksum-valid and have `freqIndex < points`,
received on a port whose writes succeed and whose reads deliver before the deadline,
`scan` started on an empty `ScanValues` succeeds; each of the three sequences then has
`points` entries; the entry at an index reported by one or several frames holds the
values of the last frame that reported it; and the entry at an index below `points`
that no frame reported is the zero complex value `(0, 0)` in all three sequences. -/
theorem C29_duplicate_indices (fm : FloatModel) (s : LiteVNA) (reads : List ReadStep)
    (start step points : Nat) (frames : List (List Byte)) (rest : List Byte)
    (hw : WritesSucceed s) (hr : ReadsDeliver reads) (hnt : NoTimeout s.clock)
    (hn : frames.length = points) (hv : ∀ f ∈ frames, ValidFrame points f)
    (hrx : s.serial.rx = frames.flatten ++ rest) (hl : 32 * points ≤ reads.length) :
    ∃ v s1 reads1,
      LiteVNA.scan fm s reads start step points (emptyValues fm) =
        some (Result.ok, v, s1, reads1) ∧
      v.channel0Out.length = points ∧ v.channel0In.length = points ∧
      v.channel1In.length = points ∧
      (∀ pre f post, frames = pre ++ f :: post → freqIndex f ∉ post.map freqIndex →
        v.channel0Out[freqIndex f]? = some (out0 fm f) ∧
        v.channel0In[freqIndex f]? = some (in0 fm f) ∧
        v.channel1In[freqIndex f]? = some (in1 fm f)) ∧
      (∀ i, i < points → i ∉ frames.map freqIndex →
        v.channel0Out[i]? = some (fm.zero, fm.zero) ∧
        v.channel0In[i]? = some (fm.zero, fm.zero) ∧
        v.channel1In[i]? = some (fm.zero, fm.zero)) := by
  obtain ⟨t, evs, _, _, _, hscan⟩ := scan_valid_frames fm s reads start step points
    (emptyValues fm) frames rest hw hr hnt hn hv hrx hl
  obtain ⟨l0, l1, l2⟩ := scanValues_resize_lengths fm (emptyValues fm) points
  obtain ⟨k0, k1, k2, hlast, hkeep⟩ := foldl_storeValues_spec fm points frames
    ((emptyValues fm).resize points) l0 l1 l2
  refine ⟨_, _, _, hscan, k0, k1, k2, ?_, ?_⟩
  · intro pre f post hsplit hpost
    exact hlast pre f post hsplit
      (hv f (by rw [hsplit]; exact List.mem_append_right _ (List.mem_cons_self _ _))).2.2 hpost
  · intro i hi hnot
    obtain ⟨e0, e1, e2⟩ := hkeep i hnot
    rw [e0, e1, e2]
    exact ⟨resize_empty_getElem? fm points i hi, resize_empty_getElem? fm points i hi,
      resize_empty_getElem? fm points i hi⟩

/-- Witness of C29: a sweep of 2 points in which both frames report index 1: the scan
succeeds, index 1 holds the values of the second frame and index 0 is `(0, 0)`. -/
theorem C29_duplicate_indices_witness :
    freqIndex frameB = 1 ∧ freqIndex frameD = 1 ∧
    ∃ v s1 reads1,
      LiteVNA.scan symModel (demoDevice ([frameB, frameD].flatten ++ []))
          (List.replicate 64 (ReadStep.deliver 7)) 4300000000 10000000 2 (emptyValues symModel) =
        some (Result.ok, v, s1, reads1) ∧
      v.channel0Out[1]? = some (out0 symModel frameD) ∧
      v.channel0In[1]? = some (in0 symModel frameD) ∧
      v.channel1In[1]? = some (in1 symModel frameD) ∧
      v.channel0Out[0]? = some (symModel.zero, symModel.zero) ∧
      v.channel0In[0]? = some (symModel.zero, symModel.zero) ∧
      v.channel1In[0]? = some (symModel.zero, symModel.zero) := by
  obtain ⟨v, s1, reads1, hscan, _, _, _, hlast, hzero⟩ :=
    C29_duplicate_indices symModel (demoDevice ([frameB, frameD].flatten ++ []))
      (List.replicate 64 (ReadStep.deliver 7)) 4300000000 10000000 2 [frameB, frameD] []
      (demoDevice_writesSucceed _) (readsDeliver_replicate 64 7 (by decide))
      (demoDevice_noTimeout _) (by decide)
      (by
        intro f hf
        rcases List.mem_cons.mp hf with h | h
        · rw [h]; exact ⟨by decide, by decide, by decide⟩
        · rw [List.mem_singleton.mp h]; exact ⟨by decide, by decide, by decide⟩)
      rfl (by decide)
  have h1 := hlast [frameB] frameD [] rfl (by simp)
  have hidx : freqIndex frameD = 1 := by decide
  rw [hidx] at h1
  have h0 := hzero 0 (by decide) (by decide)
  exact ⟨by decide, hidx, v, s1, reads1, hscan, h1.1, h1.2.1, h1.2.2, h0.1, h0.2.1, h0.2.2⟩

theorem interest_append (a b : List ReactorEvent) (id : Nat) :
    interest (a ++ b) id = b.foldl (interestStep id) (interest a id) := by
  unfold interest
  rw [List.foldl_append]

theorem foldl_interestStep_quiet (id : Nat) (b : List ReactorEvent)
    (h : ∀ e ∈ b, ∀ cur, interestStep id cur e = cur) :
    ∀ cur, b.foldl (interestStep id) cur = cur := by
  induction b with
  | nil => intro cur; rfl
  | cons e es ih =>
    intro cur
    rw [List.foldl_cons, h e (List.mem_cons_self _ _)]
    exact ih (fun x hx => h x (List.mem_cons_of_mem _ hx)) cur

theorem interest_append_quiet (a b : List ReactorEvent) (id : Nat)
    (h : ∀ e ∈ b, ∀ cur, interestStep id cur e = cur) :
    interest (a ++ b) id = interest a id := by
  rw [interest_append, foldl_interestStep_quiet id b h]

theorem quiet_finishCallbacks (result : Result) (socket id : Nat) (q : List WriteBufferInfo) :
    ∀ e ∈ finishCallbacks result socket q, ∀ cur, interestStep id cur e = cur := by
  intro e he cur
  unfold finishCallbacks at he
  obtain ⟨b, _, hb⟩ := List.mem_filterMap.mp he
  cases hcb : b.writeFinishCallback with
  | none => rw [hcb] at hb; cases hb
  | some cb =>
    rw [hcb] at hb
    injection hb with hb
    rw [← hb]
    rfl

theorem quiet_ok (socket id : Nat) (b : WriteBufferInfo) :
    ∀ e ∈ (match b.writeFinishCallback with
      | some cb => [ReactorEvent.writeFinished cb Result.ok socket b.customData]
      | none => []), ∀ cur, interestStep id cur e = cur := by
  intro e he cur
  cases hcb : b.writeFinishCallback with
  | none => rw [hcb] at he; cases he
  | some cb =>
    rw [hcb] at he
    rw [List.mem_singleton.mp he]
    rfl

theorem quiet_sent (socket id : Nat) (data : List Byte) (count : Option Nat) :
    ∀ e ∈ [ReactorEvent.sent socket data count], ∀ cur, interestStep id cur e = cur := by
  intro e he cur
  rw [List.mem_singleton.mp he]
  rfl

theorem setEvent_interest (s : SocketTCP) (socket : Nat) (op : EpollOp) (r w : Bool)
    (id : Nat) :
    interest (s.setEvent socket op r w).2.events id =
      interestStep id (interest s.events id)
        (ReactorEvent.epollCtl socket op r w (s.osCtl s.events.length)) := by
  rw [setEvent_events, interest_append]
  rfl

theorem close_interest (s : SocketTCP) (socketId id : Nat) :
    interest (s.close socketId).events id =
      if id = socketId then none else interest s.events id := by
  have key : ∀ (pre : List ReactorEvent) (ok : Bool),
      (∀ e ∈ pre, ∀ cur, interestStep id cur e = cur) →
      interest (s.events ++ pre ++
        [ReactorEvent.epollCtl socketId EpollOp.delete false false ok,
          ReactorEvent.osClose socketId]) id =
        if id = socketId then none else interest s.events id := by
    intro pre ok hq
    rw [interest_append, interest_append_quiet _ _ _ hq]
    by_cases hid : id = socketId
    · subst hid
      simp [interestStep]
    · have hne : ¬ socketId = id := fun e => hid e.symm
      simp [interestStep, hid, hne]
  cases hfind : s.find socketId with
  | none =>
    rw [close_absent s socketId hfind]
    have := key [] (s.osCtl s.events.length) (by simp)
    simpa using this
  | some peer =>
    obtain ⟨ok, hev⟩ := close_open s socketId peer hfind
    rw [hev, List.append_assoc s.events]
    apply key
    intro e he cur
    rcases List.mem_append.mp he with h | h
    · exact quiet_finishCallbacks _ _ _ _ e h cur
    · split at h
      · rw [List.mem_singleton.mp h]; rfl
      · cases h

theorem osCtl_emit (s : SocketTCP) (evs : List ReactorEvent) : (s.emit evs).osCtl = s.osCtl :=
  rfl

theorem osCtl_setEvent (s : SocketTCP) (socket : Nat) (op : EpollOp) (r w : Bool) :
    (s.setEvent socket op r w).2.osCtl = s.osCtl := by
  unfold SocketTCP.setEvent
  simp only
  split <;> rfl

theorem osCtl_close (s : SocketTCP) (socketId : Nat) : (s.close socketId).osCtl = s.osCtl := by
  unfold SocketTCP.close
  simp only [osCtl_emit, osCtl_setEvent]
  split
  · split <;> rfl
  · rfl

theorem sameRegistration_refl (id socket : Nat) (s : SocketTCP) :
    SameRegistration id socket s s := ⟨rfl, fun _ => rfl, rfl⟩

theorem sameRegistration_trans {id socket : Nat} {a b c : SocketTCP}
    (h1 : SameRegistration id socket a b) (h2 : SameRegistration id socket b c) :
    SameRegistration id socket a c :=
  ⟨h2.1.trans h1.1, fun h => (h2.2.1 h).trans (h1.2.1 h), h2.2.2.trans h1.2.2⟩

theorem sameRegistration_emit (id socket : Nat) (s : SocketTCP) (evs : List ReactorEvent)
    (h : ∀ e ∈ evs, ∀ cur, interestStep id cur e = cur) :
    SameRegistration id socket s (s.emit evs) :=
  ⟨rfl, fun _ => rfl, interest_append_quiet s.events evs id h⟩

theorem sameRegistration_ok (id socket : Nat) (s : SocketTCP) (b : WriteBufferInfo) :
    SameRegistration id socket s
      (match b.writeFinishCallback with
        | some cb => s.emit [ReactorEvent.writeFinished cb Result.ok socket b.customData]
        | none => s) := by
  cases b.writeFinishCallback with
  | none => exact sameRegistration_refl id socket s
  | some cb =>
    apply sameRegistration_emit
    intro e he cur
    rw [List.mem_singleton.mp he]
    rfl

theorem sameRegistration_modifyPeer (id socket : Nat) (s : SocketTCP)
    (q : List WriteBufferInfo) :
    SameRegistration id socket s
      (s.modifyPeer socket (fun p => { p with writeBuffers := q })) := by
  refine ⟨rfl, fun h => ?_, rfl⟩
  rw [SocketTCP.find_modifyPeer s socket id (fun p => { p with writeBuffers := q })
    (fun _ => rfl), if_neg h]

/-- The loop of the `EPOLLOUT` branch touches no registration as long as it does not
close the connection; when it returns from inside the loop, it has closed `socket`. -/
theorem flushWrites_registration (socket id : Nat) :
    ∀ (n : Nat) (s : SocketTCP),
      match SocketTCP.flushWrites socket n s with
      | (Flow.done _, s1) => SameRegistration id socket s s1
      | (Flow.returned _, s1) =>
        ∃ mid, SameRegistration id socket s mid ∧ s1 = mid.close socket := by
  intro n
  induction n with
  | zero => intro s; exact sameRegistration_refl id socket s
  | succ n ih =>
    intro s
    have step : ∀ s2 : SocketTCP, SameRegistration id socket s s2 →
        match SocketTCP.flushWrites socket n s2 with
        | (Flow.done _, s1) => SameRegistration id socket s s1
        | (Flow.returned _, s1) =>
          ∃ mid, SameRegistration id socket s mid ∧ s1 = mid.close socket := by
      intro s2 h2
      have h := ih s2
      rcases hout : SocketTCP.flushWrites socket n s2 with ⟨fl, s1⟩
      rw [hout] at h
      cases fl with
      | done u => exact sameRegistration_trans h2 h
      | returned r =>
        obtain ⟨mid, hmid, hclose⟩ := h
        exact ⟨mid, sameRegistration_trans h2 hmid, hclose⟩
    rw [SocketTCP.flushWrites]
    cases hfind : s.find socket with
    | none => exact sameRegistration_refl id socket s
    | some peer =>
      simp only
      cases hq : peer.writeBuffers with
      | nil => exact sameRegistration_refl id socket s
      | cons wb rest =>
        simp only
        by_cases hsize : wb.getRemainingBufferSize > 0
        · rw [if_pos hsize]
          cases hsend : s.osSend s.events.length
              (SocketTCP.sendLength wb.getRemainingBufferSize) with
          | none =>
            exact ⟨_, sameRegistration_emit id socket s _ (quiet_sent _ _ _ _), rfl⟩
          | some count =>
            simp only
            have hsent := sameRegistration_emit id socket s
              [ReactorEvent.sent socket wb.getRemainingBuffer (some count)]
              (quiet_sent _ _ _ _)
            by_cases hdone : (wb.writeDone count).getRemainingBufferSize = 0
            · rw [if_pos hdone]
              exact step _ (sameRegistration_trans
                (sameRegistration_trans hsent (sameRegistration_ok id socket _ _))
                (sameRegistration_modifyPeer id socket _ _))
            · rw [if_neg hdone]
              exact step _ (sameRegistration_trans hsent
                (sameRegistration_modifyPeer id socket _ _))
        · rw [if_neg hsize]
          exact step _ (sameRegistration_trans (sameRegistration_ok id socket _ _)
            (sameRegistration_modifyPeer id socket _ _))

theorem interestStep_modify (id socket : Nat) (cur : Option (Bool × Bool)) (r w : Bool) :
    interestStep id cur (ReactorEvent.epollCtl socket EpollOp.modify r w true) =
      if socket = id then some (r, w) else cur := by
  by_cases h : socket = id <;> simp [interestStep, h]

/-- What the `EPOLLOUT` branch does to the registrations when `epoll_ctl` succeeds: those
of the other descriptors are untouched; when the connection `fd` is still in the table
afterwards it was there before, an empty queue has stayed empty, and `fd` is registered
for reading only when its queue is now empty and as before otherwise. -/
theorem handleWritable_registration (s : SocketTCP) (fd id : Nat)
    (hctl : ∀ k, s.osCtl k = true) :
    (∀ k, (s.handleWritable fd).2.osCtl k = true) ∧
    (id ≠ fd → (s.handleWritable fd).2.find id = s.find id ∧
      interest (s.handleWritable fd).2.events id = interest s.events id) ∧
    (∀ peer1, (s.handleWritable fd).2.find fd = some peer1 →
      (∃ peer, s.find fd = some peer ∧ (peer.writeBuffers = [] → peer1.writeBuffers = [])) ∧
      interest (s.handleWritable fd).2.events fd =
        if peer1.writeBuffers.isEmpty then some (true, false) else interest s.events fd) := by
  unfold SocketTCP.handleWritable
  cases hfind : s.find fd with
  | none =>
    simp only
    refine ⟨fun k => by rw [osCtl_close]; exact hctl k, fun hid => ?_, fun peer1 h1 => ?_⟩
    · rw [SocketTCP.close_find, close_interest, if_neg hid, if_neg hid]
      exact ⟨rfl, rfl⟩
    · rw [SocketTCP.close_find, if_pos rfl] at h1
      cases h1
  | some peer =>
    simp only
    have hsock : peer.socket = fd := SocketTCP.find_socket s fd peer hfind
    rw [hsock]
    have hloop := flushWrites_registration fd id peer.writeBuffers.length s
    have hloopfd := flushWrites_registration fd fd peer.writeBuffers.length s
    have hempty : peer.writeBuffers = [] →
        SocketTCP.flushWrites fd peer.writeBuffers.length s = (Flow.done (), s) := by
      intro h
      rw [h]
      rfl
    rcases hout : SocketTCP.flushWrites fd peer.writeBuffers.length s with ⟨fl, s1⟩
    rw [hout] at hloop hloopfd
    cases fl with
    | returned r =>
      simp only
      obtain ⟨mid, hmid, hclose⟩ := hloop
      subst hclose
      refine ⟨fun k => by rw [osCtl_close, hmid.1]; exact hctl k, fun hid => ?_,
        fun peer1 h1 => ?_⟩
      · rw [SocketTCP.close_find, close_interest, if_neg hid, if_neg hid]
        exact ⟨hmid.2.1 hid, hmid.2.2⟩
      · rw [SocketTCP.close_find, if_pos rfl] at h1
        cases h1
    | done u =>
      simp only
      have hsame : SameRegistration id fd s s1 := hloop
      have hsamefd : SameRegistration fd fd s s1 := hloopfd
      have hstay : peer.writeBuffers = [] → s1 = s := by
        intro h
        have := hempty h
        rw [hout] at this
        injection this with _ this
      cases hfind1 : s1.find fd with
      | none =>
        simp only
        refine ⟨fun k => by rw [hsame.1]; exact hctl k, fun hid => ⟨hsame.2.1 hid, hsame.2.2⟩,
          fun peer1 h1 => ?_⟩
        rw [hfind1] at h1
        cases h1
      | some peer1 =>
        simp only
        have hsock1 : peer1.socket = fd := SocketTCP.find_socket s1 fd peer1 hfind1
        by_cases hlen : peer1.writeBuffers.length = 0
        · rw [if_pos hlen]
          have hstate : ∀ (r : Result × SocketTCP),
              (match r with
                | (result, s2) =>
                  if result.isError then ((Flow.returned result : Flow Unit), s2)
                  else (Flow.done (), s2)).2 = r.2 := by
            rintro ⟨r, s2⟩
            simp only
            split <;> rfl
          rw [hstate, hsock1]
          have hint : ∀ j, interest (s1.setEvent fd EpollOp.modify true false).2.events j =
              if fd = j then some (true, false) else interest s1.events j := by
            intro j
            rw [setEvent_interest, hsame.1, hctl, interestStep_modify]
          refine ⟨fun k => by rw [osCtl_setEvent, hsame.1]; exact hctl k, fun hid => ?_,
            fun peer2 h2 => ?_⟩
          · rw [SocketTCP.setEvent_find, hint, if_neg (fun e => hid e.symm)]
            exact ⟨hsame.2.1 hid, hsame.2.2⟩
          · rw [SocketTCP.setEvent_find, hfind1] at h2
            injection h2 with h2
            subst h2
            have hnil : peer1.writeBuffers = [] := List.length_eq_zero.mp hlen
            refine ⟨⟨peer, rfl, fun _ => hnil⟩, ?_⟩
            rw [hint, if_pos rfl, hnil]
            rfl
        · rw [if_neg hlen]
          refine ⟨fun k => by rw [hsame.1]; exact hctl k,
            fun hid => ⟨hsame.2.1 hid, hsame.2.2⟩, fun peer2 h2 => ?_⟩
          rw [hfind1] at h2
          injection h2 with h2
          subst h2
          have hne : peer1.writeBuffers ≠ [] := fun h => hlen (by rw [h]; rfl)
          refine ⟨⟨peer, rfl, fun h => ?_⟩, ?_⟩
          · have hs := hstay h
            subst hs
            rw [hfind] at hfind1
            injection hfind1 with hfind1
            rw [← hfind1]
            exact h
          · have hfalse : peer1.writeBuffers.isEmpty = false := by
              cases hwb : peer1.writeBuffers with
              | nil => exact absurd hwb hne
              | cons b rest => rfl
            rw [hfalse, hsamefd.2.2]
            rfl

/-- What `write` does on a connection that is in the table: the buffer is pushed on its
queue, one `epoll_ctl` call asks for read and write interest, and the call succeeds
exactly when `epoll_ctl` does. -/
theorem write_known (s : SocketTCP) (socketId : Nat) (buffer : List Byte) (customData : Nat)
    (callback : Option Nat) (peer : PeerSocketInfo) (hfind : s.find socketId = some peer) :
    (s.write socketId buffer customData callback).2.osCtl = s.osCtl ∧
    ((s.write socketId buffer customData callback).1.isError = !(s.osCtl s.events.length)) ∧
    (∀ id, (s.write socketId buffer customData callback).2.find id =
      if id = socketId then
        some { peer with writeBuffers := peer.writeBuffers ++ [⟨buffer, 0, callback, customData⟩] }
      else s.find id) ∧
    (∀ id, interest (s.write socketId buffer customData callback).2.events id =
      interestStep id (interest s.events id)
        (ReactorEvent.epollCtl socketId EpollOp.modify true true (s.osCtl s.events.length))) := by
  unfold SocketTCP.write
  rw [hfind]
  simp only
  have hstate : ∀ (r : Result × SocketTCP),
      (match r with
        | (result, s2) => if result.isError then (result, s2) else (Result.ok, s2)).2 = r.2 := by
    rintro ⟨r, s2⟩
    simp only
    split <;> rfl
  have hresult : ∀ (r : Result × SocketTCP),
      (match r with
        | (result, s2) => if result.isError then (result, s2) else (Result.ok, s2)).1.isError =
        r.1.isError := by
    rintro ⟨r, s2⟩
    simp only
    by_cases h : r.isError = true
    · rw [if_pos h]
    · rw [if_neg h]
      simp only [Bool.not_eq_true] at h
      rw [h]
      rfl
  rw [hstate, hresult]
  refine ⟨osCtl_setEvent _ _ _ _ _, ?_, fun id => ?_, fun id => ?_⟩
  · unfold SocketTCP.setEvent
    simp only
    by_cases hok : s.osCtl s.events.length = true
    · have hok1 : (s.modifyPeer socketId (fun p => { p with writeBuffers :=
          p.writeBuffers ++ [⟨buffer, 0, callback, customData⟩] })).osCtl
          (s.modifyPeer socketId (fun p => { p with writeBuffers :=
          p.writeBuffers ++ [⟨buffer, 0, callback, customData⟩] })).events.length = true := hok
      rw [if_pos hok1, hok]
      rfl
    · have hok1 : ¬ (s.modifyPeer socketId (fun p => { p with writeBuffers :=
          p.writeBuffers ++ [⟨buffer, 0, callback, customData⟩] })).osCtl
          (s.modifyPeer socketId (fun p => { p with writeBuffers :=
          p.writeBuffers ++ [⟨buffer, 0, callback, customData⟩] })).events.length = true := hok
      rw [if_neg hok1]
      simp only [Bool.not_eq_true] at hok
      rw [hok]
      rfl
  · rw [SocketTCP.setEvent_find, SocketTCP.find_modifyPeer s socketId id
      (fun p => { p with writeBuffers := p.writeBuffers ++ [⟨buffer, 0, callback, customData⟩] })
      (fun _ => rfl)]
    by_cases hid : id = socketId
    · rw [if_pos hid, if_pos hid, hid, hfind]
      rfl
    · rw [if_neg hid, if_neg hid]
  · rw [setEvent_interest]
    rfl

/-- A `write` on an identity that is not in the table touches no table entry and no
registration. -/
theorem write_unknown (s : SocketTCP) (socketId : Nat) (buffer : List Byte) (customData : Nat)
    (callback : Option Nat) (hfind : s.find socketId = none) (id : Nat) :
    (s.write socketId buffer customData callback).2.osCtl = s.osCtl ∧
    (s.write socketId buffer customData callback).2.find id = s.find id ∧
    interest (s.write socketId buffer customData callback).2.events id =
      interest s.events id := by
  unfold SocketTCP.write
  rw [hfind]
  simp only
  cases callback with
  | none => exact ⟨rfl, rfl, rfl⟩
  | some cb =>
    refine ⟨rfl, rfl, ?_⟩
    apply interest_append_quiet
    intro e he cur
    rw [List.mem_singleton.mp he]
    rfl

/-- One call on the reactor keeps the registration of every connection in line with its
queue, when `epoll_ctl` succeeds. -/
theorem step_registered (s : SocketTCP) (socket : Nat) (op : ReactorOp)
    (hctl : ∀ k, s.osCtl k = true) (hinv : Registered s socket) :
    (∀ k, (s.step op).osCtl k = true) ∧ Registered (s.step op) socket := by
  cases op with
  | write socketId buffer customData callback =>
    show (∀ k, (s.write socketId buffer customData callback).2.osCtl k = true) ∧
      Registered (s.write socketId buffer customData callback).2 socket
    cases hfind : s.find socketId with
    | none =>
      obtain ⟨h1, h2, h3⟩ := write_unknown s socketId buffer customData callback hfind socket
      refine ⟨fun k => by rw [h1]; exact hctl k, fun peer1 hp => ?_⟩
      rw [h3]
      rw [h2] at hp
      exact hinv peer1 hp
    | some peer =>
      obtain ⟨h1, _, h2, h3⟩ := write_known s socketId buffer customData callback peer hfind
      refine ⟨fun k => by rw [h1]; exact hctl k, fun peer1 hp => ?_⟩
      rw [h3, hctl, interestStep_modify]
      rw [h2] at hp
      by_cases hid : socket = socketId
      · rw [if_pos hid] at hp
        injection hp with hp
        rw [if_pos hid.symm, ← hp]
        simp
      · rw [if_neg hid] at hp
        rw [if_neg (fun e => hid e.symm)]
        exact hinv peer1 hp
  | writable fd =>
    show (∀ k, (s.handleWritable fd).2.osCtl k = true) ∧
      Registered (s.handleWritable fd).2 socket
    obtain ⟨h1, h2, h3⟩ := handleWritable_registration s fd socket hctl
    refine ⟨h1, fun peer1 hp => ?_⟩
    by_cases hid : socket = fd
    · subst hid
      obtain ⟨⟨peer, hfind, hstay⟩, hint⟩ := h3 peer1 hp
      rw [hint]
      cases hq : peer1.writeBuffers with
      | nil => rfl
      | cons b rest =>
        have hne : peer.writeBuffers ≠ [] := fun h => by
          have := hstay h
          rw [hq] at this
          cases this
        rw [hinv peer hfind]
        cases hq0 : peer.writeBuffers with
        | nil => exact absurd hq0 hne
        | cons b0 rest0 => rfl
    · obtain ⟨hf, hi⟩ := h2 hid
      rw [hi]
      rw [hf] at hp
      exact hinv peer1 hp
  | close socketId =>
    show (∀ k, (s.close socketId).osCtl k = true) ∧ Registered (s.close socketId) socket
    refine ⟨fun k => by rw [osCtl_close]; exact hctl k, fun peer1 hp => ?_⟩
    rw [SocketTCP.close_find] at hp
    rw [close_interest]
    by_cases hid : socket = socketId
    · rw [if_pos hid] at hp
      cases hp
    · rw [if_neg hid] at hp
      rw [if_neg hid]
      exact hinv peer1 hp

/-- A sequence of calls on the reactor keeps the registration of every connection in
line with its queue, when `epoll_ctl` succeeds. -/
theorem run_registered (socket : Nat) (ops : List ReactorOp) :
    ∀ s : SocketTCP, (∀ k, s.osCtl k = true) → Registered s socket →
      Registered (s.run ops) socket := by
  induction ops with
  | nil => intro s _ h; exact h
  | cons op rest ih =>
    intro s hctl hinv
    obtain ⟨h1, h2⟩ := step_registered s socket op hctl hinv
    exact ih (s.step op) h1 h2

theorem acceptedReactor_registered : Registered acceptedReactor 5 := by
  intro peer h
  have hfind : acceptedReactor.find 5 = some ⟨Status.Connected, 5, 0, []⟩ := rfl
  rw [hfind] at h
  injection h with h
  subst h
  rfl

/-- C22: on a reactor whose `epoll_ctl` calls succeed, a connection is registered for
write-readiness exactly while its write queue is not empty. A `write` on a connection
in the table succeeds, pushes the buffer and switches the interest to read and write. A
write-readiness pass after which the connection is in the table with an empty queue has
switched the interest to read-only; a pass after which the queue is not empty has left
the interest at read and write. And after any sequence of `write`, write-readiness and
`close` calls, on this or on other connections, the connection (as long as it is in the
table) is registered for reading, and for writing exactly when its queue is not
empty. -/
theorem C22_write_interest (s : SocketTCP) (socket : Nat)
    (hctl : ∀ k, s.osCtl k = true) (hinv : Registered s socket) :
    (∀ buffer customData callback peer, s.find socket = some peer →
      (s.write socket buffer customData callback).1.isError = false ∧
      (s.write socket buffer customData callback).2.queue socket =
        peer.writeBuffers ++ [⟨buffer, 0, callback, customData⟩] ∧
      interest (s.write socket buffer customData callback).2.events socket =
        some (true, true)) ∧
    (∀ peer1, (s.handleWritable socket).2.find socket = some peer1 →
      peer1.writeBuffers = [] →
      interest (s.handleWritable socket).2.events socket = some (true, false)) ∧
    (∀ peer1, (s.handleWritable socket).2.find socket = some peer1 →
      peer1.writeBuffers ≠ [] →
      interest s.events socket = some (true, true) ∧
      interest (s.handleWritable socket).2.events socket = some (true, true)) ∧
    (∀ ops peer1, (s.run ops).find socket = some peer1 →
      interest (s.run ops).events socket = some (true, !peer1.writeBuffers.isEmpty)) := by
  refine ⟨fun buffer customData callback peer hfind => ?_, fun peer1 h1 hq => ?_,
    fun peer1 h1 hq => ?_, fun ops => run_registered socket ops s hctl hinv⟩
  · obtain ⟨_, h2, h3, h4⟩ := write_known s socket buffer customData callback peer hfind
    refine ⟨by rw [h2, hctl]; rfl, ?_, ?_⟩
    · unfold SocketTCP.queue
      rw [h3, if_pos rfl]
    · rw [h4, hctl, interestStep_modify, if_pos rfl]
  · obtain ⟨_, hint⟩ := (handleWritable_registration s socket socket hctl).2.2 peer1 h1
    rw [hint, hq]
    rfl
  · obtain ⟨⟨peer, hfind, hstay⟩, hint⟩ :=
      (handleWritable_registration s socket socket hctl).2.2 peer1 h1
    have hbefore : interest s.events socket = some (true, true) := by
      rw [hinv peer hfind]
      cases hq0 : peer.writeBuffers with
      | nil => exact absurd (hstay hq0) hq
      | cons b0 rest0 => rfl
    refine ⟨hbefore, ?_⟩
    rw [hint, hbefore]
    cases hq1 : peer1.writeBuffers with
    | nil => exact absurd hq1 hq
    | cons b rest => rfl

/-- Witness of C22: the connection `5` after two `write` calls and one write-readiness
pass that sends the first buffer only. -/
theorem C22_write_interest_witness :
    (acceptedReactor.run demoOps).queue 5 = [⟨[4, 5, 6], 0, some 2, 8⟩] ∧
    interest (acceptedReactor.run demoOps).events 5 = some (true, true) := by
  have hfind : (acceptedReactor.run demoOps).find 5 =
      some ⟨Status.Connected, 5, 0, [⟨[4, 5, 6], 0, some 2, 8⟩]⟩ := by decide
  exact ⟨by decide,
    (C22_write_interest acceptedReactor 5 (fun _ => rfl) acceptedReactor_registered).2.2.2
      demoOps _ hfind⟩

theorem close_events_extend (s : SocketTCP) (id : Nat) :
    ∃ tail, (s.close id).events = s.events ++ tail := by
  cases hfind : s.find id with
  | none =>
    rw [close_absent s id hfind]
    exact ⟨_, rfl⟩
  | some peer =>
    obtain ⟨ok, hev⟩ := close_open s id peer hfind
    exact ⟨finishCallbacks SocketTCP.socketClosedError id peer.writeBuffers ++
      (if s.hasCloseCallback then [ReactorEvent.closed id peer.customData] else []) ++
      [ReactorEvent.epollCtl id EpollOp.delete false false ok, ReactorEvent.osClose id],
      by rw [hev]; simp only [List.append_assoc]⟩

/-- The loop of the `EPOLLOUT` branch only adds to the log. -/
theorem flushWrites_events_extend (socket : Nat) :
    ∀ (n : Nat) (s : SocketTCP),
      ∃ tail, (SocketTCP.flushWrites socket n s).2.events = s.events ++ tail := by
  intro n
  induction n with
  | zero => intro s; exact ⟨[], by simp [SocketTCP.flushWrites]⟩
  | succ n ih =>
    intro s
    have step : ∀ (s2 : SocketTCP) (pre : List ReactorEvent), s2.events = s.events ++ pre →
        ∃ tail, (SocketTCP.flushWrites socket n s2).2.events = s.events ++ tail := by
      intro s2 pre h2
      obtain ⟨tail, ht⟩ := ih s2
      exact ⟨pre ++ tail, by rw [ht, h2, List.append_assoc]⟩
    rw [SocketTCP.flushWrites]
    cases hfind : s.find socket with
    | none => exact ⟨[], by simp⟩
    | some peer =>
      simp only
      cases hq : peer.writeBuffers with
      | nil => exact ⟨[], by simp⟩
      | cons wb rest =>
        simp only
        by_cases hsize : wb.getRemainingBufferSize > 0
        · rw [if_pos hsize]
          cases hsend : s.osSend s.events.length
              (SocketTCP.sendLength wb.getRemainingBufferSize) with
          | none =>
            simp only
            obtain ⟨tail, ht⟩ := close_events_extend
              (s.emit [ReactorEvent.sent socket wb.getRemainingBuffer none]) socket
            exact ⟨[ReactorEvent.sent socket wb.getRemainingBuffer none] ++ tail,
              by rw [ht, SocketTCP.events_emit, List.append_assoc]⟩
          | some count =>
            simp only
            by_cases hdone : (wb.writeDone count).getRemainingBufferSize = 0
            · rw [if_pos hdone]
              cases hcb : (wb.writeDone count).writeFinishCallback with
              | none => exact step _ _ rfl
              | some cb =>
                exact step _ ([ReactorEvent.sent socket wb.getRemainingBuffer (some count)] ++
                  [ReactorEvent.writeFinished cb Result.ok socket
                    (wb.writeDone count).customData])
                  (by simp [SocketTCP.modifyPeer, SocketTCP.emit])
            · rw [if_neg hdone]
              exact step _ _ rfl
        · rw [if_neg hsize]
          cases hcb : wb.writeFinishCallback with
          | none => exact step _ [] (by simp [SocketTCP.modifyPeer])
          | some cb => exact step _ _ rfl

/-- When the buffer at the front of the queue has unsent bytes, the first thing the loop
of the `EPOLLOUT` branch does is a `send` call with those bytes. -/
theorem flushWrites_first_send (socket n : Nat) (s : SocketTCP) (peer : PeerSocketInfo)
    (wb : WriteBufferInfo) (rest : List WriteBufferInfo)
    (hfind : s.find socket = some peer) (hq : peer.writeBuffers = wb :: rest)
    (hsize : wb.getRemainingBufferSize > 0) :
    ∃ tail, (SocketTCP.flushWrites socket (n + 1) s).2.events =
      s.events ++ [ReactorEvent.sent socket wb.getRemainingBuffer
        (s.osSend s.events.length (SocketTCP.sendLength wb.getRemainingBufferSize))] ++
        tail := by
  rw [SocketTCP.flushWrites, hfind]
  simp only [hq]
  rw [if_pos hsize]
  cases hsend : s.osSend s.events.length
      (SocketTCP.sendLength wb.getRemainingBufferSize) with
  | none =>
    simp only
    obtain ⟨tail, ht⟩ := close_events_extend
      (s.emit [ReactorEvent.sent socket wb.getRemainingBuffer none]) socket
    exact ⟨tail, by rw [ht, SocketTCP.events_emit]⟩
  | some count =>
    simp only
    by_cases hdone : (wb.writeDone count).getRemainingBufferSize = 0
    · rw [if_pos hdone]
      obtain ⟨tail, ht⟩ := flushWrites_events_extend socket n
        ((match (wb.writeDone count).writeFinishCallback with
          | some cb => (s.emit [ReactorEvent.sent socket wb.getRemainingBuffer
              (some count)]).emit [ReactorEvent.writeFinished cb Result.ok socket
                (wb.writeDone count).customData]
          | none => s.emit [ReactorEvent.sent socket wb.getRemainingBuffer
              (some count)]).modifyPeer socket (fun p => { p with writeBuffers := rest }))
      rw [ht]
      cases hcb : (wb.writeDone count).writeFinishCallback with
      | none => exact ⟨tail, rfl⟩
      | some cb =>
        exact ⟨[ReactorEvent.writeFinished cb Result.ok socket
          (wb.writeDone count).customData] ++ tail,
          by simp [SocketTCP.modifyPeer, SocketTCP.emit]⟩
    · rw [if_neg hdone]
      obtain ⟨tail, ht⟩ := flushWrites_events_extend socket n
        ((s.emit [ReactorEvent.sent socket wb.getRemainingBuffer (some count)]).modifyPeer
          socket (fun p => { p with writeBuffers := wb.writeDone count :: rest }))
      rw [ht]
      exact ⟨tail, rfl⟩

/-- The `EPOLLOUT` branch for a connection in the table: after the loop it only adds to
the log. -/
theorem handleWritable_events_extend (s : SocketTCP) (fd : Nat) (peer : PeerSocketInfo)
    (hfind : s.find fd = some peer) :
    ∃ tail, (s.handleWritable fd).2.events =
      (SocketTCP.flushWrites fd peer.writeBuffers.length s).2.events ++ tail := by
  unfold SocketTCP.handleWritable
  rw [hfind]
  simp only
  rw [SocketTCP.find_socket s fd peer hfind]
  rcases hout : SocketTCP.flushWrites fd peer.writeBuffers.length s with ⟨fl, s1⟩
  cases fl with
  | returned r => exact ⟨[], by simp⟩
  | done u =>
    simp only
    cases hfind1 : s1.find fd with
    | none => exact ⟨[], by simp⟩
    | some peer1 =>
      simp only
      by_cases hlen : peer1.writeBuffers.length = 0
      · rw [if_pos hlen]
        have hstate : ∀ (r : Result × SocketTCP),
            (match r with
              | (result, s2) =>
                if result.isError then ((Flow.returned result : Flow Unit), s2)
                else (Flow.done (), s2)).2 = r.2 := by
          rintro ⟨r, s2⟩
          simp only
          split <;> rfl
        rw [hstate, setEvent_events]
        exact ⟨_, rfl⟩
      · rw [if_neg hlen]
        exact ⟨[], by simp⟩

theorem remaining_of_short (wb : WriteBufferInfo) (c : Nat)
    (hshort : (wb.writeDone c).getRemainingBufferSize ≠ 0) : wb.getRemainingBufferSize > 0 := by
  unfold WriteBufferInfo.getRemainingBufferSize WriteBufferInfo.writeDone
    WriteBufferInfo.len at *
  simp only at hshort
  split at hshort
  · exact absurd rfl hshort
  · split
    · omega
    · omega

/-- The first round of the loop of the `EPOLLOUT` branch when `send` takes only part of
the buffer at the front: the call is logged, the position moves, the buffer stays at
the front, and the loop goes on with one round less. -/
theorem flushWrites_short (socket n : Nat) (s : SocketTCP) (peer : PeerSocketInfo)
    (wb : WriteBufferInfo) (rest : List WriteBufferInfo) (c : Nat)
    (hfind : s.find socket = some peer) (hq : peer.writeBuffers = wb :: rest)
    (hsend : s.osSend s.events.length (SocketTCP.sendLength wb.getRemainingBufferSize) = some c)
    (hshort : (wb.writeDone c).getRemainingBufferSize ≠ 0) :
    SocketTCP.flushWrites socket (n + 1) s =
      SocketTCP.flushWrites socket n
        ((s.emit [ReactorEvent.sent socket wb.getRemainingBuffer (some c)]).modifyPeer socket
          (fun p => { p with writeBuffers := wb.writeDone c :: rest })) := by
  rw [SocketTCP.flushWrites, hfind]
  simp only [hq]
  rw [if_pos (remaining_of_short wb c hshort), hsend]
  simp only
  rw [if_neg hshort]

theorem find_after_short (socket : Nat) (s : SocketTCP) (peer : PeerSocketInfo)
    (evs : List ReactorEvent) (q : List WriteBufferInfo)
    (hfind : s.find socket = some peer) :
    ((s.emit evs).modifyPeer socket (fun p => { p with writeBuffers := q })).find socket =
      some { peer with writeBuffers := q } := by
  rw [SocketTCP.find_modifyPeer (s.emit evs) socket socket
    (fun p => { p with writeBuffers := q }) (fun _ => rfl), if_pos rfl, SocketTCP.find_emit,
    hfind]
  rfl

/-- C24 on the code: a write-readiness event on a connection whose first `send` takes
only part of the buffer at the front. The position moves to the first unsent byte.
When no buffer is queued behind it, that `send` is the only call of the event and the
buffer stays queued at its new position. When at least one buffer is queued behind it,
the loop runs again within the same event and calls `send` a second time on the same
connection, with the bytes from the first unsent byte of the same buffer. -/
theorem C24_short_write_retried (s : SocketTCP) (fd : Nat) (peer : PeerSocketInfo)
    (wb : WriteBufferInfo) (rest : List WriteBufferInfo) (c : Nat)
    (hfind : s.find fd = some peer) (hq : peer.writeBuffers = wb :: rest)
    (hsend : s.osSend s.events.length (SocketTCP.sendLength wb.getRemainingBufferSize) = some c)
    (hshort : (wb.writeDone c).getRemainingBufferSize ≠ 0) :
    (wb.writeDone c).getRemainingBuffer = wb.getRemainingBuffer.drop c ∧
    (rest = [] →
      (s.handleWritable fd).2.events =
        s.events ++ [ReactorEvent.sent fd wb.getRemainingBuffer (some c)] ∧
      (s.handleWritable fd).2.queue fd = [wb.writeDone c]) ∧
    (rest ≠ [] →
      ∃ tail, (s.handleWritable fd).2.events =
        s.events ++
          [ReactorEvent.sent fd wb.getRemainingBuffer (some c),
            ReactorEvent.sent fd (wb.writeDone c).getRemainingBuffer
              (s.osSend (s.events.length + 1)
                (SocketTCP.sendLength (wb.writeDone c).getRemainingBufferSize))] ++ tail) := by
  refine ⟨WriteBufferInfo.getRemainingBuffer_writeDone wb c, fun hrest => ?_, fun hrest => ?_⟩
  · subst hrest
    have hloop : SocketTCP.flushWrites fd peer.writeBuffers.length s =
        (Flow.done (), (s.emit [ReactorEvent.sent fd wb.getRemainingBuffer (some c)]).modifyPeer
          fd (fun p => { p with writeBuffers := [wb.writeDone c] })) := by
      rw [hq]
      show SocketTCP.flushWrites fd (0 + 1) s = _
      rw [flushWrites_short fd 0 s peer wb [] c hfind hq hsend hshort]
      rfl
    have hfind1 := find_after_short fd s peer
      [ReactorEvent.sent fd wb.getRemainingBuffer (some c)] [wb.writeDone c] hfind
    unfold SocketTCP.handleWritable SocketTCP.queue
    rw [hfind]
    simp only
    rw [SocketTCP.find_socket s fd peer hfind, hloop]
    simp only
    rw [hfind1]
    simp only [List.length_singleton, one_ne_zero, if_false]
    rw [hfind1]
    exact ⟨rfl, rfl⟩
  · obtain ⟨next, rest1, hcons⟩ := List.exists_cons_of_ne_nil hrest
    subst hcons
    obtain ⟨tail1, h1⟩ := handleWritable_events_extend s fd peer hfind
    have hloop : SocketTCP.flushWrites fd peer.writeBuffers.length s =
        SocketTCP.flushWrites fd (rest1.length + 1)
          ((s.emit [ReactorEvent.sent fd wb.getRemainingBuffer (some c)]).modifyPeer fd
            (fun p => { p with writeBuffers := wb.writeDone c :: next :: rest1 })) := by
      rw [hq]
      show SocketTCP.flushWrites fd (rest1.length + 1 + 1) s = _
      rw [flushWrites_short fd (rest1.length + 1) s peer wb (next :: rest1) c hfind hq hsend
        hshort]
    have hfind1 := find_after_short fd s peer
      [ReactorEvent.sent fd wb.getRemainingBuffer (some c)]
      (wb.writeDone c :: next :: rest1) hfind
    obtain ⟨tail2, h2⟩ := flushWrites_first_send fd rest1.length _ _ (wb.writeDone c)
      (next :: rest1) hfind1 rfl (Nat.pos_of_ne_zero hshort)
    rw [h1, hloop, h2]
    refine ⟨tail2 ++ tail1, ?_⟩
    simp [SocketTCP.modifyPeer, SocketTCP.emit]

/-- Witness of C24: on `busyReactor` two buffers of three bytes are queued on the
connection `5` and `send` takes two bytes per call; within one event `send` is called
twice on the first buffer, the second time with its third byte. -/
theorem C24_short_write_retried_witness :
    ∃ tail, (busyReactor.handleWritable 5).2.events =
      busyReactor.events ++
        [ReactorEvent.sent 5 [1, 2, 3] (some 2), ReactorEvent.sent 5 [3] (some 1)] ++ tail :=
  (C24_short_write_retried busyReactor 5
    ⟨Status.Connected, 5, 0, [⟨[1, 2, 3], 0, some 1, 7⟩, ⟨[4, 5, 6], 0, some 2, 8⟩]⟩
    ⟨[1, 2, 3], 0, some 1, 7⟩ [⟨[4, 5, 6], 0, some 2, 8⟩] 2
    (by decide) rfl (by decide) (by decide)).2.2 (by decide)

theorem selectLoop_handleAll (total : Nat) (tail : List Ready) :
    ∀ (pre : List Ready) (r r1 : Reactor), Reactor.handleAll pre r = some r1 →
      Reactor.selectLoop total (pre ++ tail) r = Reactor.selectLoop total tail r1 := by
  intro pre
  induction pre with
  | nil =>
    intro r r1 h
    injection h with h
    rw [h]
    rfl
  | cons e rest ih =>
    intro r r1 h
    rw [Reactor.handleAll] at h
    rw [List.cons_append, Reactor.selectLoop]
    rcases hout : r.handleEvent e with ⟨fl, stored, r2⟩
    rw [hout] at h
    cases fl with
    | returned result => cases h
    | done u => exact ih r2 r1 h

theorem select_nonempty (r : Reactor) (evs : List Ready) (h : evs ≠ []) :
    r.select (some evs) = r.selectLoop evs.length evs := by
  cases evs with
  | nil => exact absurd rfl h
  | cons e rest => rfl

theorem closedSocket_emit (s : SocketTCP) (evs : List ReactorEvent) :
    (s.emit evs).closedSocket = s.closedSocket := rfl

theorem closedSocket_setEvent (s : SocketTCP) (socket : Nat) (op : EpollOp) (r w : Bool) :
    (s.setEvent socket op r w).2.closedSocket = s.closedSocket := by
  unfold SocketTCP.setEvent
  simp only
  split <;> rfl

theorem closedSocket_close (s : SocketTCP) (id : Nat) : (s.close id).closedSocket = true := by
  unfold SocketTCP.close
  simp only [closedSocket_emit, closedSocket_setEvent]
  split
  · split <;> rfl
  · rfl

theorem closedSocket_flushWrites (socket : Nat) :
    ∀ (n : Nat) (s : SocketTCP), s.closedSocket = true →
      (SocketTCP.flushWrites socket n s).2.closedSocket = true := by
  intro n
  induction n with
  | zero => intro s h; exact h
  | succ n ih =>
    intro s h
    rw [SocketTCP.flushWrites]
    cases hfind : s.find socket with
    | none => exact h
    | some peer =>
      simp only
      cases hq : peer.writeBuffers with
      | nil => exact h
      | cons wb rest =>
        simp only
        by_cases hsize : wb.getRemainingBufferSize > 0
        · rw [if_pos hsize]
          cases hsend : s.osSend s.events.length
              (SocketTCP.sendLength wb.getRemainingBufferSize) with
          | none => exact closedSocket_close _ _
          | some count =>
            simp only
            by_cases hdone : (wb.writeDone count).getRemainingBufferSize = 0
            · rw [if_pos hdone]
              apply ih
              cases (wb.writeDone count).writeFinishCallback <;> exact h
            · rw [if_neg hdone]
              exact ih _ h
        · rw [if_neg hsize]
          apply ih
          cases wb.writeFinishCallback <;> exact h

theorem closedSocket_step (s : SocketTCP) (op : ReactorOp) (h : s.closedSocket = true) :
    (s.step op).closedSocket = true := by
  cases op with
  | write socketId buffer customData callback =>
    show (s.write socketId buffer customData callback).2.closedSocket = true
    unfold SocketTCP.write
    cases hfind : s.find socketId with
    | none =>
      simp only
      cases callback <;> exact h
    | some peer =>
      simp only
      have hstate : ∀ (r : Result × SocketTCP),
          (match r with
            | (result, s2) => if result.isError then (result, s2) else (Result.ok, s2)).2 =
            r.2 := by
        rintro ⟨r, s2⟩
        simp only
        split <;> rfl
      rw [hstate, closedSocket_setEvent]
      exact h
  | writable fd =>
    show (s.handleWritable fd).2.closedSocket = true
    unfold SocketTCP.handleWritable
    cases hfind : s.find fd with
    | none => exact closedSocket_close _ _
    | some peer =>
      simp only
      have hloop := closedSocket_flushWrites peer.socket peer.writeBuffers.length s h
      rcases hout : SocketTCP.flushWrites peer.socket peer.writeBuffers.length s with ⟨fl, s1⟩
      rw [hout] at hloop
      cases fl with
      | returned r => exact hloop
      | done u =>
        simp only
        cases hfind1 : s1.find fd with
        | none => exact hloop
        | some peer1 =>
          simp only
          split
          · have hstate : ∀ (r : Result × SocketTCP),
                (match r with
                  | (result, s2) =>
                    if result.isError then ((Flow.returned result : Flow Unit), s2)
                    else (Flow.done (), s2)).2 = r.2 := by
              rintro ⟨r, s2⟩
              simp only
              split <;> rfl
            rw [hstate, closedSocket_setEvent]
            exact hloop
          · exact hloop
  | close socketId => exact closedSocket_close _ _

/-- After calls on the reactor among which there is a `close`, the flag `closedSocket`
is set. -/
theorem closedSocket_run (ops : List ReactorOp) :
    ∀ s : SocketTCP, (s.closedSocket = true ∨ ∃ id, ReactorOp.close id ∈ ops) →
      (s.run ops).closedSocket = true := by
  induction ops with
  | nil =>
    intro s h
    rcases h with h | ⟨id, h⟩
    · exact h
    · cases h
  | cons op rest ih =>
    intro s h
    show ((s.step op).run rest).closedSocket = true
    rcases h with h | ⟨id, h⟩
    · exact ih _ (Or.inl (closedSocket_step s op h))
    · rcases List.mem_cons.mp h with h | h
      · exact ih _ (Or.inl (by rw [← h]; exact closedSocket_close _ _))
      · exact ih _ (Or.inr ⟨id, h⟩)

/-- The `EPOLLOUT` branch when the `send` call for the buffer at the front fails: the
connection is closed and `select` returns success. -/
theorem handleWritable_send_error (s : SocketTCP) (fd : Nat) (peer : PeerSocketInfo)
    (wb : WriteBufferInfo) (rest : List WriteBufferInfo)
    (hfind : s.find fd = some peer) (hq : peer.writeBuffers = wb :: rest)
    (hsize : wb.getRemainingBufferSize > 0)
    (hsend : s.osSend s.events.length (SocketTCP.sendLength wb.getRemainingBufferSize) = none) :
    s.handleWritable fd =
      (Flow.returned Result.ok,
        (s.emit [ReactorEvent.sent fd wb.getRemainingBuffer none]).close fd) := by
  unfold SocketTCP.handleWritable
  rw [hfind]
  simp only
  rw [SocketTCP.find_socket s fd peer hfind, hq]
  show (match SocketTCP.flushWrites fd (rest.length + 1) s with
    | (Flow.returned r, s1) => (Flow.returned r, s1)
    | (Flow.done _, s1) => _) = _
  rw [SocketTCP.flushWrites, hfind]
  simp only [hq]
  rw [if_pos hsize, hsend]

theorem handleEvent_hangup (r : Reactor) (e : Ready) (peer : PeerSocketInfo)
    (h1 : e.hangup = true) (hfind : r.tcp.find e.fd = some peer) :
    ∃ r1, r.handleEvent e = (Flow.returned Result.ok, some 1, r1) ∧
      r1.tcp.find e.fd = none := by
  unfold Reactor.handleEvent
  rw [if_pos h1, hfind]
  simp only
  refine ⟨_, rfl, ?_⟩
  simp only
  rw [SocketTCP.close_find, if_pos (SocketTCP.find_socket r.tcp e.fd peer hfind).symm]

theorem handleEvent_empty_read (r : Reactor) (e : Ready) (peer : PeerSocketInfo)
    (h1 : e.hangup = false) (h2 : some e.fd ≠ r.listenSocket) (h3 : e.writable = false)
    (h4 : e.readable = true) (h5 : some e.fd ≠ r.eventFd)
    (hfind : r.tcp.find e.fd = some peer) (hstatus : peer.status ≠ Status.Connecting)
    (hcount : e.available = some 0) :
    ∃ r1, r.handleEvent e = (Flow.returned Result.ok, some 1, r1) ∧
      r1.tcp.find e.fd = none := by
  unfold Reactor.handleEvent
  rw [if_neg (by rw [h1]; exact Bool.false_ne_true), if_neg h2,
    if_neg (by rw [h3]; exact Bool.false_ne_true), if_pos h4, if_neg h5, hfind]
  simp only
  rw [if_neg hstatus, hcount]
  simp only [if_true]
  refine ⟨_, rfl, ?_⟩
  simp only
  rw [SocketTCP.close_find, if_pos (SocketTCP.find_socket r.tcp e.fd peer hfind).symm]

theorem handleEvent_send_error (r : Reactor) (e : Ready) (peer : PeerSocketInfo)
    (wb : WriteBufferInfo) (rest : List WriteBufferInfo)
    (h1 : e.hangup = false) (h2 : some e.fd ≠ r.listenSocket) (h3 : e.writable = true)
    (hfind : r.tcp.find e.fd = some peer) (hq : peer.writeBuffers = wb :: rest)
    (hsize : wb.getRemainingBufferSize > 0)
    (hsend : r.tcp.osSend r.tcp.events.length
      (SocketTCP.sendLength wb.getRemainingBufferSize) = none) :
    ∃ r1, r.handleEvent e = (Flow.returned Result.ok, some 1, r1) ∧
      r1.tcp.find e.fd = none := by
  unfold Reactor.handleEvent
  rw [if_neg (by rw [h1]; exact Bool.false_ne_true), if_neg h2, if_pos h3,
    handleWritable_send_error r.tcp e.fd peer wb rest hfind hq hsize hsend]
  simp only
  refine ⟨_, rfl, ?_⟩
  simp only
  rw [SocketTCP.close_find, if_pos rfl]

theorem handleEvent_closing_read (r : Reactor) (e : Ready) (peer : PeerSocketInfo)
    (count : Int) (callback : Nat → Nat → Nat → List ReactorOp)
    (h1 : e.hangup = false) (h2 : some e.fd ≠ r.listenSocket) (h3 : e.writable = false)
    (h4 : e.readable = true) (h5 : some e.fd ≠ r.eventFd)
    (hfind : r.tcp.find e.fd = some peer) (hstatus : peer.status ≠ Status.Connecting)
    (hcount : e.available = some count) (hpos : count > 0)
    (hcb : r.readCallback = some callback)
    (hclose : ∃ id, ReactorOp.close id ∈ callback peer.socket count.toNat peer.customData) :
    ∃ r1, r.handleEvent e = (Flow.returned Result.ok, none, r1) := by
  unfold Reactor.handleEvent
  rw [if_neg (by rw [h1]; exact Bool.false_ne_true), if_neg h2,
    if_neg (by rw [h3]; exact Bool.false_ne_true), if_pos h4, if_neg h5, hfind]
  simp only
  rw [if_neg hstatus, hcount]
  simp only
  rw [if_neg (by omega), if_pos hpos, hcb]
  simp only
  rw [if_pos (closedSocket_run _ _ (Or.inr hclose))]
  exact ⟨_, rfl⟩

/-- C25 as stated fails: `epoll_wait` reports two ready descriptors, the first for
connection `5` and the second a write-readiness of connection `6`, which has two bytes
queued. When the first is a peer hang-up, a read-readiness with no byte to read, a
write-readiness whose `send` fails, or a read-readiness whose read callback closes the
connection, `select` returns success right after it (storing `1` in `*totalSockets`,
nothing for the read callback) and the second one is not handled: the queue of `6` is
as before and nothing has been sent on it. With the hang-up reported second, both are
handled. -/
theorem C25_select_stops_at_close_counterexample :
    (loopReactor.select (some [hangup5, writable6])).1 = Result.ok ∧
    (loopReactor.select (some [hangup5, writable6])).2.1 = some 1 ∧
    (loopReactor.select (some [hangup5, writable6])).2.2.tcp.find 5 = none ∧
    (loopReactor.select (some [hangup5, writable6])).2.2.tcp.queue 6 = [⟨[7, 8], 0, some 3, 9⟩] ∧
    sentBytes (loopReactor.select (some [hangup5, writable6])).2.2.tcp.events 6 = [] ∧
    (loopReactor.select (some [empty5, writable6])).1 = Result.ok ∧
    (loopReactor.select (some [empty5, writable6])).2.1 = some 1 ∧
    (loopReactor.select (some [empty5, writable6])).2.2.tcp.queue 6 = [⟨[7, 8], 0, some 3, 9⟩] ∧
    sentBytes (loopReactor.select (some [empty5, writable6])).2.2.tcp.events 6 = [] ∧
    (loopReactor.select (some [writable5, writable6])).1 = Result.ok ∧
    (loopReactor.select (some [writable5, writable6])).2.1 = some 1 ∧
    (loopReactor.select (some [writable5, writable6])).2.2.tcp.queue 6 = [⟨[7, 8], 0, some 3, 9⟩] ∧
    sentBytes (loopReactor.select (some [writable5, writable6])).2.2.tcp.events 6 = [] ∧
    (loopReactor.select (some [data5, writable6])).1 = Result.ok ∧
    (loopReactor.select (some [data5, writable6])).2.1 = none ∧
    (loopReactor.select (some [data5, writable6])).2.2.tcp.queue 6 = [⟨[7, 8], 0, some 3, 9⟩] ∧
    sentBytes (loopReactor.select (some [data5, writable6])).2.2.tcp.events 6 = [] ∧
    (loopReactor.select (some [writable6, hangup5])).1 = Result.ok ∧
    (loopReactor.select (some [writable6, hangup5])).2.2.tcp.find 5 = none ∧
    (loopReactor.select (some [writable6, hangup5])).2.2.tcp.queue 6 = [] ∧
    sentBytes (loopReactor.select (some [writable6, hangup5])).2.2.tcp.events 6 = [7, 8] := by
  decide

/-- C25 amended: `select` handles the ready descriptors that the wait primitive reports
in their order. When the handling of none of them returns, all `k` are handled and
`select` returns success with `*totalSockets = k`. When handling one of them closes a
connection (peer hang-up or error event on a connection, read-readiness with zero
bytes available, `send` error on a write-readiness, read callback that makes a `close`
call), `select` returns success at once, and likewise returns at once with the error
when the handling fails: the descriptors reported after it are not handled by this call
(the outcome is the same whatever they are). -/
theorem C25_select_stops_at_close (r : Reactor) :
    (∀ evs r1, evs ≠ [] → r.handleAll evs = some r1 →
      r.select (some evs) = (Result.ok, some evs.length, r1)) ∧
    (∀ pre e rest r1 result stored r2, r.handleAll pre = some r1 →
      r1.handleEvent e = (Flow.returned result, stored, r2) →
      r.select (some (pre ++ e :: rest)) = (result, stored, r2)) ∧
    (∀ e peer, e.hangup = true → r.tcp.find e.fd = some peer →
      ∃ r1, r.handleEvent e = (Flow.returned Result.ok, some 1, r1) ∧
        r1.tcp.find e.fd = none) ∧
    (∀ e peer, e.hangup = false → some e.fd ≠ r.listenSocket → e.writable = false →
      e.readable = true → some e.fd ≠ r.eventFd → r.tcp.find e.fd = some peer →
      peer.status ≠ Status.Connecting → e.available = some 0 →
      ∃ r1, r.handleEvent e = (Flow.returned Result.ok, some 1, r1) ∧
        r1.tcp.find e.fd = none) ∧
    (∀ e peer wb rest, e.hangup = false → some e.fd ≠ r.listenSocket → e.writable = true →
      r.tcp.find e.fd = some peer → peer.writeBuffers = wb :: rest →
      wb.getRemainingBufferSize > 0 →
      r.tcp.osSend r.tcp.events.length (SocketTCP.sendLength wb.getRemainingBufferSize) = none →
      ∃ r1, r.handleEvent e = (Flow.returned Result.ok, some 1, r1) ∧
        r1.tcp.find e.fd = none) ∧
    (∀ e peer count callback, e.hangup = false → some e.fd ≠ r.listenSocket →
      e.writable = false → e.readable = true → some e.fd ≠ r.eventFd →
      r.tcp.find e.fd = some peer → peer.status ≠ Status.Connecting →
      e.available = some count → count > 0 → r.readCallback = some callback →
      (∃ id, ReactorOp.close id ∈ callback peer.socket count.toNat peer.customData) →
      ∃ r1, r.handleEvent e = (Flow.returned Result.ok, none, r1)) := by
  refine ⟨fun evs r1 hne hall => ?_, fun pre e rest r1 result stored r2 hall hret => ?_,
    fun e peer => handleEvent_hangup r e peer,
    fun e peer => handleEvent_empty_read r e peer,
    fun e peer wb rest => handleEvent_send_error r e peer wb rest,
    fun e peer count callback => handleEvent_closing_read r e peer count callback⟩
  · rw [select_nonempty r evs hne]
    have h := selectLoop_handleAll evs.length [] evs r r1 hall
    rw [List.append_nil] at h
    rw [h]
    rfl
  · rw [select_nonempty r _ (by simp),
      selectLoop_handleAll _ (e :: rest) pre r r1 hall, Reactor.selectLoop, hret]

/-- Witness of C25: a hang-up on connection `5` reported before a write-readiness of
connection `6`. -/
theorem C25_select_stops_at_close_witness :
    loopReactor.select (some ([] ++ hangup5 :: [writable6])) =
      (Result.ok, some 1, (loopReactor.handleEvent hangup5).2.2) :=
  (C25_select_stops_at_close loopReactor).2.1 [] hangup5 [writable6] loopReactor Result.ok
    (some 1) (loopReactor.handleEvent hangup5).2.2 rfl rfl

theorem eventAdded_append (fd : Nat) (a b : List ReactorEvent) :
    eventAdded fd (a ++ b) = eventAdded fd a + eventAdded fd b := by
  induction a with
  | nil => simp [eventAdded]
  | cons e rest ih =>
    cases e with
    | wrote d value count =>
      cases d with
      | none => simpa [eventAdded] using ih
      | some d =>
        cases count with
        | none => simpa [eventAdded] using ih
        | some c =>
          rw [List.cons_append]
          simp only [eventAdded]
          rw [ih]
          omega
    | _ => simpa [eventAdded] using ih

theorem eventAdded_zero_writes (fd : Nat) (target : Option Nat) (calls : List ReactorEvent)
    (h : ∀ e ∈ calls, ∃ count, e = ReactorEvent.wrote target 0 count) :
    eventAdded fd calls = 0 := by
  induction calls with
  | nil => rfl
  | cons e rest ih =>
    obtain ⟨count, he⟩ := h e (List.mem_cons_self _ _)
    have hrest := ih (fun x hx => h x (List.mem_cons_of_mem _ hx))
    subst he
    cases target with
    | none => simpa [eventAdded] using hrest
    | some d =>
      cases count with
      | none => simpa [eventAdded] using hrest
      | some c => simp [eventAdded, hrest]

/-- What `signal` does when it returns: one or more `write` calls of the value `0`, all
on the descriptor `epollFd`; nothing else changes. -/
theorem signalLoop_calls :
    ∀ (fuel : Nat) (r r1 : Reactor), r.signalLoop fuel = some r1 →
      r1.epollFd = r.epollFd ∧ r1.eventFd = r.eventFd ∧ r1.listenSocket = r.listenSocket ∧
      r1.tcp.osError = r.tcp.osError ∧
      ∃ calls, r1.tcp.events = r.tcp.events ++ calls ∧ calls ≠ [] ∧
        ∀ e ∈ calls, ∃ count, e = ReactorEvent.wrote r.epollFd 0 count := by
  intro fuel
  induction fuel with
  | zero => intro r r1 h; cases h
  | succ n ih =>
    intro r r1 h
    rw [Reactor.signalLoop] at h
    cases hout : r.osWrite r.tcp.events.length r.epollFd 0 with
    | written count =>
      rw [hout] at h
      injection h with h
      subst h
      exact ⟨rfl, rfl, rfl, rfl, [ReactorEvent.wrote r.epollFd 0 (some count)], rfl, by simp,
        fun e he => ⟨some count, List.mem_singleton.mp he⟩⟩
    | failed =>
      rw [hout] at h
      injection h with h
      subst h
      exact ⟨rfl, rfl, rfl, rfl, [ReactorEvent.wrote r.epollFd 0 none], rfl, by simp,
        fun e he => ⟨none, List.mem_singleton.mp he⟩⟩
    | again =>
      rw [hout] at h
      obtain ⟨h1, h2, h3, h4, calls, hev, _, hcalls⟩ := ih _ r1 h
      refine ⟨h1, h2, h3, h4, ReactorEvent.wrote r.epollFd 0 none :: calls, ?_, by simp, ?_⟩
      · rw [hev]
        simp [SocketTCP.emit]
      · intro e he
        rcases List.mem_cons.mp he with h0 | h0
        · exact ⟨none, h0⟩
        · exact hcalls e h0

theorem signalLoop_returns (r : Reactor) (n : Nat)
    (h : r.osWrite r.tcp.events.length r.epollFd 0 ≠ WriteOutcome.again) :
    ∃ r1, r.signalLoop (n + 1) = some r1 := by
  rw [Reactor.signalLoop]
  cases hout : r.osWrite r.tcp.events.length r.epollFd 0 with
  | written count => exact ⟨_, rfl⟩
  | failed => exact ⟨_, rfl⟩
  | again => exact absurd hout h

/-- What a successful `initialize` leaves: both descriptors set, the event descriptor
registered for read-readiness. -/
theorem startup_ok (r r1 : Reactor) (created event : Nat)
    (h : r.startup (some created) event = (Result.ok, r1)) :
    r1.epollFd = some created ∧ r1.eventFd = some event ∧
      r1.listenSocket = r.listenSocket ∧
      r1.tcp.events =
        r.tcp.events ++ [ReactorEvent.epollCtl event EpollOp.add true false true] := by
  unfold Reactor.startup at h
  simp only at h
  have hev := setEvent_events r.tcp event EpollOp.add true false
  have hres : (r.tcp.setEvent event EpollOp.add true false).1.isError =
      !(r.tcp.osCtl r.tcp.events.length) := by
    unfold SocketTCP.setEvent
    simp only
    cases r.tcp.osCtl r.tcp.events.length <;> rfl
  rcases hout : r.tcp.setEvent event EpollOp.add true false with ⟨result, t1⟩
  rw [hout] at h hev hres
  simp only at h hev hres
  by_cases herr : result.isError = true
  · rw [if_pos herr] at h
    injection h with h _
    rw [h] at herr
    exact absurd herr (by decide)
  · rw [if_neg herr] at h
    injection h with _ h
    subst h
    have hok : r.tcp.osCtl r.tcp.events.length = true := by
      cases hc : r.tcp.osCtl r.tcp.events.length with
      | true => rfl
      | false => rw [hc] at hres; exact absurd hres herr
    rw [hok] at hev
    exact ⟨rfl, rfl, rfl, hev⟩

/-- The branch of `select` for the event descriptor when its `recv` call returns `-1`:
`select` returns the error. -/
theorem select_event_descriptor (r : Reactor) (e : Ready) (h1 : e.hangup = false)
    (h2 : some e.fd ≠ r.listenSocket) (h3 : e.writable = false) (h4 : e.readable = true)
    (h5 : some e.fd = r.eventFd) (h6 : e.recv = none) :
    r.select (some [e]) =
      (Result.make "socket_error" "`read()` method error: \x7b\x7d" [r.tcp.osError], none, r) := by
  show r.selectLoop 1 [e] = _
  rw [Reactor.selectLoop]
  unfold Reactor.handleEvent
  rw [if_neg (by rw [h1]; exact Bool.false_ne_true), if_neg h2,
    if_neg (by rw [h3]; exact Bool.false_ne_true), if_pos h4, if_pos h5, h6]

/-- C23 on the code: after a successful `initialize`, which creates the epoll descriptor
and the event descriptor and registers the event descriptor for read-readiness, a call
of `signal` that returns has made `write` calls of the value `0` on the epoll
descriptor and no call on the event descriptor: nothing has been added to the counter
of the event object, so `signal` has not made the event descriptor readable. It returns
after one call when that `write` does not fail with `EAGAIN`. And when `select` is given
a read-readiness of the event descriptor and the `recv` call on it returns `-1`, it
returns the error `read() method error`, not success. -/
theorem C23_signal_writes_epoll_descriptor (r r1 r2 : Reactor) (created event fuel : Nat)
    (hstart : r.startup (some created) event = (Result.ok, r1))
    (hsignal : r1.signalLoop fuel = some r2) :
    r1.epollFd = some created ∧ r1.eventFd = some event ∧
    interest r1.tcp.events event = some (true, false) ∧
    (∃ calls, r2.tcp.events = r1.tcp.events ++ calls ∧ calls ≠ [] ∧
      ∀ e ∈ calls, ∃ count, e = ReactorEvent.wrote (some created) 0 count) ∧
    eventAdded event r2.tcp.events = eventAdded event r.tcp.events ∧
    (r1.osWrite r1.tcp.events.length (some created) 0 ≠ WriteOutcome.again →
      ∃ r3, r1.signalLoop 1 = some r3) ∧
    (∀ e : Ready, e.hangup = false → some e.fd ≠ r.listenSocket → e.writable = false →
      e.readable = true → e.fd = event → e.recv = none →
      r2.select (some [e]) =
        (Result.make "socket_error" "`read()` method error: \x7b\x7d" [r2.tcp.osError],
          none, r2)) := by
  obtain ⟨s1, s2, s3, s4⟩ := startup_ok r r1 created event hstart
  obtain ⟨g1, g2, g3, _, calls, hev, hne, hcalls⟩ := signalLoop_calls fuel r1 r2 hsignal
  rw [s1] at hcalls
  refine ⟨s1, s2, ?_, ⟨calls, hev, hne, hcalls⟩, ?_, fun hw => ?_,
    fun e h1 h2 h3 h4 h5 h6 => ?_⟩
  · rw [s4, interest_append]
    simp [interestStep]
  · rw [hev, s4, eventAdded_append, eventAdded_append,
      eventAdded_zero_writes event (some created) calls hcalls]
    simp [eventAdded]
  · apply signalLoop_returns r1 0
    rw [s1]
    exact hw
  · apply select_event_descriptor r2 e h1 _ h3 h4 _ h6
    · rw [g3, s3]
      exact h2
    · rw [g2, s2, h5]

/-- Witness of C23: `initialize` creates the epoll descriptor `3` and the event
descriptor `10`; `signal` makes one `write` call, on the descriptor `3`. -/
theorem C23_signal_writes_epoll_descriptor_witness :
    ((freshReactor.startup (some 3) 10).2.signalLoop 1).map (fun r => r.tcp.events) =
      some [ReactorEvent.epollCtl 10 EpollOp.add true false true,
        ReactorEvent.wrote (some 3) 0 none] ∧
    eventAdded 10 [ReactorEvent.epollCtl 10 EpollOp.add true false true,
        ReactorEvent.wrote (some 3) 0 none] = eventAdded 10 freshReactor.tcp.events := by
  have hsignal : (freshReactor.startup (some 3) 10).2.signalLoop 1 =
      some { (freshReactor.startup (some 3) 10).2 with
        tcp := (freshReactor.startup (some 3) 10).2.tcp.emit
          [ReactorEvent.wrote (some 3) 0 none] } := rfl
  have h := C23_signal_writes_epoll_descriptor freshReactor
    (freshReactor.startup (some 3) 10).2 _ 3 10 1 rfl hsignal
  refine ⟨?_, h.2.2.2.2.1⟩
  rw [hsignal]
  rfl

end Litevna
